import Mathlib

/-!
# Reconciliation and polling core of the Virak Cloud Terraform provider

A shallow embedding of `internal/provider/helpers/polling.go`,
`internal/provider/helpers/instance_network_update.go`,
`internal/provider/helpers/instance_state.go`,
`internal/provider/helpers/instance_creation.go`,
`internal/provider/helpers/network_helpers.go`,
`internal/provider/helpers/instance_volume_update.go`,
`internal/provider/helpers/volume_helpers.go`, the `Update` entry point of
`internal/provider/resource_instance.go` and the `Delete` entry point of
`internal/provider/resource_network.go`.

Conventions of the embedding:

* a Go `error` is an `Option String` (`none` is `nil`, `some msg` carries the text);
* a Go `(resp, err)` pair returned by the HTTP client is an `ApiResult`;
* the remote control plane is an arbitrary state type `σ` driven through a `Client σ`;
  every client call made by the code appends an `Event` (the call and its answer) to a
  trace, so that theorems can speak about which remote calls were issued and in which order;
* a Go `map[string]bool` is an association list (`GoMap`); the order of a `range` over a map
  is not fixed by the language, so every `range` site takes the order as a parameter.
-/

namespace Virak

/-! ## Condition poller (`polling.go`) -/

/-- Go `error` value: `none` is `nil`. -/
abbrev GoError := Option String

/-- Control events of one run of `PollUntilCondition`: an evaluation of the predicate or a
`time.Sleep(interval)`. -/
inductive PollEvent where
  | eval : PollEvent
  | sleep (interval : Nat) : PollEvent
  deriving DecidableEq, Repr

/-- Go `type CheckFunc func() (bool, error)`: a closure over the program state `τ`. -/
abbrev CheckFunc (τ : Type) := τ → (Bool × GoError) × τ

/-- Outcome of a run of `PollUntilCondition`: the returned error, the program state after the
run and the control events of the run in the order they happened. -/
structure PollResult (τ : Type) where
  err : GoError
  st : τ
  log : List PollEvent

/-- The `for i := 0; i < maxRetries; i++` loop of `PollUntilCondition` with `n` iterations
left. -/
def pollLoop {τ : Type} (checkFunc : CheckFunc τ) (interval : Nat) (errorMsg : String) :
    Nat → τ → List PollEvent → PollResult τ
  | 0, s, log => { err := some errorMsg, st := s, log := log }
  | n + 1, s, log =>
    match checkFunc s with
    | ((_, some err), s1) => { err := some err, st := s1, log := log ++ [PollEvent.eval] }
    | ((true, none), s1) => { err := none, st := s1, log := log ++ [PollEvent.eval] }
    | ((false, none), s1) =>
      pollLoop checkFunc interval errorMsg n s1 (log ++ [PollEvent.eval, PollEvent.sleep interval])

/-- Go `PollUntilCondition(checkFunc, maxRetries, interval, errorMsg)`; `maxRetries` is a Go `int`,
the loop body runs `max 0 maxRetries` times at most. -/
def PollUntilCondition {τ : Type} (checkFunc : CheckFunc τ) (maxRetries : Int) (interval : Nat)
    (errorMsg : String) (s : τ) : PollResult τ :=
  pollLoop checkFunc interval errorMsg maxRetries.toNat s []

/-- Program state right before the `i`-th evaluation (counting from 0) of the predicate, when
every earlier evaluation asked for another round. -/
def stateBefore {τ : Type} (checkFunc : CheckFunc τ) (s : τ) (i : Nat) : τ :=
  (fun t => (checkFunc t).2)^[i] s

/-- What the `i`-th evaluation (counting from 0) of the predicate returns. -/
def evalOutcome {τ : Type} (checkFunc : CheckFunc τ) (s : τ) (i : Nat) : Bool × GoError :=
  (checkFunc (stateBefore checkFunc s i)).1

/-- Whether a control event is a predicate evaluation. -/
def PollEvent.isEval : PollEvent → Bool
  | PollEvent.eval => true
  | PollEvent.sleep _ => false

/-- Whether a control event is a sleep. -/
def PollEvent.isSleep : PollEvent → Bool
  | PollEvent.eval => false
  | PollEvent.sleep _ => true

/-- Number of predicate evaluations in a poll log. -/
def evalCount (log : List PollEvent) : Nat :=
  log.countP PollEvent.isEval

/-- Number of sleeps in a poll log. -/
def sleepCount (log : List PollEvent) : Nat :=
  log.countP PollEvent.isSleep

/-- Log of `k` full rounds (evaluation followed by a sleep). -/
def roundsLog (interval : Nat) (k : Nat) : List PollEvent :=
  (List.replicate k [PollEvent.eval, PollEvent.sleep interval]).flatten

/-! ## Remote API, trace and diagnostics -/

/-- Answer `(resp, err)` of a client call: either the payload or the error text. -/
inductive ApiResult (α : Type) where
  | ok (resp : α) : ApiResult α
  | error (err : String) : ApiResult α
  deriving DecidableEq, Repr

/-- Entry of a listing (`ListInstances`, `ListNetworks`, `ListInstanceVolumes`,
`GetObjectStorageBuckets`): the code reads `ID`, `Name` and, for volumes, `Status`. -/
structure Item where
  ID : String
  Name : String
  Status : String
  deriving DecidableEq, Repr

/-- Go `responses.InstanceNetwork`: one attachment record; `NetworkID` is `Network.ID`. -/
structure InstanceNetwork where
  ID : String
  InstanceID : String
  NetworkID : String
  IPAddress : String
  MACAddress : String
  IsDefault : Bool
  deriving DecidableEq, Repr

/-- Payload `readResp.Data` of `ShowInstance`. `DataVolumes` holds the elements of the Go
slice that are strings; every reader skips the elements of another type. -/
structure InstanceData where
  Status : String
  Username : String
  Password : String
  DataVolumes : List String
  deriving DecidableEq, Repr

/-- The HTTP client over a remote control plane with state `σ`. Every call may change the
remote state (the remote is eventually consistent and evolves between calls). -/
structure Client (σ : Type) where
  ListInstances : String → σ → ApiResult (List Item) × σ
  ListNetworks : String → σ → ApiResult (List Item) × σ
  ListInstanceVolumes : String → σ → ApiResult (List Item) × σ
  GetObjectStorageBuckets : String → σ → ApiResult (List Item) × σ
  ListNetworkInstances : String → String → String → σ → ApiResult (List InstanceNetwork) × σ
  DisconnectInstanceFromNetwork : String → String → String → String → σ → GoError × σ
  ConnectInstanceToNetwork : String → String → String → σ → GoError × σ
  ShowInstance : String → String → σ → ApiResult InstanceData × σ
  StartInstance : String → String → σ → GoError × σ
  StopInstance : String → String → Bool → σ → GoError × σ
  RebootInstance : String → String → σ → GoError × σ
  RebuildInstance : String → String → String → σ → GoError × σ
  CreateInstanceVolume : String → String → Int → String → σ → GoError × σ
  AttachInstanceVolume : String → String → String → σ → GoError × σ
  DetachInstanceVolume : String → String → String → σ → GoError × σ
  DeleteInstanceVolume : String → String → σ → GoError × σ
  DeleteNetwork : String → String → σ → GoError × σ

/-- One entry of the trace: a client call with its arguments and its answer, or a
`time.Sleep` of the inline verification loops (in seconds). -/
inductive Event where
  | ListInstances (zoneID : String) (resp : ApiResult (List Item)) : Event
  | ListNetworks (zoneID : String) (resp : ApiResult (List Item)) : Event
  | ListInstanceVolumes (zoneID : String) (resp : ApiResult (List Item)) : Event
  | GetObjectStorageBuckets (zoneID : String) (resp : ApiResult (List Item)) : Event
  | ListNetworkInstances (zoneID networkID instanceID : String)
      (resp : ApiResult (List InstanceNetwork)) : Event
  | DisconnectInstanceFromNetwork (zoneID networkID instanceID instanceNetworkID : String)
      (err : GoError) : Event
  | ConnectInstanceToNetwork (zoneID networkID instanceID : String) (err : GoError) : Event
  | ShowInstance (zoneID instanceID : String) (resp : ApiResult InstanceData) : Event
  | StartInstance (zoneID instanceID : String) (err : GoError) : Event
  | StopInstance (zoneID instanceID : String) (force : Bool) (err : GoError) : Event
  | RebootInstance (zoneID instanceID : String) (err : GoError) : Event
  | RebuildInstance (zoneID instanceID imageID : String) (err : GoError) : Event
  | CreateInstanceVolume (zoneID serviceOfferingID : String) (size : Int) (name : String)
      (err : GoError) : Event
  | AttachInstanceVolume (zoneID volumeID instanceID : String) (err : GoError) : Event
  | DetachInstanceVolume (zoneID volumeID instanceID : String) (err : GoError) : Event
  | DeleteInstanceVolume (zoneID volumeID : String) (err : GoError) : Event
  | DeleteNetwork (zoneID networkID : String) (err : GoError) : Event
  | Sleep (seconds : Nat) : Event
  deriving DecidableEq, Repr

/-- Severity of a diagnostic. -/
inductive Severity where
  | error : Severity
  | warning : Severity
  deriving DecidableEq, Repr

/-- A diagnostic of `diag.Diagnostics`. -/
structure Diagnostic where
  severity : Severity
  summary : String
  detail : String
  deriving DecidableEq, Repr

/-- Go `diag.Diagnostics`. -/
abbrev Diagnostics := List Diagnostic

/-- Go `diags.Append(in...)`: appends the diagnostics that are not already contained. -/
def Diagnostics.Append (diags : Diagnostics) : List Diagnostic → Diagnostics
  | [] => diags
  | d :: rest =>
    if d ∈ diags then Diagnostics.Append diags rest
    else Diagnostics.Append (diags ++ [d]) rest

/-- Go `diags.AddError(summary, detail)`. -/
def Diagnostics.AddError (diags : Diagnostics) (summary detail : String) : Diagnostics :=
  Diagnostics.Append diags [{ severity := Severity.error, summary := summary, detail := detail }]

/-- Go `diags.AddWarning(summary, detail)`. -/
def Diagnostics.AddWarning (diags : Diagnostics) (summary detail : String) : Diagnostics :=
  Diagnostics.Append diags
    [{ severity := Severity.warning, summary := summary, detail := detail }]

/-- Go `diags.HasError()`. -/
def Diagnostics.HasError (diags : Diagnostics) : Bool :=
  diags.any (fun d => decide (d.severity = Severity.error))

/-- The warnings of a diagnostics collection, in order. -/
def Diagnostics.warnings (diags : Diagnostics) : List Diagnostic :=
  diags.filter (fun d => decide (d.severity = Severity.warning))

/-- Program state threaded through the code: the remote, the trace of client calls issued so
far (oldest first) and the diagnostics collection `diags` the caller passed by pointer. -/
structure St (σ : Type) where
  remote : σ
  trace : List Event
  diags : Diagnostics

/-- Go `diags.AddError(summary, detail)` on the threaded diagnostics. -/
def St.addError {σ : Type} (st : St σ) (summary detail : String) : St σ :=
  { st with diags := Diagnostics.AddError st.diags summary detail }

/-- Go `diags.AddWarning(summary, detail)` on the threaded diagnostics. -/
def St.addWarning {σ : Type} (st : St σ) (summary detail : String) : St σ :=
  { st with diags := Diagnostics.AddWarning st.diags summary detail }

/-- Go `time.Sleep(seconds * time.Second)` inside a verification loop. -/
def St.sleep {σ : Type} (st : St σ) (seconds : Nat) : St σ :=
  { st with trace := st.trace ++ [Event.Sleep seconds] }

/-- Go `client.ListInstances(zoneID)`. -/
def callListInstances {σ : Type} (c : Client σ) (zoneID : String) (st : St σ) :
    ApiResult (List Item) × St σ :=
  ((c.ListInstances zoneID st.remote).1,
    { st with remote := (c.ListInstances zoneID st.remote).2
              trace := st.trace ++ [Event.ListInstances zoneID (c.ListInstances zoneID st.remote).1] })

/-- Go `client.ListNetworks(zoneID)`. -/
def callListNetworks {σ : Type} (c : Client σ) (zoneID : String) (st : St σ) :
    ApiResult (List Item) × St σ :=
  ((c.ListNetworks zoneID st.remote).1,
    { st with remote := (c.ListNetworks zoneID st.remote).2
              trace := st.trace ++ [Event.ListNetworks zoneID (c.ListNetworks zoneID st.remote).1] })

/-- Go `client.ListInstanceVolumes(zoneID)`. -/
def callListInstanceVolumes {σ : Type} (c : Client σ) (zoneID : String) (st : St σ) :
    ApiResult (List Item) × St σ :=
  ((c.ListInstanceVolumes zoneID st.remote).1,
    { st with remote := (c.ListInstanceVolumes zoneID st.remote).2
              trace := st.trace
                ++ [Event.ListInstanceVolumes zoneID (c.ListInstanceVolumes zoneID st.remote).1] })

/-- Go `client.GetObjectStorageBuckets(zoneID)`. -/
def callGetObjectStorageBuckets {σ : Type} (c : Client σ) (zoneID : String) (st : St σ) :
    ApiResult (List Item) × St σ :=
  ((c.GetObjectStorageBuckets zoneID st.remote).1,
    { st with remote := (c.GetObjectStorageBuckets zoneID st.remote).2
              trace := st.trace ++ [Event.GetObjectStorageBuckets zoneID
                (c.GetObjectStorageBuckets zoneID st.remote).1] })

/-- Go `client.ListNetworkInstances(zoneID, networkID, instanceID)`. -/
def callListNetworkInstances {σ : Type} (c : Client σ) (zoneID networkID instanceID : String)
    (st : St σ) : ApiResult (List InstanceNetwork) × St σ :=
  ((c.ListNetworkInstances zoneID networkID instanceID st.remote).1,
    { st with remote := (c.ListNetworkInstances zoneID networkID instanceID st.remote).2
              trace := st.trace ++ [Event.ListNetworkInstances zoneID networkID instanceID
                (c.ListNetworkInstances zoneID networkID instanceID st.remote).1] })

/-- Go `client.DisconnectInstanceFromNetwork(zoneID, networkID, instanceID, instanceNetworkID)`;
the payload is discarded by every caller. -/
def callDisconnectInstanceFromNetwork {σ : Type} (c : Client σ)
    (zoneID networkID instanceID instanceNetworkID : String) (st : St σ) : GoError × St σ :=
  ((c.DisconnectInstanceFromNetwork zoneID networkID instanceID instanceNetworkID st.remote).1,
    { st with
        remote :=
          (c.DisconnectInstanceFromNetwork zoneID networkID instanceID instanceNetworkID
            st.remote).2
        trace := st.trace ++ [Event.DisconnectInstanceFromNetwork zoneID networkID instanceID
          instanceNetworkID
          (c.DisconnectInstanceFromNetwork zoneID networkID instanceID instanceNetworkID
            st.remote).1] })

/-- Go `client.ConnectInstanceToNetwork(zoneID, networkID, instanceID)`. -/
def callConnectInstanceToNetwork {σ : Type} (c : Client σ) (zoneID networkID instanceID : String)
    (st : St σ) : GoError × St σ :=
  ((c.ConnectInstanceToNetwork zoneID networkID instanceID st.remote).1,
    { st with remote := (c.ConnectInstanceToNetwork zoneID networkID instanceID st.remote).2
              trace := st.trace ++ [Event.ConnectInstanceToNetwork zoneID networkID instanceID
                (c.ConnectInstanceToNetwork zoneID networkID instanceID st.remote).1] })

/-- Go `client.ShowInstance(zoneID, instanceID)`. -/
def callShowInstance {σ : Type} (c : Client σ) (zoneID instanceID : String) (st : St σ) :
    ApiResult InstanceData × St σ :=
  ((c.ShowInstance zoneID instanceID st.remote).1,
    { st with remote := (c.ShowInstance zoneID instanceID st.remote).2
              trace := st.trace ++ [Event.ShowInstance zoneID instanceID
                (c.ShowInstance zoneID instanceID st.remote).1] })

/-- Go `client.StartInstance(zoneID, instanceID)`. -/
def callStartInstance {σ : Type} (c : Client σ) (zoneID instanceID : String) (st : St σ) :
    GoError × St σ :=
  ((c.StartInstance zoneID instanceID st.remote).1,
    { st with remote := (c.StartInstance zoneID instanceID st.remote).2
              trace := st.trace ++ [Event.StartInstance zoneID instanceID
                (c.StartInstance zoneID instanceID st.remote).1] })

/-- Go `client.StopInstance(zoneID, instanceID, force)`. -/
def callStopInstance {σ : Type} (c : Client σ) (zoneID instanceID : String) (force : Bool)
    (st : St σ) : GoError × St σ :=
  ((c.StopInstance zoneID instanceID force st.remote).1,
    { st with remote := (c.StopInstance zoneID instanceID force st.remote).2
              trace := st.trace ++ [Event.StopInstance zoneID instanceID force
                (c.StopInstance zoneID instanceID force st.remote).1] })

/-- Go `client.RebootInstance(zoneID, instanceID)`. -/
def callRebootInstance {σ : Type} (c : Client σ) (zoneID instanceID : String) (st : St σ) :
    GoError × St σ :=
  ((c.RebootInstance zoneID instanceID st.remote).1,
    { st with remote := (c.RebootInstance zoneID instanceID st.remote).2
              trace := st.trace ++ [Event.RebootInstance zoneID instanceID
                (c.RebootInstance zoneID instanceID st.remote).1] })

/-- Go `client.RebuildInstance(zoneID, instanceID, imageID)`. -/
def callRebuildInstance {σ : Type} (c : Client σ) (zoneID instanceID imageID : String)
    (st : St σ) : GoError × St σ :=
  ((c.RebuildInstance zoneID instanceID imageID st.remote).1,
    { st with remote := (c.RebuildInstance zoneID instanceID imageID st.remote).2
              trace := st.trace ++ [Event.RebuildInstance zoneID instanceID imageID
                (c.RebuildInstance zoneID instanceID imageID st.remote).1] })

/-- Go `client.CreateInstanceVolume(zoneID, serviceOfferingID, size, name)`. -/
def callCreateInstanceVolume {σ : Type} (c : Client σ) (zoneID serviceOfferingID : String)
    (size : Int) (name : String) (st : St σ) : GoError × St σ :=
  ((c.CreateInstanceVolume zoneID serviceOfferingID size name st.remote).1,
    { st with remote := (c.CreateInstanceVolume zoneID serviceOfferingID size name st.remote).2
              trace := st.trace ++ [Event.CreateInstanceVolume zoneID serviceOfferingID size name
                (c.CreateInstanceVolume zoneID serviceOfferingID size name st.remote).1] })

/-- Go `client.AttachInstanceVolume(zoneID, volumeID, instanceID)`. -/
def callAttachInstanceVolume {σ : Type} (c : Client σ) (zoneID volumeID instanceID : String)
    (st : St σ) : GoError × St σ :=
  ((c.AttachInstanceVolume zoneID volumeID instanceID st.remote).1,
    { st with remote := (c.AttachInstanceVolume zoneID volumeID instanceID st.remote).2
              trace := st.trace ++ [Event.AttachInstanceVolume zoneID volumeID instanceID
                (c.AttachInstanceVolume zoneID volumeID instanceID st.remote).1] })

/-- Go `client.DetachInstanceVolume(zoneID, volumeID, instanceID)`. -/
def callDetachInstanceVolume {σ : Type} (c : Client σ) (zoneID volumeID instanceID : String)
    (st : St σ) : GoError × St σ :=
  ((c.DetachInstanceVolume zoneID volumeID instanceID st.remote).1,
    { st with remote := (c.DetachInstanceVolume zoneID volumeID instanceID st.remote).2
              trace := st.trace ++ [Event.DetachInstanceVolume zoneID volumeID instanceID
                (c.DetachInstanceVolume zoneID volumeID instanceID st.remote).1] })

/-- Go `client.DeleteInstanceVolume(zoneID, volumeID)`. -/
def callDeleteInstanceVolume {σ : Type} (c : Client σ) (zoneID volumeID : String)
    (st : St σ) : GoError × St σ :=
  ((c.DeleteInstanceVolume zoneID volumeID st.remote).1,
    { st with remote := (c.DeleteInstanceVolume zoneID volumeID st.remote).2
              trace := st.trace ++ [Event.DeleteInstanceVolume zoneID volumeID
                (c.DeleteInstanceVolume zoneID volumeID st.remote).1] })

/-- Go `client.DeleteNetwork(zoneID, networkID)`; the payload is only logged. -/
def callDeleteNetwork {σ : Type} (c : Client σ) (zoneID networkID : String) (st : St σ) :
    GoError × St σ :=
  ((c.DeleteNetwork zoneID networkID st.remote).1,
    { st with remote := (c.DeleteNetwork zoneID networkID st.remote).2
              trace := st.trace ++ [Event.DeleteNetwork zoneID networkID
                (c.DeleteNetwork zoneID networkID st.remote).1] })

/-- Go `fmt` rendering of a `[]string` under `%v`. -/
def fmtStrings (l : List String) : String :=
  "[" ++ " ".intercalate l ++ "]"

/-! ## Diff-based discovery (`polling.go`) -/

/-- The `for _, x := range latest.Data` loop of the discovery closures: the identifier of the
first item whose `ID` is not a key of `existingIDs` and whose `Name` equals `name` (any name when
`name` is empty). `existingIDs` is the key set of the Go `map[string]struct{}`. -/
def findNewIn (existingIDs : List String) (name : String) : List Item → Option String
  | [] => none
  | x :: rest =>
    if x.ID ∉ existingIDs then
      if name = "" ∨ x.Name = name then some x.ID
      else findNewIn existingIDs name rest
    else findNewIn existingIDs name rest

/-- The closure `checkFunc` of `FindNewInstanceID`, `FindNewNetworkID`, `FindNewVolumeID` and
`FindNewBucketID` (the four bodies differ only in the listing call `list`); the captured
variable `newID` is the first component of the state. -/
def findNewCheck {σ : Type} (list : St σ → ApiResult (List Item) × St σ)
    (existingIDs : List String) (name : String) : CheckFunc (String × St σ) :=
  fun s =>
    match list s.2 with
    | (ApiResult.error err, s1) => ((false, some err), (s.1, s1))
    | (ApiResult.ok data, s1) =>
      match findNewIn existingIDs name data with
      | some newID => ((true, none), (newID, s1))
      | none => ((false, none), (s.1, s1))

/-- Go `FindNewInstanceID`: returns `(newInstanceID, err)` and the state after the run. -/
def FindNewInstanceID {σ : Type} (c : Client σ) (zoneID : String) (existingIDs : List String)
    (instanceName : String) (maxRetries : Int) (interval : Nat) (st : St σ) :
    (String × GoError) × St σ :=
  let r := PollUntilCondition (findNewCheck (callListInstances c zoneID) existingIDs instanceName)
    maxRetries interval "New instance could not be found after creation" ("", st)
  ((r.st.1, r.err), r.st.2)

/-- Go `FindNewNetworkID`: returns `(newNetworkID, err)` and the state after the run. -/
def FindNewNetworkID {σ : Type} (c : Client σ) (zoneID : String) (existingIDs : List String)
    (networkName : String) (maxRetries : Int) (interval : Nat) (st : St σ) :
    (String × GoError) × St σ :=
  let r := PollUntilCondition (findNewCheck (callListNetworks c zoneID) existingIDs networkName)
    maxRetries interval
    ("New network \x27" ++ networkName ++ "\x27 could not be found after creation") ("", st)
  ((r.st.1, r.err), r.st.2)

/-- Go `FindNewVolumeID`: returns `(newVolumeID, err)` and the state after the run. -/
def FindNewVolumeID {σ : Type} (c : Client σ) (zoneID : String) (existingIDs : List String)
    (volumeName : String) (maxRetries : Int) (interval : Nat) (st : St σ) :
    (String × GoError) × St σ :=
  let r := PollUntilCondition
    (findNewCheck (callListInstanceVolumes c zoneID) existingIDs volumeName)
    maxRetries interval
    ("New volume \x27" ++ volumeName ++ "\x27 could not be found after creation") ("", st)
  ((r.st.1, r.err), r.st.2)

/-- Go `FindNewBucketID`: returns `(newBucketID, err)` and the state after the run. -/
def FindNewBucketID {σ : Type} (c : Client σ) (zoneID : String) (existingIDs : List String)
    (bucketName : String) (maxRetries : Int) (interval : Nat) (st : St σ) :
    (String × GoError) × St σ :=
  let r := PollUntilCondition
    (findNewCheck (callGetObjectStorageBuckets c zoneID) existingIDs bucketName)
    maxRetries interval
    ("New bucket \x27" ++ bucketName ++ "\x27 could not be found after creation") ("", st)
  ((r.st.1, r.err), r.st.2)

/-- What the claim about discovery asks of a result `((id, err), st)`: on success `id` is not in
`existingIDs` and is the identifier of an item of `latest`, the payload of the last listing
call, whose name is `name` when `name` is non-empty; on failure `id` is empty. -/
def DiscoveryOk (existingIDs : List String) (name : String) (id : String) (err : GoError)
    (latest : Option (List Item)) : Prop :=
  (err = none →
    id ∉ existingIDs ∧
      ∃ data, latest = some data ∧
        ∃ x, x ∈ data ∧ x.ID = id ∧ (name ≠ "" → x.Name = name))
  ∧ (err ≠ none → id = "")

/-- Payload of the last event of a trace when that event is a successful `ListInstances`. -/
def lastListInstances (zoneID : String) (trace : List Event) : Option (List Item) :=
  match trace.getLast? with
  | some (Event.ListInstances z (ApiResult.ok data)) => if z = zoneID then some data else none
  | _ => none

/-- Payload of the last event of a trace when that event is a successful `ListNetworks`. -/
def lastListNetworks (zoneID : String) (trace : List Event) : Option (List Item) :=
  match trace.getLast? with
  | some (Event.ListNetworks z (ApiResult.ok data)) => if z = zoneID then some data else none
  | _ => none

/-- Payload of the last event of a trace when that event is a successful
`ListInstanceVolumes`. -/
def lastListInstanceVolumes (zoneID : String) (trace : List Event) : Option (List Item) :=
  match trace.getLast? with
  | some (Event.ListInstanceVolumes z (ApiResult.ok data)) =>
    if z = zoneID then some data else none
  | _ => none

/-- Payload of the last event of a trace when that event is a successful
`GetObjectStorageBuckets`. -/
def lastGetObjectStorageBuckets (zoneID : String) (trace : List Event) : Option (List Item) :=
  match trace.getLast? with
  | some (Event.GetObjectStorageBuckets z (ApiResult.ok data)) =>
    if z = zoneID then some data else none
  | _ => none

/-! ## Network attachment reconciler (`instance_network_update.go`) -/

/-- Go `map[string]bool` as a list of bindings, the most recent binding of a key first. -/
structure GoMap where
  entries : List (String × Bool)
  deriving DecidableEq, Repr

/-- Go `make(map[string]bool)`. -/
def GoMap.empty : GoMap := { entries := [] }

/-- Go `m[k]`: the value bound to `k`, `false` (the zero value) when `k` is not a key. -/
def GoMap.get (m : GoMap) (k : String) : Bool :=
  match m.entries.find? (fun kv => decide (kv.1 = k)) with
  | some kv => kv.2
  | none => false

/-- Go `m[k] = v`. -/
def GoMap.set (m : GoMap) (k : String) (v : Bool) : GoMap :=
  { entries := (k, v) :: m.entries }

/-- The key set of the map, without repetition. -/
def GoMap.keys (m : GoMap) : List String :=
  (m.entries.map Prod.fst).dedup

/-- Go `len(m)`. -/
def GoMap.len (m : GoMap) : Nat :=
  m.keys.length

/-- All values of the map are `true` (the maps built by `Update` have this form). -/
def GoMap.AllTrue (m : GoMap) : Prop :=
  ∀ k, k ∈ m.keys → m.get k = true

/-- Order in which one `range` statement over a map visits the keys: Go leaves it unspecified,
so each `range` site receives it as a function on the key list. -/
abbrev RangeOrder := List String → List String

/-- A legal visiting order visits every key exactly once. -/
def RangeOrder.Valid (order : RangeOrder) : Prop :=
  ∀ l, (order l).Perm l

/-- The visiting orders of the four `range` statements of `UpdateInstanceNetworks` (two of
them inside `getKeys`) and of the drift loop of `Update`. -/
structure RangeOrders where
  stateKeys : RangeOrder
  detach : RangeOrder
  attach : RangeOrder
  planKeys : RangeOrder
  unmanaged : RangeOrder

/-- All visiting orders are legal. -/
def RangeOrders.Valid (orders : RangeOrders) : Prop :=
  orders.stateKeys.Valid ∧ orders.detach.Valid ∧ orders.attach.Valid ∧ orders.planKeys.Valid
    ∧ orders.unmanaged.Valid

/-- The visiting orders that keep the key list as it is. -/
def RangeOrders.identity : RangeOrders :=
  { stateKeys := id, detach := id, attach := id, planKeys := id, unmanaged := id }

/-- The visiting orders that reverse the key list. -/
def RangeOrders.reversed : RangeOrders :=
  { stateKeys := List.reverse, detach := List.reverse, attach := List.reverse,
    planKeys := List.reverse, unmanaged := List.reverse }

/-- Go `getKeys(m)`. -/
def getKeys (order : RangeOrder) (m : GoMap) : List String :=
  order m.keys

/-- The record the loops `for _, ni := range resp.Data` stop at: the first one with
`ni.InstanceID == instanceID && ni.Network.ID == networkID`. -/
def firstAttachment (data : List InstanceNetwork) (instanceID networkID : String) :
    Option InstanceNetwork :=
  data.find? (fun ni => decide (ni.InstanceID = instanceID) && decide (ni.NetworkID = networkID))

/-- The verification loop `for i := 0; i < 30; i++` after a disconnect, with `n + 1`
iterations left (`i = 29 - n`, so `i == 29` is `n = 0`). Returns `true` when the enclosing
function returns from inside the loop. -/
def waitDisconnected {σ : Type} (c : Client σ)
    (zoneID networkID instanceID instanceNetworkID : String) : Nat → St σ → Bool × St σ
  | 0, st => (false, st)
  | n + 1, st =>
    match callListNetworkInstances c zoneID networkID instanceID st with
    | (ApiResult.error err, st1) =>
      if n = 0 then
        (true, st1.addError "Client Error"
          ("Unable to verify network disconnection for network " ++ networkID
            ++ " after 30 retries, got error: " ++ err))
      else waitDisconnected c zoneID networkID instanceID instanceNetworkID n (st1.sleep 1)
    | (ApiResult.ok data, st1) =>
      if data.any (fun ni => decide (ni.ID = instanceNetworkID)
          && decide (ni.InstanceID = instanceID)) then
        if n = 0 then
          (true, st1.addError "Network Disconnection Timeout"
            ("Instance \x27" ++ instanceID ++ "\x27 disconnection from network \x27" ++ networkID
              ++ "\x27 was not verified within 30 seconds. "
              ++ "The disconnection may still be in progress."))
        else waitDisconnected c zoneID networkID instanceID instanceNetworkID n (st1.sleep 1)
      else (false, st1)

/-- Go `DetachNetworksFromInstance`. -/
def DetachNetworksFromInstance {σ : Type} (c : Client σ) (zoneID instanceID : String) :
    List String → String → St σ → St σ
  | [], _, st => st
  | networkID :: rest, defaultNetworkID, st =>
    match callListNetworkInstances c zoneID networkID instanceID st with
    | (ApiResult.error err, st1) =>
      st1.addError "Client Error"
        ("Unable to list network instances for network " ++ networkID ++ ", got error: " ++ err)
    | (ApiResult.ok data, st1) =>
      let instanceNetworkID :=
        match firstAttachment data instanceID networkID with
        | some ni => ni.ID
        | none => ""
      let isDefaultNIC :=
        match firstAttachment data instanceID networkID with
        | some ni => ni.IsDefault
        | none => false
      if instanceNetworkID = "" then
        st1.addError "Client Error"
          ("Unable to find instance network ID for network " ++ networkID ++ " and instance "
            ++ instanceID)
      else if isDefaultNIC then
        DetachNetworksFromInstance c zoneID instanceID rest defaultNetworkID st1
      else
        match callDisconnectInstanceFromNetwork c zoneID networkID instanceID instanceNetworkID
            st1 with
        | (some err, st2) =>
          st2.addError "Client Error"
            ("Unable to disconnect instance " ++ instanceID ++ " from network " ++ networkID
              ++ ", got error: " ++ err)
        | (none, st2) =>
          match waitDisconnected c zoneID networkID instanceID instanceNetworkID 30 st2 with
          | (true, st3) => st3
          | (false, st3) =>
            DetachNetworksFromInstance c zoneID instanceID rest defaultNetworkID st3

/-- The verification loop `for i := 0; i < 30; i++` after a connect, with `n + 1` iterations
left (`i = 29 - n`). The variable `attachment` has an empty `ID` at the start of every
iteration, so `attachment.ID != ""` holds exactly when the first matching record of the listing
just read has a non-empty `ID`. Returns `true` when the enclosing function returns from
inside the loop. -/
def waitConnected {σ : Type} (c : Client σ) (zoneID networkID instanceID : String) :
    Nat → St σ → Bool × St σ
  | 0, st => (false, st)
  | n + 1, st =>
    match callListNetworkInstances c zoneID networkID instanceID st with
    | (ApiResult.error err, st1) =>
      if n = 0 then
        (true, st1.addError "Client Error"
          ("Unable to verify network connection for network " ++ networkID
            ++ " after 30 retries, got error: " ++ err))
      else waitConnected c zoneID networkID instanceID n (st1.sleep 1)
    | (ApiResult.ok data, st1) =>
      let attachmentID :=
        match firstAttachment data instanceID networkID with
        | some ni => ni.ID
        | none => ""
      if attachmentID ≠ "" then (false, st1)
      else if n = 0 then
        (true, st1.addError "Network Connection Timeout"
          ("Instance \x27" ++ instanceID ++ "\x27 connection to network \x27" ++ networkID
            ++ "\x27 was not established within 30 seconds. "
            ++ "The connection may still be provisioning."))
      else waitConnected c zoneID networkID instanceID n (st1.sleep 1)

/-- Go `AttachNetworksToInstance`. -/
def AttachNetworksToInstance {σ : Type} (c : Client σ) (zoneID instanceID : String) :
    List String → St σ → St σ
  | [], st => st
  | networkID :: rest, st =>
    match callConnectInstanceToNetwork c zoneID networkID instanceID st with
    | (some err, st1) =>
      st1.addError "Client Error"
        ("Unable to connect instance " ++ instanceID ++ " to network " ++ networkID
          ++ ", got error: " ++ err)
    | (none, st1) =>
      match waitConnected c zoneID networkID instanceID 30 st1 with
      | (true, st2) => st2
      | (false, st2) => AttachNetworksToInstance c zoneID instanceID rest st2

/-- The test `ni.InstanceID == instanceID && ni.Network.ID == networkID && ni.IsDefault` holds
for some record of the listing. -/
def hasDefaultRecord (data : List InstanceNetwork) (instanceID networkID : String) : Bool :=
  data.any (fun ni =>
    decide (ni.InstanceID = instanceID) && decide (ni.NetworkID = networkID) && ni.IsDefault)

/-- Go `FindDefaultNetworkID`; listing errors are skipped and `diags` is not written. -/
def FindDefaultNetworkID {σ : Type} (c : Client σ) (zoneID instanceID : String) :
    List String → St σ → String × St σ
  | [], st => ("", st)
  | networkID :: rest, st =>
    match callListNetworkInstances c zoneID networkID instanceID st with
    | (ApiResult.error _, st1) => FindDefaultNetworkID c zoneID instanceID rest st1
    | (ApiResult.ok data, st1) =>
      if hasDefaultRecord data instanceID networkID then (networkID, st1)
      else FindDefaultNetworkID c zoneID instanceID rest st1

/-- First loop of `VerifyDefaultNetworkChange`: the final value of `hasOtherDefault`. -/
def hasOtherDefault {σ : Type} (c : Client σ) (zoneID instanceID defaultNetworkID : String) :
    List String → St σ → Bool × St σ
  | [], st => (false, st)
  | networkID :: rest, st =>
    if networkID = defaultNetworkID then
      hasOtherDefault c zoneID instanceID defaultNetworkID rest st
    else
      match callListNetworkInstances c zoneID networkID instanceID st with
      | (ApiResult.error _, st1) => hasOtherDefault c zoneID instanceID defaultNetworkID rest st1
      | (ApiResult.ok data, st1) =>
        if hasDefaultRecord data instanceID networkID then (true, st1)
        else hasOtherDefault c zoneID instanceID defaultNetworkID rest st1

/-- Go `VerifyDefaultNetworkChange`. -/
def VerifyDefaultNetworkChange {σ : Type} (c : Client σ)
    (zoneID instanceID defaultNetworkID : String) (remainingNetworks : List String)
    (st : St σ) : St σ :=
  match hasOtherDefault c zoneID instanceID defaultNetworkID remainingNetworks st with
  | (true, st1) => st1
  | (false, st1) =>
    match remainingNetworks with
    | [] => st1
    | firstRemainingNetwork :: _ =>
      match callListNetworkInstances c zoneID firstRemainingNetwork instanceID st1 with
      | (ApiResult.error _, st2) => st2
      | (ApiResult.ok data, st2) =>
        match firstAttachment data instanceID firstRemainingNetwork with
        | none => st2
        | some ni =>
          if ni.IsDefault then st2
          else st2.addWarning "Default Network Change"
            ("Disconnecting default network \x27" ++ defaultNetworkID
              ++ "\x27. The first remaining network \x27" ++ firstRemainingNetwork
              ++ "\x27 will need to become the default network.")

/-- The list `networksToDetach` of `UpdateInstanceNetworks`: the keys of `stateNetworkIDs`, in
visiting order, with `!planNetworkIDs[networkID]`. -/
def networksToDetach (order : RangeOrder) (planNetworkIDs stateNetworkIDs : GoMap) :
    List String :=
  (order stateNetworkIDs.keys).filter (fun networkID => !planNetworkIDs.get networkID)

/-- The list `networksToAttach` of `UpdateInstanceNetworks`: the keys of `planNetworkIDs`, in
visiting order, with `!stateNetworkIDs[networkID]`. -/
def networksToAttach (order : RangeOrder) (planNetworkIDs stateNetworkIDs : GoMap) :
    List String :=
  (order planNetworkIDs.keys).filter (fun networkID => !stateNetworkIDs.get networkID)

/-- Go `UpdateInstanceNetworks`. -/
def UpdateInstanceNetworks {σ : Type} (c : Client σ) (orders : RangeOrders)
    (zoneID instanceID : String) (planNetworkIDs stateNetworkIDs : GoMap) (st : St σ) : St σ :=
  match FindDefaultNetworkID c zoneID instanceID (getKeys orders.stateKeys stateNetworkIDs)
      st with
  | (defaultNetworkID, st1) =>
    if Diagnostics.HasError st1.diags then st1
    else
      let st2 :=
        if defaultNetworkID ≠ "" then
          VerifyDefaultNetworkChange c zoneID instanceID defaultNetworkID
            (getKeys orders.planKeys planNetworkIDs) st1
        else st1
      if defaultNetworkID ≠ "" ∧ Diagnostics.HasError st2.diags = true then st2
      else
        let st3 := DetachNetworksFromInstance c zoneID instanceID
          (networksToDetach orders.detach planNetworkIDs stateNetworkIDs) defaultNetworkID st2
        if Diagnostics.HasError st3.diags then st3
        else
          AttachNetworksToInstance c zoneID instanceID
            (networksToAttach orders.attach planNetworkIDs stateNetworkIDs) st3

/-! ## Instance lifecycle (`constants.go`, `instance_state.go`, `instance_creation.go`) -/

/-- Go `DefaultPollInterval`, in seconds. -/
def DefaultPollInterval : Nat := 5

/-- Go `MaxInstanceStatusRetries`. -/
def MaxInstanceStatusRetries : Int := 120

/-- Go `InstanceStatusRunning`. -/
def InstanceStatusRunning : String := "Running"

/-- Go `InstanceStatusUP`. -/
def InstanceStatusUP : String := "UP"

/-- Go `InstanceStatusStopped`. -/
def InstanceStatusStopped : String := "Stopped"

/-- Go `InstanceStatusSTOPPED`. -/
def InstanceStatusSTOPPED : String := "STOPPED"

/-- Go `InstanceStatusDown`. -/
def InstanceStatusDown : String := "DOWN"

/-- Go `IsInstanceRunning`. -/
def IsInstanceRunning (status : String) : Bool :=
  decide (status = InstanceStatusRunning) || decide (status = InstanceStatusUP)

/-- Go `IsInstanceStopped`. -/
def IsInstanceStopped (status : String) : Bool :=
  decide (status = InstanceStatusStopped) || decide (status = InstanceStatusSTOPPED)
    || decide (status = InstanceStatusDown)

/-- The closure `checkFunc` of `WaitForInstanceStatus`; the captured variable `currentStatus`
is the first component of the state. -/
def instanceStatusCheck {σ : Type} (c : Client σ) (zoneID instanceID : String)
    (targetStatuses : List String) : CheckFunc (String × St σ) :=
  fun s =>
    match callShowInstance c zoneID instanceID s.2 with
    | (ApiResult.error err, s1) => ((false, some err), (s.1, s1))
    | (ApiResult.ok data, s1) =>
      ((targetStatuses.any (fun target => decide (data.Status = target)), none),
        (data.Status, s1))

/-- Go `WaitForInstanceStatus`: returns `(currentStatus, err)` and the state after the run. -/
def WaitForInstanceStatus {σ : Type} (c : Client σ) (zoneID instanceID : String)
    (targetStatuses : List String) (maxRetries : Int) (interval : Nat) (st : St σ) :
    (String × GoError) × St σ :=
  let r := PollUntilCondition (instanceStatusCheck c zoneID instanceID targetStatuses)
    maxRetries interval
    ("Instance \x27" ++ instanceID ++ "\x27 did not reach status " ++ fmtStrings targetStatuses
      ++ " within timeout") ("", st)
  ((r.st.1, r.err), r.st.2)

/-- Go `EnsureInstanceStopped`: returns the error and the state after the run. -/
def EnsureInstanceStopped {σ : Type} (c : Client σ) (zoneID instanceID : String) (st : St σ) :
    GoError × St σ :=
  match callShowInstance c zoneID instanceID st with
  | (ApiResult.error err, st1) =>
    (some err, st1.addError "Client Error"
      ("Unable to read instance before ensuring stopped state, got error: " ++ err))
  | (ApiResult.ok data, st1) =>
    let stopped : GoError × St σ :=
      if IsInstanceRunning data.Status then callStopInstance c zoneID instanceID false st1
      else (none, st1)
    match stopped with
    | (some err, st2) =>
      (some err, st2.addError "Client Error" ("Unable to stop instance, got error: " ++ err))
    | (none, st2) =>
      match WaitForInstanceStatus c zoneID instanceID
          [InstanceStatusStopped, InstanceStatusSTOPPED, InstanceStatusDown]
          MaxInstanceStatusRetries DefaultPollInterval st2 with
      | ((status, some err), st3) =>
        (some err, st3.addError "Instance Not Stopped"
          ("Instance \x27" ++ instanceID ++ "\x27 did not reach stopped state. Current status: "
            ++ status ++ ". Error: " ++ err))
      | ((_, none), st3) => (none, st3)

/-- Terraform `types.String`: null, unknown or a known value. -/
inductive TFString where
  | null : TFString
  | unknown : TFString
  | value (s : String) : TFString
  deriving DecidableEq, Repr

/-- Go `s.IsNull()`. -/
def TFString.IsNull : TFString → Bool
  | TFString.null => true
  | _ => false

/-- Go `s.IsUnknown()`. -/
def TFString.IsUnknown : TFString → Bool
  | TFString.unknown => true
  | _ => false

/-- Go `s.ValueString()`: the empty string for null and unknown. -/
def TFString.ValueString : TFString → String
  | TFString.value s => s
  | _ => ""

/-- Go `LifecycleResult`. -/
structure LifecycleResult where
  Status : TFString
  Diags : Diagnostics
  deriving DecidableEq, Repr

/-- The start-and-wait and reboot-and-wait branches of `HandleInstanceLifecycle` share the wait
for `[Running, UP]`; `what` is the word used in the error text. -/
def lifecycleWaitRunning {σ : Type} (c : Client σ) (zoneID instanceID what : String)
    (st : St σ) : LifecycleResult × St σ :=
  match WaitForInstanceStatus c zoneID instanceID [InstanceStatusRunning, InstanceStatusUP]
      MaxInstanceStatusRetries DefaultPollInterval st with
  | ((_, some err), st1) =>
    ({ Status := TFString.null
       Diags := Diagnostics.AddError [] "Client Error"
         ("Unable to read instance status after " ++ what ++ ", got error: " ++ err) }, st1)
  | ((status, none), st1) => ({ Status := TFString.value status, Diags := [] }, st1)

/-- Go `HandleInstanceLifecycle`; it reports through `result.Diags`, the threaded diagnostics are
not written. -/
def HandleInstanceLifecycle {σ : Type} (c : Client σ)
    (zoneID instanceID desiredState currentStatus : String) (st : St σ) :
    LifecycleResult × St σ :=
  if desiredState = "reboot" then
    if IsInstanceRunning currentStatus then
      match callRebootInstance c zoneID instanceID st with
      | (some err, st1) =>
        ({ Status := TFString.null
           Diags := Diagnostics.AddError [] "Client Error"
             ("Unable to reboot instance, got error: " ++ err) }, st1)
      | (none, st1) => lifecycleWaitRunning c zoneID instanceID "reboot" st1
    else
      ({ Status := TFString.value currentStatus
         Diags := Diagnostics.AddWarning [] "Reboot Skipped"
           ("Instance is not running (status: " ++ currentStatus ++ "), cannot reboot") }, st)
  else if desiredState = "running" then
    if IsInstanceRunning currentStatus then
      ({ Status := TFString.value currentStatus, Diags := [] }, st)
    else
      match callStartInstance c zoneID instanceID st with
      | (some err, st1) =>
        ({ Status := TFString.null
           Diags := Diagnostics.AddError [] "Client Error"
             ("Unable to start instance, got error: " ++ err) }, st1)
      | (none, st1) => lifecycleWaitRunning c zoneID instanceID "start" st1
  else if desiredState = "stopped" then
    let stopped : GoError × St σ :=
      if IsInstanceRunning currentStatus then callStopInstance c zoneID instanceID false st
      else (none, st)
    match stopped with
    | (some err, st1) =>
      ({ Status := TFString.null
         Diags := Diagnostics.AddError [] "Client Error"
           ("Unable to stop instance, got error: " ++ err) }, st1)
    | (none, st1) =>
      match WaitForInstanceStatus c zoneID instanceID
          [InstanceStatusStopped, InstanceStatusSTOPPED, InstanceStatusDown]
          MaxInstanceStatusRetries DefaultPollInterval st1 with
      | ((_, some err), st2) =>
        ({ Status := TFString.null
           Diags := Diagnostics.AddError [] "Client Error"
             ("Unable to read instance status after stop, got error: " ++ err) }, st2)
      | ((status, none), st2) => ({ Status := TFString.value status, Diags := [] }, st2)
  else
    ({ Status := TFString.value currentStatus, Diags := [] }, st)

/-! ## The instance resource (`models/instance.go`, `resource_instance.go`) -/

/-- Terraform `types.Bool`. -/
inductive TFBool where
  | null : TFBool
  | unknown : TFBool
  | value (b : Bool) : TFBool
  deriving DecidableEq, Repr

/-- Terraform `types.List` with elements of type `α`. -/
inductive TFList (α : Type) where
  | null : TFList α
  | unknown : TFList α
  | value (elems : List α) : TFList α
  deriving DecidableEq, Repr

/-- Go `l.Elements()`: no element for null and unknown. -/
def TFList.Elements {α : Type} : TFList α → List α
  | TFList.value elems => elems
  | _ => []

/-- Attributes of an element of the `networks` list. -/
structure NetworkAttrs where
  network_id : TFString
  ip_address : TFString
  mac_address : TFString
  is_default : TFBool
  attachment_id : TFString
  deriving DecidableEq, Repr

/-- Terraform `types.Object` holding the attributes of one network of an instance. -/
inductive NetworkObject where
  | null : NetworkObject
  | unknown : NetworkObject
  | value (attrs : NetworkAttrs) : NetworkObject
  deriving DecidableEq, Repr

/-- Go `models.InstanceResourceModel`. -/
structure InstanceResourceModel where
  ID : TFString
  Name : TFString
  ZoneID : TFString
  ServiceOfferingID : TFString
  VMImageID : TFString
  NetworkIDs : TFList TFString
  Status : TFString
  Password : TFString
  Username : TFString
  IP : TFString
  Networks : TFList NetworkObject
  DesiredState : TFString
  deriving DecidableEq, Repr

/-- Go `PopulateInstanceState`. -/
def PopulateInstanceState {σ : Type} (c : Client σ) (data : InstanceResourceModel)
    (st : St σ) : InstanceResourceModel × St σ :=
  match callShowInstance c data.ZoneID.ValueString data.ID.ValueString st with
  | (ApiResult.error err, st1) =>
    (data, st1.addError "Client Error"
      ("Unable to read instance after creation, got error: " ++ err))
  | (ApiResult.ok resp, st1) =>
    ({ data with
        Status := TFString.value (if resp.Status = "" then InstanceStatusUP else resp.Status)
        Password := TFString.value (if resp.Password = "" then "unknown" else resp.Password)
        Username := TFString.value (if resp.Username = "" then "unknown" else resp.Username) },
      st1)

/-- The loops of `Update` over `state.NetworkIDs` and `plan.NetworkIDs`: every element that is
a known, non-empty string becomes a key bound to `true`. -/
def networkIDMap (ids : TFList TFString) : GoMap :=
  ids.Elements.foldl
    (fun m str =>
      if !str.IsNull && !str.IsUnknown && decide (str.ValueString ≠ "") then
        m.set str.ValueString true
      else m)
    GoMap.empty

/-- The loop of `Update` over `state.Networks`: the `network_id` of every known object, when
it is not null and not empty, becomes a key bound to `true`. -/
def actualNetworkIDMap (networks : TFList NetworkObject) : GoMap :=
  networks.Elements.foldl
    (fun m networkObj =>
      match networkObj with
      | NetworkObject.value attrs =>
        if !attrs.network_id.IsNull && decide (attrs.network_id.ValueString ≠ "") then
          m.set attrs.network_id.ValueString true
        else m
      | _ => m)
    GoMap.empty

/-- The list `unmanagedNetworks` of `Update`: the keys of `actualNetworkIDs`, in visiting
order, with `!stateNetworkIDs[networkID] && !planNetworkIDs[networkID]`. -/
def unmanagedNetworks (order : RangeOrder) (actualNetworkIDs stateNetworkIDs planNetworkIDs : GoMap) :
    List String :=
  (order actualNetworkIDs.keys).filter
    (fun networkID => !stateNetworkIDs.get networkID && !planNetworkIDs.get networkID)

/-- The loop `for _, networkID := range unmanagedNetworks { stateNetworkIDs[networkID] = true }`
of `Update`. -/
def foldUnmanaged (stateNetworkIDs : GoMap) (unmanaged : List String) : GoMap :=
  unmanaged.foldl (fun m networkID => m.set networkID true) stateNetworkIDs

/-- The warning `Update` records when `unmanagedNetworks` is not empty. -/
def unmanagedWarning (instanceID : String) (unmanaged : List String) : Diagnostic :=
  { severity := Severity.warning
    summary := "Unmanaged Networks Detected"
    detail := "Found " ++ toString unmanaged.length
      ++ " unmanaged network(s) attached to instance \x27" ++ instanceID
      ++ "\x27 that are not in the configuration. "
      ++ "These networks will be automatically detached: " ++ fmtStrings unmanaged }

/-- The call `resp.Diagnostics.AddWarning("Unmanaged Networks Detected", ...)` of `Update`. -/
def warnUnmanaged {σ : Type} (instanceID : String) (unmanaged : List String) (st : St σ) :
    St σ :=
  { st with diags := Diagnostics.Append st.diags [unmanagedWarning instanceID unmanaged] }

/-- Outcome of a part of `Update`: whether `Update` returned inside that part, the plan model
and the state afterwards. -/
structure Stage (σ : Type) where
  returned : Bool
  plan : InstanceResourceModel
  st : St σ

/-- The block `if imageChanged { ... }` of `Update`. -/
def updateImage {σ : Type} (c : Client σ) (plan : InstanceResourceModel) (st : St σ) :
    Stage σ :=
  match EnsureInstanceStopped c plan.ZoneID.ValueString plan.ID.ValueString st with
  | (some _, st1) => { returned := true, plan := plan, st := st1 }
  | (none, st1) =>
    match callRebuildInstance c plan.ZoneID.ValueString plan.ID.ValueString
        plan.VMImageID.ValueString st1 with
    | (some err, st2) =>
      { returned := true, plan := plan
        st := st2.addError "Client Error"
          ("An unexpected error occurred while communicating with the Virak Cloud API. Error: "
            ++ "unable to rebuild instance: " ++ err) }
    | (none, st2) =>
      match WaitForInstanceStatus c plan.ZoneID.ValueString plan.ID.ValueString
          [InstanceStatusUP] MaxInstanceStatusRetries DefaultPollInterval st2 with
      | ((status, some err), st3) =>
        { returned := true, plan := plan
          st := st3.addError "Instance Rebuild Incomplete"
            ("Instance \x27" ++ plan.ID.ValueString
              ++ "\x27 did not reach \x27UP\x27 status after rebuild. Current status: " ++ status
              ++ ". Error: " ++ err) }
      | ((_, none), st3) =>
        match PopulateInstanceState c plan st3 with
        | (plan1, st4) =>
          { returned := Diagnostics.HasError st4.diags, plan := plan1, st := st4 }

/-- The block `if desiredStateChanged { ... }` of `Update`. -/
def updateLifecycle {σ : Type} (c : Client σ) (plan state : InstanceResourceModel)
    (st : St σ) : Stage σ :=
  let currentStatus :=
    if !plan.Status.IsNull && !plan.Status.IsUnknown && decide (plan.Status.ValueString ≠ "") then
      plan.Status.ValueString
    else if !state.Status.IsNull && !state.Status.IsUnknown then state.Status.ValueString
    else ""
  match HandleInstanceLifecycle c plan.ZoneID.ValueString plan.ID.ValueString
      plan.DesiredState.ValueString currentStatus st with
  | (result, st1) =>
    let st2 : St σ := { st1 with diags := Diagnostics.Append st1.diags result.Diags }
    if Diagnostics.HasError st2.diags then { returned := true, plan := plan, st := st2 }
    else
      let plan1 := if result.Status.IsNull then plan else { plan with Status := result.Status }
      match callShowInstance c plan1.ZoneID.ValueString plan1.ID.ValueString st2 with
      | (ApiResult.error err, st3) =>
        { returned := true, plan := plan1
          st := st3.addError "Client Error"
            ("An unexpected error occurred while communicating with the Virak Cloud API. Error: "
              ++ "unable to read instance after lifecycle operation: " ++ err) }
      | (ApiResult.ok resp, st3) =>
        let plan2 := { plan1 with Status := TFString.value resp.Status }
        let plan3 :=
          if resp.Username ≠ "" then { plan2 with Username := TFString.value resp.Username }
          else plan2
        let plan4 :=
          if resp.Password ≠ "" then { plan3 with Password := TFString.value resp.Password }
          else plan3
        { returned := false, plan := plan4, st := st3 }

/-- The drift handling of `Update` (from `unmanagedNetworks` up to the loop that adds the
unmanaged networks to `stateNetworkIDs`): returns whether `Update` returned, the map
`stateNetworkIDs` afterwards and the state. -/
def detachUnmanaged {σ : Type} (c : Client σ) (orders : RangeOrders)
    (zoneID instanceID : String) (planNetworkIDs stateNetworkIDs actualNetworkIDs : GoMap)
    (st : St σ) : Bool × GoMap × St σ :=
  let unmanaged := unmanagedNetworks orders.unmanaged actualNetworkIDs stateNetworkIDs
    planNetworkIDs
  if 0 < unmanaged.length then
    let st2 := DetachNetworksFromInstance c zoneID instanceID unmanaged ""
      (warnUnmanaged instanceID unmanaged st)
    if Diagnostics.HasError st2.diags then (true, stateNetworkIDs, st2)
    else (false, foldUnmanaged stateNetworkIDs unmanaged, st2)
  else (false, stateNetworkIDs, st)

/-- The network part of `Update` once the three maps are built: the emptiness check of the
plan, the drift handling and the call of `UpdateInstanceNetworks`. Returns whether `Update`
returned inside this part, and the state. -/
def reconcileNetworks {σ : Type} (c : Client σ) (orders : RangeOrders)
    (zoneID instanceID : String) (planNetworkIDs stateNetworkIDs actualNetworkIDs : GoMap)
    (st : St σ) : Bool × St σ :=
  if planNetworkIDs.len = 0 then
    (true, st.addError "Invalid Configuration"
      "At least one network must remain connected to the instance. Cannot remove all networks.")
  else
    match detachUnmanaged c orders zoneID instanceID planNetworkIDs stateNetworkIDs
        actualNetworkIDs st with
    | (true, _, st1) => (true, st1)
    | (false, stateNetworkIDs1, st1) =>
      let st2 := UpdateInstanceNetworks c orders zoneID instanceID planNetworkIDs
        stateNetworkIDs1 st1
      (Diagnostics.HasError st2.diags, st2)

/-- The comparison function handed to `sort.Slice` by `RefreshInstanceNetworks`. -/
def networkLess (a b : InstanceNetwork) : Bool :=
  if a.IsDefault ≠ b.IsDefault then a.IsDefault && !b.IsDefault
  else decide (a.NetworkID < b.NetworkID)

/-- Go `sort.Slice` on attachment records: the library sort is not stable, so the result for a
given comparison and input is a parameter of the model. -/
abbrev SortSlice :=
  (InstanceNetwork → InstanceNetwork → Bool) → List InstanceNetwork → List InstanceNetwork

/-- The loop of `RefreshInstanceNetworks` over the networks of the zone: the concatenation of
the attachment listings that did not fail. -/
def collectInstanceNetworks {σ : Type} (c : Client σ) (zoneID instanceID : String) :
    List Item → St σ → List InstanceNetwork × St σ
  | [], st => ([], st)
  | network :: rest, st =>
    match callListNetworkInstances c zoneID network.ID instanceID st with
    | (ApiResult.error _, st1) => collectInstanceNetworks c zoneID instanceID rest st1
    | (ApiResult.ok data, st1) =>
      match collectInstanceNetworks c zoneID instanceID rest st1 with
      | (more, st2) => (data ++ more, st2)

/-- The loop of `RefreshInstanceNetworks` over the sorted records: skips a record whose network
was seen, otherwise emits its object and updates `instanceIP`. Returns the objects and the
final `instanceIP`. -/
def exposeNetworks : List InstanceNetwork → List String → String → List NetworkObject × String
  | [], _, instanceIP => ([], instanceIP)
  | ni :: rest, seen, instanceIP =>
    if ni.NetworkID ∈ seen then exposeNetworks rest seen instanceIP
    else
      let ip :=
        if ni.IsDefault then ni.IPAddress
        else if instanceIP = "" then ni.IPAddress
        else instanceIP
      match exposeNetworks rest (ni.NetworkID :: seen) ip with
      | (objs, finalIP) =>
        (NetworkObject.value
            { network_id := TFString.value ni.NetworkID
              ip_address := TFString.value ni.IPAddress
              mac_address := TFString.value ni.MACAddress
              is_default := TFBool.value ni.IsDefault
              attachment_id := TFString.value ni.ID } :: objs, finalIP)

/-- Go `RefreshInstanceNetworks`: returns `(networksList, instanceIP)` and the state. -/
def RefreshInstanceNetworks {σ : Type} (c : Client σ) (sortSlice : SortSlice)
    (zoneID instanceID : String) (st : St σ) : (TFList NetworkObject × String) × St σ :=
  match callListNetworks c zoneID st with
  | (ApiResult.error _, st1) => ((TFList.null, ""), st1)
  | (ApiResult.ok networks, st1) =>
    match collectInstanceNetworks c zoneID instanceID networks st1 with
    | (all, st2) =>
      let filtered := all.filter (fun ni => decide (ni.InstanceID = instanceID))
      let sorted := if 1 < filtered.length then sortSlice networkLess filtered else filtered
      match exposeNetworks sorted [] "" with
      | (objs, instanceIP) => ((TFList.value objs, instanceIP), st2)

/-- Outcome of `Update`: the state afterwards and the model handed to `resp.State.Set`, if
that call was reached. -/
structure UpdateResult (σ : Type) where
  st : St σ
  newState : Option InstanceResourceModel

/-- The part of `Update` after the lifecycle blocks: network reconciliation, refresh and
`resp.State.Set`. -/
def updateNetworks {σ : Type} (c : Client σ) (orders : RangeOrders) (sortSlice : SortSlice)
    (plan state : InstanceResourceModel) (st : St σ) : UpdateResult σ :=
  match reconcileNetworks c orders plan.ZoneID.ValueString plan.ID.ValueString
      (networkIDMap plan.NetworkIDs) (networkIDMap state.NetworkIDs)
      (actualNetworkIDMap state.Networks) st with
  | (true, st1) => { st := st1, newState := none }
  | (false, st1) =>
    match RefreshInstanceNetworks c sortSlice plan.ZoneID.ValueString plan.ID.ValueString
        st1 with
    | ((networksList, instanceIP), st2) =>
      if Diagnostics.HasError st2.diags then { st := st2, newState := none }
      else
        { st := st2
          newState := some { plan with Networks := networksList, IP := TFString.value instanceIP } }

/-- The part of `Update` before the comment `// Handle network changes`: the copy of the
password and username of the prior state into the plan, the block `if imageChanged` and the
block `if desiredStateChanged`. -/
def updateBeforeNetworks {σ : Type} (c : Client σ) (plan state : InstanceResourceModel)
    (st : St σ) : Stage σ :=
  let plan0 := { plan with Password := state.Password, Username := state.Username }
  let imageChanged := decide (plan0.VMImageID ≠ state.VMImageID)
  let desiredStateChanged :=
    !plan0.DesiredState.IsNull && decide (plan0.DesiredState ≠ state.DesiredState)
  let s1 : Stage σ :=
    if imageChanged then updateImage c plan0 st
    else { returned := false, plan := plan0, st := st }
  if s1.returned then s1
  else if desiredStateChanged then updateLifecycle c s1.plan state s1.st
  else s1

/-- Go `instanceResource.Update`, entered with the diagnostics of `req.Plan.Get` and
`req.State.Get` already appended to `st.diags`. -/
def Update {σ : Type} (c : Client σ) (orders : RangeOrders) (sortSlice : SortSlice)
    (plan state : InstanceResourceModel) (st : St σ) : UpdateResult σ :=
  if Diagnostics.HasError st.diags then { st := st, newState := none }
  else
    match updateBeforeNetworks c plan state st with
    | { returned := true, plan := _, st := st1 } => { st := st1, newState := none }
    | { returned := false, plan := plan1, st := st1 } =>
      updateNetworks c orders sortSlice plan1 state st1

/-- The error `Update` records when the plan holds no network identifier. -/
def invalidConfiguration : Diagnostic :=
  { severity := Severity.error
    summary := "Invalid Configuration"
    detail :=
      "At least one network must remain connected to the instance. Cannot remove all networks." }

/-- Sample `sort.Slice`: insertion sort by the comparison. -/
def simSortSlice : SortSlice :=
  fun less l => l.insertionSort (fun a b => less a b = true)

/-- Sample instance model of instance `vm` in zone `zone`. -/
def simModel (image : String) (networkIDs : List String) (networks : List InstanceNetwork)
    (desiredState : TFString) : InstanceResourceModel :=
  { ID := TFString.value "vm"
    Name := TFString.value "vm"
    ZoneID := TFString.value "zone"
    ServiceOfferingID := TFString.value "small"
    VMImageID := TFString.value image
    NetworkIDs := TFList.value (networkIDs.map TFString.value)
    Status := TFString.value "UP"
    Password := TFString.value "secret"
    Username := TFString.value "root"
    IP := TFString.value ""
    Networks := TFList.value (networks.map (fun ni =>
      NetworkObject.value
        { network_id := TFString.value ni.NetworkID
          ip_address := TFString.value ni.IPAddress
          mac_address := TFString.value ni.MACAddress
          is_default := TFBool.value ni.IsDefault
          attachment_id := TFString.value ni.ID }))
    DesiredState := desiredState }

/-! ## A small remote used to run the code on concrete inputs -/

/-- State of the sample remote: the attachment records of the zone and the status of the one
instance. -/
structure SimRemote where
  attachments : List InstanceNetwork
  status : String
  deriving DecidableEq, Repr

/-- Client of the sample remote. No call fails; a disconnect removes the attachment record
with the given identifier, a connect adds a non-default record, stop, start, reboot and
rebuild set the status of the instance, listings of the zone are empty and the volume calls
change nothing. -/
def simClient : Client SimRemote :=
  { ListInstances := fun _ r => (ApiResult.ok [], r)
    ListNetworks := fun _ r => (ApiResult.ok [], r)
    ListInstanceVolumes := fun _ r => (ApiResult.ok [], r)
    GetObjectStorageBuckets := fun _ r => (ApiResult.ok [], r)
    ListNetworkInstances := fun _ networkID _ r =>
      (ApiResult.ok (r.attachments.filter (fun ni => decide (ni.NetworkID = networkID))), r)
    DisconnectInstanceFromNetwork := fun _ _ _ instanceNetworkID r =>
      (none, { r with attachments :=
        r.attachments.filter (fun ni => decide (ni.ID ≠ instanceNetworkID)) })
    ConnectInstanceToNetwork := fun _ networkID instanceID r =>
      (none, { r with attachments := r.attachments ++
        [{ ID := "att-" ++ networkID, InstanceID := instanceID, NetworkID := networkID,
           IPAddress := "", MACAddress := "", IsDefault := false }] })
    ShowInstance := fun _ _ r =>
      (ApiResult.ok { Status := r.status, Username := "root", Password := "secret",
                      DataVolumes := [] }, r)
    StartInstance := fun _ _ r => (none, { r with status := "Running" })
    StopInstance := fun _ _ _ r => (none, { r with status := "Stopped" })
    RebootInstance := fun _ _ r => (none, { r with status := "Running" })
    RebuildInstance := fun _ _ _ r => (none, { r with status := "UP" })
    CreateInstanceVolume := fun _ _ _ _ r => (none, r)
    AttachInstanceVolume := fun _ _ _ r => (none, r)
    DetachInstanceVolume := fun _ _ _ r => (none, r)
    DeleteInstanceVolume := fun _ _ r => (none, r)
    DeleteNetwork := fun _ _ r => (none, r) }

/-- Attachment record of instance `vm` on network `networkID` in the sample remote. -/
def simAttachment (networkID : String) (isDefault : Bool) : InstanceNetwork :=
  { ID := "att-" ++ networkID, InstanceID := "vm", NetworkID := networkID,
    IPAddress := "", MACAddress := "", IsDefault := isDefault }

/-- Initial state over the sample remote: no call issued and no diagnostic yet. -/
def simStart (attachments : List InstanceNetwork) (status : String) : St SimRemote :=
  { remote := { attachments := attachments, status := status }, trace := [], diags := [] }

/-- A map whose keys are the given identifiers, all bound to `true`. -/
def GoMap.ofKeys (ids : List String) : GoMap :=
  { entries := ids.map (fun k => (k, true)) }

/-- Whether an event is a `ConnectInstanceToNetwork` call for the given network. -/
def Event.isConnectOf (networkID : String) : Event → Bool
  | Event.ConnectInstanceToNetwork _ n _ _ => decide (n = networkID)
  | _ => false

/-- Whether an event is a `DisconnectInstanceFromNetwork` call for the given network. -/
def Event.isDisconnectOf (networkID : String) : Event → Bool
  | Event.DisconnectInstanceFromNetwork _ n _ _ _ => decide (n = networkID)
  | _ => false

/-- Whether an event is a connect or a disconnect call. -/
def Event.isAttachmentChange : Event → Bool
  | Event.ConnectInstanceToNetwork _ _ _ _ => true
  | Event.DisconnectInstanceFromNetwork _ _ _ _ _ => true
  | _ => false

/-- Whether an event is a call that changes the remote: stop, start, reboot, rebuild, connect
or disconnect. -/
def Event.isMutating : Event → Bool
  | Event.StartInstance _ _ _ => true
  | Event.StopInstance _ _ _ _ => true
  | Event.RebootInstance _ _ _ => true
  | Event.RebuildInstance _ _ _ _ => true
  | Event.ConnectInstanceToNetwork _ _ _ _ => true
  | Event.DisconnectInstanceFromNetwork _ _ _ _ _ => true
  | _ => false

/-! ## Properties of traces -/

/-- An event that is neither a connect nor a disconnect. -/
def Event.Quiet (e : Event) : Prop := e.isAttachmentChange = false

/-- Whether an event is a `DisconnectInstanceFromNetwork` call. -/
def Event.isDisconnect : Event → Bool
  | Event.DisconnectInstanceFromNetwork _ _ _ _ _ => true
  | _ => false

/-- Whether an event is a `ConnectInstanceToNetwork` call. -/
def Event.isConnect : Event → Bool
  | Event.ConnectInstanceToNetwork _ _ _ _ => true
  | _ => false

/-- The state `st1` is reached from `st` by issuing calls that all satisfy `P`: the trace of
`st1` is the trace of `st` followed by events satisfying `P`. -/
def Ext {σ : Type} (P : Event → Prop) (st st1 : St σ) : Prop :=
  ∃ t, st1.trace = st.trace ++ t ∧ ∀ e, e ∈ t → P e

/-- The event `e`, issued right after `prev`, respects the default interface: if `e` is a
disconnect of attachment `a` of instance `i` on network `n`, then `prev` is a successful
`ListNetworkInstances` for the same zone, network and instance, and the record the code reads
from it (the first one of that instance and network) has identifier `a` and is not default. -/
def GuardedAfter (prev : Option Event) : Event → Prop
  | Event.DisconnectInstanceFromNetwork z n i a _ =>
    ∃ data r, prev = some (Event.ListNetworkInstances z n i (ApiResult.ok data))
      ∧ firstAttachment data i n = some r ∧ r.ID = a ∧ r.IsDefault = false
  | _ => True

/-- Every event of the trace `t`, issued after `prev`, respects the default interface. -/
def DefaultGuarded : Option Event → List Event → Prop
  | _, [] => True
  | prev, e :: rest => GuardedAfter prev e ∧ DefaultGuarded (some e) rest

/-- New events of a run: the trace grows by `t`, and `t` respects the default interface
whatever event came before. -/
def GuardedExt {σ : Type} (st st1 : St σ) : Prop :=
  ∃ t, st1.trace = st.trace ++ t ∧ ∀ p, DefaultGuarded p t

/-- No disconnect of the trace hits a default attachment: every
`DisconnectInstanceFromNetwork` event directly follows a successful `ListNetworkInstances`
for the same zone, network and instance in which the attachment record of that instance and
network (the first such record, the one the code reads) carries the identifier being
disconnected and has `IsDefault = false`. -/
def NeverDisconnectsDefault (t : List Event) : Prop :=
  ∀ pre post z n i a err,
    t = pre ++ Event.DisconnectInstanceFromNetwork z n i a err :: post →
    ∃ pre0 data r,
      pre = pre0 ++ [Event.ListNetworkInstances z n i (ApiResult.ok data)]
      ∧ firstAttachment data i n = some r ∧ r.ID = a ∧ r.IsDefault = false

/-- The run from `st` to `st1` issued neither a connect nor a disconnect and left the
diagnostics untouched. -/
def QuietSameDiags {σ : Type} (st st1 : St σ) : Prop :=
  Ext Event.Quiet st st1 ∧ st1.diags = st.diags

/-- A part of `Update` run from `st` on `plan` ended in `s`: it issued neither a connect nor a
disconnect, it recorded an error if `Update` returned in it, and it left the network
identifiers of the plan as they were. -/
def StageOk {σ : Type} (plan : InstanceResourceModel) (st : St σ) (s : Stage σ) : Prop :=
  Ext Event.Quiet st s.st
  ∧ (s.returned = true → Diagnostics.HasError s.st.diags = true)
  ∧ s.plan.NetworkIDs = plan.NetworkIDs

/-- The detach loop handled network `n` of instance `i` within the events `t`: it read the
attachment record of `n` and, unless that record is the default one, issued a successful
disconnect for it. -/
def DetachAttempted (z i n : String) (t : List Event) : Prop :=
  ∃ data r, firstAttachment data i n = some r
    ∧ Event.ListNetworkInstances z n i (ApiResult.ok data) ∈ t
    ∧ (r.IsDefault = true ∨ Event.DisconnectInstanceFromNetwork z n i r.ID none ∈ t)

/-- The scenario with desired networks `{A, B}`: the plan model. -/
def driftPlan : InstanceResourceModel :=
  simModel "img1" ["A", "B"] [] TFString.null

/-- The scenario with prior-managed networks `{A}` and observed attachments `{A (default), C}`:
the prior state model. -/
def driftState : InstanceResourceModel :=
  simModel "img1" ["A"] [simAttachment "A" true, simAttachment "C" false] TFString.null

/-- The scenario with observed attachments `{A (default), C}`: the sample remote at the start
of `Update`. -/
def driftStart : St SimRemote :=
  simStart [simAttachment "A" true, simAttachment "C" false] "UP"

/-- The error recorded by `DetachNetworksFromInstance` when the listing holds no attachment
record of the instance on the network. -/
def attachmentNotFound (networkID instanceID : String) : Diagnostic :=
  { severity := Severity.error
    summary := "Client Error"
    detail := "Unable to find instance network ID for network " ++ networkID ++ " and instance "
      ++ instanceID }

/-- Go `EnsureInstanceRunning`: returns the error and the state after the run. -/
def EnsureInstanceRunning {σ : Type} (c : Client σ) (zoneID instanceID : String) (st : St σ) :
    GoError × St σ :=
  match callShowInstance c zoneID instanceID st with
  | (ApiResult.error err, st1) =>
    (some err, st1.addError "Client Error"
      ("Unable to read instance before ensuring running state, got error: " ++ err))
  | (ApiResult.ok data, st1) =>
    if IsInstanceRunning data.Status then (none, st1)
    else
      match callStartInstance c zoneID instanceID st1 with
      | (some err, st2) =>
        (some err, st2.addError "Client Error" ("Unable to start instance, got error: " ++ err))
      | (none, st2) =>
        match WaitForInstanceStatus c zoneID instanceID
            [InstanceStatusRunning, InstanceStatusUP]
            MaxInstanceStatusRetries DefaultPollInterval st2 with
        | ((status, some err), st3) =>
          (some err, st3.addError "Instance Not Running"
            ("Instance \x27" ++ instanceID ++ "\x27 could not be started. Current status: "
              ++ status ++ ". Error: " ++ err))
        | ((_, none), st3) => (none, st3)

/-- Whether an event is a `ShowInstance` call. -/
def Event.isShowInstance : Event → Bool
  | Event.ShowInstance _ _ _ => true
  | _ => false

/-- Whether an event is a `StopInstance` call. -/
def Event.isStopInstance : Event → Bool
  | Event.StopInstance _ _ _ _ => true
  | _ => false

/-- Whether an event is a `StartInstance` call. -/
def Event.isStartInstance : Event → Bool
  | Event.StartInstance _ _ _ => true
  | _ => false

/-- Sample client whose instance reports the status held by the remote state on every read
and ignores every other call. -/
def fixedStatusClient : Client String :=
  { ListInstances := fun _ r => (ApiResult.ok [], r)
    ListNetworks := fun _ r => (ApiResult.ok [], r)
    ListInstanceVolumes := fun _ r => (ApiResult.ok [], r)
    GetObjectStorageBuckets := fun _ r => (ApiResult.ok [], r)
    ListNetworkInstances := fun _ _ _ r => (ApiResult.ok [], r)
    DisconnectInstanceFromNetwork := fun _ _ _ _ r => (none, r)
    ConnectInstanceToNetwork := fun _ _ _ r => (none, r)
    ShowInstance := fun _ _ r =>
      (ApiResult.ok { Status := r, Username := "root", Password := "secret",
                      DataVolumes := [] }, r)
    StartInstance := fun _ _ r => (none, r)
    StopInstance := fun _ _ _ r => (none, r)
    RebootInstance := fun _ _ r => (none, r)
    RebuildInstance := fun _ _ _ r => (none, r)
    CreateInstanceVolume := fun _ _ _ _ r => (none, r)
    AttachInstanceVolume := fun _ _ _ r => (none, r)
    DetachInstanceVolume := fun _ _ _ r => (none, r)
    DeleteInstanceVolume := fun _ _ r => (none, r)
    DeleteNetwork := fun _ _ r => (none, r) }

/-- Initial state over the sample client with a fixed status. -/
def fixedStatusStart (status : String) : St String :=
  { remote := status, trace := [], diags := [] }

/-- The remote state after `k` consecutive `ShowInstance` reads. -/
def remoteAfterReads {σ : Type} (c : Client σ) (zoneID instanceID : String) (r : σ) (k : Nat) :
    σ :=
  (fun t => (c.ShowInstance zoneID instanceID t).2)^[k] r

/-- The answer of read number `k` (counting from 0) in a run of consecutive `ShowInstance`
reads started on the remote state `r`. -/
def showAt {σ : Type} (c : Client σ) (zoneID instanceID : String) (r : σ) (k : Nat) :
    ApiResult InstanceData :=
  (c.ShowInstance zoneID instanceID (remoteAfterReads c zoneID instanceID r k)).1

/-- Sample client whose instance reports the status held by the remote state; a stop sets it
to `Stopped` and a rebuild leaves the instance in status `Running`. -/
def rebuildRunningClient : Client String :=
  { fixedStatusClient with
    StopInstance := fun _ _ _ _ => (none, "Stopped")
    RebuildInstance := fun _ _ _ _ => (none, "Running") }

/-- Whether an event is a connect or a disconnect call that returned an error. -/
def Event.isFailedChange : Event → Bool
  | Event.ConnectInstanceToNetwork _ _ _ (some _) => true
  | Event.DisconnectInstanceFromNetwork _ _ _ _ (some _) => true
  | _ => false

/-- Whether an event is a disconnect call that returned an error. -/
def Event.isFailedDisconnect : Event → Bool
  | Event.DisconnectInstanceFromNetwork _ _ _ _ (some _) => true
  | _ => false

/-- An event of a detach loop over the networks `nets`: it is not a connect, and if it is a
disconnect its network is one of `nets`. -/
def DetachEvent (nets : List String) (e : Event) : Prop :=
  e.isConnect = false
  ∧ ∀ z n i a err, e = Event.DisconnectInstanceFromNetwork z n i a err → n ∈ nets

/-- A run from `st` to `st1` that stops at a failed connect or disconnect: either no connect or
disconnect of the run failed, or the failed call is the last event of the run and an error
diagnostic is recorded. -/
def FailStop {σ : Type} (st st1 : St σ) : Prop :=
  ∃ t, st1.trace = st.trace ++ t
    ∧ ((∀ e, e ∈ t → e.isFailedChange = false)
      ∨ (∃ t0 e, t = t0 ++ [e] ∧ e.isFailedChange = true
          ∧ (∀ x, x ∈ t0 → x.isFailedChange = false)
          ∧ Diagnostics.HasError st1.diags = true))

/-- Client of the sample remote in which every disconnect is refused. -/
def refusingClient : Client SimRemote :=
  { simClient with
    DisconnectInstanceFromNetwork := fun _ _ _ _ r => (some "refused", r) }

/-- Client of the sample remote in which every connect is refused. -/
def rejectingClient : Client SimRemote :=
  { simClient with
    ConnectInstanceToNetwork := fun _ _ _ r => (some "rejected", r) }

/-- An event of a second run with desired map `plan`: it is not a connect, and if it is a
disconnect its network is not a key of `plan`. -/
def OutsideDesired (plan : GoMap) (e : Event) : Prop :=
  e.isConnect = false
  ∧ ∀ z n i a err, e = Event.DisconnectInstanceFromNetwork z n i a err → n ∉ plan.keys

/-- The observed map of a run that follows a run which left the attachments `left`: the
networks of the attachments of the instance. -/
def observedAfter (instanceID : String) (left : List InstanceNetwork) : GoMap :=
  GoMap.ofKeys ((left.filter (fun ni => decide (ni.InstanceID = instanceID))).map
    (fun ni => ni.NetworkID))

/-! ## Exposed network list (`network_helpers.go`) -/

/-- Go `NetworkObjectResult`. -/
structure NetworkObjectResult where
  NetworkObjects : List NetworkObject
  InstanceIP : String
  Diags : Diagnostics
  deriving DecidableEq, Repr

/-- Go `BuildNetworkObjects`. The loop over the sorted records is the loop of
`RefreshInstanceNetworks` (`exposeNetworks`); `types.ObjectValue` receives the five attributes
it declares, with values of the declared types, so `objDiags` holds no error and `result.Diags`
stays empty. -/
def BuildNetworkObjects (sortSlice : SortSlice) (networks : List InstanceNetwork) :
    NetworkObjectResult :=
  let sorted := if 1 < networks.length then sortSlice networkLess networks else networks
  match exposeNetworks sorted [] "" with
  | (objs, instanceIP) => { NetworkObjects := objs, InstanceIP := instanceIP, Diags := [] }

/-- Go `b.ValueBool()`: `false` for null and unknown. -/
def TFBool.ValueBool : TFBool → Bool
  | TFBool.value b => b
  | _ => false

/-- The attribute `network_id` of an element of the exposed list. -/
def NetworkObject.networkID : NetworkObject → String
  | NetworkObject.value attrs => attrs.network_id.ValueString
  | _ => ""

/-- The attribute `is_default` of an element of the exposed list. -/
def NetworkObject.isDefault : NetworkObject → Bool
  | NetworkObject.value attrs => attrs.is_default.ValueBool
  | _ => false

/-- The object the exposure loop builds from one attachment record. -/
def exposedObject (ni : InstanceNetwork) : NetworkObject :=
  NetworkObject.value
    { network_id := TFString.value ni.NetworkID
      ip_address := TFString.value ni.IPAddress
      mac_address := TFString.value ni.MACAddress
      is_default := TFBool.value ni.IsDefault
      attachment_id := TFString.value ni.ID }

/-- Order of the exposed list: `x` stands before `y` when `x` is default and `y` is not, or
when both have the same default flag and the network identifier of `x` is smaller. -/
def ExposedBefore (x y : NetworkObject) : Prop :=
  (x.isDefault = true ∧ y.isDefault = false)
  ∨ (x.isDefault = y.isDefault ∧ x.networkID < y.networkID)

/-- Contract of `sort.Slice` for the comparison `less`: the result is a rearrangement of the
input in which no element is `less` than an element standing before it. -/
def SortSlice.SortsBy (sortSlice : SortSlice)
    (less : InstanceNetwork → InstanceNetwork → Bool) : Prop :=
  ∀ l, (sortSlice less l).Perm l ∧ (sortSlice less l).Pairwise (fun a b => less b a = false)

/-! ## Volumes of an instance (`models/instance.go`, `instance_volume_update.go`) -/

/-- Go `VolumeStatusAllocated`. -/
def VolumeStatusAllocated : String := "ALLOCATED"

/-- Terraform `types.Int64`. -/
inductive TFInt64 where
  | null : TFInt64
  | unknown : TFInt64
  | value (n : Int) : TFInt64
  deriving DecidableEq, Repr

/-- Go `n.ValueInt64()`: zero for null and unknown. -/
def TFInt64.ValueInt64 : TFInt64 → Int
  | TFInt64.value n => n
  | _ => 0

/-- Go `models.VolumeSpec`. -/
structure VolumeSpec where
  Name : TFString
  Size : TFInt64
  ServiceOfferingID : TFString
  deriving DecidableEq, Repr

/-- Go `map[string]models.VolumeSpec`: the bindings, newest first; a key bound again shadows
the older binding. -/
structure SpecMap where
  entries : List (String × VolumeSpec)
  deriving DecidableEq, Repr

/-- Go `make(map[string]models.VolumeSpec)`. -/
def SpecMap.empty : SpecMap := { entries := [] }

/-- Go `m[k] = v`. -/
def SpecMap.set (m : SpecMap) (k : String) (v : VolumeSpec) : SpecMap :=
  { entries := (k, v) :: m.entries }

/-- Go `v, ok := m[k]`: `none` when `k` is not a key. -/
def SpecMap.get? (m : SpecMap) (k : String) : Option VolumeSpec :=
  (m.entries.find? (fun kv => decide (kv.1 = k))).map Prod.snd

/-- Go `_, ok := m[k]`. -/
def SpecMap.has (m : SpecMap) (k : String) : Bool :=
  (m.get? k).isSome

/-- The key set of the map, without repetition. -/
def SpecMap.keys (m : SpecMap) : List String :=
  (m.entries.map Prod.fst).dedup

/-- The loops of `UpdateInstanceVolumes` that build `stateVolumeNames` and `planVolumeNames`:
every spec whose name is not null and not empty is bound to its name. -/
def volumeNameMap (volumes : List VolumeSpec) : SpecMap :=
  volumes.foldl
    (fun m v =>
      if !v.Name.IsNull && decide (v.Name.ValueString ≠ "") then m.set v.Name.ValueString v
      else m)
    SpecMap.empty

/-- The visiting orders of the two `range` statements over maps in `UpdateInstanceVolumes`. -/
structure VolumeOrders where
  removed : RangeOrder
  added : RangeOrder

/-- Both visiting orders are legal. -/
def VolumeOrders.Valid (orders : VolumeOrders) : Prop :=
  orders.removed.Valid ∧ orders.added.Valid

/-- The visiting orders that keep the key list as it is. -/
def VolumeOrders.identity : VolumeOrders := { removed := id, added := id }

/-- The list `removedVolumeNames` of `UpdateInstanceVolumes`: the keys of `stateVolumeNames`,
in visiting order, that are not keys of `planVolumeNames`. -/
def removedVolumeNames (order : RangeOrder) (stateVolumeNames planVolumeNames : SpecMap) :
    List String :=
  (order stateVolumeNames.keys).filter (fun name => !planVolumeNames.has name)

/-- The list `addedVolumes` of `UpdateInstanceVolumes`: the specs bound to the keys of
`planVolumeNames`, in visiting order, whose key is not a key of `stateVolumeNames`. -/
def addedVolumes (order : RangeOrder) (stateVolumeNames planVolumeNames : SpecMap) :
    List VolumeSpec :=
  (order planVolumeNames.keys).filterMap
    (fun name =>
      match planVolumeNames.get? name with
      | some spec => if stateVolumeNames.has name then none else some spec
      | none => none)

/-- The closure `findVolumeByName` of `DetachAndDeleteRemovedVolumes`: returns
`(ID, Status, found, err)`. -/
def findVolumeByName {σ : Type} (c : Client σ) (zoneID name : String) (st : St σ) :
    (String × String × Bool × GoError) × St σ :=
  match callListInstanceVolumes c zoneID st with
  | (ApiResult.error err, st1) => (("", "", false, some err), st1)
  | (ApiResult.ok vols, st1) =>
    match vols.find? (fun vol => decide (vol.Name = name)) with
    | some vol => ((vol.ID, vol.Status, true, none), st1)
    | none => (("", "", false, none), st1)

/-- How an inline verification loop ended: the enclosing function returned from inside the
loop, the loop reached its condition and broke, or the loop ran out of iterations. -/
inductive LoopEnd where
  | returned : LoopEnd
  | reached : LoopEnd
  | exhausted : LoopEnd
  deriving DecidableEq, Repr

/-- The loop `for i := 0; i < 60; i++` of `DetachAndDeleteRemovedVolumes` that waits for the
volume to leave `DataVolumes`, with `n` iterations left. -/
def waitVolumeDetached {σ : Type} (c : Client σ) (zoneID instanceID volID : String) :
    Nat → St σ → LoopEnd × St σ
  | 0, st => (LoopEnd.exhausted, st)
  | n + 1, st =>
    match callShowInstance c zoneID instanceID (st.sleep 5) with
    | (ApiResult.error ierr, st1) =>
      (LoopEnd.returned, st1.addError "Client Error"
        ("Unable to verify detachment of volume \x27" ++ volID ++ "\x27: " ++ ierr))
    | (ApiResult.ok ir, st1) =>
      if ir.DataVolumes.any (fun s => decide (s = volID)) then
        waitVolumeDetached c zoneID instanceID volID n st1
      else (LoopEnd.reached, st1)

/-- The loop `for i := 0; i < 30; i++` of `DetachAndDeleteRemovedVolumes` that waits for the
status `ALLOCATED`, with `n` iterations left; it looks the volume up by name. -/
def waitVolumeAllocated {σ : Type} (c : Client σ) (zoneID name : String) :
    Nat → St σ → LoopEnd × St σ
  | 0, st => (LoopEnd.exhausted, st)
  | n + 1, st =>
    match findVolumeByName c zoneID name (st.sleep 1) with
    | ((_, _, _, some lerr), st1) =>
      (LoopEnd.returned, st1.addError "Client Error"
        ("Unable to verify status for volume \x27" ++ name ++ "\x27 before delete: " ++ lerr))
    | ((_, vs, ok, none), st1) =>
      if ok && decide (vs = VolumeStatusAllocated) then (LoopEnd.reached, st1)
      else waitVolumeAllocated c zoneID name n st1

/-- The block `if isAttached(volID) { ... }` of `DetachAndDeleteRemovedVolumes`: returns
whether the function goes on after the block. -/
def detachRemovedVolume {σ : Type} (c : Client σ) (zoneID instanceID name volID : String)
    (isAttached : String → Bool) (st : St σ) : Bool × St σ :=
  if isAttached volID then
    match callDetachInstanceVolume c zoneID volID instanceID st with
    | (some derr, st1) =>
      (false, st1.addError "Volume Detach Failed"
        ("Failed to detach volume \x27" ++ name ++ "\x27 (" ++ volID ++ ") from instance \x27"
          ++ instanceID ++ "\x27: " ++ derr))
    | (none, st1) =>
      match waitVolumeDetached c zoneID instanceID volID 60 st1 with
      | (LoopEnd.returned, st2) => (false, st2)
      | (LoopEnd.reached, st2) => (true, st2)
      | (LoopEnd.exhausted, st2) =>
        (false, st2.addError "Volume Detach Timeout"
          ("Detachment of volume \x27" ++ name ++ "\x27 (" ++ volID ++ ") from instance \x27"
            ++ instanceID ++ "\x27 did not complete in time"))
  else (true, st)

/-- The block `if volStatus != VolumeStatusAllocated { ... }` of
`DetachAndDeleteRemovedVolumes`: returns whether the function goes on after the block. -/
def awaitAllocated {σ : Type} (c : Client σ) (zoneID name volStatus : String) (st : St σ) :
    Bool × St σ :=
  if volStatus ≠ VolumeStatusAllocated then
    match waitVolumeAllocated c zoneID name 30 st with
    | (LoopEnd.returned, st1) => (false, st1)
    | (LoopEnd.reached, st1) => (true, st1)
    | (LoopEnd.exhausted, st1) =>
      (false, st1.addError "Volume Delete Blocked"
        ("Volume \x27" ++ name ++ "\x27 is not in ALLOCATED status and cannot be deleted"))
  else (true, st)

/-- Go `DetachAndDeleteRemovedVolumes`. -/
def DetachAndDeleteRemovedVolumes {σ : Type} (c : Client σ) (zoneID instanceID : String) :
    List String → (String → Bool) → St σ → St σ
  | [], _, st => st
  | name :: rest, isAttached, st =>
    match findVolumeByName c zoneID name st with
    | ((_, _, _, some ferr), st1) =>
      st1.addError "Client Error"
        ("Unable to list volumes for removal of \x27" ++ name ++ "\x27, got error: " ++ ferr)
    | ((volID, volStatus, found, none), st1) =>
      if !found then DetachAndDeleteRemovedVolumes c zoneID instanceID rest isAttached st1
      else
        match detachRemovedVolume c zoneID instanceID name volID isAttached st1 with
        | (false, st2) => st2
        | (true, st2) =>
          match awaitAllocated c zoneID name volStatus st2 with
          | (false, st3) => st3
          | (true, st3) =>
            match callDeleteInstanceVolume c zoneID volID st3 with
            | (some derr, st4) =>
              st4.addError "Volume Delete Failed"
                ("Failed to delete volume \x27" ++ name ++ "\x27 (" ++ volID ++ "): " ++ derr)
            | (none, st4) =>
              DetachAndDeleteRemovedVolumes c zoneID instanceID rest isAttached st4

/-- Go `map[string]string`: the bindings, newest first. -/
structure IDMap where
  entries : List (String × String)
  deriving DecidableEq, Repr

/-- Go `make(map[string]string)`. -/
def IDMap.empty : IDMap := { entries := [] }

/-- Go `m[k] = v`. -/
def IDMap.set (m : IDMap) (k v : String) : IDMap :=
  { entries := (k, v) :: m.entries }

/-- Go `m[k]` on a map that may be `nil`: the empty string when `k` is not a key or the map is
`nil`. -/
def IDMap.lookup (m : Option IDMap) (k : String) : String :=
  match m with
  | none => ""
  | some m =>
    match m.entries.find? (fun kv => decide (kv.1 = k)) with
    | some kv => kv.2
    | none => ""

/-- The loop `for i := 0; i < 10; i++` of `CreateAndAttachNewVolumes` with `n` iterations
left: `none` when the function returned from inside the loop, otherwise the final `newID`.
`newID` is empty whenever an iteration starts, so after the inner loop it is the `ID` of the
first listed volume that is not in `existing` and carries the name, or empty. -/
def discoverNewVolume {σ : Type} (c : Client σ) (zoneID name : String)
    (existing : List String) : Nat → St σ → Option String × St σ
  | 0, st => (some "", st)
  | n + 1, st =>
    match callListInstanceVolumes c zoneID (st.sleep 1) with
    | (ApiResult.error lerr, st1) =>
      (none, st1.addError "Client Error"
        ("Unable to list volumes after creating \x27" ++ name ++ "\x27: " ++ lerr))
    | (ApiResult.ok latest, st1) =>
      let newID :=
        match latest.find? (fun vol => !decide (vol.ID ∈ existing) && decide (vol.Name = name))
          with
        | some vol => vol.ID
        | none => ""
      if newID ≠ "" then (some newID, st1)
      else discoverNewVolume c zoneID name existing n st1

/-- The second loop of `CreateAndAttachNewVolumes`, over the specs still to handle; `none` is
the `nil` map returned after an error. -/
def createAndAttachLoop {σ : Type} (c : Client σ) (zoneID instanceID : String) :
    List VolumeSpec → IDMap → St σ → Option IDMap × St σ
  | [], nameToID, st => (some nameToID, st)
  | spec :: rest, nameToID, st =>
    match callListInstanceVolumes c zoneID st with
    | (ApiResult.error ierr, st1) =>
      (none, st1.addError "Client Error"
        ("Unable to list volumes before creating \x27" ++ spec.Name.ValueString ++ "\x27: "
          ++ ierr))
    | (ApiResult.ok initial, st1) =>
      match callCreateInstanceVolume c zoneID spec.ServiceOfferingID.ValueString
          spec.Size.ValueInt64 spec.Name.ValueString st1 with
      | (some cerr, st2) =>
        (none, st2.addError "Volume Creation Failed"
          ("Failed to create volume \x27" ++ spec.Name.ValueString ++ "\x27: " ++ cerr))
      | (none, st2) =>
        match discoverNewVolume c zoneID spec.Name.ValueString
            (initial.map (fun vol => vol.ID)) 10 st2 with
        | (none, st3) => (none, st3)
        | (some newID, st3) =>
          if newID = "" then
            (none, st3.addError "Volume ID not found"
              ("Unable to discover ID for newly created volume \x27" ++ spec.Name.ValueString
                ++ "\x27"))
          else
            match callAttachInstanceVolume c zoneID newID instanceID st3 with
            | (some aerr, st4) =>
              (none, st4.addError "Volume Attachment Failed"
                ("Failed to attach new volume \x27" ++ spec.Name.ValueString ++ "\x27 ("
                  ++ newID ++ ") to instance \x27" ++ instanceID ++ "\x27: " ++ aerr))
            | (none, st4) =>
              createAndAttachLoop c zoneID instanceID rest
                (nameToID.set spec.Name.ValueString newID) st4

/-- Go `CreateAndAttachNewVolumes`; `int(spec.Size.ValueInt64())` keeps the value (`int` has 64
bits on the supported platforms). -/
def CreateAndAttachNewVolumes {σ : Type} (c : Client σ) (zoneID instanceID : String)
    (addedVolumes : List VolumeSpec) (st : St σ) : Option IDMap × St σ :=
  createAndAttachLoop c zoneID instanceID addedVolumes
    (addedVolumes.foldl (fun m v => m.set v.Name.ValueString "") IDMap.empty) st

/-- Go `BuildVolumeIDList`. -/
def BuildVolumeIDList (planVolumes : List VolumeSpec) (nameToID : Option IDMap) :
    TFList TFString :=
  TFList.value (planVolumes.filterMap (fun v =>
    if IDMap.lookup nameToID v.Name.ValueString = "" then none
    else some (TFString.value (IDMap.lookup nameToID v.Name.ValueString))))

/-- Go `UpdateInstanceVolumes`: returns the list and the state after the run. -/
def UpdateInstanceVolumes {σ : Type} (c : Client σ) (orders : VolumeOrders)
    (zoneID instanceID : String) (planVolumes stateVolumes : List VolumeSpec) (st : St σ) :
    TFList TFString × St σ :=
  match callShowInstance c zoneID instanceID st with
  | (ApiResult.error err, st1) =>
    (TFList.null, st1.addError "Client Error"
      ("Unable to read instance for volume updates, got error: " ++ err))
  | (ApiResult.ok data, st1) =>
    let st2 := DetachAndDeleteRemovedVolumes c zoneID instanceID
      (removedVolumeNames orders.removed (volumeNameMap stateVolumes)
        (volumeNameMap planVolumes))
      (fun volumeID => data.DataVolumes.any (fun s => decide (s = volumeID))) st1
    if Diagnostics.HasError st2.diags then (TFList.null, st2)
    else
      match CreateAndAttachNewVolumes c zoneID instanceID
          (addedVolumes orders.added (volumeNameMap stateVolumes) (volumeNameMap planVolumes))
          st2 with
      | (nameToID, st3) =>
        if Diagnostics.HasError st3.diags then (TFList.null, st3)
        else (BuildVolumeIDList planVolumes nameToID, st3)
/-- Whether an event is a create, attach, detach or delete call on a volume. -/
def Event.isVolumeChange : Event → Bool
  | Event.CreateInstanceVolume _ _ _ _ _ => true
  | Event.AttachInstanceVolume _ _ _ _ => true
  | Event.DetachInstanceVolume _ _ _ _ => true
  | Event.DeleteInstanceVolume _ _ _ => true
  | _ => false

/-- Whether an event is a create, attach, detach or delete call on a volume that returned an
error. -/
def Event.isFailedVolumeChange : Event → Bool
  | Event.CreateInstanceVolume _ _ _ _ (some _) => true
  | Event.AttachInstanceVolume _ _ _ (some _) => true
  | Event.DetachInstanceVolume _ _ _ (some _) => true
  | Event.DeleteInstanceVolume _ _ (some _) => true
  | _ => false

/-- An event that is no create, attach, detach or delete call on a volume. -/
def Event.VolumeQuiet (e : Event) : Prop := e.isVolumeChange = false

/-- A run from `st` to `st1` that stops at the first call marked by `F`: either no call of the
run is marked, or the marked call is the last event of the run and an error diagnostic is
recorded. -/
def FailStopBy {σ : Type} (F : Event → Bool) (st st1 : St σ) : Prop :=
  ∃ t, st1.trace = st.trace ++ t
    ∧ ((∀ e, e ∈ t → F e = false)
      ∨ (∃ t0 e, t = t0 ++ [e] ∧ F e = true
          ∧ (∀ x, x ∈ t0 → F x = false)
          ∧ Diagnostics.HasError st1.diags = true))

/-- State of the sample volume remote: the answers the next `ListInstanceVolumes` calls will
give (the last one is repeated) and the volumes `ShowInstance` reports as attached. -/
structure VolRemote where
  listings : List (List Item)
  dataVolumes : List String
  deriving DecidableEq, Repr

/-- Client of the sample volume remote. No call fails; a detach removes the volume from the
attached volumes and an attach adds it; the listings of volumes follow the script of the
remote; create and delete change nothing else. -/
def volClient : Client VolRemote :=
  { ListInstances := fun _ r => (ApiResult.ok [], r)
    ListNetworks := fun _ r => (ApiResult.ok [], r)
    ListInstanceVolumes := fun _ r =>
      match r.listings with
      | [] => (ApiResult.ok [], r)
      | [l] => (ApiResult.ok l, r)
      | l :: rest => (ApiResult.ok l, { r with listings := rest })
    GetObjectStorageBuckets := fun _ r => (ApiResult.ok [], r)
    ListNetworkInstances := fun _ _ _ r => (ApiResult.ok [], r)
    DisconnectInstanceFromNetwork := fun _ _ _ _ r => (none, r)
    ConnectInstanceToNetwork := fun _ _ _ r => (none, r)
    ShowInstance := fun _ _ r =>
      (ApiResult.ok { Status := "UP", Username := "root", Password := "secret",
                      DataVolumes := r.dataVolumes }, r)
    StartInstance := fun _ _ r => (none, r)
    StopInstance := fun _ _ _ r => (none, r)
    RebootInstance := fun _ _ r => (none, r)
    RebuildInstance := fun _ _ _ r => (none, r)
    CreateInstanceVolume := fun _ _ _ _ r => (none, r)
    AttachInstanceVolume := fun _ volumeID _ r =>
      (none, { r with dataVolumes := r.dataVolumes ++ [volumeID] })
    DetachInstanceVolume := fun _ volumeID _ r =>
      (none, { r with dataVolumes := r.dataVolumes.filter (fun s => decide (s ≠ volumeID)) })
    DeleteInstanceVolume := fun _ _ r => (none, r)
    DeleteNetwork := fun _ _ r => (none, r) }

/-- Client of the sample volume remote in which every delete is refused. -/
def volClientNoDelete : Client VolRemote :=
  { volClient with DeleteInstanceVolume := fun _ _ r => (some "denied", r) }

/-- Client of the sample volume remote in which every attach is refused. -/
def volClientNoAttach : Client VolRemote :=
  { volClient with AttachInstanceVolume := fun _ _ _ r => (some "denied", r) }

/-- Initial state over the sample volume remote. -/
def volStart (listings : List (List Item)) (dataVolumes : List String) : St VolRemote :=
  { remote := { listings := listings, dataVolumes := dataVolumes }, trace := [], diags := [] }

/-- Sample volume spec with the given name. -/
def volSpec (name : String) (size : Int) : VolumeSpec :=
  { Name := TFString.value name, Size := TFInt64.value size,
    ServiceOfferingID := TFString.value "ssd" }

/-- The spec a name is bound to once the loop of `volumeNameMap` is over: the last spec of the
list that carries the name. -/
def lastNamed (volumes : List VolumeSpec) (name : String) : Option VolumeSpec :=
  volumes.reverse.find? (fun v => decide (v.Name.ValueString = name))

/-- The volume `volumeID` was listed under the name `name` by a successful
`ListInstanceVolumes` call among the events `pre`. -/
def ListedAs (pre : List Event) (name volumeID : String) : Prop :=
  ∃ z vols vol, Event.ListInstanceVolumes z (ApiResult.ok vols) ∈ pre
    ∧ vol ∈ vols ∧ vol.ID = volumeID ∧ vol.Name = name

/-- The volume call `e`, issued after the events `pre` of the run, belongs to the delta: a
create carries the name, offering and size of an added spec; an attach is for a volume listed
under the name of an added spec; a detach or delete is for a volume listed under a removed
name. Every other event is allowed. -/
def VolumeCallAllowed (removed : List String) (added : List VolumeSpec) (pre : List Event) :
    Event → Prop
  | Event.CreateInstanceVolume _ offering size name _ =>
    ∃ spec, spec ∈ added ∧ name = spec.Name.ValueString
      ∧ offering = spec.ServiceOfferingID.ValueString ∧ size = spec.Size.ValueInt64
  | Event.AttachInstanceVolume _ volumeID _ _ =>
    ∃ spec, spec ∈ added ∧ ListedAs pre spec.Name.ValueString volumeID
  | Event.DetachInstanceVolume _ volumeID _ _ =>
    ∃ name, name ∈ removed ∧ ListedAs pre name volumeID
  | Event.DeleteInstanceVolume _ volumeID _ =>
    ∃ name, name ∈ removed ∧ ListedAs pre name volumeID
  | _ => True

/-- The trace `trace` extends `base` by events whose volume calls all belong to the delta. -/
def VolumeDelta (removed : List String) (added : List VolumeSpec) (base trace : List Event) :
    Prop :=
  ∃ t, trace = base ++ t
    ∧ ∀ pre e post, t = pre ++ e :: post → VolumeCallAllowed removed added pre e

/-- The volume `volumeID` was listed under the name `name` between `base` and `trace`. -/
def ListedSince (base trace : List Event) (name volumeID : String) : Prop :=
  ∃ t, trace = base ++ t ∧ ListedAs t name volumeID

/-- The status a listing of volumes reports for the volume `volumeID`: the status of the first
entry with that identifier. -/
def statusOf (vols : List Item) (volumeID : String) : Option String :=
  (vols.find? (fun vol => decide (vol.ID = volumeID))).map (fun vol => vol.Status)

/-- Whether an event is a `ListInstanceVolumes` call. -/
def Event.isListVolumes : Event → Bool
  | Event.ListInstanceVolumes _ _ => true
  | _ => false

/-- Whether an event is a `DeleteInstanceVolume` call. -/
def Event.isDeleteVolume : Event → Bool
  | Event.DeleteInstanceVolume _ _ _ => true
  | _ => false

/-- An event that is neither a listing of volumes nor a delete of a volume. -/
def Event.KeepsListing (e : Event) : Prop :=
  e.isListVolumes = false ∧ e.isDeleteVolume = false

/-- The most recent listing of volumes among the events `pre` reports the status `ALLOCATED`
for the first volume named `name`. -/
def AllocatedByName (pre : List Event) (name : String) : Prop :=
  ∃ pre0 mid z vols vol,
    pre = pre0 ++ Event.ListInstanceVolumes z (ApiResult.ok vols) :: mid
    ∧ (∀ x, x ∈ mid → x.isListVolumes = false)
    ∧ vols.find? (fun vol => decide (vol.Name = name)) = some vol
    ∧ vol.Status = VolumeStatusAllocated

/-- Every `DeleteInstanceVolume` call among the events that extend `base` to `trace` is issued
when the most recent listing of volumes reports `ALLOCATED` for the first volume carrying one
of the names `names`. -/
def DeleteGuarded (names : List String) (base trace : List Event) : Prop :=
  ∃ t, trace = base ++ t
    ∧ ∀ pre z v err post, t = pre ++ Event.DeleteInstanceVolume z v err :: post →
        ∃ name, name ∈ names ∧ AllocatedByName pre name

/-- Between `base` and `trace` the most recent listing of volumes reports `ALLOCATED` for the
first volume named `name`. -/
def AllocatedSince (base trace : List Event) (name : String) : Prop :=
  ∃ t, trace = base ++ t ∧ AllocatedByName t name

/-- The remote implements the attachment calls faithfully with respect to `att`, the
attachment records it holds: a listing changes no record and reports, for the instance and
network asked, only records that exist; a successful disconnect adds no record and removes
the records with the given attachment identifier; a successful connect adds only records of
the network asked. -/
structure FaithfulRemote {σ : Type} (c : Client σ) (att : σ → List InstanceNetwork) :
    Prop where
  list_keeps : ∀ z n i r, att (c.ListNetworkInstances z n i r).2 = att r
  list_reads : ∀ z n i r data, (c.ListNetworkInstances z n i r).1 = ApiResult.ok data →
    ∀ v, v ∈ data → v.InstanceID = i → v.NetworkID = n → v ∈ att r
  disconnect_removes : ∀ z n i a r, (c.DisconnectInstanceFromNetwork z n i a r).1 = none →
    ∀ v, v ∈ att (c.DisconnectInstanceFromNetwork z n i a r).2 → v ∈ att r ∧ v.ID ≠ a
  connect_adds : ∀ z n i r, (c.ConnectInstanceToNetwork z n i r).1 = none →
    ∀ v, v ∈ att (c.ConnectInstanceToNetwork z n i r).2 → v ∈ att r ∨ v.NetworkID = n

/-- The instance has at most one attachment record per network among `records`. -/
def OnePerNetwork (instanceID : String) (records : List InstanceNetwork) : Prop :=
  ∀ v w, v ∈ records → w ∈ records → v.InstanceID = instanceID → w.InstanceID = instanceID →
    v.NetworkID = w.NetworkID → v = w

/-- Every attachment record of the instance among `records` on a network outside the desired
set is a default one. -/
def Converged (desired : GoMap) (instanceID : String) (records : List InstanceNetwork) :
    Prop :=
  ∀ v, v ∈ records → v.InstanceID = instanceID → v.NetworkID ∉ desired.keys →
    v.IsDefault = true

/-- The prior-managed and observed sets of a run cover the attachments it has to remove: every
non-default attachment record of the instance on a network outside the desired set is on a
prior-managed or an observed network. -/
def Covered (desired prior observed : GoMap) (instanceID : String)
    (records : List InstanceNetwork) : Prop :=
  ∀ v, v ∈ records → v.InstanceID = instanceID → v.NetworkID ∉ desired.keys →
    v.IsDefault = false → v.NetworkID ∈ prior.keys ∨ v.NetworkID ∈ observed.keys

/-- Remote state after `k` consecutive calls
`ListNetworkInstances(zoneID, networkID, instanceID)`. -/
def remoteAfterListings {σ : Type} (c : Client σ) (zoneID networkID instanceID : String)
    (r : σ) (k : Nat) : σ :=
  (fun t => (c.ListNetworkInstances zoneID networkID instanceID t).2)^[k] r

/-- Answer of the call number `k` (counting from 0) of a series of consecutive calls
`ListNetworkInstances(zoneID, networkID, instanceID)` that starts on the remote `r`. -/
def listingAt {σ : Type} (c : Client σ) (zoneID networkID instanceID : String) (r : σ)
    (k : Nat) : ApiResult (List InstanceNetwork) :=
  (c.ListNetworkInstances zoneID networkID instanceID
    (remoteAfterListings c zoneID networkID instanceID r k)).1

/-- A verification read after a disconnect that does not show the disappearance of the
attachment: the read failed, or the listing still holds the record `instanceNetworkID` of the
instance. -/
def stillAttached (instanceID instanceNetworkID : String) :
    ApiResult (List InstanceNetwork) → Bool
  | ApiResult.error _ => true
  | ApiResult.ok data =>
    data.any (fun ni => decide (ni.ID = instanceNetworkID) && decide (ni.InstanceID = instanceID))

/-- A verification read after a connect that does not show the attachment: the read failed, or
the listing holds no record of the instance on the network, or the first such record has an
empty identifier. -/
def notYetAttached (instanceID networkID : String) : ApiResult (List InstanceNetwork) → Bool
  | ApiResult.error _ => true
  | ApiResult.ok data =>
    match firstAttachment data instanceID networkID with
    | some ni => decide (ni.ID = "")
    | none => true

/-- Trace of `k` consecutive verification reads separated by sleeps of one second. -/
def verificationReads {σ : Type} (c : Client σ) (zoneID networkID instanceID : String) (r : σ)
    (k : Nat) : List Event :=
  List.intersperse (Event.Sleep 1)
    ((List.range k).map (fun j =>
      Event.ListNetworkInstances zoneID networkID instanceID
        (listingAt c zoneID networkID instanceID r j)))

/-- Client of a remote that accepts every connect and every disconnect but never changes
its attachment records. -/
def idleClient : Client SimRemote :=
  { simClient with
      DisconnectInstanceFromNetwork := fun _ _ _ _ r => (none, r)
      ConnectInstanceToNetwork := fun _ _ _ r => (none, r) }

/-! ## Creating and attaching volumes (`constants.go`, `polling.go`, `volume_helpers.go`) -/

/-- Go `DefaultVolumePollInterval`, in seconds. -/
def DefaultVolumePollInterval : Nat := 5

/-- Go `MaxVolumeAttachmentRetries`. -/
def MaxVolumeAttachmentRetries : Int := 120

/-- Go `MaxVolumeStatusRetries`. -/
def MaxVolumeStatusRetries : Int := 10

/-- The closure `checkFunc` of `WaitForVolumeAttachment`. -/
def volumeAttachedCheck {σ : Type} (c : Client σ) (zoneID instanceID volumeID : String) :
    CheckFunc (St σ) :=
  fun st =>
    match callShowInstance c zoneID instanceID st with
    | (ApiResult.error err, st1) => ((false, some err), st1)
    | (ApiResult.ok data, st1) =>
      ((data.DataVolumes.any (fun s => decide (s = volumeID)), none), st1)

/-- Go `WaitForVolumeAttachment`: returns the error and the state after the run. -/
def WaitForVolumeAttachment {σ : Type} (c : Client σ) (zoneID instanceID volumeID : String)
    (maxRetries : Int) (interval : Nat) (st : St σ) : GoError × St σ :=
  let r := PollUntilCondition (volumeAttachedCheck c zoneID instanceID volumeID) maxRetries
    interval
    ("Volume \x27" ++ volumeID ++ "\x27 attachment to instance \x27" ++ instanceID
      ++ "\x27 did not complete within timeout") st
  (r.err, r.st)

/-- Go `CreateAndAttachVolume`: returns `(newVolID, err)` and the state after the run;
`existingIDs` is the key set of the Go `map[string]struct{}`, and `time.Second` is an interval
of one second. -/
def CreateAndAttachVolume {σ : Type} (c : Client σ) (zoneID instanceID : String)
    (volSpec : VolumeSpec) (existingIDs : List String) (st : St σ) :
    (String × GoError) × St σ :=
  match callCreateInstanceVolume c zoneID volSpec.ServiceOfferingID.ValueString
      volSpec.Size.ValueInt64 volSpec.Name.ValueString st with
  | (some err, st1) =>
    (("", some err), st1.addError "Volume Creation Failed"
      ("Failed to create volume \x27" ++ volSpec.Name.ValueString ++ "\x27 in zone \x27"
        ++ zoneID ++ "\x27 with service offering \x27" ++ volSpec.ServiceOfferingID.ValueString
        ++ "\x27 and size " ++ toString volSpec.Size.ValueInt64 ++ " GB. Error: " ++ err))
  | (none, st1) =>
    match FindNewVolumeID c zoneID existingIDs volSpec.Name.ValueString MaxVolumeStatusRetries 1
        st1 with
    | ((_, some err), st2) =>
      (("", some err), st2.addError "Volume ID not found"
        ("Unable to find the created volume ID for \x27" ++ volSpec.Name.ValueString ++ "\x27: "
          ++ err))
    | ((newVolID, none), st2) =>
      match callAttachInstanceVolume c zoneID newVolID instanceID st2 with
      | (some err, st3) =>
        (("", some err), st3.addError "Volume Attachment Failed"
          ("Failed to attach volume \x27" ++ newVolID ++ "\x27 to instance \x27" ++ instanceID
            ++ "\x27. Error: " ++ err))
      | (none, st3) =>
        match WaitForVolumeAttachment c zoneID instanceID newVolID MaxVolumeAttachmentRetries
            DefaultVolumePollInterval st3 with
        | (some err, st4) =>
          (("", some err), st4.addError "Volume Attachment Timeout"
            ("Volume \x27" ++ newVolID ++ "\x27 attachment to instance \x27" ++ instanceID
              ++ "\x27 did not complete within timeout. Error: " ++ err))
        | (none, st4) => ((newVolID, none), st4)

/-- The loop `for _, volSpec := range volumeSpecs` of `CreateAndAttachVolumes` over the specs
still to handle; `existingIDs` is the key set of the map and `volumeIDs` the slice built so
far. The first component of the result is `none` for the `nil` slice returned with an error. -/
def createAndAttachVolumesLoop {σ : Type} (c : Client σ) (zoneID instanceID : String) :
    List VolumeSpec → List String → List TFString → St σ →
      (Option (List TFString) × GoError) × St σ
  | [], _, volumeIDs, st => ((some volumeIDs, none), st)
  | volSpec :: rest, existingIDs, volumeIDs, st =>
    match CreateAndAttachVolume c zoneID instanceID volSpec existingIDs st with
    | ((_, some err), st1) => ((none, some err), st1)
    | ((volID, none), st1) =>
      createAndAttachVolumesLoop c zoneID instanceID rest (volID :: existingIDs)
        (volumeIDs ++ [TFString.value volID]) st1

/-- Go `CreateAndAttachVolumes`: returns `(volumeIDs, err)` and the state after the run. -/
def CreateAndAttachVolumes {σ : Type} (c : Client σ) (zoneID instanceID : String)
    (volumeSpecs : List VolumeSpec) (st : St σ) : (Option (List TFString) × GoError) × St σ :=
  match callListInstanceVolumes c zoneID st with
  | (ApiResult.error err, st1) =>
    ((none, some err), st1.addError "API Communication Error"
      ("Failed to list existing volumes before volume creation. Error: " ++ err))
  | (ApiResult.ok initialVolumes, st1) =>
    createAndAttachVolumesLoop c zoneID instanceID volumeSpecs
      (initialVolumes.map (fun vol => vol.ID)) [] st1

/-- Client of the sample volume remote in which every attach is accepted but the volume never
shows up among the attached volumes of the instance. -/
def volClientUnseen : Client VolRemote :=
  { volClient with AttachInstanceVolume := fun _ _ _ r => (none, r) }

/-- The volume `volumeID` was created under the name `name` and attached to the instance
between `base` and `trace`: the run listed the volumes without seeing `volumeID`, issued a
successful create for `name` right after that listing, saw `volumeID` listed under `name`
before any other volume call, and then issued a successful attach of `volumeID`. -/
def CreatedSince (instanceID : String) (base trace : List Event) (name volumeID : String) :
    Prop :=
  ∃ pre z initial offering size mid post,
    trace = base ++ (pre ++ Event.ListInstanceVolumes z (ApiResult.ok initial)
      :: Event.CreateInstanceVolume z offering size name none
      :: (mid ++ Event.AttachInstanceVolume z volumeID instanceID none :: post))
    ∧ volumeID ∉ initial.map (fun vol => vol.ID)
    ∧ ListedAs mid name volumeID
    ∧ (∀ e, e ∈ mid → e.VolumeQuiet)

/-- The attribute `ip_address` of an element of the exposed list. -/
def NetworkObject.ipAddress : NetworkObject → String
  | NetworkObject.value attrs => attrs.ip_address.ValueString
  | _ => ""

/-- The first non-empty `ip_address` of an exposed list, in the order of the list; the empty
string when there is none. -/
def firstNonEmptyIP (objs : List NetworkObject) : String :=
  ((objs.map NetworkObject.ipAddress).find? (fun ip => decide (ip ≠ ""))).getD ""

/-- Attachment record of instance `vm` on network `networkID` with the given IP address. -/
def simAddressed (networkID ip : String) (isDefault : Bool) : InstanceNetwork :=
  { ID := "att-" ++ networkID, InstanceID := "vm", NetworkID := networkID,
    IPAddress := ip, MACAddress := "", IsDefault := isDefault }

/-! ## Networks of a new instance (`constants.go`, `polling.go`, `instance_creation.go`) -/

/-- Go `DefaultNetworkPollInterval`, in seconds. -/
def DefaultNetworkPollInterval : Nat := 1

/-- Go `MaxNetworkConnectionRetries`. -/
def MaxNetworkConnectionRetries : Int := 30

/-- The closure `checkFunc` of `WaitForNetworkConnection`; the captured variable
`foundAttachment` is the first component of the state. -/
def networkConnectionCheck {σ : Type} (c : Client σ) (zoneID networkID instanceID : String) :
    CheckFunc (Option InstanceNetwork × St σ) :=
  fun s =>
    match callListNetworkInstances c zoneID networkID instanceID s.2 with
    | (ApiResult.error err, s1) => ((false, some err), (s.1, s1))
    | (ApiResult.ok data, s1) =>
      match firstAttachment data instanceID networkID with
      | some ni => ((true, none), (some ni, s1))
      | none => ((false, none), (s.1, s1))

/-- Go `WaitForNetworkConnection`: returns `(attachment, err)` and the state after the run;
the attachment is `nil` whenever an error is returned. -/
def WaitForNetworkConnection {σ : Type} (c : Client σ) (zoneID networkID instanceID : String)
    (maxRetries : Int) (interval : Nat) (st : St σ) :
    (Option InstanceNetwork × GoError) × St σ :=
  let r := PollUntilCondition (networkConnectionCheck c zoneID networkID instanceID) maxRetries
    interval
    ("Instance \x27" ++ instanceID ++ "\x27 connection to network \x27" ++ networkID
      ++ "\x27 was not established within timeout") (none, st)
  match r.err with
  | some err => ((none, some err), r.st.2)
  | none => ((r.st.1, none), r.st.2)

/-- The first loop of `SetupInstanceNetworks` over the network identifiers still to handle;
`filtered` and `connectedNetworks` are the slice and the map built so far. `none` when the
function returned from inside the loop. -/
def awaitConnections {σ : Type} (c : Client σ) (data : InstanceResourceModel) :
    List String → List InstanceNetwork → GoMap → St σ →
      Option (List InstanceNetwork × GoMap) × St σ
  | [], filtered, connectedNetworks, st => (some (filtered, connectedNetworks), st)
  | networkID :: rest, filtered, connectedNetworks, st =>
    match WaitForNetworkConnection c data.ZoneID.ValueString networkID data.ID.ValueString
        MaxNetworkConnectionRetries DefaultNetworkPollInterval st with
    | ((_, some _), st1) =>
      (none, st1.addError "Network Connection Timeout"
        ("Instance \x27" ++ data.ID.ValueString ++ "\x27 was created but network \x27"
          ++ networkID ++ "\x27 connection was not established within timeout. "
          ++ "The connection may still be provisioning."))
    | ((some attachment, none), st1) =>
      awaitConnections c data rest (filtered ++ [attachment])
        (connectedNetworks.set networkID true) st1
    | ((none, none), st1) => awaitConnections c data rest filtered connectedNetworks st1

/-- Go `SetupInstanceNetworks`: returns `(networksList, instanceIP)` and the state after the
run. The list built by `CreateNetworksList` holds the objects of `BuildNetworkObjects`, which
all have the object type of the list. -/
def SetupInstanceNetworks {σ : Type} (c : Client σ) (sortSlice : SortSlice)
    (data : InstanceResourceModel) (networkIDs : List String) (st : St σ) :
    (TFList NetworkObject × String) × St σ :=
  match awaitConnections c data networkIDs [] GoMap.empty st with
  | (none, st1) => ((TFList.null, ""), st1)
  | (some (filtered, connectedNetworks), st1) =>
    if connectedNetworks.len ≠ networkIDs.length then
      ((TFList.null, ""), st1.addError "Network Connection Verification Failed"
        ("Not all networks were connected. Missing networks: "
          ++ fmtStrings (networkIDs.filter (fun networkID => !connectedNetworks.get networkID))))
    else
      let result := BuildNetworkObjects sortSlice filtered
      let st2 : St σ := { st1 with diags := Diagnostics.Append st1.diags result.Diags }
      if Diagnostics.HasError st2.diags then ((TFList.null, ""), st2)
      else ((TFList.value result.NetworkObjects, result.InstanceIP), st2)

/-! ## Deleting a network (`errors.go`, `network_helpers.go`, `polling.go`,
`resource_network.go`) -/

/-- Go `HandleAPIError(diags, summary, err)`; `err` is the text of the error. -/
def HandleAPIError {σ : Type} (st : St σ) (summary err : String) : St σ :=
  st.addError summary
    ("An unexpected error occurred while communicating with the Virak Cloud API. Error: "
      ++ err)

/-- Whether the characters `substr` occur as a run of consecutive characters of the list. -/
def containsChars : List Char → List Char → Bool
  | [], substr => substr.isEmpty
  | ch :: rest, substr => substr.isPrefixOf (ch :: rest) || containsChars rest substr

/-- Go `strings.Contains(s, substr)`. -/
def stringsContains (s substr : String) : Bool :=
  containsChars s.data substr.data

/-- The loop of `GetNetworkInstances` over the instances of the zone: the concatenation of the
attachment listings that did not fail. -/
def collectNetworkInstances {σ : Type} (c : Client σ) (zoneID networkID : String) :
    List Item → St σ → List InstanceNetwork × St σ
  | [], st => ([], st)
  | inst :: rest, st =>
    match callListNetworkInstances c zoneID networkID inst.ID st with
    | (ApiResult.error _, st1) => collectNetworkInstances c zoneID networkID rest st1
    | (ApiResult.ok data, st1) =>
      match collectNetworkInstances c zoneID networkID rest st1 with
      | (more, st2) => (data ++ more, st2)

/-- Go `GetNetworkInstances`: returns `(filtered, err)` and the state after the run. -/
def GetNetworkInstances {σ : Type} (c : Client σ) (zoneID networkID : String) (st : St σ) :
    (List InstanceNetwork × GoError) × St σ :=
  match callListInstances c zoneID st with
  | (ApiResult.error err, st1) => (([], some err), st1)
  | (ApiResult.ok instances, st1) =>
    match collectNetworkInstances c zoneID networkID instances st1 with
    | (all, st2) => ((all.filter (fun ni => decide (ni.NetworkID = networkID)), none), st2)

/-- Go `VerifyNetworkDisconnected`: returns `(isDisconnected, err)` and the state after the
run. -/
def VerifyNetworkDisconnected {σ : Type} (c : Client σ) (zoneID networkID : String)
    (st : St σ) : (Bool × GoError) × St σ :=
  match GetNetworkInstances c zoneID networkID st with
  | ((_, some err), st1) => ((false, some err), st1)
  | ((instances, none), st1) =>
    ((instances.all (fun networkInstance =>
        decide (networkInstance.NetworkID ≠ networkID) || networkInstance.IsDefault), none),
      st1)

/-- The closure `checkFunc` of `WaitForNetworkDisconnection`. -/
def networkDisconnectionCheck {σ : Type} (c : Client σ)
    (zoneID networkID instanceID attachmentID : String) : CheckFunc (St σ) :=
  fun st =>
    match callListNetworkInstances c zoneID networkID instanceID st with
    | (ApiResult.error err, st1) => ((false, some err), st1)
    | (ApiResult.ok data, st1) =>
      ((!data.any (fun ni => decide (ni.ID = attachmentID)
          && decide (ni.InstanceID = instanceID)), none), st1)

/-- Go `WaitForNetworkDisconnection`: returns the error and the state after the run. -/
def WaitForNetworkDisconnection {σ : Type} (c : Client σ)
    (zoneID networkID instanceID attachmentID : String) (maxRetries : Int) (interval : Nat)
    (st : St σ) : GoError × St σ :=
  let r := PollUntilCondition
    (networkDisconnectionCheck c zoneID networkID instanceID attachmentID) maxRetries interval
    ("Instance \x27" ++ instanceID ++ "\x27 disconnection from network \x27" ++ networkID
      ++ "\x27 was not verified within timeout") st
  (r.err, r.st)

/-- Go `models.NetworkResourceModel`: the fields `Delete` reads. -/
structure NetworkResourceModel where
  ID : TFString
  Name : TFString
  ZoneID : TFString
  deriving DecidableEq, Repr

/-- The loop `for _, networkInstance := range instances` of `networkResource.Delete`. Returns
`true` when `Delete` returns from inside the loop; an error of the disconnection wait is only
logged. -/
def disconnectNetworkInstances {σ : Type} (c : Client σ) (data : NetworkResourceModel) :
    List InstanceNetwork → St σ → Bool × St σ
  | [], st => (false, st)
  | networkInstance :: rest, st =>
    if networkInstance.NetworkID ≠ data.ID.ValueString then
      disconnectNetworkInstances c data rest st
    else if networkInstance.IsDefault then disconnectNetworkInstances c data rest st
    else
      match callDisconnectInstanceFromNetwork c data.ZoneID.ValueString data.ID.ValueString
          networkInstance.InstanceID networkInstance.ID st with
      | (some err, st1) =>
        (true, HandleAPIError st1 "Client Error"
          ("unable to disconnect instance " ++ networkInstance.InstanceID ++ " from network "
            ++ data.ID.ValueString ++ ": " ++ err))
      | (none, st1) =>
        match WaitForNetworkDisconnection c data.ZoneID.ValueString data.ID.ValueString
            networkInstance.InstanceID networkInstance.ID MaxNetworkConnectionRetries
            DefaultNetworkPollInterval st1 with
        | (_, st2) => disconnectNetworkInstances c data rest st2

/-- The loop `for i := 0; i < maxVerificationRetries; i++` of `networkResource.Delete` with
`n` iterations left (`i = 10 - n`, so `i < maxVerificationRetries-1` is `1 < n`); the flag
`verified` is only logged. -/
def verifyNetworkLoop {σ : Type} (c : Client σ) (data : NetworkResourceModel) :
    Nat → St σ → St σ
  | 0, st => st
  | n + 1, st =>
    match VerifyNetworkDisconnected c data.ZoneID.ValueString data.ID.ValueString st with
    | ((_, some _), st1) =>
      if 0 < n then verifyNetworkLoop c data n (st1.sleep 2)
      else verifyNetworkLoop c data n st1
    | ((true, none), st1) => st1
    | ((false, none), st1) =>
      if 0 < n then verifyNetworkLoop c data n (st1.sleep 2)
      else verifyNetworkLoop c data n st1

/-- The test `isNetworkConnectedError` of `networkResource.Delete` on the text of the error. -/
def isNetworkConnectedError (errStr : String) : Bool :=
  stringsContains errStr "network is connected"
    || stringsContains errStr "The network is connected"

/-- The loop `for attempt := 0; attempt < maxRetries; attempt++` of `networkResource.Delete`
with `n` iterations left and the current value of `attempt`; `baseDelay` is 2 seconds and the
delay before the next attempt is `baseDelay * (1 << attempt)`. The loop is entered with
`n = 5` and `attempt = 0`, so `attempt == maxRetries-1` is `n = 1`. -/
def deleteNetworkLoop {σ : Type} (c : Client σ) (data : NetworkResourceModel) :
    Nat → Nat → St σ → St σ
  | 0, _, st => st
  | n + 1, attempt, st =>
    match callDeleteNetwork c data.ZoneID.ValueString data.ID.ValueString st with
    | (none, st1) => st1
    | (some errStr, st1) =>
      if !isNetworkConnectedError errStr || decide (n = 0) then
        HandleAPIError st1 "Client Error" ("unable to delete network: " ++ errStr)
      else deleteNetworkLoop c data n (attempt + 1) (st1.sleep (2 * 2 ^ attempt))

/-- Go `networkResource.Delete`, entered with the diagnostics of `req.State.Get` already
appended to `st.diags`. -/
def networkResource.Delete {σ : Type} (c : Client σ) (data : NetworkResourceModel)
    (st : St σ) : St σ :=
  if Diagnostics.HasError st.diags then st
  else
    match GetNetworkInstances c data.ZoneID.ValueString data.ID.ValueString st with
    | ((_, some err), st1) =>
      HandleAPIError st1 "Client Error"
        ("unable to list instances in zone " ++ data.ZoneID.ValueString ++ ": " ++ err)
    | ((instances, none), st1) =>
      match disconnectNetworkInstances c data instances st1 with
      | (true, st2) => st2
      | (false, st2) => deleteNetworkLoop c data 5 0 (verifyNetworkLoop c data 10 st2)

/-- Whether an event is a `DeleteNetwork` call. -/
def Event.isDeleteNetwork : Event → Bool
  | Event.DeleteNetwork _ _ _ => true
  | _ => false

/-- Trace of consecutive failed `DeleteNetwork` attempts, each followed by the delay before
the next attempt: the attempt number `attempt + j` is followed by a sleep of
`2 * 2 ^ (attempt + j)` seconds. -/
def retryRounds (zoneID networkID : String) : Nat → List String → List Event
  | _, [] => []
  | attempt, errStr :: rest =>
    Event.DeleteNetwork zoneID networkID (some errStr) :: Event.Sleep (2 * 2 ^ attempt)
      :: retryRounds zoneID networkID (attempt + 1) rest

/-- Client of the sample remote in which every `DeleteNetwork` is refused because the network
is still connected. -/
def connectedNetworkClient : Client SimRemote :=
  { simClient with
      DeleteNetwork := fun _ _ r => (some "The network is connected to 1 instance(s)", r) }

/-- Client of the sample remote in which every `DeleteNetwork` is refused for another
reason. -/
def forbiddenDeleteClient : Client SimRemote :=
  { simClient with DeleteNetwork := fun _ _ r => (some "forbidden", r) }

/-- Whether an event is a listing of instances, a listing of attachments or a sleep. -/
def Event.isListing : Event → Bool
  | Event.ListInstances _ _ => true
  | Event.ListNetworkInstances _ _ _ _ => true
  | Event.Sleep _ => true
  | _ => false

/-- Attachment record of instance `vm` on network `networkID` with the given attachment
identifier. -/
def simRecord (attachmentID networkID : String) (isDefault : Bool) : InstanceNetwork :=
  { ID := attachmentID, InstanceID := "vm", NetworkID := networkID,
    IPAddress := "", MACAddress := "", IsDefault := isDefault }

/-- The observed map holds every network on which the instance has an attachment record among
`records`: the observed set is what the remote reports for the instance. -/
def ObservesAll (observed : GoMap) (instanceID : String) (records : List InstanceNetwork) :
    Prop :=
  ∀ v, v ∈ records → v.InstanceID = instanceID → v.NetworkID ∈ observed.keys

/-- The name, offering and size a `CreateInstanceVolume` call was issued with; `none` for every
other event. -/
def Event.createRequest : Event → Option (String × String × Int)
  | Event.CreateInstanceVolume _ offering size name _ => some (name, offering, size)
  | _ => none

/-- The `CreateInstanceVolume` calls among the events, in the order they were issued: the
name, offering and size of each. -/
def createCalls (t : List Event) : List (String × String × Int) :=
  t.filterMap Event.createRequest

/-- The name, offering and size `CreateAndAttachNewVolumes` passes to `CreateInstanceVolume`
for a spec. -/
def VolumeSpec.createRequest (spec : VolumeSpec) : String × String × Int :=
  (spec.Name.ValueString, spec.ServiceOfferingID.ValueString, spec.Size.ValueInt64)

/-- The run from `st` to `st1` issued exactly the create calls `calls`, in that order. -/
def CreatesOf {σ : Type} (st st1 : St σ) (calls : List (String × String × Int)) : Prop :=
  ∃ t, st1.trace = st.trace ++ t ∧ createCalls t = calls

/-- Start of the sample run that removes `v2` and adds `v3`: the listings answer the lookup of
`v2`, the wait for its status `ALLOCATED`, the listing before the create, and the listing
that shows the new volume. -/
def volDeltaStart : St VolRemote :=
  volStart [[{ ID := "vol-1", Name := "v1", Status := "ATTACHED" },
             { ID := "vol-2", Name := "v2", Status := "ATTACHED" }],
            [{ ID := "vol-1", Name := "v1", Status := "ATTACHED" },
             { ID := "vol-2", Name := "v2", Status := "ALLOCATED" }],
            [{ ID := "vol-1", Name := "v1", Status := "ATTACHED" }],
            [{ ID := "vol-1", Name := "v1", Status := "ATTACHED" },
             { ID := "vol-3", Name := "v3", Status := "ALLOCATED" }]]
    ["vol-1", "vol-2"]

/-- The removal of `name` was carried out between `base` and `trace`: the run listed the
volumes, and if a listed volume carries the name, the first such volume was deleted by a
successful call issued after that listing, and when it is among the `attached` volumes a
successful detach from the instance was issued between the listing and the delete. -/
def RemovedSince (instanceID : String) (attached : List String) (base trace : List Event)
    (name : String) : Prop :=
  ∃ pre z vols post,
    trace = base ++ (pre ++ Event.ListInstanceVolumes z (ApiResult.ok vols) :: post)
    ∧ ∀ vol, vols.find? (fun vol => decide (vol.Name = name)) = some vol →
        ∃ mid rest, post = mid ++ Event.DeleteInstanceVolume z vol.ID none :: rest
          ∧ (vol.ID ∈ attached → Event.DetachInstanceVolume z vol.ID instanceID none ∈ mid)

/-- Sample predicate over a counter: reports `done` once the counter has reached `2`, never
fails; every evaluation advances the counter. -/
def sampleCheckDone : CheckFunc Nat := fun n => ((decide (2 ≤ n), none), n + 1)

/-- Sample predicate over a counter: fails with `"boom"` (while also reporting `done`) once the
counter has reached `1`. -/
def sampleCheckFail : CheckFunc Nat :=
  fun n => if 1 ≤ n then ((true, some "boom"), n + 1) else ((false, none), n + 1)

/-- Sample predicate that never reports `done` and never fails. -/
def sampleCheckNever : CheckFunc Nat := fun n => ((false, none), n + 1)

/-! ## Theorems -/

theorem stateBefore_succ {τ : Type} (checkFunc : CheckFunc τ) (s : τ) (i : Nat) :
    stateBefore checkFunc s (i + 1) = stateBefore checkFunc (checkFunc s).2 i := by
  simp [stateBefore, Function.iterate_succ_apply]

theorem evalOutcome_succ {τ : Type} (checkFunc : CheckFunc τ) (s : τ) (i : Nat) :
    evalOutcome checkFunc s (i + 1) = evalOutcome checkFunc (checkFunc s).2 i := by
  simp [evalOutcome, stateBefore_succ]

theorem evalOutcome_zero {τ : Type} (checkFunc : CheckFunc τ) (s : τ) :
    evalOutcome checkFunc s 0 = (checkFunc s).1 := by
  simp [evalOutcome, stateBefore]

theorem roundsLog_succ (interval k : Nat) :
    roundsLog interval (k + 1)
      = PollEvent.eval :: PollEvent.sleep interval :: roundsLog interval k := by
  simp [roundsLog, List.replicate_succ]

theorem pollLoop_rounds {τ : Type} (checkFunc : CheckFunc τ) (interval : Nat) (errorMsg : String) :
    ∀ (k n : Nat) (s : τ) (log : List PollEvent),
      (∀ i, i < k → evalOutcome checkFunc s i = (false, none)) →
      pollLoop checkFunc interval errorMsg (k + n) s log
        = pollLoop checkFunc interval errorMsg n (stateBefore checkFunc s k)
            (log ++ roundsLog interval k) := by
  intro k
  induction k with
  | zero => intro n s log _; simp [stateBefore, roundsLog]
  | succ k ih =>
    intro n s log h
    have h0 := h 0 (Nat.succ_pos k)
    rw [evalOutcome_zero] at h0
    have hstep : pollLoop checkFunc interval errorMsg (k + n + 1) s log
        = pollLoop checkFunc interval errorMsg (k + n) (checkFunc s).2
            (log ++ [PollEvent.eval, PollEvent.sleep interval]) := by
      rw [pollLoop]
      rcases hc : checkFunc s with ⟨⟨d, e⟩, s1⟩
      rw [hc] at h0
      simp only [Prod.mk.injEq] at h0
      obtain ⟨rfl, rfl⟩ := h0
      rfl
    have hrest : ∀ i, i < k → evalOutcome checkFunc (checkFunc s).2 i = (false, none) := by
      intro i hi
      rw [← evalOutcome_succ]
      exact h (i + 1) (Nat.succ_lt_succ hi)
    have e1 : k + 1 + n = k + n + 1 := by omega
    rw [e1, hstep, ih n (checkFunc s).2 _ hrest, stateBefore_succ, roundsLog_succ]
    simp

theorem roundsLog_intersperse (interval k : Nat) :
    roundsLog interval k ++ [PollEvent.eval]
      = List.intersperse (PollEvent.sleep interval) (List.replicate (k + 1) PollEvent.eval) := by
  induction k with
  | zero => simp [roundsLog]
  | succ k ih =>
    rw [roundsLog_succ, List.cons_append, List.cons_append, ih]
    simp [List.replicate_succ, List.intersperse]

theorem evalCount_roundsLog (interval k : Nat) (rest : List PollEvent) :
    evalCount (roundsLog interval k ++ rest) = k + evalCount rest := by
  induction k with
  | zero => simp [roundsLog]
  | succ k ih =>
    rw [roundsLog_succ]
    simp only [evalCount] at ih
    simp only [evalCount, List.cons_append, List.countP_cons, ih, PollEvent.isEval]
    simp
    omega

theorem sleepCount_roundsLog (interval k : Nat) (rest : List PollEvent) :
    sleepCount (roundsLog interval k ++ rest) = k + sleepCount rest := by
  induction k with
  | zero => simp [roundsLog]
  | succ k ih =>
    rw [roundsLog_succ]
    simp only [sleepCount] at ih
    simp only [sleepCount, List.cons_append, List.countP_cons, ih, PollEvent.isSleep]
    simp
    omega

theorem pollLoop_stop {τ : Type} (checkFunc : CheckFunc τ) (interval : Nat) (errorMsg : String)
    (k n : Nat) (s : τ) (hn : k < n)
    (hbefore : ∀ i, i < k → evalOutcome checkFunc s i = (false, none))
    (hstop : evalOutcome checkFunc s k ≠ (false, none)) :
    pollLoop checkFunc interval errorMsg n s []
      = { err := (evalOutcome checkFunc s k).2
          st := stateBefore checkFunc s (k + 1)
          log := roundsLog interval k ++ [PollEvent.eval] } := by
  obtain ⟨m, rfl⟩ : ∃ m, n = k + (m + 1) := ⟨n - k - 1, by omega⟩
  rw [pollLoop_rounds checkFunc interval errorMsg k (m + 1) s [] hbefore, pollLoop]
  have hst : stateBefore checkFunc s (k + 1) = (checkFunc (stateBefore checkFunc s k)).2 := by
    simp [stateBefore, Function.iterate_succ_apply']
  rw [hst]
  simp only [evalOutcome] at hstop ⊢
  rcases hc : checkFunc (stateBefore checkFunc s k) with ⟨⟨d, e⟩, s1⟩
  rw [hc] at hstop
  cases e with
  | some e => simp
  | none =>
    cases d with
    | true => simp
    | false => exact absurd rfl hstop

/-- C1: if the `k`-th evaluation of the predicate (`1 ≤ k ≤ maxRetries`) is the first to report
`done` and no evaluation up to it fails, `PollUntilCondition` returns `nil`; its control log is
`k` evaluations separated by sleeps, so it holds exactly `k` evaluations and `k - 1` sleeps,
starts with an evaluation and ends with the `k`-th evaluation. -/
theorem PollUntilCondition_first_done {τ : Type} (checkFunc : CheckFunc τ) (maxRetries : Int)
    (interval : Nat) (errorMsg : String) (s : τ) (k : Nat)
    (hk : 1 ≤ k) (hmax : (k : Int) ≤ maxRetries)
    (hbefore : ∀ i, i + 1 < k → evalOutcome checkFunc s i = (false, none))
    (hdone : evalOutcome checkFunc s (k - 1) = (true, none)) :
    (PollUntilCondition checkFunc maxRetries interval errorMsg s).err = none
    ∧ (PollUntilCondition checkFunc maxRetries interval errorMsg s).log
        = List.intersperse (PollEvent.sleep interval) (List.replicate k PollEvent.eval)
    ∧ evalCount (PollUntilCondition checkFunc maxRetries interval errorMsg s).log = k
    ∧ sleepCount (PollUntilCondition checkFunc maxRetries interval errorMsg s).log = k - 1
    ∧ (PollUntilCondition checkFunc maxRetries interval errorMsg s).log.head? = some PollEvent.eval
    ∧ (PollUntilCondition checkFunc maxRetries interval errorMsg s).log.getLast?
        = some PollEvent.eval
    ∧ (PollUntilCondition checkFunc maxRetries interval errorMsg s).st
        = stateBefore checkFunc s k := by
  obtain ⟨j, rfl⟩ : ∃ j, k = j + 1 := ⟨k - 1, by omega⟩
  have hn : j < maxRetries.toNat := by omega
  have hb : ∀ i, i < j → evalOutcome checkFunc s i = (false, none) :=
    fun i hi => hbefore i (by omega)
  have hd : evalOutcome checkFunc s j = (true, none) := by simpa using hdone
  have hrun := pollLoop_stop checkFunc interval errorMsg j maxRetries.toNat s hn hb
    (by rw [hd]; simp)
  have hlog : (PollUntilCondition checkFunc maxRetries interval errorMsg s).log
      = roundsLog interval j ++ [PollEvent.eval] := by
    rw [PollUntilCondition, hrun]
  refine ⟨?_, ?_, ?_, ?_, ?_, ?_, ?_⟩
  · rw [PollUntilCondition, hrun, hd]
  · rw [hlog, roundsLog_intersperse]
  · rw [hlog, evalCount_roundsLog]; simp [evalCount, PollEvent.isEval]
  · rw [hlog, sleepCount_roundsLog]; simp [sleepCount, PollEvent.isSleep]
  · rw [hlog]
    cases j with
    | zero => simp [roundsLog]
    | succ j => simp [roundsLog_succ]
  · rw [hlog]; simp
  · rw [PollUntilCondition, hrun]

/-- Witness for C1: the sample predicate reports `done` at its third evaluation, with a budget
of five. -/
theorem PollUntilCondition_first_done_witness :
    (PollUntilCondition sampleCheckDone 5 7 "timeout" 0).err = none
    ∧ (PollUntilCondition sampleCheckDone 5 7 "timeout" 0).log
        = List.intersperse (PollEvent.sleep 7) (List.replicate 3 PollEvent.eval)
    ∧ evalCount (PollUntilCondition sampleCheckDone 5 7 "timeout" 0).log = 3
    ∧ sleepCount (PollUntilCondition sampleCheckDone 5 7 "timeout" 0).log = 3 - 1
    ∧ (PollUntilCondition sampleCheckDone 5 7 "timeout" 0).log.head? = some PollEvent.eval
    ∧ (PollUntilCondition sampleCheckDone 5 7 "timeout" 0).log.getLast? = some PollEvent.eval
    ∧ (PollUntilCondition sampleCheckDone 5 7 "timeout" 0).st
        = stateBefore sampleCheckDone 0 3 :=
  PollUntilCondition_first_done sampleCheckDone 5 7 "timeout" 0 3 (by decide) (by decide)
    (by
      intro i hi
      have h2 : i = 0 ∨ i = 1 := by omega
      rcases h2 with rfl | rfl <;> rfl)
    (by rfl)

/-- C2: if the `j`-th evaluation of the predicate (`1 ≤ j ≤ maxRetries`) is the first to return
a non-nil error and no earlier evaluation reported `done`, `PollUntilCondition` returns that
very error, whatever `done` flag came with it, after exactly `j` evaluations (and the `j - 1`
sleeps between them): the log ends with the failing evaluation. -/
theorem PollUntilCondition_first_error {τ : Type} (checkFunc : CheckFunc τ) (maxRetries : Int)
    (interval : Nat) (errorMsg : String) (s : τ) (j : Nat) (done : Bool) (e : String)
    (hj : 1 ≤ j) (hmax : (j : Int) ≤ maxRetries)
    (hbefore : ∀ i, i + 1 < j → evalOutcome checkFunc s i = (false, none))
    (hfail : evalOutcome checkFunc s (j - 1) = (done, some e)) :
    (PollUntilCondition checkFunc maxRetries interval errorMsg s).err = some e
    ∧ evalCount (PollUntilCondition checkFunc maxRetries interval errorMsg s).log = j
    ∧ (PollUntilCondition checkFunc maxRetries interval errorMsg s).log
        = List.intersperse (PollEvent.sleep interval) (List.replicate j PollEvent.eval)
    ∧ (PollUntilCondition checkFunc maxRetries interval errorMsg s).st
        = stateBefore checkFunc s j := by
  obtain ⟨m, rfl⟩ : ∃ m, j = m + 1 := ⟨j - 1, by omega⟩
  have hn : m < maxRetries.toNat := by omega
  have hb : ∀ i, i < m → evalOutcome checkFunc s i = (false, none) :=
    fun i hi => hbefore i (by omega)
  have hd : evalOutcome checkFunc s m = (done, some e) := by simpa using hfail
  have hrun := pollLoop_stop checkFunc interval errorMsg m maxRetries.toNat s hn hb
    (by rw [hd]; simp)
  have hlog : (PollUntilCondition checkFunc maxRetries interval errorMsg s).log
      = roundsLog interval m ++ [PollEvent.eval] := by
    rw [PollUntilCondition, hrun]
  refine ⟨?_, ?_, ?_, ?_⟩
  · rw [PollUntilCondition, hrun, hd]
  · rw [hlog, evalCount_roundsLog]; simp [evalCount, PollEvent.isEval]
  · rw [hlog, roundsLog_intersperse]
  · rw [PollUntilCondition, hrun]

/-- Witness for C2: the sample predicate fails at its second evaluation while also reporting
`done`, with a budget of four. -/
theorem PollUntilCondition_first_error_witness :
    (PollUntilCondition sampleCheckFail 4 1 "timeout" 0).err = some "boom"
    ∧ evalCount (PollUntilCondition sampleCheckFail 4 1 "timeout" 0).log = 2
    ∧ (PollUntilCondition sampleCheckFail 4 1 "timeout" 0).log
        = List.intersperse (PollEvent.sleep 1) (List.replicate 2 PollEvent.eval)
    ∧ (PollUntilCondition sampleCheckFail 4 1 "timeout" 0).st
        = stateBefore sampleCheckFail 0 2 :=
  PollUntilCondition_first_error sampleCheckFail 4 1 "timeout" 0 2 true "boom"
    (by decide) (by decide)
    (by
      intro i hi
      have h0 : i = 0 := by omega
      subst h0
      rfl)
    (by rfl)

/-- C3: if no evaluation among the first `maxRetries` reports `done` or fails,
`PollUntilCondition` evaluates the predicate exactly `maxRetries` times (not at all when
`maxRetries ≤ 0`) and then returns the error whose text is `errorMsg`. -/
theorem PollUntilCondition_exhausted {τ : Type} (checkFunc : CheckFunc τ) (maxRetries : Int)
    (interval : Nat) (errorMsg : String) (s : τ)
    (hnever : ∀ i : Nat, (i : Int) < maxRetries → evalOutcome checkFunc s i = (false, none)) :
    (PollUntilCondition checkFunc maxRetries interval errorMsg s).err = some errorMsg
    ∧ evalCount (PollUntilCondition checkFunc maxRetries interval errorMsg s).log
        = maxRetries.toNat
    ∧ (maxRetries ≤ 0 →
        evalCount (PollUntilCondition checkFunc maxRetries interval errorMsg s).log = 0)
    ∧ (0 ≤ maxRetries →
        (evalCount (PollUntilCondition checkFunc maxRetries interval errorMsg s).log : Int)
          = maxRetries)
    ∧ (PollUntilCondition checkFunc maxRetries interval errorMsg s).st
        = stateBefore checkFunc s maxRetries.toNat := by
  have hb : ∀ i, i < maxRetries.toNat → evalOutcome checkFunc s i = (false, none) :=
    fun i hi => hnever i (by omega)
  have hrun := pollLoop_rounds checkFunc interval errorMsg maxRetries.toNat 0 s [] hb
  simp only [Nat.add_zero, List.nil_append, pollLoop] at hrun
  have hcount : evalCount (PollUntilCondition checkFunc maxRetries interval errorMsg s).log
      = maxRetries.toNat := by
    rw [PollUntilCondition, hrun]
    have := evalCount_roundsLog interval maxRetries.toNat []
    simpa [evalCount] using this
  refine ⟨?_, hcount, ?_, ?_, ?_⟩
  · rw [PollUntilCondition, hrun]
  · intro h0
    rw [hcount]
    omega
  · intro h0
    rw [hcount]
    omega
  · rw [PollUntilCondition, hrun]

/-- Witness for C3: a predicate that never reports `done` and never fails, with a budget of
three. -/
theorem PollUntilCondition_exhausted_witness :
    (PollUntilCondition sampleCheckNever 3 2 "gave up" 0).err = some "gave up"
    ∧ evalCount (PollUntilCondition sampleCheckNever 3 2 "gave up" 0).log = (3 : Int).toNat
    ∧ ((3 : Int) ≤ 0 →
        evalCount (PollUntilCondition sampleCheckNever 3 2 "gave up" 0).log = 0)
    ∧ ((0 : Int) ≤ 3 →
        (evalCount (PollUntilCondition sampleCheckNever 3 2 "gave up" 0).log : Int) = 3)
    ∧ (PollUntilCondition sampleCheckNever 3 2 "gave up" 0).st
        = stateBefore sampleCheckNever 0 (3 : Int).toNat :=
  PollUntilCondition_exhausted sampleCheckNever 3 2 "gave up" 0 (fun _ _ => rfl)

theorem pollLoop_success {τ : Type} (checkFunc : CheckFunc τ) (interval : Nat)
    (errorMsg : String) :
    ∀ (n : Nat) (s : τ) (log : List PollEvent),
      (pollLoop checkFunc interval errorMsg n s log).err = none →
      ∃ s0, checkFunc s0 = ((true, none), (pollLoop checkFunc interval errorMsg n s log).st) := by
  intro n
  induction n with
  | zero => intro s log h; simp [pollLoop] at h
  | succ n ih =>
    intro s log h
    rw [pollLoop] at h ⊢
    rcases hc : checkFunc s with ⟨⟨d, e⟩, s1⟩
    rw [hc] at h
    cases e with
    | some e => simp at h
    | none =>
      cases d with
      | true => exact ⟨s, by simpa using hc⟩
      | false => simpa using ih s1 _ (by simpa using h)

theorem pollLoop_failure_inv {τ : Type} (checkFunc : CheckFunc τ) (interval : Nat)
    (errorMsg : String) (I : τ → Prop)
    (hI : ∀ t r t1, I t → checkFunc t = (r, t1) → r ≠ (true, none) → I t1) :
    ∀ (n : Nat) (s : τ) (log : List PollEvent), I s →
      (pollLoop checkFunc interval errorMsg n s log).err ≠ none →
      I (pollLoop checkFunc interval errorMsg n s log).st := by
  intro n
  induction n with
  | zero => intro s log hs _; simpa [pollLoop] using hs
  | succ n ih =>
    intro s log hs h
    rw [pollLoop] at h ⊢
    rcases hc : checkFunc s with ⟨⟨d, e⟩, s1⟩
    rw [hc] at h
    cases e with
    | some e =>
      have h1 : I s1 := hI s _ s1 hs hc (by simp)
      simpa using h1
    | none =>
      cases d with
      | true => simp at h
      | false =>
        have h1 : I s1 := hI s _ s1 hs hc (by simp)
        simpa using ih s1 _ h1 (by simpa using h)

theorem findNewIn_spec (existingIDs : List String) (name : String) :
    ∀ (data : List Item) (id : String), findNewIn existingIDs name data = some id →
      id ∉ existingIDs ∧ ∃ x, x ∈ data ∧ x.ID = id ∧ (name ≠ "" → x.Name = name) := by
  intro data
  induction data with
  | nil => intro id h; simp [findNewIn] at h
  | cons x rest ih =>
    intro id h
    rw [findNewIn] at h
    by_cases hx : x.ID ∉ existingIDs
    · rw [if_pos hx] at h
      by_cases hn : name = "" ∨ x.Name = name
      · rw [if_pos hn] at h
        have hid : x.ID = id := by simpa using h
        refine ⟨hid ▸ hx, x, List.mem_cons_self _ _, hid, ?_⟩
        intro hne
        rcases hn with hn | hn
        · exact absurd hn hne
        · exact hn
      · rw [if_neg hn] at h
        obtain ⟨h1, y, hy, h2, h3⟩ := ih id h
        exact ⟨h1, y, List.mem_cons_of_mem _ hy, h2, h3⟩
    · rw [if_neg hx] at h
      obtain ⟨h1, y, hy, h2, h3⟩ := ih id h
      exact ⟨h1, y, List.mem_cons_of_mem _ hy, h2, h3⟩

/-- Discovery through an arbitrary listing call `list` whose successful answers can be read
back from the trace by `last`. -/
theorem findNew_discoveryOk {σ : Type} (list : St σ → ApiResult (List Item) × St σ)
    (last : List Event → Option (List Item))
    (hlast : ∀ s data s1, list s = (ApiResult.ok data, s1) → last s1.trace = some data)
    (existingIDs : List String) (name : String) (maxRetries : Int) (interval : Nat)
    (errorMsg : String) (st : St σ) :
    DiscoveryOk existingIDs name
      (PollUntilCondition (findNewCheck list existingIDs name) maxRetries interval errorMsg
        ("", st)).st.1
      (PollUntilCondition (findNewCheck list existingIDs name) maxRetries interval errorMsg
        ("", st)).err
      (last (PollUntilCondition (findNewCheck list existingIDs name) maxRetries interval errorMsg
        ("", st)).st.2.trace) := by
  constructor
  · intro herr
    obtain ⟨s0, hs0⟩ := pollLoop_success (findNewCheck list existingIDs name) interval errorMsg
      maxRetries.toNat ("", st) [] herr
    rw [PollUntilCondition]
    generalize (pollLoop (findNewCheck list existingIDs name) interval errorMsg
      maxRetries.toNat ("", st) []).st = fin at hs0 ⊢
    simp only [findNewCheck] at hs0
    rcases hl : list s0.2 with ⟨resp, s1⟩
    rw [hl] at hs0
    cases resp with
    | error e => simp at hs0
    | ok data =>
      simp only at hs0
      cases hf : findNewIn existingIDs name data with
      | none => rw [hf] at hs0; simp at hs0
      | some id =>
        rw [hf] at hs0
        simp only [Prod.mk.injEq, true_and] at hs0
        subst hs0
        obtain ⟨h1, x, hx, h2, h3⟩ := findNewIn_spec existingIDs name data id hf
        exact ⟨h1, data, hlast s0.2 data s1 hl, x, hx, h2, h3⟩
  · intro herr
    refine pollLoop_failure_inv (findNewCheck list existingIDs name) interval errorMsg
      (fun s => s.1 = "") ?_ maxRetries.toNat ("", st) [] rfl herr
    intro t r t1 ht hc hr
    simp only [findNewCheck] at hc
    rcases hl : list t.2 with ⟨resp, s1⟩
    rw [hl] at hc
    cases resp with
    | error e =>
      simp only [Prod.mk.injEq] at hc
      rw [← hc.2]; exact ht
    | ok data =>
      simp only at hc
      cases hf : findNewIn existingIDs name data with
      | none =>
        rw [hf] at hc
        simp only [Prod.mk.injEq] at hc
        rw [← hc.2]; exact ht
      | some id =>
        rw [hf] at hc
        simp only [Prod.mk.injEq] at hc
        exact absurd hc.1.symm hr

/-- C4: for each of `FindNewInstanceID`, `FindNewNetworkID`, `FindNewVolumeID` and
`FindNewBucketID`: when no error is returned, the returned identifier is not a key of
`existingIDs` and is the `ID` of an item of the latest listing (the answer of the last client
call of the run) whose `Name` equals the given name if that name is non-empty; when an error is
returned, the returned identifier is the empty string. -/
theorem FindNew_discovery {σ : Type} (c : Client σ) (zoneID : String)
    (existingIDs : List String) (name : String) (maxRetries : Int) (interval : Nat) (st : St σ) :
    DiscoveryOk existingIDs name
      (FindNewInstanceID c zoneID existingIDs name maxRetries interval st).1.1
      (FindNewInstanceID c zoneID existingIDs name maxRetries interval st).1.2
      (lastListInstances zoneID
        (FindNewInstanceID c zoneID existingIDs name maxRetries interval st).2.trace)
    ∧ DiscoveryOk existingIDs name
      (FindNewNetworkID c zoneID existingIDs name maxRetries interval st).1.1
      (FindNewNetworkID c zoneID existingIDs name maxRetries interval st).1.2
      (lastListNetworks zoneID
        (FindNewNetworkID c zoneID existingIDs name maxRetries interval st).2.trace)
    ∧ DiscoveryOk existingIDs name
      (FindNewVolumeID c zoneID existingIDs name maxRetries interval st).1.1
      (FindNewVolumeID c zoneID existingIDs name maxRetries interval st).1.2
      (lastListInstanceVolumes zoneID
        (FindNewVolumeID c zoneID existingIDs name maxRetries interval st).2.trace)
    ∧ DiscoveryOk existingIDs name
      (FindNewBucketID c zoneID existingIDs name maxRetries interval st).1.1
      (FindNewBucketID c zoneID existingIDs name maxRetries interval st).1.2
      (lastGetObjectStorageBuckets zoneID
        (FindNewBucketID c zoneID existingIDs name maxRetries interval st).2.trace) := by
  refine ⟨?_, ?_, ?_, ?_⟩
  · refine findNew_discoveryOk (callListInstances c zoneID) (lastListInstances zoneID) ?_
      existingIDs name maxRetries interval _ st
    intro s data s1 h
    simp only [callListInstances, Prod.mk.injEq] at h
    rw [← h.2]
    simp [lastListInstances, h.1]
  · refine findNew_discoveryOk (callListNetworks c zoneID) (lastListNetworks zoneID) ?_
      existingIDs name maxRetries interval _ st
    intro s data s1 h
    simp only [callListNetworks, Prod.mk.injEq] at h
    rw [← h.2]
    simp [lastListNetworks, h.1]
  · refine findNew_discoveryOk (callListInstanceVolumes c zoneID)
      (lastListInstanceVolumes zoneID) ?_ existingIDs name maxRetries interval _ st
    intro s data s1 h
    simp only [callListInstanceVolumes, Prod.mk.injEq] at h
    rw [← h.2]
    simp [lastListInstanceVolumes, h.1]
  · refine findNew_discoveryOk (callGetObjectStorageBuckets c zoneID)
      (lastGetObjectStorageBuckets zoneID) ?_ existingIDs name maxRetries interval _ st
    intro s data s1 h
    simp only [callGetObjectStorageBuckets, Prod.mk.injEq] at h
    rw [← h.2]
    simp [lastGetObjectStorageBuckets, h.1]

/-! ### Maps and the attach/detach delta -/

theorem GoMap.mem_keys (m : GoMap) (k : String) :
    k ∈ m.keys ↔ ∃ v, (k, v) ∈ m.entries := by
  simp [GoMap.keys]

theorem GoMap.keys_nodup (m : GoMap) : m.keys.Nodup := by
  simp [GoMap.keys, List.nodup_dedup]

theorem GoMap.get_false_of_not_mem (m : GoMap) (k : String) (h : k ∉ m.keys) :
    m.get k = false := by
  have hnone : m.entries.find? (fun kv => decide (kv.1 = k)) = none := by
    rw [List.find?_eq_none]
    intro kv hkv hk
    apply h
    rw [GoMap.mem_keys]
    have hk1 : kv.1 = k := by simpa using hk
    exact ⟨kv.2, by rw [← hk1]; exact hkv⟩
  simp [GoMap.get, hnone]

theorem GoMap.get_eq_true_iff (m : GoMap) (hm : m.AllTrue) (k : String) :
    m.get k = true ↔ k ∈ m.keys := by
  constructor
  · intro h
    by_contra hk
    rw [GoMap.get_false_of_not_mem m k hk] at h
    exact Bool.false_ne_true h
  · exact hm k

theorem RangeOrder.mem_iff (order : RangeOrder) (h : order.Valid) (l : List String) (k : String) :
    k ∈ order l ↔ k ∈ l :=
  (h l).mem_iff

theorem RangeOrder.nodup (order : RangeOrder) (h : order.Valid) (l : List String)
    (hl : l.Nodup) : (order l).Nodup :=
  (h l).nodup_iff.mpr hl

theorem mem_networksToDetach (order : RangeOrder) (horder : order.Valid)
    (planNetworkIDs stateNetworkIDs : GoMap) (hplan : planNetworkIDs.AllTrue) (n : String) :
    n ∈ networksToDetach order planNetworkIDs stateNetworkIDs
      ↔ n ∈ stateNetworkIDs.keys ∧ n ∉ planNetworkIDs.keys := by
  rw [networksToDetach, List.mem_filter, RangeOrder.mem_iff order horder,
    ← GoMap.get_eq_true_iff planNetworkIDs hplan]
  simp

theorem mem_networksToAttach (order : RangeOrder) (horder : order.Valid)
    (planNetworkIDs stateNetworkIDs : GoMap) (hstate : stateNetworkIDs.AllTrue) (n : String) :
    n ∈ networksToAttach order planNetworkIDs stateNetworkIDs
      ↔ n ∈ planNetworkIDs.keys ∧ n ∉ stateNetworkIDs.keys := by
  rw [networksToAttach, List.mem_filter, RangeOrder.mem_iff order horder,
    ← GoMap.get_eq_true_iff stateNetworkIDs hstate]
  simp

theorem GoMap.ofKeys_allTrue (ids : List String) : (GoMap.ofKeys ids).AllTrue := by
  intro k _
  induction ids with
  | nil =>
    rename_i hk
    simp [GoMap.ofKeys, GoMap.keys] at hk
  | cons x rest ih =>
    rename_i hk
    by_cases hx : x = k
    · simp [GoMap.ofKeys, GoMap.get, List.find?, hx]
    · have hk1 : k ∈ (GoMap.ofKeys rest).keys := by
        simp only [GoMap.mem_keys, GoMap.ofKeys, List.mem_map, Prod.mk.injEq] at hk ⊢
        obtain ⟨v, a, ha, h1, h2⟩ := hk
        rcases List.mem_cons.mp ha with h | h
        · exact absurd (h ▸ h1 : x = k) hx
        · exact ⟨v, a, h, h1, h2⟩
      have := ih hk1
      simpa [GoMap.ofKeys, GoMap.get, List.find?, hx] using this

/-- C5: for desired (`planNetworkIDs`) and prior-managed (`stateNetworkIDs`) maps whose values
are all `true`, and whatever the visiting order of the two `range` loops, `networksToDetach`
holds exactly the prior-managed identifiers that are not desired, `networksToAttach` exactly the
desired identifiers that are not prior-managed, neither list has a duplicate, and the two lists
are disjoint. -/
theorem UpdateInstanceNetworks_delta (orders : RangeOrders) (planNetworkIDs stateNetworkIDs : GoMap)
    (horders : orders.Valid) (hplan : planNetworkIDs.AllTrue) (hstate : stateNetworkIDs.AllTrue) :
    (∀ n, n ∈ networksToDetach orders.detach planNetworkIDs stateNetworkIDs
        ↔ n ∈ stateNetworkIDs.keys ∧ n ∉ planNetworkIDs.keys)
    ∧ (∀ n, n ∈ networksToAttach orders.attach planNetworkIDs stateNetworkIDs
        ↔ n ∈ planNetworkIDs.keys ∧ n ∉ stateNetworkIDs.keys)
    ∧ (networksToDetach orders.detach planNetworkIDs stateNetworkIDs).Nodup
    ∧ (networksToAttach orders.attach planNetworkIDs stateNetworkIDs).Nodup
    ∧ List.Disjoint (networksToDetach orders.detach planNetworkIDs stateNetworkIDs)
        (networksToAttach orders.attach planNetworkIDs stateNetworkIDs) := by
  obtain ⟨_, hd, ha, _, _⟩ := horders
  refine ⟨mem_networksToDetach orders.detach hd _ _ hplan,
    mem_networksToAttach orders.attach ha _ _ hstate, ?_, ?_, ?_⟩
  · exact (RangeOrder.nodup _ hd _ (GoMap.keys_nodup _)).filter _
  · exact (RangeOrder.nodup _ ha _ (GoMap.keys_nodup _)).filter _
  · intro n h1 h2
    rw [mem_networksToDetach orders.detach hd _ _ hplan] at h1
    rw [mem_networksToAttach orders.attach ha _ _ hstate] at h2
    exact h1.2 h2.1

theorem RangeOrders.identity_valid : RangeOrders.identity.Valid := by
  refine ⟨?_, ?_, ?_, ?_, ?_⟩ <;> intro l <;> exact List.Perm.refl l

theorem RangeOrders.reversed_valid : RangeOrders.reversed.Valid := by
  refine ⟨?_, ?_, ?_, ?_, ?_⟩ <;> intro l <;> exact List.reverse_perm l

/-- Witness for C5: desired `{A, B}`, prior-managed `{A, C}`, the maps visited in reverse
order. -/
theorem UpdateInstanceNetworks_delta_witness :
    (∀ n, n ∈ networksToDetach RangeOrders.reversed.detach (GoMap.ofKeys ["A", "B"])
          (GoMap.ofKeys ["A", "C"])
        ↔ n ∈ (GoMap.ofKeys ["A", "C"]).keys ∧ n ∉ (GoMap.ofKeys ["A", "B"]).keys)
    ∧ (∀ n, n ∈ networksToAttach RangeOrders.reversed.attach (GoMap.ofKeys ["A", "B"])
          (GoMap.ofKeys ["A", "C"])
        ↔ n ∈ (GoMap.ofKeys ["A", "B"]).keys ∧ n ∉ (GoMap.ofKeys ["A", "C"]).keys)
    ∧ (networksToDetach RangeOrders.reversed.detach (GoMap.ofKeys ["A", "B"])
        (GoMap.ofKeys ["A", "C"])).Nodup
    ∧ (networksToAttach RangeOrders.reversed.attach (GoMap.ofKeys ["A", "B"])
        (GoMap.ofKeys ["A", "C"])).Nodup
    ∧ List.Disjoint
        (networksToDetach RangeOrders.reversed.detach (GoMap.ofKeys ["A", "B"])
          (GoMap.ofKeys ["A", "C"]))
        (networksToAttach RangeOrders.reversed.attach (GoMap.ofKeys ["A", "B"])
          (GoMap.ofKeys ["A", "C"])) :=
  UpdateInstanceNetworks_delta RangeOrders.reversed (GoMap.ofKeys ["A", "B"])
    (GoMap.ofKeys ["A", "C"]) RangeOrders.reversed_valid (GoMap.ofKeys_allTrue _)
    (GoMap.ofKeys_allTrue _)

/-! ### Traces of the client calls -/

@[simp] theorem St.addError_trace {σ : Type} (st : St σ) (a b : String) :
    (st.addError a b).trace = st.trace := rfl

@[simp] theorem St.addWarning_trace {σ : Type} (st : St σ) (a b : String) :
    (st.addWarning a b).trace = st.trace := rfl

@[simp] theorem St.sleep_trace {σ : Type} (st : St σ) (n : Nat) :
    (st.sleep n).trace = st.trace ++ [Event.Sleep n] := rfl

@[simp] theorem St.sleep_diags {σ : Type} (st : St σ) (n : Nat) :
    (st.sleep n).diags = st.diags := rfl

@[simp] theorem callListNetworkInstances_trace {σ : Type} (c : Client σ) (z n i : String)
    (st : St σ) :
    (callListNetworkInstances c z n i st).2.trace
      = st.trace ++ [Event.ListNetworkInstances z n i (callListNetworkInstances c z n i st).1] :=
  rfl

@[simp] theorem callListNetworkInstances_diags {σ : Type} (c : Client σ) (z n i : String)
    (st : St σ) : (callListNetworkInstances c z n i st).2.diags = st.diags := rfl

@[simp] theorem callDisconnect_trace {σ : Type} (c : Client σ) (z n i a : String) (st : St σ) :
    (callDisconnectInstanceFromNetwork c z n i a st).2.trace
      = st.trace ++ [Event.DisconnectInstanceFromNetwork z n i a
          (callDisconnectInstanceFromNetwork c z n i a st).1] := rfl

@[simp] theorem callDisconnect_diags {σ : Type} (c : Client σ) (z n i a : String) (st : St σ) :
    (callDisconnectInstanceFromNetwork c z n i a st).2.diags = st.diags := rfl

@[simp] theorem callConnect_trace {σ : Type} (c : Client σ) (z n i : String) (st : St σ) :
    (callConnectInstanceToNetwork c z n i st).2.trace
      = st.trace ++ [Event.ConnectInstanceToNetwork z n i
          (callConnectInstanceToNetwork c z n i st).1] := rfl

@[simp] theorem callConnect_diags {σ : Type} (c : Client σ) (z n i : String) (st : St σ) :
    (callConnectInstanceToNetwork c z n i st).2.diags = st.diags := rfl

@[simp] theorem callShowInstance_trace {σ : Type} (c : Client σ) (z i : String) (st : St σ) :
    (callShowInstance c z i st).2.trace
      = st.trace ++ [Event.ShowInstance z i (callShowInstance c z i st).1] := rfl

@[simp] theorem callShowInstance_diags {σ : Type} (c : Client σ) (z i : String) (st : St σ) :
    (callShowInstance c z i st).2.diags = st.diags := rfl

@[simp] theorem callStartInstance_trace {σ : Type} (c : Client σ) (z i : String) (st : St σ) :
    (callStartInstance c z i st).2.trace
      = st.trace ++ [Event.StartInstance z i (callStartInstance c z i st).1] := rfl

@[simp] theorem callStopInstance_trace {σ : Type} (c : Client σ) (z i : String) (f : Bool)
    (st : St σ) :
    (callStopInstance c z i f st).2.trace
      = st.trace ++ [Event.StopInstance z i f (callStopInstance c z i f st).1] := rfl

@[simp] theorem callRebootInstance_trace {σ : Type} (c : Client σ) (z i : String) (st : St σ) :
    (callRebootInstance c z i st).2.trace
      = st.trace ++ [Event.RebootInstance z i (callRebootInstance c z i st).1] := rfl

@[simp] theorem callRebuildInstance_trace {σ : Type} (c : Client σ) (z i img : String)
    (st : St σ) :
    (callRebuildInstance c z i img st).2.trace
      = st.trace ++ [Event.RebuildInstance z i img (callRebuildInstance c z i img st).1] := rfl

@[simp] theorem callStartInstance_diags {σ : Type} (c : Client σ) (z i : String) (st : St σ) :
    (callStartInstance c z i st).2.diags = st.diags := rfl

@[simp] theorem callStopInstance_diags {σ : Type} (c : Client σ) (z i : String) (f : Bool)
    (st : St σ) : (callStopInstance c z i f st).2.diags = st.diags := rfl

@[simp] theorem callRebootInstance_diags {σ : Type} (c : Client σ) (z i : String) (st : St σ) :
    (callRebootInstance c z i st).2.diags = st.diags := rfl

@[simp] theorem callRebuildInstance_diags {σ : Type} (c : Client σ) (z i img : String)
    (st : St σ) : (callRebuildInstance c z i img st).2.diags = st.diags := rfl

theorem Ext.extRefl {σ : Type} (P : Event → Prop) (st : St σ) : Ext P st st :=
  ⟨[], by simp, by simp⟩

theorem Ext.extTrans {σ : Type} {P : Event → Prop} {a b d : St σ} (h1 : Ext P a b)
    (h2 : Ext P b d) : Ext P a d := by
  obtain ⟨t1, e1, p1⟩ := h1
  obtain ⟨t2, e2, p2⟩ := h2
  refine ⟨t1 ++ t2, by rw [e2, e1, List.append_assoc], ?_⟩
  intro e he
  rcases List.mem_append.mp he with h | h
  · exact p1 e h
  · exact p2 e h

theorem Ext.extMono {σ : Type} {P Q : Event → Prop} {a b : St σ} (h : Ext P a b)
    (hPQ : ∀ e, P e → Q e) : Ext Q a b := by
  obtain ⟨t, e1, p1⟩ := h
  exact ⟨t, e1, fun e he => hPQ e (p1 e he)⟩

theorem Ext.of_trace_eq {σ : Type} (P : Event → Prop) {a b : St σ} (h : b.trace = a.trace) :
    Ext P a b :=
  ⟨[], by simp [h], by simp⟩

theorem Ext.single {σ : Type} {P : Event → Prop} {a b : St σ} (e : Event)
    (h : b.trace = a.trace ++ [e]) (he : P e) : Ext P a b :=
  ⟨[e], h, by simpa using he⟩

theorem waitDisconnected_ext {σ : Type} (c : Client σ) (z n i a : String) :
    ∀ (k : Nat) (st : St σ), Ext Event.Quiet st (waitDisconnected c z n i a k st).2 := by
  intro k
  induction k with
  | zero => intro st; exact Ext.extRefl _ _
  | succ k ih =>
    intro st
    have hcall : Ext Event.Quiet st (callListNetworkInstances c z n i st).2 :=
      Ext.single _ (callListNetworkInstances_trace c z n i st) rfl
    have hsleep : ∀ s : St σ, Ext Event.Quiet s (s.sleep 1) :=
      fun s => Ext.single _ (St.sleep_trace s 1) rfl
    rw [waitDisconnected]
    rcases hc : callListNetworkInstances c z n i st with ⟨resp, st1⟩
    rw [hc] at hcall
    cases resp with
    | error err =>
      simp only
      split
      · exact hcall.extTrans (Ext.of_trace_eq _ rfl)
      · exact hcall.extTrans ((hsleep st1).extTrans (ih _))
    | ok data =>
      simp only
      split
      · split
        · exact hcall.extTrans (Ext.of_trace_eq _ rfl)
        · exact hcall.extTrans ((hsleep st1).extTrans (ih _))
      · exact hcall

theorem waitConnected_ext {σ : Type} (c : Client σ) (z n i : String) :
    ∀ (k : Nat) (st : St σ), Ext Event.Quiet st (waitConnected c z n i k st).2 := by
  intro k
  induction k with
  | zero => intro st; exact Ext.extRefl _ _
  | succ k ih =>
    intro st
    have hcall : Ext Event.Quiet st (callListNetworkInstances c z n i st).2 :=
      Ext.single _ (callListNetworkInstances_trace c z n i st) rfl
    have hsleep : ∀ s : St σ, Ext Event.Quiet s (s.sleep 1) :=
      fun s => Ext.single _ (St.sleep_trace s 1) rfl
    rw [waitConnected]
    rcases hc : callListNetworkInstances c z n i st with ⟨resp, st1⟩
    rw [hc] at hcall
    cases resp with
    | error err =>
      simp only
      split
      · exact hcall.extTrans (Ext.of_trace_eq _ rfl)
      · exact hcall.extTrans ((hsleep st1).extTrans (ih _))
    | ok data =>
      simp only
      split
      · exact hcall
      · split
        · exact hcall.extTrans (Ext.of_trace_eq _ rfl)
        · exact hcall.extTrans ((hsleep st1).extTrans (ih _))

/-! ### The default-interface guard -/

theorem DefaultGuarded.of_quiet :
    ∀ (t : List Event) (p : Option Event), (∀ e, e ∈ t → Event.Quiet e) → DefaultGuarded p t := by
  intro t
  induction t with
  | nil => intro p _; trivial
  | cons e rest ih =>
    intro p h
    refine ⟨?_, ih _ (fun x hx => h x (List.mem_cons_of_mem _ hx))⟩
    have he := h e (List.mem_cons_self _ _)
    cases e <;> trivial

theorem DefaultGuarded.append :
    ∀ (t1 t2 : List Event) (p : Option Event), DefaultGuarded p t1 →
      (∀ q, DefaultGuarded q t2) → DefaultGuarded p (t1 ++ t2) := by
  intro t1
  induction t1 with
  | nil => intro t2 p _ h2; simpa using h2 p
  | cons e rest ih =>
    intro t2 p h1 h2
    exact ⟨h1.1, ih t2 _ h1.2 h2⟩

theorem DefaultGuarded.split :
    ∀ (pre post : List Event) (p : Option Event) (e : Event),
      DefaultGuarded p (pre ++ e :: post) →
      GuardedAfter (match pre.getLast? with | some x => some x | none => p) e := by
  intro pre
  induction pre with
  | nil => intro post p e h; simpa using h.1
  | cons x rest ih =>
    intro post p e h
    have h2 := ih post (some x) e h.2
    cases rest with
    | nil => simpa using h2
    | cons y more =>
      rw [List.getLast?_cons_cons]
      cases hl : (y :: more).getLast? with
      | none => simp at hl
      | some w => rw [hl] at h2; exact h2

theorem NeverDisconnectsDefault.of_guarded (t : List Event) (h : DefaultGuarded none t) :
    NeverDisconnectsDefault t := by
  intro pre post z n i a err ht
  subst ht
  have hg := DefaultGuarded.split pre post none _ h
  obtain ⟨data, r, hprev, h1, h2, h3⟩ := hg
  cases hl : pre.getLast? with
  | none => rw [hl] at hprev; simp at hprev
  | some x =>
    rw [hl] at hprev
    have hx : x = Event.ListNetworkInstances z n i (ApiResult.ok data) := by simpa using hprev
    obtain ⟨pre0, rfl⟩ : ∃ pre0, pre = pre0 ++ [x] := by
      rcases List.eq_nil_or_concat pre with h0 | ⟨l, b, hb⟩
      · subst h0; simp at hl
      · subst hb
        have hbx : b = x := by simpa using hl
        exact ⟨l, by rw [hbx]; simp⟩
    exact ⟨pre0, data, r, by rw [hx], h1, h2, h3⟩

theorem GuardedExt.ofQuietExt {σ : Type} {st st1 : St σ} (h : Ext Event.Quiet st st1) :
    GuardedExt st st1 := by
  obtain ⟨t, e1, p1⟩ := h
  exact ⟨t, e1, fun p => DefaultGuarded.of_quiet t p p1⟩

theorem GuardedExt.guardTrans {σ : Type} {a b d : St σ} (h1 : GuardedExt a b) (h2 : GuardedExt b d) :
    GuardedExt a d := by
  obtain ⟨t1, e1, p1⟩ := h1
  obtain ⟨t2, e2, p2⟩ := h2
  exact ⟨t1 ++ t2, by rw [e2, e1, List.append_assoc],
    fun p => DefaultGuarded.append t1 t2 p (p1 p) p2⟩

theorem DetachNetworksFromInstance_guarded {σ : Type} (c : Client σ) (z i : String) :
    ∀ (nets : List String) (d : String) (st : St σ),
      GuardedExt st (DetachNetworksFromInstance c z i nets d st) := by
  intro nets
  induction nets with
  | nil => intro d st; exact GuardedExt.ofQuietExt (Ext.extRefl _ _)
  | cons n rest ih =>
    intro d st
    have hcall : Ext Event.Quiet st (callListNetworkInstances c z n i st).2 :=
      Ext.single _ (callListNetworkInstances_trace c z n i st) rfl
    have htr := callListNetworkInstances_trace c z n i st
    rw [DetachNetworksFromInstance]
    rcases hc : callListNetworkInstances c z n i st with ⟨resp, st1⟩
    rw [hc] at hcall htr
    simp only at htr
    cases resp with
    | error err => exact GuardedExt.ofQuietExt (hcall.extTrans (Ext.of_trace_eq _ rfl))
    | ok data =>
      simp only
      split
      · exact GuardedExt.ofQuietExt (hcall.extTrans (Ext.of_trace_eq _ rfl))
      · rename_i hid
        split
        · exact (GuardedExt.ofQuietExt hcall).guardTrans (ih d st1)
        · rename_i hdef
          cases hf : firstAttachment data i n with
          | none => simp [hf] at hid
          | some r =>
            simp only [hf] at hid hdef ⊢
            have hd2 := callDisconnect_trace c z n i r.ID st1
            rcases hdc : callDisconnectInstanceFromNetwork c z n i r.ID st1 with ⟨err, st2⟩
            rw [hdc] at hd2
            simp only at hd2
            -- the listing followed by the disconnect is a guarded pair
            have hpair : GuardedExt st st2 := by
              refine ⟨[Event.ListNetworkInstances z n i (ApiResult.ok data),
                Event.DisconnectInstanceFromNetwork z n i r.ID err], ?_, ?_⟩
              · rw [hd2, htr]; simp
              · intro p
                refine ⟨trivial, ⟨data, r, rfl, hf, rfl, ?_⟩, trivial⟩
                simpa using hdef
            cases err with
            | some e => exact hpair.guardTrans (GuardedExt.ofQuietExt (Ext.of_trace_eq _ rfl))
            | none =>
              simp only
              have hw := waitDisconnected_ext c z n i r.ID 30 st2
              rcases hwc : waitDisconnected c z n i r.ID 30 st2 with ⟨ret, st3⟩
              rw [hwc] at hw
              cases ret with
              | true => exact hpair.guardTrans (GuardedExt.ofQuietExt hw)
              | false => exact (hpair.guardTrans (GuardedExt.ofQuietExt hw)).guardTrans (ih d st3)

/-- C6: whatever list of networks and whatever `defaultNetworkID` it is given, every
`DisconnectInstanceFromNetwork` call issued by `DetachNetworksFromInstance` directly follows the
`ListNetworkInstances` read of the same network and instance, and the attachment record the
code took from that read (the first record of that instance and network, whose identifier is
the one being disconnected) has `IsDefault = false`: no disconnect is issued for a network
whose record, as just read, is default. -/
theorem DetachNetworksFromInstance_never_default {σ : Type} (c : Client σ)
    (zoneID instanceID : String) (networksToDetach : List String) (defaultNetworkID : String)
    (st : St σ) :
    ∃ t, (DetachNetworksFromInstance c zoneID instanceID networksToDetach defaultNetworkID
            st).trace = st.trace ++ t
      ∧ NeverDisconnectsDefault t := by
  obtain ⟨t, ht, hg⟩ :=
    DetachNetworksFromInstance_guarded c zoneID instanceID networksToDetach defaultNetworkID st
  exact ⟨t, ht, NeverDisconnectsDefault.of_guarded t (hg none)⟩

/-! ### Diagnostics -/

theorem Diagnostics.append_single (diags : Diagnostics) (d : Diagnostic) :
    Diagnostics.Append diags [d] = if d ∈ diags then diags else diags ++ [d] := by
  simp only [Diagnostics.Append]

theorem Diagnostics.hasError_iff (diags : Diagnostics) :
    Diagnostics.HasError diags = true ↔ ∃ d, d ∈ diags ∧ d.severity = Severity.error := by
  simp [Diagnostics.HasError]

theorem Diagnostics.hasError_addError (diags : Diagnostics) (a b : String) :
    Diagnostics.HasError (Diagnostics.AddError diags a b) = true := by
  rw [Diagnostics.hasError_iff, Diagnostics.AddError, Diagnostics.append_single]
  split
  · rename_i h; exact ⟨_, h, rfl⟩
  · exact ⟨{ severity := Severity.error, summary := a, detail := b }, by simp, rfl⟩

theorem Diagnostics.hasError_addWarning (diags : Diagnostics) (a b : String) :
    Diagnostics.HasError (Diagnostics.AddWarning diags a b) = Diagnostics.HasError diags := by
  rw [Diagnostics.AddWarning, Diagnostics.append_single]
  split
  · rfl
  · simp [Diagnostics.HasError]

theorem Diagnostics.warnings_addError (diags : Diagnostics) (a b : String) :
    Diagnostics.warnings (Diagnostics.AddError diags a b) = Diagnostics.warnings diags := by
  rw [Diagnostics.AddError, Diagnostics.append_single]
  split
  · rfl
  · simp [Diagnostics.warnings]

theorem Diagnostics.mem_addError (diags : Diagnostics) (a b : String) :
    ({ severity := Severity.error, summary := a, detail := b } : Diagnostic)
      ∈ Diagnostics.AddError diags a b := by
  rw [Diagnostics.AddError, Diagnostics.append_single]
  split
  · assumption
  · simp

theorem Diagnostics.hasError_append_warning (diags : Diagnostics) (w : Diagnostic)
    (hw : w.severity = Severity.warning) :
    Diagnostics.HasError (Diagnostics.Append diags [w]) = Diagnostics.HasError diags := by
  rw [Diagnostics.append_single]
  split
  · rfl
  · simp [Diagnostics.HasError, hw]

theorem Diagnostics.warnings_append_fresh (diags : Diagnostics) (w : Diagnostic)
    (hw : w.severity = Severity.warning) (hfresh : w ∉ diags) :
    Diagnostics.warnings (Diagnostics.Append diags [w]) = Diagnostics.warnings diags ++ [w] := by
  rw [Diagnostics.append_single, if_neg hfresh]
  simp [Diagnostics.warnings, hw]

@[simp] theorem St.addError_hasError {σ : Type} (st : St σ) (a b : String) :
    Diagnostics.HasError (st.addError a b).diags = true :=
  Diagnostics.hasError_addError _ _ _

@[simp] theorem St.addError_warnings {σ : Type} (st : St σ) (a b : String) :
    Diagnostics.warnings (st.addError a b).diags = Diagnostics.warnings st.diags :=
  Diagnostics.warnings_addError _ _ _

@[simp] theorem St.addWarning_hasError {σ : Type} (st : St σ) (a b : String) :
    Diagnostics.HasError (st.addWarning a b).diags = Diagnostics.HasError st.diags :=
  Diagnostics.hasError_addWarning _ _ _

/-! ### Read-only parts of the network reconciler -/

theorem FindDefaultNetworkID_ext {σ : Type} (c : Client σ) (z i : String) :
    ∀ (nets : List String) (st : St σ),
      Ext Event.Quiet st (FindDefaultNetworkID c z i nets st).2
      ∧ (FindDefaultNetworkID c z i nets st).2.diags = st.diags := by
  intro nets
  induction nets with
  | nil => intro st; exact ⟨Ext.extRefl _ _, rfl⟩
  | cons n rest ih =>
    intro st
    have hcall : Ext Event.Quiet st (callListNetworkInstances c z n i st).2 :=
      Ext.single _ (callListNetworkInstances_trace c z n i st) rfl
    have hd := callListNetworkInstances_diags c z n i st
    rw [FindDefaultNetworkID]
    rcases hc : callListNetworkInstances c z n i st with ⟨resp, st1⟩
    rw [hc] at hcall hd
    simp only at hd
    cases resp with
    | error err => exact ⟨hcall.extTrans (ih st1).1, (ih st1).2.trans hd⟩
    | ok data =>
      simp only
      split
      · exact ⟨hcall, hd⟩
      · exact ⟨hcall.extTrans (ih st1).1, (ih st1).2.trans hd⟩

theorem hasOtherDefault_ext {σ : Type} (c : Client σ) (z i d : String) :
    ∀ (nets : List String) (st : St σ),
      Ext Event.Quiet st (hasOtherDefault c z i d nets st).2
      ∧ (hasOtherDefault c z i d nets st).2.diags = st.diags := by
  intro nets
  induction nets with
  | nil => intro st; exact ⟨Ext.extRefl _ _, rfl⟩
  | cons n rest ih =>
    intro st
    have hcall : Ext Event.Quiet st (callListNetworkInstances c z n i st).2 :=
      Ext.single _ (callListNetworkInstances_trace c z n i st) rfl
    have hd := callListNetworkInstances_diags c z n i st
    rw [hasOtherDefault]
    split
    · exact ih st
    · rcases hc : callListNetworkInstances c z n i st with ⟨resp, st1⟩
      rw [hc] at hcall hd
      simp only at hd
      cases resp with
      | error err => exact ⟨hcall.extTrans (ih st1).1, (ih st1).2.trans hd⟩
      | ok data =>
        simp only
        split
        · exact ⟨hcall, hd⟩
        · exact ⟨hcall.extTrans (ih st1).1, (ih st1).2.trans hd⟩

theorem VerifyDefaultNetworkChange_ext {σ : Type} (c : Client σ) (z i d : String)
    (remaining : List String) (st : St σ) :
    Ext Event.Quiet st (VerifyDefaultNetworkChange c z i d remaining st)
    ∧ Diagnostics.HasError (VerifyDefaultNetworkChange c z i d remaining st).diags
        = Diagnostics.HasError st.diags := by
  have h1 := hasOtherDefault_ext c z i d remaining st
  rw [VerifyDefaultNetworkChange]
  rcases hc : hasOtherDefault c z i d remaining st with ⟨b, st1⟩
  rw [hc] at h1
  simp only at h1
  cases b with
  | true => exact ⟨h1.1, by rw [h1.2]⟩
  | false =>
    simp only
    cases remaining with
    | nil => exact ⟨h1.1, by rw [h1.2]⟩
    | cons first more =>
      simp only
      have hcall : Ext Event.Quiet st1 (callListNetworkInstances c z first i st1).2 :=
        Ext.single _ (callListNetworkInstances_trace c z first i st1) rfl
      have hd := callListNetworkInstances_diags c z first i st1
      rcases hc2 : callListNetworkInstances c z first i st1 with ⟨resp, st2⟩
      rw [hc2] at hcall hd
      simp only at hd
      cases resp with
      | error err => exact ⟨h1.1.extTrans hcall, by rw [hd, h1.2]⟩
      | ok data =>
        simp only
        split
        · exact ⟨h1.1.extTrans hcall, by rw [hd, h1.2]⟩
        · split
          · exact ⟨h1.1.extTrans hcall, by rw [hd, h1.2]⟩
          · exact ⟨h1.1.extTrans (hcall.extTrans (Ext.of_trace_eq _ rfl)),
              by rw [St.addWarning_hasError, hd, h1.2]⟩

theorem DefaultGuarded.of_noDisconnect :
    ∀ (t : List Event) (p : Option Event), (∀ e, e ∈ t → e.isDisconnect = false) →
      DefaultGuarded p t := by
  intro t
  induction t with
  | nil => intro p _; trivial
  | cons e rest ih =>
    intro p h
    refine ⟨?_, ih _ (fun x hx => h x (List.mem_cons_of_mem _ hx))⟩
    have he := h e (List.mem_cons_self _ _)
    cases e <;> trivial

theorem GuardedExt.ofNoDisconnectExt {σ : Type} {st st1 : St σ}
    (h : Ext (fun e => e.isDisconnect = false) st st1) : GuardedExt st st1 := by
  obtain ⟨t, e1, p1⟩ := h
  exact ⟨t, e1, fun p => DefaultGuarded.of_noDisconnect t p p1⟩

theorem Event.Quiet.noDisconnect (e : Event) (h : Event.Quiet e) : e.isDisconnect = false := by
  cases e <;> first | rfl | exact absurd h (by simp [Event.Quiet, Event.isAttachmentChange])

theorem AttachNetworksToInstance_ext {σ : Type} (c : Client σ) (z i : String) :
    ∀ (nets : List String) (st : St σ),
      Ext (fun e => e.isDisconnect = false) st (AttachNetworksToInstance c z i nets st) := by
  intro nets
  induction nets with
  | nil => intro st; exact Ext.extRefl _ _
  | cons n rest ih =>
    intro st
    have hcall : Ext (fun e => e.isDisconnect = false) st
        (callConnectInstanceToNetwork c z n i st).2 :=
      Ext.single _ (callConnect_trace c z n i st) rfl
    rw [AttachNetworksToInstance]
    rcases hc : callConnectInstanceToNetwork c z n i st with ⟨err, st1⟩
    rw [hc] at hcall
    cases err with
    | some e => exact hcall.extTrans (Ext.of_trace_eq _ rfl)
    | none =>
      simp only
      have hw := (waitConnected_ext c z n i 30 st1).extMono Event.Quiet.noDisconnect
      rcases hwc : waitConnected c z n i 30 st1 with ⟨ret, st2⟩
      rw [hwc] at hw
      cases ret with
      | true => exact hcall.extTrans hw
      | false => exact (hcall.extTrans hw).extTrans (ih st2)

theorem UpdateInstanceNetworks_guarded {σ : Type} (c : Client σ) (orders : RangeOrders)
    (z i : String) (planNetworkIDs stateNetworkIDs : GoMap) (st : St σ) :
    GuardedExt st (UpdateInstanceNetworks c orders z i planNetworkIDs stateNetworkIDs st) := by
  have hf := (FindDefaultNetworkID_ext c z i (getKeys orders.stateKeys stateNetworkIDs) st).1
  rw [UpdateInstanceNetworks]
  rcases hc : FindDefaultNetworkID c z i (getKeys orders.stateKeys stateNetworkIDs) st
    with ⟨d, st1⟩
  rw [hc] at hf
  simp only at hf ⊢
  have h1 : GuardedExt st st1 := GuardedExt.ofQuietExt hf
  have h2 : GuardedExt st1
      (if d ≠ "" then
        VerifyDefaultNetworkChange c z i d (getKeys orders.planKeys planNetworkIDs) st1
      else st1) := by
    split
    · exact GuardedExt.ofQuietExt (VerifyDefaultNetworkChange_ext c z i d _ st1).1
    · exact GuardedExt.ofQuietExt (Ext.extRefl _ _)
  generalize (if d ≠ "" then
        VerifyDefaultNetworkChange c z i d (getKeys orders.planKeys planNetworkIDs) st1
      else st1) = st2 at h2 ⊢
  have h3 := DetachNetworksFromInstance_guarded c z i
        (networksToDetach orders.detach planNetworkIDs stateNetworkIDs) d st2
  generalize DetachNetworksFromInstance c z i
        (networksToDetach orders.detach planNetworkIDs stateNetworkIDs) d st2 = st3 at h3 ⊢
  have h4 := GuardedExt.ofNoDisconnectExt (AttachNetworksToInstance_ext c z i (networksToAttach orders.attach planNetworkIDs stateNetworkIDs) st3)
  split
  · exact h1
  · split
    · exact h1.guardTrans h2
    · split
      · exact (h1.guardTrans h2).guardTrans h3
      · exact ((h1.guardTrans h2).guardTrans h3).guardTrans h4

/-- C7 (as amended): for every desired map, prior-managed map, visiting order and remote,
every `DisconnectInstanceFromNetwork` call issued by `UpdateInstanceNetworks` directly follows
a `ListNetworkInstances` read of the same network and instance whose attachment record (the
one whose identifier is disconnected) has `IsDefault = false`; the default attachment is kept
by skipping it at detach time, not by leaving it out of `networksToDetach`. -/
theorem UpdateInstanceNetworks_never_disconnects_default {σ : Type} (c : Client σ)
    (orders : RangeOrders) (zoneID instanceID : String) (planNetworkIDs stateNetworkIDs : GoMap)
    (st : St σ) :
    ∃ t, (UpdateInstanceNetworks c orders zoneID instanceID planNetworkIDs stateNetworkIDs
            st).trace = st.trace ++ t
      ∧ NeverDisconnectsDefault t := by
  obtain ⟨t, ht, hg⟩ :=
    UpdateInstanceNetworks_guarded c orders zoneID instanceID planNetworkIDs stateNetworkIDs st
  exact ⟨t, ht, NeverDisconnectsDefault.of_guarded t (hg none)⟩

/-- C7 (counterexample to the claim as stated): with prior-managed `{A}`, desired `{B}` and a
remote in which `A` is the default attachment of the instance, `UpdateInstanceNetworks` finds
`A` as the default network and the list `networksToDetach` it computes is `[A]`. -/
theorem networksToDetach_contains_default :
    (FindDefaultNetworkID simClient "zone" "vm"
        (getKeys RangeOrders.identity.stateKeys (GoMap.ofKeys ["A"]))
        (simStart [simAttachment "A" true] "UP")).1 = "A"
    ∧ networksToDetach RangeOrders.identity.detach (GoMap.ofKeys ["B"]) (GoMap.ofKeys ["A"])
        = ["A"]
    ∧ (simAttachment "A" true).IsDefault = true := by
  decide

/-! ### The lifecycle blocks of `Update` issue no connect and no disconnect -/

theorem pollLoop_rel {τ : Type} (checkFunc : CheckFunc τ) (interval : Nat) (errorMsg : String)
    (R : τ → τ → Prop) (hrefl : ∀ s, R s s) (htrans : ∀ a b d, R a b → R b d → R a d)
    (hstep : ∀ s, R s (checkFunc s).2) :
    ∀ (n : Nat) (s : τ) (log : List PollEvent),
      R s (pollLoop checkFunc interval errorMsg n s log).st := by
  intro n
  induction n with
  | zero => intro s log; exact hrefl s
  | succ n ih =>
    intro s log
    have h1 := hstep s
    rw [pollLoop]
    rcases hc : checkFunc s with ⟨⟨d, e⟩, s1⟩
    rw [hc] at h1
    cases e with
    | some e => simpa using h1
    | none =>
      cases d with
      | true => simpa using h1
      | false => exact htrans _ _ _ h1 (ih s1 _)

theorem QuietSameDiags.quietRefl {σ : Type} (st : St σ) : QuietSameDiags st st :=
  ⟨Ext.extRefl _ _, rfl⟩

theorem QuietSameDiags.quietTrans {σ : Type} {a b d : St σ} (h1 : QuietSameDiags a b)
    (h2 : QuietSameDiags b d) : QuietSameDiags a d :=
  ⟨h1.1.extTrans h2.1, h2.2.trans h1.2⟩

theorem callShowInstance_quiet {σ : Type} (c : Client σ) (z i : String) (st : St σ) :
    QuietSameDiags st (callShowInstance c z i st).2 :=
  ⟨Ext.single _ (callShowInstance_trace c z i st) rfl, rfl⟩

theorem callStopInstance_quiet {σ : Type} (c : Client σ) (z i : String) (f : Bool) (st : St σ) :
    QuietSameDiags st (callStopInstance c z i f st).2 :=
  ⟨Ext.single _ (callStopInstance_trace c z i f st) rfl, rfl⟩

theorem callStartInstance_quiet {σ : Type} (c : Client σ) (z i : String) (st : St σ) :
    QuietSameDiags st (callStartInstance c z i st).2 :=
  ⟨Ext.single _ (callStartInstance_trace c z i st) rfl, rfl⟩

theorem callRebootInstance_quiet {σ : Type} (c : Client σ) (z i : String) (st : St σ) :
    QuietSameDiags st (callRebootInstance c z i st).2 :=
  ⟨Ext.single _ (callRebootInstance_trace c z i st) rfl, rfl⟩

theorem callRebuildInstance_quiet {σ : Type} (c : Client σ) (z i img : String) (st : St σ) :
    QuietSameDiags st (callRebuildInstance c z i img st).2 :=
  ⟨Ext.single _ (callRebuildInstance_trace c z i img st) rfl, rfl⟩

theorem WaitForInstanceStatus_quiet {σ : Type} (c : Client σ) (z i : String)
    (targets : List String) (maxRetries : Int) (interval : Nat) (st : St σ) :
    QuietSameDiags st (WaitForInstanceStatus c z i targets maxRetries interval st).2 := by
  rw [WaitForInstanceStatus, PollUntilCondition]
  refine pollLoop_rel (instanceStatusCheck c z i targets) interval _
    (fun s s1 => QuietSameDiags s.2 s1.2) (fun s => QuietSameDiags.quietRefl s.2)
    (fun _ _ _ h1 h2 => h1.quietTrans h2) ?_ maxRetries.toNat ("", st) []
  intro s
  have h := callShowInstance_quiet c z i s.2
  simp only [instanceStatusCheck]
  rcases hc : callShowInstance c z i s.2 with ⟨resp, s1⟩
  rw [hc] at h
  cases resp <;> exact h

theorem EnsureInstanceStopped_quiet {σ : Type} (c : Client σ) (z i : String) (st : St σ) :
    Ext Event.Quiet st (EnsureInstanceStopped c z i st).2
    ∧ ((EnsureInstanceStopped c z i st).1 ≠ none →
        Diagnostics.HasError (EnsureInstanceStopped c z i st).2.diags = true) := by
  have h := callShowInstance_quiet c z i st
  rw [EnsureInstanceStopped]
  rcases hc : callShowInstance c z i st with ⟨resp, st1⟩
  rw [hc] at h
  cases resp with
  | error err => exact ⟨h.1.extTrans (Ext.of_trace_eq _ rfl), fun _ => St.addError_hasError _ _ _⟩
  | ok data =>
    simp only
    have hs : QuietSameDiags st1
        (if IsInstanceRunning data.Status = true then callStopInstance c z i false st1
          else (none, st1)).2 := by
      split
      · exact callStopInstance_quiet c z i false st1
      · exact QuietSameDiags.quietRefl st1
    rcases hstop : (if IsInstanceRunning data.Status = true then callStopInstance c z i false st1
          else (none, st1)) with ⟨err, st2⟩
    rw [hstop] at hs
    cases err with
    | some e =>
      exact ⟨(h.quietTrans hs).1.extTrans (Ext.of_trace_eq _ rfl), fun _ => St.addError_hasError _ _ _⟩
    | none =>
      simp only
      have hw := WaitForInstanceStatus_quiet c z i
        [InstanceStatusStopped, InstanceStatusSTOPPED, InstanceStatusDown]
        MaxInstanceStatusRetries DefaultPollInterval st2
      rcases hwc : WaitForInstanceStatus c z i
        [InstanceStatusStopped, InstanceStatusSTOPPED, InstanceStatusDown]
        MaxInstanceStatusRetries DefaultPollInterval st2 with ⟨⟨status, err⟩, st3⟩
      rw [hwc] at hw
      cases err with
      | some e =>
        exact ⟨((h.quietTrans hs).quietTrans hw).1.extTrans (Ext.of_trace_eq _ rfl),
          fun _ => St.addError_hasError _ _ _⟩
      | none => exact ⟨((h.quietTrans hs).quietTrans hw).1, fun hne => absurd rfl hne⟩

theorem lifecycleWaitRunning_quiet {σ : Type} (c : Client σ) (z i what : String) (st : St σ) :
    QuietSameDiags st (lifecycleWaitRunning c z i what st).2 := by
  have hw := WaitForInstanceStatus_quiet c z i [InstanceStatusRunning, InstanceStatusUP]
    MaxInstanceStatusRetries DefaultPollInterval st
  rw [lifecycleWaitRunning]
  rcases hwc : WaitForInstanceStatus c z i [InstanceStatusRunning, InstanceStatusUP]
    MaxInstanceStatusRetries DefaultPollInterval st with ⟨⟨status, err⟩, st1⟩
  rw [hwc] at hw
  cases err <;> exact hw

theorem HandleInstanceLifecycle_quiet {σ : Type} (c : Client σ)
    (z i desiredState currentStatus : String) (st : St σ) :
    QuietSameDiags st (HandleInstanceLifecycle c z i desiredState currentStatus st).2 := by
  rw [HandleInstanceLifecycle]
  split
  · split
    · have h := callRebootInstance_quiet c z i st
      rcases hc : callRebootInstance c z i st with ⟨err, st1⟩
      rw [hc] at h
      cases err with
      | some e => exact h
      | none => exact h.quietTrans (lifecycleWaitRunning_quiet c z i "reboot" st1)
    · exact QuietSameDiags.quietRefl st
  · split
    · split
      · exact QuietSameDiags.quietRefl st
      · have h := callStartInstance_quiet c z i st
        rcases hc : callStartInstance c z i st with ⟨err, st1⟩
        rw [hc] at h
        cases err with
        | some e => exact h
        | none => exact h.quietTrans (lifecycleWaitRunning_quiet c z i "start" st1)
    · split
      · have hs : QuietSameDiags st
            (if IsInstanceRunning currentStatus = true then callStopInstance c z i false st
              else (none, st)).2 := by
          split
          · exact callStopInstance_quiet c z i false st
          · exact QuietSameDiags.quietRefl st
        simp only
        rcases hstop : (if IsInstanceRunning currentStatus = true then
            callStopInstance c z i false st else (none, st)) with ⟨err, st1⟩
        rw [hstop] at hs
        cases err with
        | some e => exact hs
        | none =>
          simp only
          have hw := WaitForInstanceStatus_quiet c z i
            [InstanceStatusStopped, InstanceStatusSTOPPED, InstanceStatusDown]
            MaxInstanceStatusRetries DefaultPollInterval st1
          rcases hwc : WaitForInstanceStatus c z i
            [InstanceStatusStopped, InstanceStatusSTOPPED, InstanceStatusDown]
            MaxInstanceStatusRetries DefaultPollInterval st1 with ⟨⟨status, err⟩, st2⟩
          rw [hwc] at hw
          cases err <;> exact hs.quietTrans hw
      · exact QuietSameDiags.quietRefl st

theorem PopulateInstanceState_quiet {σ : Type} (c : Client σ) (data : InstanceResourceModel)
    (st : St σ) :
    Ext Event.Quiet st (PopulateInstanceState c data st).2
    ∧ (PopulateInstanceState c data st).1.NetworkIDs = data.NetworkIDs := by
  have h := callShowInstance_quiet c data.ZoneID.ValueString data.ID.ValueString st
  rw [PopulateInstanceState]
  rcases hc : callShowInstance c data.ZoneID.ValueString data.ID.ValueString st with ⟨resp, st1⟩
  rw [hc] at h
  cases resp with
  | error err => exact ⟨h.1.extTrans (Ext.of_trace_eq _ rfl), rfl⟩
  | ok r => exact ⟨h.1, rfl⟩

theorem updateImage_ok {σ : Type} (c : Client σ) (plan : InstanceResourceModel) (st : St σ) :
    StageOk plan st (updateImage c plan st) := by
  have h1 := EnsureInstanceStopped_quiet c plan.ZoneID.ValueString plan.ID.ValueString st
  rw [updateImage]
  rcases hc : EnsureInstanceStopped c plan.ZoneID.ValueString plan.ID.ValueString st
    with ⟨err, st1⟩
  rw [hc] at h1
  cases err with
  | some e => exact ⟨h1.1, fun _ => h1.2 (by simp), rfl⟩
  | none =>
    simp only
    have h2 := callRebuildInstance_quiet c plan.ZoneID.ValueString plan.ID.ValueString
      plan.VMImageID.ValueString st1
    rcases hc2 : callRebuildInstance c plan.ZoneID.ValueString plan.ID.ValueString
      plan.VMImageID.ValueString st1 with ⟨err, st2⟩
    rw [hc2] at h2
    cases err with
    | some e =>
      exact ⟨(h1.1.extTrans h2.1).extTrans (Ext.of_trace_eq _ rfl),
        fun _ => St.addError_hasError _ _ _, rfl⟩
    | none =>
      simp only
      have h3 := WaitForInstanceStatus_quiet c plan.ZoneID.ValueString plan.ID.ValueString
        [InstanceStatusUP] MaxInstanceStatusRetries DefaultPollInterval st2
      rcases hc3 : WaitForInstanceStatus c plan.ZoneID.ValueString plan.ID.ValueString
        [InstanceStatusUP] MaxInstanceStatusRetries DefaultPollInterval st2
        with ⟨⟨status, err⟩, st3⟩
      rw [hc3] at h3
      cases err with
      | some e =>
        exact ⟨((h1.1.extTrans h2.1).extTrans h3.1).extTrans (Ext.of_trace_eq _ rfl),
          fun _ => St.addError_hasError _ _ _, rfl⟩
      | none =>
        simp only
        have h4 := PopulateInstanceState_quiet c plan st3
        rcases hc4 : PopulateInstanceState c plan st3 with ⟨plan1, st4⟩
        rw [hc4] at h4
        exact ⟨((h1.1.extTrans h2.1).extTrans h3.1).extTrans h4.1, fun h => h, h4.2⟩

theorem updateLifecycle_ok {σ : Type} (c : Client σ) (plan state : InstanceResourceModel)
    (st : St σ) : StageOk plan st (updateLifecycle c plan state st) := by
  rw [updateLifecycle]
  simp only
  generalize (if (!plan.Status.IsNull && !plan.Status.IsUnknown
      && decide (plan.Status.ValueString ≠ "")) = true then plan.Status.ValueString
    else if (!state.Status.IsNull && !state.Status.IsUnknown) = true then
      state.Status.ValueString
    else "") = currentStatus
  have h1 := HandleInstanceLifecycle_quiet c plan.ZoneID.ValueString plan.ID.ValueString
    plan.DesiredState.ValueString currentStatus st
  rcases hc : HandleInstanceLifecycle c plan.ZoneID.ValueString plan.ID.ValueString
    plan.DesiredState.ValueString currentStatus st with ⟨result, st1⟩
  rw [hc] at h1
  simp only
  split
  · rename_i herr
    exact ⟨h1.1.extTrans (Ext.of_trace_eq _ rfl), fun _ => herr, rfl⟩
  · have hz : (if result.Status.IsNull = true then plan
        else { plan with Status := result.Status }).ZoneID = plan.ZoneID := by
      split <;> rfl
    have hi : (if result.Status.IsNull = true then plan
        else { plan with Status := result.Status }).ID = plan.ID := by
      split <;> rfl
    have hn : (if result.Status.IsNull = true then plan
        else { plan with Status := result.Status }).NetworkIDs = plan.NetworkIDs := by
      split <;> rfl
    generalize (if result.Status.IsNull = true then plan
        else { plan with Status := result.Status }) = plan1 at hz hi hn ⊢
    have h2 := callShowInstance_quiet c plan1.ZoneID.ValueString plan1.ID.ValueString
      ({ st1 with diags := Diagnostics.Append st1.diags result.Diags } : St σ)
    rcases hc2 : callShowInstance c plan1.ZoneID.ValueString plan1.ID.ValueString
      ({ st1 with diags := Diagnostics.Append st1.diags result.Diags } : St σ) with ⟨resp, st3⟩
    rw [hc2] at h2
    have h12 : Ext Event.Quiet st st3 :=
      (h1.1.extTrans (Ext.of_trace_eq _ rfl)).extTrans h2.1
    cases resp with
    | error err =>
      exact ⟨h12.extTrans (Ext.of_trace_eq _ rfl), fun _ => St.addError_hasError _ _ _, hn⟩
    | ok r =>
      refine ⟨h12, fun h => absurd h (by simp), ?_⟩
      simp only
      split <;> split <;> exact hn

theorem updateBeforeNetworks_ok {σ : Type} (c : Client σ) (plan state : InstanceResourceModel)
    (st : St σ) : StageOk plan st (updateBeforeNetworks c plan state st) := by
  rw [updateBeforeNetworks]
  simp only
  have h1 : StageOk plan st
      (if decide (plan.VMImageID ≠ state.VMImageID) = true then
        updateImage c { plan with Password := state.Password, Username := state.Username } st
      else { returned := false
             plan := { plan with Password := state.Password, Username := state.Username }
             st := st }) := by
    split
    · exact updateImage_ok c _ st
    · exact ⟨Ext.extRefl _ _, fun h => absurd h (by simp), rfl⟩
  generalize (if decide (plan.VMImageID ≠ state.VMImageID) = true then
        updateImage c { plan with Password := state.Password, Username := state.Username } st
      else { returned := false
             plan := { plan with Password := state.Password, Username := state.Username }
             st := st }) = s1 at h1 ⊢
  split
  · exact h1
  · split
    · have h2 := updateLifecycle_ok c s1.plan state s1.st
      exact ⟨h1.1.extTrans h2.1, h2.2.1, h2.2.2.trans h1.2.2⟩
    · exact h1

theorem updateNetworks_empty {σ : Type} (c : Client σ) (orders : RangeOrders)
    (sortSlice : SortSlice) (plan state : InstanceResourceModel) (st : St σ)
    (hempty : (networkIDMap plan.NetworkIDs).len = 0) :
    updateNetworks c orders sortSlice plan state st
      = { st := st.addError invalidConfiguration.summary invalidConfiguration.detail
          newState := none } := by
  simp [updateNetworks, reconcileNetworks, hempty, invalidConfiguration]

theorem updateBeforeNetworks_unchanged {σ : Type} (c : Client σ)
    (plan state : InstanceResourceModel) (st : St σ)
    (himage : plan.VMImageID = state.VMImageID)
    (hdesired : plan.DesiredState.IsNull = true ∨ plan.DesiredState = state.DesiredState) :
    updateBeforeNetworks c plan state st
      = { returned := false
          plan := { plan with Password := state.Password, Username := state.Username }
          st := st } := by
  rcases hdesired with h | h <;> simp [updateBeforeNetworks, himage, h]

/-- C8 (as amended): when the desired (plan) network identifier set is empty and `Update` is
entered without a decoding error, `Update` issues no connect and no disconnect call, never
reaches `resp.State.Set` and ends with an error recorded. The emptiness check sits after the
image and lifecycle blocks (which may issue stop, start, reboot and rebuild calls): if these
blocks do not return, the error recorded is `Invalid Configuration` and no remote call at all
is issued after them; in particular, when the image and the desired state are unchanged,
`Update` issues no remote call at all and records `Invalid Configuration`. -/
theorem Update_empty_plan {σ : Type} (c : Client σ) (orders : RangeOrders)
    (sortSlice : SortSlice) (plan state : InstanceResourceModel) (st : St σ)
    (hempty : (networkIDMap plan.NetworkIDs).len = 0)
    (hclean : Diagnostics.HasError st.diags = false) :
    (∃ t, (Update c orders sortSlice plan state st).st.trace = st.trace ++ t
        ∧ ∀ e, e ∈ t → e.isAttachmentChange = false)
    ∧ (Update c orders sortSlice plan state st).newState = none
    ∧ Diagnostics.HasError (Update c orders sortSlice plan state st).st.diags = true
    ∧ ((updateBeforeNetworks c plan state st).returned = false →
        invalidConfiguration ∈ (Update c orders sortSlice plan state st).st.diags
        ∧ (Update c orders sortSlice plan state st).st.trace
            = (updateBeforeNetworks c plan state st).st.trace
        ∧ (Update c orders sortSlice plan state st).st.remote
            = (updateBeforeNetworks c plan state st).st.remote)
    ∧ (plan.VMImageID = state.VMImageID →
        (plan.DesiredState.IsNull = true ∨ plan.DesiredState = state.DesiredState) →
        invalidConfiguration ∈ (Update c orders sortSlice plan state st).st.diags
        ∧ (Update c orders sortSlice plan state st).st.trace = st.trace
        ∧ (Update c orders sortSlice plan state st).st.remote = st.remote) := by
  have hok := updateBeforeNetworks_ok c plan state st
  have hunch := updateBeforeNetworks_unchanged c plan state st
  have hU : Update c orders sortSlice plan state st
      = match updateBeforeNetworks c plan state st with
        | { returned := true, plan := _, st := st1 } => { st := st1, newState := none }
        | { returned := false, plan := plan1, st := st1 } =>
          updateNetworks c orders sortSlice plan1 state st1 := by
    rw [Update, hclean]; rfl
  rw [hU]
  rcases hb : updateBeforeNetworks c plan state st with ⟨ret, plan1, st1⟩
  rw [hb] at hok hunch
  obtain ⟨hext, herr, hids⟩ := hok
  simp only at hext herr hids
  cases ret with
  | true =>
    refine ⟨hext, rfl, herr rfl, fun h => absurd h (by simp), ?_⟩
    intro h1 h2
    have := hunch h1 h2
    simp at this
  | false =>
    simp only
    rw [updateNetworks_empty c orders sortSlice plan1 state st1 (by rw [hids]; exact hempty)]
    refine ⟨hext.extTrans (Ext.of_trace_eq _ rfl), rfl, St.addError_hasError _ _ _, ?_, ?_⟩
    · intro _
      exact ⟨Diagnostics.mem_addError _ _ _, rfl, rfl⟩
    · intro h1 h2
      have h3 := hunch h1 h2
      simp only [Stage.mk.injEq, true_and] at h3
      refine ⟨Diagnostics.mem_addError _ _ _, ?_, ?_⟩
      · rw [← h3.2]; rfl
      · rw [← h3.2]; rfl

/-- Witness for C8: the plan keeps the image and the desired state and has an empty network
list. -/
theorem Update_empty_plan_witness :
    (∃ t, (Update simClient RangeOrders.identity simSortSlice
            (simModel "img1" [] [] TFString.null)
            (simModel "img1" ["A"] [simAttachment "A" true] TFString.null)
            (simStart [simAttachment "A" true] "UP")).st.trace
          = (simStart [simAttachment "A" true] "UP").trace ++ t
        ∧ ∀ e, e ∈ t → e.isAttachmentChange = false)
    ∧ (Update simClient RangeOrders.identity simSortSlice
          (simModel "img1" [] [] TFString.null)
          (simModel "img1" ["A"] [simAttachment "A" true] TFString.null)
          (simStart [simAttachment "A" true] "UP")).newState = none
    ∧ Diagnostics.HasError (Update simClient RangeOrders.identity simSortSlice
          (simModel "img1" [] [] TFString.null)
          (simModel "img1" ["A"] [simAttachment "A" true] TFString.null)
          (simStart [simAttachment "A" true] "UP")).st.diags = true :=
  have h := Update_empty_plan simClient RangeOrders.identity simSortSlice
    (simModel "img1" [] [] TFString.null)
    (simModel "img1" ["A"] [simAttachment "A" true] TFString.null)
    (simStart [simAttachment "A" true] "UP") (by decide) (by decide)
  ⟨h.1, h.2.1, h.2.2.1⟩

/-- C8 (counterexample to the claim as stated): the plan changes the image and has an empty
network list; run against the sample remote, `Update` records `Invalid Configuration` but has
by then issued a stop call and a rebuild call. -/
theorem Update_empty_plan_after_rebuild :
    (networkIDMap (simModel "img2" [] [] TFString.null).NetworkIDs).len = 0
    ∧ invalidConfiguration ∈
        (Update simClient RangeOrders.identity simSortSlice (simModel "img2" [] [] TFString.null)
          (simModel "img1" ["A"] [simAttachment "A" true] TFString.null)
          (simStart [simAttachment "A" true] "UP")).st.diags
    ∧ Event.StopInstance "zone" "vm" false none ∈
        (Update simClient RangeOrders.identity simSortSlice (simModel "img2" [] [] TFString.null)
          (simModel "img1" ["A"] [simAttachment "A" true] TFString.null)
          (simStart [simAttachment "A" true] "UP")).st.trace
    ∧ Event.RebuildInstance "zone" "vm" "img2" none ∈
        (Update simClient RangeOrders.identity simSortSlice (simModel "img2" [] [] TFString.null)
          (simModel "img1" ["A"] [simAttachment "A" true] TFString.null)
          (simStart [simAttachment "A" true] "UP")).st.trace
    ∧ ((Update simClient RangeOrders.identity simSortSlice (simModel "img2" [] [] TFString.null)
          (simModel "img1" ["A"] [simAttachment "A" true] TFString.null)
          (simStart [simAttachment "A" true] "UP")).st.trace.filter Event.isMutating).length
        = 2 := by
  decide

/-! ### Drift handling of `Update` -/

theorem GoMap.mem_keys_set (m : GoMap) (k : String) (v : Bool) (n : String) :
    n ∈ (m.set k v).keys ↔ n = k ∨ n ∈ m.keys := by
  simp only [GoMap.mem_keys, GoMap.set, List.mem_cons, Prod.mk.injEq]
  constructor
  · rintro ⟨w, h | h⟩
    · exact Or.inl h.1
    · exact Or.inr ⟨w, h⟩
  · rintro (h | ⟨w, h⟩)
    · exact ⟨v, Or.inl ⟨h, rfl⟩⟩
    · exact ⟨w, Or.inr h⟩

theorem GoMap.get_set (m : GoMap) (k : String) (v : Bool) (n : String) :
    (m.set k v).get n = if k = n then v else m.get n := by
  by_cases h : k = n
  · simp [GoMap.get, GoMap.set, List.find?, h]
  · simp [GoMap.get, GoMap.set, List.find?, h]

theorem GoMap.allTrue_set (m : GoMap) (hm : m.AllTrue) (k : String) :
    (m.set k true).AllTrue := by
  intro n hn
  rw [GoMap.get_set]
  split
  · rfl
  · rename_i hk
    rcases (GoMap.mem_keys_set m k true n).mp hn with h | h
    · exact absurd h.symm hk
    · exact hm n h

theorem foldUnmanaged_spec (unmanaged : List String) :
    ∀ (stateNetworkIDs : GoMap), stateNetworkIDs.AllTrue →
      (foldUnmanaged stateNetworkIDs unmanaged).AllTrue
      ∧ ∀ n, n ∈ (foldUnmanaged stateNetworkIDs unmanaged).keys
          ↔ n ∈ stateNetworkIDs.keys ∨ n ∈ unmanaged := by
  induction unmanaged with
  | nil => intro m hm; exact ⟨hm, fun n => by simp [foldUnmanaged]⟩
  | cons k rest ih =>
    intro m hm
    have h := ih (m.set k true) (GoMap.allTrue_set m hm k)
    refine ⟨h.1, fun n => ?_⟩
    have h2 := h.2 n
    simp only [foldUnmanaged, List.foldl_cons] at h2 ⊢
    rw [h2, GoMap.mem_keys_set]
    simp only [List.mem_cons]
    tauto

theorem mem_unmanagedNetworks (order : RangeOrder) (horder : order.Valid)
    (actualNetworkIDs stateNetworkIDs planNetworkIDs : GoMap) (hplan : planNetworkIDs.AllTrue)
    (hstate : stateNetworkIDs.AllTrue) (n : String) :
    n ∈ unmanagedNetworks order actualNetworkIDs stateNetworkIDs planNetworkIDs
      ↔ n ∈ actualNetworkIDs.keys ∧ n ∉ planNetworkIDs.keys ∧ n ∉ stateNetworkIDs.keys := by
  rw [unmanagedNetworks, List.mem_filter, RangeOrder.mem_iff order horder,
    ← GoMap.get_eq_true_iff planNetworkIDs hplan, ← GoMap.get_eq_true_iff stateNetworkIDs hstate]
  simp only [Bool.and_eq_true, Bool.not_eq_true', Bool.not_eq_true]
  tauto

theorem waitDisconnected_diags {σ : Type} (c : Client σ) (z n i a : String) :
    ∀ (k : Nat) (st : St σ),
      Diagnostics.warnings (waitDisconnected c z n i a k st).2.diags
        = Diagnostics.warnings st.diags
      ∧ ((waitDisconnected c z n i a k st).1 = true →
          Diagnostics.HasError (waitDisconnected c z n i a k st).2.diags = true) := by
  intro k
  induction k with
  | zero => intro st; exact ⟨rfl, fun h => absurd h (by simp [waitDisconnected])⟩
  | succ k ih =>
    intro st
    have hd := callListNetworkInstances_diags c z n i st
    rw [waitDisconnected]
    rcases hc : callListNetworkInstances c z n i st with ⟨resp, st1⟩
    rw [hc] at hd
    simp only at hd
    cases resp with
    | error err =>
      simp only
      split
      · exact ⟨by rw [St.addError_warnings, hd], fun _ => St.addError_hasError _ _ _⟩
      · have h := ih (st1.sleep 1)
        rw [St.sleep_diags, hd] at h
        exact h
    | ok data =>
      simp only
      split
      · split
        · exact ⟨by rw [St.addError_warnings, hd], fun _ => St.addError_hasError _ _ _⟩
        · have h := ih (st1.sleep 1)
          rw [St.sleep_diags, hd] at h
          exact h
      · exact ⟨by rw [hd], fun h => absurd h (by simp)⟩

theorem DetachNetworksFromInstance_warnings {σ : Type} (c : Client σ) (z i : String) :
    ∀ (nets : List String) (d : String) (st : St σ),
      Diagnostics.warnings (DetachNetworksFromInstance c z i nets d st).diags
        = Diagnostics.warnings st.diags := by
  intro nets
  induction nets with
  | nil => intro d st; rfl
  | cons n rest ih =>
    intro d st
    have hd := callListNetworkInstances_diags c z n i st
    rw [DetachNetworksFromInstance]
    rcases hc : callListNetworkInstances c z n i st with ⟨resp, st1⟩
    rw [hc] at hd
    simp only at hd
    cases resp with
    | error err => simp only; rw [St.addError_warnings, hd]
    | ok data =>
      simp only
      split
      · rw [St.addError_warnings, hd]
      · split
        · rw [ih d st1, hd]
        · rename_i hid hdef
          cases hf : firstAttachment data i n with
          | none => simp [hf] at hid
          | some r =>
            simp only [hf]
            have hd2 := callDisconnect_diags c z n i r.ID st1
            rcases hdc : callDisconnectInstanceFromNetwork c z n i r.ID st1 with ⟨err, st2⟩
            rw [hdc] at hd2
            simp only at hd2
            cases err with
            | some e => simp only; rw [St.addError_warnings, hd2, hd]
            | none =>
              simp only
              have hw := (waitDisconnected_diags c z n i r.ID 30 st2).1
              rcases hwc : waitDisconnected c z n i r.ID 30 st2 with ⟨ret, st3⟩
              rw [hwc] at hw
              simp only at hw
              cases ret with
              | true => simp only; rw [hw, hd2, hd]
              | false => simp only; rw [ih d st3, hw, hd2, hd]

theorem DetachAttempted.attemptedMono {z i n : String} {t : List Event} (pre post : List Event)
    (h : DetachAttempted z i n t) : DetachAttempted z i n (pre ++ t ++ post) := by
  obtain ⟨data, r, h1, h2, h3⟩ := h
  refine ⟨data, r, h1, by simp [h2], ?_⟩
  rcases h3 with h3 | h3
  · exact Or.inl h3
  · exact Or.inr (by simp [h3])

theorem DetachNetworksFromInstance_attempted {σ : Type} (c : Client σ) (z i : String) :
    ∀ (nets : List String) (d : String) (st : St σ),
      Diagnostics.HasError (DetachNetworksFromInstance c z i nets d st).diags = false →
      ∃ t, (DetachNetworksFromInstance c z i nets d st).trace = st.trace ++ t
        ∧ ∀ n, n ∈ nets → DetachAttempted z i n t := by
  intro nets
  induction nets with
  | nil => intro d st _; exact ⟨[], by simp [DetachNetworksFromInstance], by simp⟩
  | cons n rest ih =>
    intro d st
    have htr := callListNetworkInstances_trace c z n i st
    rw [DetachNetworksFromInstance]
    rcases hc : callListNetworkInstances c z n i st with ⟨resp, st1⟩
    rw [hc] at htr
    simp only at htr
    cases resp with
    | error err => intro h; simp at h
    | ok data =>
      simp only
      split
      · intro h; simp at h
      · rename_i hid
        cases hf : firstAttachment data i n with
        | none => simp [hf] at hid
        | some r =>
          simp only [hf]
          split
          · rename_i hdef
            intro h
            obtain ⟨t, ht, hall⟩ := ih d st1 h
            refine ⟨Event.ListNetworkInstances z n i (ApiResult.ok data) :: t, ?_, ?_⟩
            · rw [ht, htr]; simp
            · intro m hm
              rcases List.mem_cons.mp hm with rfl | hm
              · exact ⟨data, r, hf, by simp, Or.inl hdef⟩
              · simpa using (hall m hm).attemptedMono [Event.ListNetworkInstances z n i
                  (ApiResult.ok data)] []
          · have hd2 := callDisconnect_trace c z n i r.ID st1
            rcases hdc : callDisconnectInstanceFromNetwork c z n i r.ID st1 with ⟨err, st2⟩
            rw [hdc] at hd2
            simp only at hd2
            cases err with
            | some e => intro h; simp at h
            | none =>
              simp only
              have hw := waitDisconnected_ext c z n i r.ID 30 st2
              have hwd := (waitDisconnected_diags c z n i r.ID 30 st2).2
              rcases hwc : waitDisconnected c z n i r.ID 30 st2 with ⟨ret, st3⟩
              rw [hwc] at hw hwd
              simp only at hw hwd
              cases ret with
              | true => intro h; simp only at h; rw [hwd rfl] at h; simp at h
              | false =>
                simp only
                intro h
                obtain ⟨tw, htw, _⟩ := hw
                obtain ⟨t, ht, hall⟩ := ih d st3 h
                refine ⟨[Event.ListNetworkInstances z n i (ApiResult.ok data),
                  Event.DisconnectInstanceFromNetwork z n i r.ID none] ++ tw ++ t, ?_, ?_⟩
                · rw [ht, htw, hd2, htr]; simp
                · intro m hm
                  rcases List.mem_cons.mp hm with rfl | hm
                  · exact ⟨data, r, hf, by simp, Or.inr (by simp)⟩
                  · simpa using (hall m hm).attemptedMono ([Event.ListNetworkInstances z n i
                      (ApiResult.ok data),
                      Event.DisconnectInstanceFromNetwork z n i r.ID none] ++ tw) []

theorem GoMap.allTrue_of_entries (m : GoMap) (h : ∀ kv, kv ∈ m.entries → kv.2 = true) :
    m.AllTrue := by
  intro k hk
  rw [GoMap.get]
  cases hf : m.entries.find? (fun kv => decide (kv.1 = k)) with
  | none =>
    exfalso
    rw [List.find?_eq_none] at hf
    obtain ⟨v, hv⟩ := (GoMap.mem_keys m k).mp hk
    exact hf (k, v) hv (by simp)
  | some kv => exact h kv (List.mem_of_find?_eq_some hf)

theorem networkIDMap_allTrue (ids : TFList TFString) : (networkIDMap ids).AllTrue := by
  apply GoMap.allTrue_of_entries
  rw [networkIDMap]
  have key : ∀ (l : List TFString) (m : GoMap), (∀ kv, kv ∈ m.entries → kv.2 = true) →
      ∀ kv, kv ∈ (l.foldl (fun m str =>
        if (!str.IsNull && !str.IsUnknown && decide (str.ValueString ≠ "")) = true then
          m.set str.ValueString true
        else m) m).entries → kv.2 = true := by
    intro l
    induction l with
    | nil => intro m hm; simpa using hm
    | cons x rest ih =>
      intro m hm
      rw [List.foldl_cons]
      apply ih
      split
      · intro kv hkv
        rcases List.mem_cons.mp hkv with h | h
        · rw [h]
        · exact hm kv h
      · exact hm
  exact key _ _ (by simp [GoMap.empty])

theorem detachUnmanaged_eq {σ : Type} (c : Client σ) (orders : RangeOrders)
    (z i : String) (planNetworkIDs stateNetworkIDs actualNetworkIDs : GoMap) (st : St σ)
    (hne : unmanagedNetworks orders.unmanaged actualNetworkIDs stateNetworkIDs planNetworkIDs
      ≠ []) :
    detachUnmanaged c orders z i planNetworkIDs stateNetworkIDs actualNetworkIDs st
      = if Diagnostics.HasError (DetachNetworksFromInstance c z i
            (unmanagedNetworks orders.unmanaged actualNetworkIDs stateNetworkIDs planNetworkIDs)
            "" (warnUnmanaged i (unmanagedNetworks orders.unmanaged actualNetworkIDs
                    stateNetworkIDs planNetworkIDs) st)).diags = true then
          (true, stateNetworkIDs, DetachNetworksFromInstance c z i
            (unmanagedNetworks orders.unmanaged actualNetworkIDs stateNetworkIDs planNetworkIDs)
            "" (warnUnmanaged i (unmanagedNetworks orders.unmanaged actualNetworkIDs
                    stateNetworkIDs planNetworkIDs) st))
        else
          (false, foldUnmanaged stateNetworkIDs
            (unmanagedNetworks orders.unmanaged actualNetworkIDs stateNetworkIDs planNetworkIDs),
            DetachNetworksFromInstance c z i
            (unmanagedNetworks orders.unmanaged actualNetworkIDs stateNetworkIDs planNetworkIDs)
            "" (warnUnmanaged i (unmanagedNetworks orders.unmanaged actualNetworkIDs
                    stateNetworkIDs planNetworkIDs) st)) := by
  have hpos : 0 < (unmanagedNetworks orders.unmanaged actualNetworkIDs stateNetworkIDs
      planNetworkIDs).length := List.length_pos.mpr hne
  simp only [detachUnmanaged, hpos, if_true]

/-- C9: in the drift handling of `Update` (maps with all values `true`, any visiting order,
the warning not already among the diagnostics): the list `unmanagedNetworks` holds exactly the
observed networks that are neither desired nor prior-managed; when it is empty nothing happens;
when it is not empty exactly one warning, `Unmanaged Networks Detected`, is added; if `Update`
goes on to the main delta then the detach loop has handled every drift network (read its
attachment and, unless it is the default one, disconnected it) and the prior-managed map now
holds the prior-managed networks and the drift networks, all bound to `true`; otherwise an
error is recorded; and the main delta (`UpdateInstanceNetworks`) is computed after the drift
handling, from that enlarged map. -/
theorem Update_drift_handling {σ : Type} (c : Client σ) (orders : RangeOrders)
    (zoneID instanceID : String) (planNetworkIDs stateNetworkIDs actualNetworkIDs : GoMap)
    (st : St σ) (horders : orders.Valid) (hplan : planNetworkIDs.AllTrue)
    (hstate : stateNetworkIDs.AllTrue)
    (hfresh : unmanagedWarning instanceID
      (unmanagedNetworks orders.unmanaged actualNetworkIDs stateNetworkIDs planNetworkIDs)
        ∉ st.diags) :
    (∀ n, n ∈ unmanagedNetworks orders.unmanaged actualNetworkIDs stateNetworkIDs planNetworkIDs
        ↔ n ∈ actualNetworkIDs.keys ∧ n ∉ planNetworkIDs.keys ∧ n ∉ stateNetworkIDs.keys)
    ∧ (unmanagedNetworks orders.unmanaged actualNetworkIDs stateNetworkIDs planNetworkIDs = [] →
        detachUnmanaged c orders zoneID instanceID planNetworkIDs stateNetworkIDs
          actualNetworkIDs st = (false, stateNetworkIDs, st))
    ∧ (unmanagedNetworks orders.unmanaged actualNetworkIDs stateNetworkIDs planNetworkIDs ≠ [] →
        Diagnostics.warnings (detachUnmanaged c orders zoneID instanceID planNetworkIDs
            stateNetworkIDs actualNetworkIDs st).2.2.diags
          = Diagnostics.warnings st.diags ++ [unmanagedWarning instanceID
              (unmanagedNetworks orders.unmanaged actualNetworkIDs stateNetworkIDs
                planNetworkIDs)])
    ∧ ((detachUnmanaged c orders zoneID instanceID planNetworkIDs stateNetworkIDs
          actualNetworkIDs st).1 = false →
        (∃ t, (detachUnmanaged c orders zoneID instanceID planNetworkIDs stateNetworkIDs
              actualNetworkIDs st).2.2.trace = st.trace ++ t
          ∧ ∀ n, n ∈ unmanagedNetworks orders.unmanaged actualNetworkIDs stateNetworkIDs
              planNetworkIDs → DetachAttempted zoneID instanceID n t)
        ∧ (∀ n, n ∈ (detachUnmanaged c orders zoneID instanceID planNetworkIDs
              stateNetworkIDs actualNetworkIDs st).2.1.keys
            ↔ n ∈ stateNetworkIDs.keys
              ∨ n ∈ unmanagedNetworks orders.unmanaged actualNetworkIDs stateNetworkIDs
                  planNetworkIDs)
        ∧ (detachUnmanaged c orders zoneID instanceID planNetworkIDs stateNetworkIDs
            actualNetworkIDs st).2.1.AllTrue)
    ∧ ((detachUnmanaged c orders zoneID instanceID planNetworkIDs stateNetworkIDs
          actualNetworkIDs st).1 = true →
        Diagnostics.HasError (detachUnmanaged c orders zoneID instanceID planNetworkIDs
          stateNetworkIDs actualNetworkIDs st).2.2.diags = true)
    ∧ (planNetworkIDs.len ≠ 0 →
        reconcileNetworks c orders zoneID instanceID planNetworkIDs stateNetworkIDs
            actualNetworkIDs st
          = if (detachUnmanaged c orders zoneID instanceID planNetworkIDs stateNetworkIDs
                actualNetworkIDs st).1 = true then
              (true, (detachUnmanaged c orders zoneID instanceID planNetworkIDs stateNetworkIDs
                actualNetworkIDs st).2.2)
            else
              (Diagnostics.HasError (UpdateInstanceNetworks c orders zoneID instanceID
                  planNetworkIDs
                  (detachUnmanaged c orders zoneID instanceID planNetworkIDs stateNetworkIDs
                    actualNetworkIDs st).2.1
                  (detachUnmanaged c orders zoneID instanceID planNetworkIDs stateNetworkIDs
                    actualNetworkIDs st).2.2).diags,
                UpdateInstanceNetworks c orders zoneID instanceID planNetworkIDs
                  (detachUnmanaged c orders zoneID instanceID planNetworkIDs stateNetworkIDs
                    actualNetworkIDs st).2.1
                  (detachUnmanaged c orders zoneID instanceID planNetworkIDs stateNetworkIDs
                    actualNetworkIDs st).2.2)) := by
  have hmem := mem_unmanagedNetworks orders.unmanaged horders.2.2.2.2 actualNetworkIDs
    stateNetworkIDs planNetworkIDs hplan hstate
  have hempty : unmanagedNetworks orders.unmanaged actualNetworkIDs stateNetworkIDs
      planNetworkIDs = [] →
      detachUnmanaged c orders zoneID instanceID planNetworkIDs stateNetworkIDs
        actualNetworkIDs st = (false, stateNetworkIDs, st) := by
    intro h
    simp [detachUnmanaged, h]
  refine ⟨hmem, hempty, ?_, ?_, ?_, ?_⟩
  · intro hne
    rw [detachUnmanaged_eq c orders zoneID instanceID _ _ _ st hne]
    have hw : Diagnostics.warnings (DetachNetworksFromInstance c zoneID instanceID
        (unmanagedNetworks orders.unmanaged actualNetworkIDs stateNetworkIDs planNetworkIDs)
        "" (warnUnmanaged instanceID (unmanagedNetworks orders.unmanaged actualNetworkIDs
                stateNetworkIDs planNetworkIDs) st)).diags
        = Diagnostics.warnings st.diags ++ [unmanagedWarning instanceID
            (unmanagedNetworks orders.unmanaged actualNetworkIDs stateNetworkIDs
              planNetworkIDs)] := by
      rw [DetachNetworksFromInstance_warnings]
      exact Diagnostics.warnings_append_fresh _ _ rfl hfresh
    split <;> exact hw
  · intro hret
    by_cases hne : unmanagedNetworks orders.unmanaged actualNetworkIDs stateNetworkIDs
        planNetworkIDs = []
    · rw [hempty hne]
      refine ⟨⟨[], by simp, ?_⟩, ?_, hstate⟩
      · intro n hn; rw [hne] at hn; simp at hn
      · intro n; rw [hne]; simp
    · rw [detachUnmanaged_eq c orders zoneID instanceID _ _ _ st hne] at hret ⊢
      split at hret
      · simp at hret
      · rename_i herr
        rw [if_neg herr]
        have hfold := foldUnmanaged_spec (unmanagedNetworks orders.unmanaged actualNetworkIDs
          stateNetworkIDs planNetworkIDs) stateNetworkIDs hstate
        refine ⟨?_, hfold.2, hfold.1⟩
        exact DetachNetworksFromInstance_attempted c zoneID instanceID _ "" _
          (by simpa using herr)
  · intro hret
    by_cases hne : unmanagedNetworks orders.unmanaged actualNetworkIDs stateNetworkIDs
        planNetworkIDs = []
    · rw [hempty hne] at hret; simp at hret
    · rw [detachUnmanaged_eq c orders zoneID instanceID _ _ _ st hne] at hret ⊢
      split at hret
      · rename_i herr
        rw [if_pos herr]
        exact herr
      · simp at hret
  · intro hlen
    rw [reconcileNetworks, if_neg hlen]
    rcases detachUnmanaged c orders zoneID instanceID planNetworkIDs stateNetworkIDs
      actualNetworkIDs st with ⟨ret, m, st1⟩
    cases ret <;> simp

/-- Witness for C9: desired `{A, B}`, prior-managed `{A}`, observed `{A, C}` on the sample
remote. -/
theorem Update_drift_handling_witness :
    (∀ n, n ∈ unmanagedNetworks RangeOrders.identity.unmanaged (GoMap.ofKeys ["A", "C"])
          (GoMap.ofKeys ["A"]) (GoMap.ofKeys ["A", "B"])
        ↔ n ∈ (GoMap.ofKeys ["A", "C"]).keys ∧ n ∉ (GoMap.ofKeys ["A", "B"]).keys
          ∧ n ∉ (GoMap.ofKeys ["A"]).keys)
    ∧ (unmanagedNetworks RangeOrders.identity.unmanaged (GoMap.ofKeys ["A", "C"])
          (GoMap.ofKeys ["A"]) (GoMap.ofKeys ["A", "B"]) ≠ [] →
        Diagnostics.warnings (detachUnmanaged simClient RangeOrders.identity "zone" "vm"
            (GoMap.ofKeys ["A", "B"]) (GoMap.ofKeys ["A"]) (GoMap.ofKeys ["A", "C"])
            (simStart [simAttachment "A" true, simAttachment "C" false] "UP")).2.2.diags
          = Diagnostics.warnings
              (simStart [simAttachment "A" true, simAttachment "C" false] "UP").diags
            ++ [unmanagedWarning "vm"
              (unmanagedNetworks RangeOrders.identity.unmanaged (GoMap.ofKeys ["A", "C"])
                (GoMap.ofKeys ["A"]) (GoMap.ofKeys ["A", "B"]))]) :=
  have h := Update_drift_handling simClient RangeOrders.identity "zone" "vm"
    (GoMap.ofKeys ["A", "B"]) (GoMap.ofKeys ["A"]) (GoMap.ofKeys ["A", "C"])
    (simStart [simAttachment "A" true, simAttachment "C" false] "UP")
    RangeOrders.identity_valid (GoMap.ofKeys_allTrue _) (GoMap.ofKeys_allTrue _)
    (by simp [simStart])
  ⟨h.1, h.2.2.1⟩

/-! ### The drift scenario of the specification -/

/-- C10 (the code run on the scenario): desired `{A, B}`, prior-managed `{A}`, observed
`{A (default), C}`, against the sample remote, where a successful disconnect removes the
attachment record and a successful connect adds one. `Update` classifies `C` as drift and
issues exactly one disconnect, for `C`; it then adds `C` to the prior-managed map, so that
`UpdateInstanceNetworks` puts `C` in `networksToDetach` again, finds no attachment record for
it, records a `Client Error` and returns: no connect is issued for `B`, `B` is not attached
at the end and the new state is not saved. This holds for both visiting orders of the maps. -/
theorem Update_drift_scenario :
    unmanagedNetworks RangeOrders.identity.unmanaged (actualNetworkIDMap driftState.Networks)
        (networkIDMap driftState.NetworkIDs) (networkIDMap driftPlan.NetworkIDs) = ["C"]
    ∧ ((Update simClient RangeOrders.identity simSortSlice driftPlan driftState
          driftStart).st.trace.filter (Event.isDisconnectOf "C")).length = 1
    ∧ ((Update simClient RangeOrders.identity simSortSlice driftPlan driftState
          driftStart).st.trace.filter Event.isAttachmentChange).length = 1
    ∧ ((Update simClient RangeOrders.identity simSortSlice driftPlan driftState
          driftStart).st.trace.filter (Event.isConnectOf "B")).length = 0
    ∧ attachmentNotFound "C" "vm" ∈
        (Update simClient RangeOrders.identity simSortSlice driftPlan driftState
          driftStart).st.diags
    ∧ (Update simClient RangeOrders.identity simSortSlice driftPlan driftState
          driftStart).st.remote.attachments = [simAttachment "A" true]
    ∧ (Update simClient RangeOrders.identity simSortSlice driftPlan driftState
          driftStart).newState = none
    ∧ ((Update simClient RangeOrders.reversed simSortSlice driftPlan driftState
          driftStart).st.trace.filter Event.isAttachmentChange).length = 1
    ∧ attachmentNotFound "C" "vm" ∈
        (Update simClient RangeOrders.reversed simSortSlice driftPlan driftState
          driftStart).st.diags
    ∧ (Update simClient RangeOrders.reversed simSortSlice driftPlan driftState
          driftStart).st.remote.attachments = [simAttachment "A" true] := by
  decide

/-! ### Instance status classes -/

/-- C16: `IsInstanceRunning s` holds exactly for the strings `Running` and `UP`,
`IsInstanceStopped s` exactly for `Stopped`, `STOPPED` and `DOWN`; the comparison is
case-sensitive (`running`, `up`, `stopped`, `Down` belong to no class), no string is in both
classes and every string outside the five spellings is in neither. -/
theorem instance_status_classes :
    (∀ s, IsInstanceRunning s = true ↔ s = "Running" ∨ s = "UP")
    ∧ (∀ s, IsInstanceStopped s = true ↔ s = "Stopped" ∨ s = "STOPPED" ∨ s = "DOWN")
    ∧ (∀ s, ¬ (IsInstanceRunning s = true ∧ IsInstanceStopped s = true))
    ∧ (∀ s, s ∉ ["Running", "UP", "Stopped", "STOPPED", "DOWN"] →
        IsInstanceRunning s = false ∧ IsInstanceStopped s = false)
    ∧ IsInstanceRunning "running" = false ∧ IsInstanceRunning "up" = false
    ∧ IsInstanceRunning "RUNNING" = false ∧ IsInstanceStopped "stopped" = false
    ∧ IsInstanceStopped "Down" = false ∧ IsInstanceStopped "down" = false := by
  have hr : ∀ s, IsInstanceRunning s = true ↔ s = "Running" ∨ s = "UP" := by
    intro s
    simp [IsInstanceRunning, InstanceStatusRunning, InstanceStatusUP]
  have hs : ∀ s, IsInstanceStopped s = true ↔ s = "Stopped" ∨ s = "STOPPED" ∨ s = "DOWN" := by
    intro s
    simp [IsInstanceStopped, InstanceStatusStopped, InstanceStatusSTOPPED, InstanceStatusDown,
      or_assoc]
  refine ⟨hr, hs, ?_, ?_, by decide, by decide, by decide, by decide, by decide, by decide⟩
  · intro s h
    rcases (hr s).mp h.1 with h1 | h1 <;> rcases (hs s).mp h.2 with h2 | h2 | h2 <;>
      · rw [h1] at h2
        exact absurd h2 (by decide)
  · intro s h
    simp only [List.mem_cons, List.mem_singleton, List.not_mem_nil, or_false, not_or] at h
    constructor
    · rw [Bool.eq_false_iff]
      intro h1
      rcases (hr s).mp h1 with h2 | h2
      · exact h.1 h2
      · exact h.2.1 h2
    · rw [Bool.eq_false_iff]
      intro h1
      rcases (hs s).mp h1 with h2 | h2 | h2
      · exact h.2.2.1 h2
      · exact h.2.2.2.1 h2
      · exact h.2.2.2.2 h2

theorem instance_status_classes_aux :
    (∀ s, IsInstanceRunning s = true ↔ s = "Running" ∨ s = "UP")
    ∧ (∀ s, IsInstanceStopped s = true ↔ s = "Stopped" ∨ s = "STOPPED" ∨ s = "DOWN")
    ∧ (∀ s, ¬ (IsInstanceRunning s = true ∧ IsInstanceStopped s = true)) := by
  have hr : ∀ s, IsInstanceRunning s = true ↔ s = "Running" ∨ s = "UP" := by
    intro s
    simp [IsInstanceRunning, InstanceStatusRunning, InstanceStatusUP]
  have hs : ∀ s, IsInstanceStopped s = true ↔ s = "Stopped" ∨ s = "STOPPED" ∨ s = "DOWN" := by
    intro s
    simp [IsInstanceStopped, InstanceStatusStopped, InstanceStatusSTOPPED, InstanceStatusDown,
      or_assoc]
  refine ⟨hr, hs, ?_⟩
  intro s h
  rcases (hr s).mp h.1 with h1 | h1 <;> rcases (hs s).mp h.2 with h2 | h2 | h2 <;>
    · rw [h1] at h2
      exact absurd h2 (by decide)

theorem WaitForInstanceStatus_reads {σ : Type} (c : Client σ) (z i : String)
    (targets : List String) (maxRetries : Int) (interval : Nat) (st : St σ) :
    Ext (fun e => e.isShowInstance = true) st
      (WaitForInstanceStatus c z i targets maxRetries interval st).2 := by
  rw [WaitForInstanceStatus, PollUntilCondition]
  refine pollLoop_rel (instanceStatusCheck c z i targets) interval _
    (fun s s1 => Ext (fun e => e.isShowInstance = true) s.2 s1.2) (fun s => Ext.extRefl _ s.2)
    (fun _ _ _ h1 h2 => h1.extTrans h2) ?_ maxRetries.toNat ("", st) []
  intro s
  have h : Ext (fun e => e.isShowInstance = true) s.2 (callShowInstance c z i s.2).2 :=
    Ext.single _ (callShowInstance_trace c z i s.2) rfl
  simp only [instanceStatusCheck]
  rcases hc : callShowInstance c z i s.2 with ⟨resp, s1⟩
  rw [hc] at h
  cases resp <;> exact h

theorem countP_eq_zero_of_ext {σ : Type} {st st1 : St σ} (p : Event → Bool)
    (P : Event → Prop) (hP : ∀ e, P e → p e = false) (h : Ext P st st1) :
    ∃ t, st1.trace = st.trace ++ t ∧ t.countP p = 0 := by
  obtain ⟨t, ht, hall⟩ := h
  refine ⟨t, ht, ?_⟩
  rw [List.countP_eq_zero]
  intro e he
  rw [hP e (hall e he)]
  simp

theorem callShowInstance_eq {σ : Type} (c : Client σ) (z i : String) (st : St σ)
    (data : InstanceData) (hread : (c.ShowInstance z i st.remote).1 = ApiResult.ok data) :
    callShowInstance c z i st
      = (ApiResult.ok data,
          { st with remote := (c.ShowInstance z i st.remote).2
                    trace := st.trace ++ [Event.ShowInstance z i (ApiResult.ok data)] }) := by
  simp [callShowInstance, hread]

/-- C17: let the status read from the instance be `data.Status`. If it is `Running` or `UP`,
`EnsureInstanceRunning` returns nil having issued that one read only (no start call, no poll,
no diagnostic) and `EnsureInstanceStopped` issues exactly one stop call. If it is `Stopped`,
`STOPPED` or `DOWN`, `EnsureInstanceStopped` issues no stop call. `HandleInstanceLifecycle`
with desired state `running` and current status `Running` or `UP` issues no call and reports
that status. -/
theorem lifecycle_status_spellings {σ : Type} (c : Client σ) (zoneID instanceID : String)
    (st : St σ) (data : InstanceData)
    (hread : (c.ShowInstance zoneID instanceID st.remote).1 = ApiResult.ok data) :
    (data.Status = "Running" ∨ data.Status = "UP" →
      (EnsureInstanceRunning c zoneID instanceID st).1 = none
      ∧ (EnsureInstanceRunning c zoneID instanceID st).2.trace
          = st.trace ++ [Event.ShowInstance zoneID instanceID (ApiResult.ok data)]
      ∧ (EnsureInstanceRunning c zoneID instanceID st).2.diags = st.diags
      ∧ ∃ t, (EnsureInstanceStopped c zoneID instanceID st).2.trace = st.trace ++ t
          ∧ t.countP Event.isStopInstance = 1)
    ∧ (data.Status = "Stopped" ∨ data.Status = "STOPPED" ∨ data.Status = "DOWN" →
      ∃ t, (EnsureInstanceStopped c zoneID instanceID st).2.trace = st.trace ++ t
        ∧ t.countP Event.isStopInstance = 0)
    ∧ (∀ currentStatus, currentStatus = "Running" ∨ currentStatus = "UP" →
      HandleInstanceLifecycle c zoneID instanceID "running" currentStatus st
        = ({ Status := TFString.value currentStatus, Diags := [] }, st)) := by
  have hcall := callShowInstance_eq c zoneID instanceID st data hread
  have hcls := instance_status_classes_aux
  refine ⟨?_, ?_, ?_⟩
  · intro hs
    have hrun : IsInstanceRunning data.Status = true := (hcls.1 _).mpr hs
    refine ⟨?_, ?_, ?_, ?_⟩
    · simp [EnsureInstanceRunning, hcall, hrun]
    · simp [EnsureInstanceRunning, hcall, hrun]
    · simp [EnsureInstanceRunning, hcall, hrun]
    · rw [EnsureInstanceStopped, hcall]
      simp only [hrun, if_true]
      have hst := callStopInstance_trace c zoneID instanceID false
        ({ st with remote := (c.ShowInstance zoneID instanceID st.remote).2
                   trace := st.trace
                     ++ [Event.ShowInstance zoneID instanceID (ApiResult.ok data)] } : St σ)
      rcases hc : callStopInstance c zoneID instanceID false
        ({ st with remote := (c.ShowInstance zoneID instanceID st.remote).2
                   trace := st.trace
                     ++ [Event.ShowInstance zoneID instanceID (ApiResult.ok data)] } : St σ)
        with ⟨err, st2⟩
      rw [hc] at hst
      simp only at hst
      cases err with
      | some e =>
        refine ⟨[Event.ShowInstance zoneID instanceID (ApiResult.ok data),
          Event.StopInstance zoneID instanceID false (some e)], ?_, by rfl⟩
        simp [hst]
      | none =>
        simp only
        obtain ⟨t, ht, h0⟩ := countP_eq_zero_of_ext Event.isStopInstance _
          (fun e he => by cases e <;> first | rfl | simp [Event.isShowInstance] at he)
          (WaitForInstanceStatus_reads c zoneID instanceID
            [InstanceStatusStopped, InstanceStatusSTOPPED, InstanceStatusDown]
            MaxInstanceStatusRetries DefaultPollInterval st2)
        rcases hw : WaitForInstanceStatus c zoneID instanceID
          [InstanceStatusStopped, InstanceStatusSTOPPED, InstanceStatusDown]
          MaxInstanceStatusRetries DefaultPollInterval st2 with ⟨⟨status, err⟩, st3⟩
        rw [hw] at ht
        simp only at ht
        refine ⟨[Event.ShowInstance zoneID instanceID (ApiResult.ok data),
          Event.StopInstance zoneID instanceID false none] ++ t, ?_, ?_⟩
        · cases err <;> simp [ht, hst]
        · rw [List.countP_append, h0]; rfl
  · intro hs
    have hnot : IsInstanceRunning data.Status = false := by
      rw [Bool.eq_false_iff]
      intro h
      exact hcls.2.2 _ ⟨h, (hcls.2.1 _).mpr hs⟩
    rw [EnsureInstanceStopped, hcall]
    simp only [hnot, Bool.false_eq_true, if_false]
    obtain ⟨t, ht, h0⟩ := countP_eq_zero_of_ext Event.isStopInstance _
      (fun e he => by cases e <;> first | rfl | simp [Event.isShowInstance] at he)
      (WaitForInstanceStatus_reads c zoneID instanceID
        [InstanceStatusStopped, InstanceStatusSTOPPED, InstanceStatusDown]
        MaxInstanceStatusRetries DefaultPollInterval
        ({ st with remote := (c.ShowInstance zoneID instanceID st.remote).2
                   trace := st.trace
                     ++ [Event.ShowInstance zoneID instanceID (ApiResult.ok data)] } : St σ))
    rcases hw : WaitForInstanceStatus c zoneID instanceID
      [InstanceStatusStopped, InstanceStatusSTOPPED, InstanceStatusDown]
      MaxInstanceStatusRetries DefaultPollInterval
      ({ st with remote := (c.ShowInstance zoneID instanceID st.remote).2
                 trace := st.trace
                   ++ [Event.ShowInstance zoneID instanceID (ApiResult.ok data)] } : St σ)
      with ⟨⟨status, err⟩, st3⟩
    rw [hw] at ht
    simp only at ht
    refine ⟨[Event.ShowInstance zoneID instanceID (ApiResult.ok data)] ++ t, ?_, ?_⟩
    · cases err <;> simp [ht]
    · rw [List.countP_append, h0]; rfl
  · intro currentStatus hs
    have hrun : IsInstanceRunning currentStatus = true := (hcls.1 _).mpr hs
    have hne : currentStatus ≠ "reboot" := by
      rcases hs with h | h <;> rw [h] <;> decide
    simp [HandleInstanceLifecycle, hrun]

/-- Witness for C17: the sample instance reports `UP` on every read. -/
theorem lifecycle_status_spellings_witness :
    (EnsureInstanceRunning fixedStatusClient "zone" "vm" (fixedStatusStart "UP")).1 = none
    ∧ (EnsureInstanceRunning fixedStatusClient "zone" "vm" (fixedStatusStart "UP")).2.trace
        = (fixedStatusStart "UP").trace ++ [Event.ShowInstance "zone" "vm"
            (ApiResult.ok { Status := "UP", Username := "root", Password := "secret",
                            DataVolumes := [] })]
    ∧ (EnsureInstanceRunning fixedStatusClient "zone" "vm" (fixedStatusStart "UP")).2.diags
        = (fixedStatusStart "UP").diags
    ∧ ∃ t, (EnsureInstanceStopped fixedStatusClient "zone" "vm" (fixedStatusStart "UP")).2.trace
        = (fixedStatusStart "UP").trace ++ t
      ∧ t.countP Event.isStopInstance = 1 :=
  (lifecycle_status_spellings fixedStatusClient "zone" "vm" (fixedStatusStart "UP")
    { Status := "UP", Username := "root", Password := "secret", DataVolumes := [] } rfl).1
    (Or.inr rfl)

/-- C18: for every current status outside the running class, `HandleInstanceLifecycle` with
desired state `reboot` issues no call (the state is returned as it was), reports the given
current status, and its diagnostics are exactly one warning, `Reboot Skipped`, and no
error. -/
theorem HandleInstanceLifecycle_reboot_skipped {σ : Type} (c : Client σ)
    (zoneID instanceID currentStatus : String) (st : St σ)
    (hnot : IsInstanceRunning currentStatus = false) :
    (HandleInstanceLifecycle c zoneID instanceID "reboot" currentStatus st).2 = st
    ∧ (HandleInstanceLifecycle c zoneID instanceID "reboot" currentStatus st).1.Status
        = TFString.value currentStatus
    ∧ (HandleInstanceLifecycle c zoneID instanceID "reboot" currentStatus st).1.Diags
        = [{ severity := Severity.warning
             summary := "Reboot Skipped"
             detail := "Instance is not running (status: " ++ currentStatus
               ++ "), cannot reboot" }]
    ∧ (Diagnostics.warnings
        (HandleInstanceLifecycle c zoneID instanceID "reboot" currentStatus st).1.Diags).length
        = 1
    ∧ Diagnostics.HasError
        (HandleInstanceLifecycle c zoneID instanceID "reboot" currentStatus st).1.Diags
        = false := by
  have h : HandleInstanceLifecycle c zoneID instanceID "reboot" currentStatus st
      = ({ Status := TFString.value currentStatus
           Diags := Diagnostics.AddWarning [] "Reboot Skipped"
             ("Instance is not running (status: " ++ currentStatus ++ "), cannot reboot") },
          st) := by
    simp [HandleInstanceLifecycle, hnot]
  rw [h]
  simp [Diagnostics.AddWarning, Diagnostics.Append, Diagnostics.warnings, Diagnostics.HasError]

/-- Witness for C18: current status `Stopped`. -/
theorem HandleInstanceLifecycle_reboot_skipped_witness :
    (HandleInstanceLifecycle fixedStatusClient "zone" "vm" "reboot" "Stopped"
        (fixedStatusStart "Stopped")).2 = fixedStatusStart "Stopped"
    ∧ (HandleInstanceLifecycle fixedStatusClient "zone" "vm" "reboot" "Stopped"
        (fixedStatusStart "Stopped")).1.Status = TFString.value "Stopped"
    ∧ Diagnostics.HasError (HandleInstanceLifecycle fixedStatusClient "zone" "vm" "reboot"
        "Stopped" (fixedStatusStart "Stopped")).1.Diags = false :=
  have h := HandleInstanceLifecycle_reboot_skipped fixedStatusClient "zone" "vm" "Stopped"
    (fixedStatusStart "Stopped") (by decide)
  ⟨h.1, h.2.1, h.2.2.2.2⟩

/-! ### Waiting for an instance status -/

theorem pollLoop_err_none_iff {τ : Type} (checkFunc : CheckFunc τ) (interval : Nat)
    (errorMsg : String) :
    ∀ (n : Nat) (s : τ) (log : List PollEvent),
      (pollLoop checkFunc interval errorMsg n s log).err = none
        ↔ ∃ k, k < n ∧ evalOutcome checkFunc s k = (true, none)
            ∧ ∀ j, j < k → evalOutcome checkFunc s j = (false, none) := by
  intro n
  induction n with
  | zero => intro s log; simp [pollLoop]
  | succ n ih =>
    intro s log
    rw [pollLoop]
    have h0 := evalOutcome_zero checkFunc s
    rcases hc : checkFunc s with ⟨⟨d, e⟩, s1⟩
    rw [hc] at h0
    simp only at h0
    have hs1 : s1 = (checkFunc s).2 := by rw [hc]
    cases e with
    | some e =>
      simp only
      constructor
      · intro h; simp at h
      · rintro ⟨k, _, hk, hlt⟩
        cases k with
        | zero => rw [h0] at hk; simp at hk
        | succ k =>
          have := hlt 0 (Nat.succ_pos k)
          rw [h0] at this
          simp at this
    | none =>
      cases d with
      | true =>
        simp only
        constructor
        · intro _
          exact ⟨0, Nat.succ_pos n, h0, fun j hj => absurd hj (Nat.not_lt_zero j)⟩
        · intro _; trivial
      | false =>
        simp only
        rw [ih s1 _]
        constructor
        · rintro ⟨k, hk, hd, hlt⟩
          refine ⟨k + 1, Nat.succ_lt_succ hk, ?_, ?_⟩
          · rw [evalOutcome_succ, ← hs1]; exact hd
          · intro j hj
            cases j with
            | zero => exact h0
            | succ j =>
              rw [evalOutcome_succ, ← hs1]
              exact hlt j (Nat.lt_of_succ_lt_succ hj)
        · rintro ⟨k, hk, hd, hlt⟩
          cases k with
          | zero => rw [h0] at hd; simp at hd
          | succ k =>
            refine ⟨k, Nat.lt_of_succ_lt_succ hk, ?_, ?_⟩
            · rw [evalOutcome_succ, ← hs1] at hd; exact hd
            · intro j hj
              have := hlt (j + 1) (Nat.succ_lt_succ hj)
              rw [evalOutcome_succ, ← hs1] at this
              exact this

theorem stateBefore_instanceStatusCheck_remote {σ : Type} (c : Client σ) (z i : String)
    (targets : List String) :
    ∀ (k : Nat) (s : String × St σ),
      (stateBefore (instanceStatusCheck c z i targets) s k).2.remote
        = remoteAfterReads c z i s.2.remote k := by
  intro k
  induction k with
  | zero => intro s; rfl
  | succ k ih =>
    intro s
    rw [stateBefore_succ, ih]
    have hstep : ((instanceStatusCheck c z i targets s).2).2.remote
        = (c.ShowInstance z i s.2.remote).2 := by
      simp only [instanceStatusCheck]
      rcases hc : callShowInstance c z i s.2 with ⟨resp, s1⟩
      have hr : s1.remote = (c.ShowInstance z i s.2.remote).2 := by
        have := congrArg (fun p => p.2.remote) hc
        simpa [callShowInstance] using this.symm
      cases resp <;> exact hr
    rw [hstep]
    simp [remoteAfterReads, Function.iterate_succ_apply]

theorem evalOutcome_instanceStatusCheck {σ : Type} (c : Client σ) (z i : String)
    (targets : List String) (s : String × St σ) (k : Nat) :
    evalOutcome (instanceStatusCheck c z i targets) s k
      = match showAt c z i s.2.remote k with
        | ApiResult.ok data => (decide (data.Status ∈ targets), none)
        | ApiResult.error err => (false, some err) := by
  have hrem := stateBefore_instanceStatusCheck_remote c z i targets k s
  rw [evalOutcome, showAt, ← hrem]
  generalize stateBefore (instanceStatusCheck c z i targets) s k = t
  simp only [instanceStatusCheck, callShowInstance]
  cases hc : (c.ShowInstance z i t.2.remote).1 with
  | error err => rfl
  | ok data =>
    simp only [Prod.mk.injEq, and_true]
    rw [Bool.eq_iff_iff, List.any_eq_true]
    simp only [decide_eq_true_eq]
    constructor
    · rintro ⟨t, ht, h⟩
      rw [h]; exact ht
    · intro h
      exact ⟨_, h, rfl⟩

theorem WaitForInstanceStatus_nil_iff {σ : Type} (c : Client σ) (z i : String)
    (targets : List String) (maxRetries : Int) (interval : Nat) (st : St σ) :
    (WaitForInstanceStatus c z i targets maxRetries interval st).1.2 = none
      ↔ ∃ k : Nat, (k : Int) < maxRetries
          ∧ (∃ data, showAt c z i st.remote k = ApiResult.ok data ∧ data.Status ∈ targets)
          ∧ ∀ j, j < k →
              ∃ data, showAt c z i st.remote j = ApiResult.ok data ∧ data.Status ∉ targets := by
  rw [WaitForInstanceStatus, PollUntilCondition]
  simp only
  rw [pollLoop_err_none_iff]
  have key : ∀ k, (evalOutcome (instanceStatusCheck c z i targets) ("", st) k = (true, none)
        ↔ ∃ data, showAt c z i st.remote k = ApiResult.ok data ∧ data.Status ∈ targets)
      ∧ (evalOutcome (instanceStatusCheck c z i targets) ("", st) k = (false, none)
        ↔ ∃ data, showAt c z i st.remote k = ApiResult.ok data ∧ data.Status ∉ targets) := by
    intro k
    rw [evalOutcome_instanceStatusCheck]
    cases showAt c z i st.remote k with
    | error err => simp
    | ok data => simp
  constructor
  · rintro ⟨k, hk, hd, hlt⟩
    exact ⟨k, by omega, (key k).1.mp hd, fun j hj => (key j).2.mp (hlt j hj)⟩
  · rintro ⟨k, hk, hd, hlt⟩
    exact ⟨k, by omega, (key k).1.mpr hd, fun j hj => (key j).2.mpr (hlt j hj)⟩
theorem updateImage_after_rebuild {σ : Type} (c : Client σ) (plan : InstanceResourceModel)
    (st st1 st2 : St σ)
    (hstop : EnsureInstanceStopped c plan.ZoneID.ValueString plan.ID.ValueString st
      = (none, st1))
    (hrebuild : callRebuildInstance c plan.ZoneID.ValueString plan.ID.ValueString
      plan.VMImageID.ValueString st1 = (none, st2)) :
    ((updateImage c plan st).returned = false →
      (WaitForInstanceStatus c plan.ZoneID.ValueString plan.ID.ValueString [InstanceStatusUP]
        MaxInstanceStatusRetries DefaultPollInterval st2).1.2 = none)
    ∧ ((WaitForInstanceStatus c plan.ZoneID.ValueString plan.ID.ValueString [InstanceStatusUP]
        MaxInstanceStatusRetries DefaultPollInterval st2).1.2 ≠ none →
      (updateImage c plan st).returned = true
      ∧ ∃ d, d ∈ (updateImage c plan st).st.diags ∧ d.severity = Severity.error
          ∧ d.summary = "Instance Rebuild Incomplete") := by
  rw [updateImage, hstop]
  simp only [hrebuild]
  rcases hw : WaitForInstanceStatus c plan.ZoneID.ValueString plan.ID.ValueString
    [InstanceStatusUP] MaxInstanceStatusRetries DefaultPollInterval st2 with ⟨⟨status, err⟩, st3⟩
  cases err with
  | some e =>
    refine ⟨fun h => by simp at h, fun _ => ⟨rfl, _, Diagnostics.mem_addError _ _ _, rfl, rfl⟩⟩
  | none =>
    exact ⟨fun _ => rfl, fun h => absurd rfl h⟩

theorem Update_image_returned {σ : Type} (c : Client σ) (orders : RangeOrders)
    (sortSlice : SortSlice) (plan state : InstanceResourceModel) (st : St σ)
    (himg : plan.VMImageID ≠ state.VMImageID)
    (hclean : Diagnostics.HasError st.diags = false) :
    ((Update c orders sortSlice plan state st).newState ≠ none →
      (updateImage c { plan with Password := state.Password, Username := state.Username }
        st).returned = false)
    ∧ ((updateImage c { plan with Password := state.Password, Username := state.Username }
        st).returned = true →
      (Update c orders sortSlice plan state st).st
        = (updateImage c { plan with Password := state.Password, Username := state.Username }
            st).st) := by
  have hU : Update c orders sortSlice plan state st
      = match updateBeforeNetworks c plan state st with
        | { returned := true, plan := _, st := st1 } => { st := st1, newState := none }
        | { returned := false, plan := plan1, st := st1 } =>
          updateNetworks c orders sortSlice plan1 state st1 := by
    rw [Update, hclean]; rfl
  have hB : (updateImage c { plan with Password := state.Password, Username := state.Username }
        st).returned = true →
      updateBeforeNetworks c plan state st
        = updateImage c { plan with Password := state.Password, Username := state.Username }
            st := by
    intro h
    simp [updateBeforeNetworks, himg, h]
  constructor
  · intro hne
    by_contra hret
    have hret1 : (updateImage c
        { plan with Password := state.Password, Username := state.Username } st).returned
        = true := by simpa using hret
    apply hne
    rw [hU, hB hret1]
    rcases hs : updateImage c
      { plan with Password := state.Password, Username := state.Username } st
      with ⟨ret, p1, s1⟩
    rw [hs] at hret1
    simp only at hret1
    subst hret1
    rfl
  · intro hret1
    rw [hU, hB hret1]
    rcases hs : updateImage c
      { plan with Password := state.Password, Username := state.Username } st
      with ⟨ret, p1, s1⟩
    rw [hs] at hret1
    simp only at hret1
    subst hret1
    rfl

/-- C19: `WaitForInstanceStatus` returns nil exactly when, within `maxRetries` reads, some read
returns a status contained in `targetStatuses` and every earlier read succeeded with a status
outside `targetStatuses`. In `Update` with a changed image, once the instance is stopped and
the rebuild call has succeeded (leaving the state `st2`), a new state is saved only if one of
the next 120 reads returns exactly `UP`; and if every read returns `Running`, `Update` saves no
state and records the error `Instance Rebuild Incomplete`. -/
theorem Update_rebuild_requires_UP {σ : Type} (c : Client σ) (orders : RangeOrders)
    (sortSlice : SortSlice) (plan state : InstanceResourceModel) (st st1 st2 : St σ)
    (himg : plan.VMImageID ≠ state.VMImageID)
    (hclean : Diagnostics.HasError st.diags = false)
    (hstop : EnsureInstanceStopped c plan.ZoneID.ValueString plan.ID.ValueString st
      = (none, st1))
    (hrebuild : callRebuildInstance c plan.ZoneID.ValueString plan.ID.ValueString
      plan.VMImageID.ValueString st1 = (none, st2)) :
    (∀ (targetStatuses : List String) (maxRetries : Int) (interval : Nat) (s : St σ),
      (WaitForInstanceStatus c plan.ZoneID.ValueString plan.ID.ValueString targetStatuses
          maxRetries interval s).1.2 = none
        ↔ ∃ k : Nat, (k : Int) < maxRetries
            ∧ (∃ data, showAt c plan.ZoneID.ValueString plan.ID.ValueString s.remote k
                  = ApiResult.ok data ∧ data.Status ∈ targetStatuses)
            ∧ ∀ j, j < k →
                ∃ data, showAt c plan.ZoneID.ValueString plan.ID.ValueString s.remote j
                  = ApiResult.ok data ∧ data.Status ∉ targetStatuses)
    ∧ ((Update c orders sortSlice plan state st).newState ≠ none →
        ∃ k : Nat, k < 120
          ∧ ∃ data, showAt c plan.ZoneID.ValueString plan.ID.ValueString st2.remote k
              = ApiResult.ok data ∧ data.Status = "UP")
    ∧ ((∀ k, ∃ data, showAt c plan.ZoneID.ValueString plan.ID.ValueString st2.remote k
            = ApiResult.ok data ∧ data.Status = "Running") →
        (Update c orders sortSlice plan state st).newState = none
        ∧ ∃ d, d ∈ (Update c orders sortSlice plan state st).st.diags
            ∧ d.severity = Severity.error ∧ d.summary = "Instance Rebuild Incomplete") := by
  have hiff := WaitForInstanceStatus_nil_iff c plan.ZoneID.ValueString plan.ID.ValueString
  have himage := updateImage_after_rebuild c
    { plan with Password := state.Password, Username := state.Username } st st1 st2 hstop
    hrebuild
  have hupd := Update_image_returned c orders sortSlice plan state st himg hclean
  refine ⟨fun t m n s => hiff t m n s, ?_, ?_⟩
  · intro hne
    have hw := himage.1 (hupd.1 hne)
    obtain ⟨k, hk, ⟨data, hd, hmem⟩, _⟩ :=
      (hiff [InstanceStatusUP] MaxInstanceStatusRetries DefaultPollInterval st2).mp hw
    refine ⟨k, ?_, data, hd, ?_⟩
    · simp only [MaxInstanceStatusRetries] at hk
      omega
    · simpa [InstanceStatusUP] using hmem
  · intro hall
    have hw : (WaitForInstanceStatus c plan.ZoneID.ValueString plan.ID.ValueString
        [InstanceStatusUP] MaxInstanceStatusRetries DefaultPollInterval st2).1.2 ≠ none := by
      intro h
      obtain ⟨k, _, ⟨data, hd, hmem⟩, _⟩ :=
        (hiff [InstanceStatusUP] MaxInstanceStatusRetries DefaultPollInterval st2).mp h
      obtain ⟨data1, hd1, hs1⟩ := hall k
      rw [hd] at hd1
      have : data = data1 := by simpa using hd1
      rw [this, hs1] at hmem
      simp [InstanceStatusUP] at hmem
    obtain ⟨hret, d, hd, hsev, hsum⟩ := himage.2 hw
    constructor
    · by_contra hne
      have := hupd.1 hne
      rw [hret] at this
      exact Bool.noConfusion this
    · rw [hupd.2 hret]
      exact ⟨d, hd, hsev, hsum⟩

theorem rebuildRunningClient_reads (k : Nat) :
    showAt rebuildRunningClient "zone" "vm" "Running" k
      = ApiResult.ok { Status := "Running", Username := "root", Password := "secret",
                       DataVolumes := [] } := by
  have h : ∀ k, remoteAfterReads rebuildRunningClient "zone" "vm" "Running" k = "Running" := by
    intro k
    induction k with
    | zero => rfl
    | succ k ih =>
      rw [remoteAfterReads, Function.iterate_succ_apply'] at *
      rw [ih]
      rfl
  rw [showAt, h]
  rfl

/-- Witness for C19: the plan changes the image of a stopped instance on a remote whose
instance reports `Running` on every read after the rebuild. -/
theorem Update_rebuild_requires_UP_witness :
    (Update rebuildRunningClient RangeOrders.identity simSortSlice
        (simModel "img2" ["A"] [] TFString.null) (simModel "img1" ["A"] [] TFString.null)
        (fixedStatusStart "Stopped")).newState = none
    ∧ ∃ d, d ∈ (Update rebuildRunningClient RangeOrders.identity simSortSlice
          (simModel "img2" ["A"] [] TFString.null) (simModel "img1" ["A"] [] TFString.null)
          (fixedStatusStart "Stopped")).st.diags
        ∧ d.severity = Severity.error ∧ d.summary = "Instance Rebuild Incomplete" :=
  (Update_rebuild_requires_UP rebuildRunningClient RangeOrders.identity simSortSlice
    (simModel "img2" ["A"] [] TFString.null) (simModel "img1" ["A"] [] TFString.null)
    (fixedStatusStart "Stopped")
    (EnsureInstanceStopped rebuildRunningClient "zone" "vm" (fixedStatusStart "Stopped")).2
    (callRebuildInstance rebuildRunningClient "zone" "vm" "img2"
      (EnsureInstanceStopped rebuildRunningClient "zone" "vm" (fixedStatusStart "Stopped")).2).2
    (by decide) (by decide) (Prod.ext (by decide) rfl) (Prod.ext (by decide) rfl)).2.2
    (fun k => ⟨_, rebuildRunningClient_reads k, rfl⟩)

/-! ### A failed connect or disconnect ends the reconciliation -/

theorem Event.Quiet.detachEvent (nets : List String) (e : Event) (h : Event.Quiet e) :
    DetachEvent nets e := by
  cases e <;>
    first
    | exact ⟨rfl, fun _ _ _ _ _ h0 => Event.noConfusion h0⟩
    | exact absurd h (by simp [Event.Quiet, Event.isAttachmentChange])

theorem Event.Quiet.notFailed (e : Event) (h : Event.Quiet e) : e.isFailedChange = false := by
  cases e <;> first | rfl | exact absurd h (by simp [Event.Quiet, Event.isAttachmentChange])

theorem DetachNetworksFromInstance_events {σ : Type} (c : Client σ) (z i : String) :
    ∀ (nets : List String) (d : String) (st : St σ),
      Ext (DetachEvent nets) st (DetachNetworksFromInstance c z i nets d st) := by
  intro nets
  induction nets with
  | nil => intro d st; exact Ext.extRefl _ _
  | cons n rest ih =>
    intro d st
    have hq : ∀ {a b : St σ}, Ext Event.Quiet a b → Ext (DetachEvent (n :: rest)) a b :=
      fun h => h.extMono (Event.Quiet.detachEvent _)
    have hrest : ∀ s : St σ, Ext (DetachEvent (n :: rest)) s
        (DetachNetworksFromInstance c z i rest d s) :=
      fun s => (ih d s).extMono
        (fun e he => ⟨he.1, fun z' n' i' a err h0 => List.mem_cons_of_mem _ (he.2 z' n' i' a err h0)⟩)
    have hcall : Ext Event.Quiet st (callListNetworkInstances c z n i st).2 :=
      Ext.single _ (callListNetworkInstances_trace c z n i st) rfl
    rw [DetachNetworksFromInstance]
    rcases hc : callListNetworkInstances c z n i st with ⟨resp, st1⟩
    rw [hc] at hcall
    cases resp with
    | error err => exact hq (hcall.extTrans (Ext.of_trace_eq _ rfl))
    | ok data =>
      simp only
      split
      · exact hq (hcall.extTrans (Ext.of_trace_eq _ rfl))
      · split
        · exact (hq hcall).extTrans (hrest st1)
        · rename_i hid hdef
          cases hf : firstAttachment data i n with
          | none => simp [hf] at hid
          | some r =>
            simp only [hf] at hid hdef ⊢
            have hd : Ext (DetachEvent (n :: rest)) st1
                (callDisconnectInstanceFromNetwork c z n i r.ID st1).2 :=
              Ext.single _ (callDisconnect_trace c z n i r.ID st1)
                ⟨rfl, fun z' n' i' a' err h0 => by
                  have h1 : n = n' := by
                    simp only [Event.DisconnectInstanceFromNetwork.injEq] at h0
                    exact h0.2.1
                  rw [← h1]; exact List.mem_cons_self _ _⟩
            rcases hdc : callDisconnectInstanceFromNetwork c z n i r.ID st1 with ⟨err, st2⟩
            rw [hdc] at hd
            cases err with
            | some e => exact ((hq hcall).extTrans hd).extTrans (Ext.of_trace_eq _ rfl)
            | none =>
              simp only
              have hw := waitDisconnected_ext c z n i r.ID 30 st2
              rcases hwc : waitDisconnected c z n i r.ID 30 st2 with ⟨ret, st3⟩
              rw [hwc] at hw
              cases ret with
              | true => exact ((hq hcall).extTrans hd).extTrans (hq hw)
              | false => exact (((hq hcall).extTrans hd).extTrans (hq hw)).extTrans (hrest st3)

theorem FailStop.ofClean {σ : Type} {a b : St σ}
    (h : Ext (fun e => e.isFailedChange = false) a b) : FailStop a b := by
  obtain ⟨t, ht, hp⟩ := h
  exact ⟨t, ht, Or.inl hp⟩

theorem FailStop.ofQuiet {σ : Type} {a b : St σ} (h : Ext Event.Quiet a b) : FailStop a b :=
  FailStop.ofClean (h.extMono Event.Quiet.notFailed)

theorem FailStop.afterClean {σ : Type} {a b d : St σ}
    (h1 : Ext (fun e => e.isFailedChange = false) a b) (h2 : FailStop b d) : FailStop a d := by
  obtain ⟨t1, e1, p1⟩ := h1
  obtain ⟨t2, e2, p2⟩ := h2
  refine ⟨t1 ++ t2, by rw [e2, e1, List.append_assoc], ?_⟩
  rcases p2 with p2 | ⟨t0, e, ht0, hfail, hclean, herr⟩
  · left
    intro x hx
    rcases List.mem_append.mp hx with h | h
    · exact p1 x h
    · exact p2 x h
  · right
    refine ⟨t1 ++ t0, e, by rw [ht0, List.append_assoc], hfail, ?_, herr⟩
    intro x hx
    rcases List.mem_append.mp hx with h | h
    · exact p1 x h
    · exact hclean x h

theorem FailStop.clean_of_noError {σ : Type} {a b : St σ} (h : FailStop a b)
    (hb : ¬ Diagnostics.HasError b.diags = true) :
    Ext (fun e => e.isFailedChange = false) a b := by
  obtain ⟨t, ht, hp⟩ := h
  rcases hp with hp | ⟨t0, e, _, _, _, herr⟩
  · exact ⟨t, ht, hp⟩
  · exact absurd herr hb

theorem DetachNetworksFromInstance_failStop {σ : Type} (c : Client σ) (z i : String) :
    ∀ (nets : List String) (d : String) (st : St σ),
      FailStop st (DetachNetworksFromInstance c z i nets d st) := by
  intro nets
  induction nets with
  | nil => intro d st; exact FailStop.ofQuiet (Ext.extRefl _ _)
  | cons n rest ih =>
    intro d st
    have hcall : Ext Event.Quiet st (callListNetworkInstances c z n i st).2 :=
      Ext.single _ (callListNetworkInstances_trace c z n i st) rfl
    have htr := callListNetworkInstances_trace c z n i st
    rw [DetachNetworksFromInstance]
    rcases hc : callListNetworkInstances c z n i st with ⟨resp, st1⟩
    rw [hc] at hcall htr
    simp only at htr
    cases resp with
    | error err => exact FailStop.ofQuiet (hcall.extTrans (Ext.of_trace_eq _ rfl))
    | ok data =>
      simp only
      split
      · exact FailStop.ofQuiet (hcall.extTrans (Ext.of_trace_eq _ rfl))
      · rename_i hid
        split
        · exact FailStop.afterClean (hcall.extMono Event.Quiet.notFailed) (ih d st1)
        · rename_i hdef
          cases hf : firstAttachment data i n with
          | none => simp [hf] at hid
          | some r =>
            simp only [hf] at hid hdef ⊢
            have hd2 := callDisconnect_trace c z n i r.ID st1
            rcases hdc : callDisconnectInstanceFromNetwork c z n i r.ID st1 with ⟨err, st2⟩
            rw [hdc] at hd2
            simp only at hd2
            cases err with
            | some e =>
              refine ⟨[Event.ListNetworkInstances z n i (ApiResult.ok data),
                Event.DisconnectInstanceFromNetwork z n i r.ID (some e)], ?_, Or.inr ?_⟩
              · rw [St.addError_trace, hd2, htr]; simp
              · refine ⟨[Event.ListNetworkInstances z n i (ApiResult.ok data)],
                  Event.DisconnectInstanceFromNetwork z n i r.ID (some e), rfl, rfl, ?_,
                  St.addError_hasError _ _ _⟩
                intro x hx
                rw [List.mem_singleton] at hx
                rw [hx]; rfl
            | none =>
              simp only
              have hpair : Ext (fun e => e.isFailedChange = false) st st2 :=
                (hcall.extMono Event.Quiet.notFailed).extTrans (Ext.single _ hd2 rfl)
              have hw := (waitDisconnected_ext c z n i r.ID 30 st2).extMono
                Event.Quiet.notFailed
              rcases hwc : waitDisconnected c z n i r.ID 30 st2 with ⟨ret, st3⟩
              rw [hwc] at hw
              cases ret with
              | true => exact FailStop.ofClean (hpair.extTrans hw)
              | false => exact FailStop.afterClean (hpair.extTrans hw) (ih d st3)

theorem AttachNetworksToInstance_failStop {σ : Type} (c : Client σ) (z i : String) :
    ∀ (nets : List String) (st : St σ),
      FailStop st (AttachNetworksToInstance c z i nets st) := by
  intro nets
  induction nets with
  | nil => intro st; exact FailStop.ofQuiet (Ext.extRefl _ _)
  | cons n rest ih =>
    intro st
    have htr := callConnect_trace c z n i st
    rw [AttachNetworksToInstance]
    rcases hc : callConnectInstanceToNetwork c z n i st with ⟨err, st1⟩
    rw [hc] at htr
    simp only at htr
    cases err with
    | some e =>
      refine ⟨[Event.ConnectInstanceToNetwork z n i (some e)], ?_, Or.inr ?_⟩
      · rw [St.addError_trace, htr]
      · exact ⟨[], Event.ConnectInstanceToNetwork z n i (some e), rfl, rfl,
          fun x hx => absurd hx (List.not_mem_nil x), St.addError_hasError _ _ _⟩
    | none =>
      simp only
      have hcall : Ext (fun e => e.isFailedChange = false) st st1 := Ext.single _ htr rfl
      have hw := (waitConnected_ext c z n i 30 st1).extMono Event.Quiet.notFailed
      rcases hwc : waitConnected c z n i 30 st1 with ⟨ret, st2⟩
      rw [hwc] at hw
      cases ret with
      | true => exact FailStop.ofClean (hcall.extTrans hw)
      | false => exact FailStop.afterClean (hcall.extTrans hw) (ih st2)

theorem UpdateInstanceNetworks_failStop {σ : Type} (c : Client σ) (orders : RangeOrders)
    (z i : String) (planNetworkIDs stateNetworkIDs : GoMap) (st : St σ) :
    FailStop st (UpdateInstanceNetworks c orders z i planNetworkIDs stateNetworkIDs st) := by
  have hf := (FindDefaultNetworkID_ext c z i (getKeys orders.stateKeys stateNetworkIDs) st).1
  rw [UpdateInstanceNetworks]
  rcases hc : FindDefaultNetworkID c z i (getKeys orders.stateKeys stateNetworkIDs) st
    with ⟨d, st1⟩
  rw [hc] at hf
  simp only at hf ⊢
  have h1 : Ext (fun e => e.isFailedChange = false) st st1 :=
    hf.extMono Event.Quiet.notFailed
  have h2 : Ext (fun e => e.isFailedChange = false) st1
      (if d ≠ "" then
        VerifyDefaultNetworkChange c z i d (getKeys orders.planKeys planNetworkIDs) st1
      else st1) := by
    split
    · exact (VerifyDefaultNetworkChange_ext c z i d _ st1).1.extMono Event.Quiet.notFailed
    · exact Ext.extRefl _ _
  generalize (if d ≠ "" then
        VerifyDefaultNetworkChange c z i d (getKeys orders.planKeys planNetworkIDs) st1
      else st1) = st2 at h2 ⊢
  have h3 := DetachNetworksFromInstance_failStop c z i
        (networksToDetach orders.detach planNetworkIDs stateNetworkIDs) d st2
  generalize DetachNetworksFromInstance c z i
        (networksToDetach orders.detach planNetworkIDs stateNetworkIDs) d st2 = st3 at h3 ⊢
  have h4 := AttachNetworksToInstance_failStop c z i
    (networksToAttach orders.attach planNetworkIDs stateNetworkIDs) st3
  split
  · exact FailStop.ofClean h1
  · split
    · exact FailStop.ofClean (h1.extTrans h2)
    · split
      · exact FailStop.afterClean (h1.extTrans h2) h3
      · rename_i hne
        exact FailStop.afterClean ((h1.extTrans h2).extTrans (h3.clean_of_noError hne)) h4

theorem UpdateInstanceNetworks_detach_before_attach {σ : Type} (c : Client σ)
    (orders : RangeOrders) (z i : String) (planNetworkIDs stateNetworkIDs : GoMap)
    (st : St σ) :
    Ext (fun e => e.isConnect = false) st
        (UpdateInstanceNetworks c orders z i planNetworkIDs stateNetworkIDs st)
    ∨ Ext (fun e => e.isFailedDisconnect = false) st
        (UpdateInstanceNetworks c orders z i planNetworkIDs stateNetworkIDs st) := by
  have hqc : ∀ e, Event.Quiet e → e.isConnect = false := fun e h =>
    (Event.Quiet.detachEvent [] e h).1
  have hfd : ∀ e : Event, e.isFailedChange = false → e.isFailedDisconnect = false := by
    intro e h
    cases e <;> first | rfl | skip
    rename_i err
    cases err with
    | none => rfl
    | some _ => exact absurd h (by simp [Event.isFailedChange])
  have hdd : ∀ e : Event, e.isDisconnect = false → e.isFailedDisconnect = false := by
    intro e h
    cases e <;> first | rfl | exact absurd h (by simp [Event.isDisconnect])
  have hf := (FindDefaultNetworkID_ext c z i (getKeys orders.stateKeys stateNetworkIDs) st).1
  rw [UpdateInstanceNetworks]
  rcases hc : FindDefaultNetworkID c z i (getKeys orders.stateKeys stateNetworkIDs) st
    with ⟨d, st1⟩
  rw [hc] at hf
  simp only at hf ⊢
  have h2 : Ext Event.Quiet st1
      (if d ≠ "" then
        VerifyDefaultNetworkChange c z i d (getKeys orders.planKeys planNetworkIDs) st1
      else st1) := by
    split
    · exact (VerifyDefaultNetworkChange_ext c z i d _ st1).1
    · exact Ext.extRefl _ _
  generalize (if d ≠ "" then
        VerifyDefaultNetworkChange c z i d (getKeys orders.planKeys planNetworkIDs) st1
      else st1) = st2 at h2 ⊢
  have h3 := DetachNetworksFromInstance_failStop c z i
        (networksToDetach orders.detach planNetworkIDs stateNetworkIDs) d st2
  have h3e := DetachNetworksFromInstance_events c z i
        (networksToDetach orders.detach planNetworkIDs stateNetworkIDs) d st2
  generalize DetachNetworksFromInstance c z i
        (networksToDetach orders.detach planNetworkIDs stateNetworkIDs) d st2 = st3 at h3 h3e ⊢
  have h4 := AttachNetworksToInstance_ext c z i
    (networksToAttach orders.attach planNetworkIDs stateNetworkIDs) st3
  have h12 : Ext Event.Quiet st st2 := hf.extTrans h2
  split
  · exact Or.inl (hf.extMono hqc)
  · split
    · exact Or.inl (h12.extMono hqc)
    · split
      · exact Or.inl ((h12.extMono hqc).extTrans (h3e.extMono (fun e he => he.1)))
      · rename_i hne
        exact Or.inr (((h12.extMono (fun e he => hfd e (Event.Quiet.notFailed e he))).extTrans
          ((h3.clean_of_noError hne).extMono hfd)).extTrans (h4.extMono hdd))

theorem List.eq_nil_or_mem_of_append_cons_eq_concat {α : Type} (pre post t0 : List α)
    (e x : α) (h : pre ++ e :: post = t0 ++ [x]) : (post = [] ∧ e = x) ∨ e ∈ t0 := by
  rcases List.eq_nil_or_concat post with hp | ⟨post1, y, hp⟩
  · subst hp
    have h1 : pre ++ [e] = t0 ++ [x] := h
    have h2 := List.append_inj' h1 rfl
    exact Or.inl ⟨rfl, by simpa using h2.2⟩
  · subst hp
    have h1 : (pre ++ e :: post1) ++ [y] = t0 ++ [x] := by
      rw [← h]; simp
    have h2 := List.append_inj' h1 rfl
    right
    rw [← h2.1]
    simp

/-- C12: in a run of `UpdateInstanceNetworks`, whenever a `DisconnectInstanceFromNetwork` or a
`ConnectInstanceToNetwork` call `e` returns an error, the diagnostics of the run hold an error,
`e` is the last call of the run (so no connect or disconnect follows it), and if `e` is a
failed disconnect then no connect call was issued anywhere in the run. -/
theorem UpdateInstanceNetworks_stops_at_failed_call {σ : Type} (c : Client σ)
    (orders : RangeOrders) (zoneID instanceID : String) (planNetworkIDs stateNetworkIDs : GoMap)
    (st : St σ) (pre post : List Event) (e : Event)
    (hrun : (UpdateInstanceNetworks c orders zoneID instanceID planNetworkIDs stateNetworkIDs
              st).trace = st.trace ++ (pre ++ e :: post))
    (hfail : e.isFailedChange = true) :
    Diagnostics.HasError (UpdateInstanceNetworks c orders zoneID instanceID planNetworkIDs
        stateNetworkIDs st).diags = true
    ∧ post = []
    ∧ (e.isFailedDisconnect = true → ∀ x, x ∈ pre → x.isConnect = false) := by
  have hmem : e ∈ pre ++ e :: post := by simp
  obtain ⟨t, ht, hp⟩ :=
    UpdateInstanceNetworks_failStop c orders zoneID instanceID planNetworkIDs stateNetworkIDs st
  have htt : t = pre ++ e :: post := List.append_cancel_left (ht.symm.trans hrun)
  refine ⟨?_, ?_, ?_⟩
  · rcases hp with hp | ⟨t0, x, _, _, _, herr⟩
    · have := hp e (htt ▸ hmem)
      rw [hfail] at this
      exact absurd this (by simp)
    · exact herr
  · rcases hp with hp | ⟨t0, x, ht0, _, hclean, _⟩
    · have := hp e (htt ▸ hmem)
      rw [hfail] at this
      exact absurd this (by simp)
    · rcases List.eq_nil_or_mem_of_append_cons_eq_concat pre post t0 e x (htt ▸ ht0) with h | h
      · exact h.1
      · have := hclean e h
        rw [hfail] at this
        exact absurd this (by simp)
  · intro hd x hx
    rcases UpdateInstanceNetworks_detach_before_attach c orders zoneID instanceID planNetworkIDs
      stateNetworkIDs st with ⟨t1, ht1, hp1⟩ | ⟨t1, ht1, hp1⟩
    · have h1 : t1 = pre ++ e :: post := List.append_cancel_left (ht1.symm.trans hrun)
      exact hp1 x (h1 ▸ List.mem_append_left _ hx)
    · have h1 : t1 = pre ++ e :: post := List.append_cancel_left (ht1.symm.trans hrun)
      have h2 : e.isFailedDisconnect = false := hp1 e (h1 ▸ hmem)
      rw [hd] at h2
      exact absurd h2 (by simp)

theorem UpdateInstanceNetworks_stops_at_failed_call_witness :
    Diagnostics.HasError (UpdateInstanceNetworks refusingClient RangeOrders.identity "zone" "vm"
        (GoMap.ofKeys ["A", "C"]) (GoMap.ofKeys ["A", "B"])
        (simStart [simAttachment "A" true, simAttachment "B" false] "UP")).diags = true
    ∧ ([] : List Event) = []
    ∧ ((Event.DisconnectInstanceFromNetwork "zone" "B" "vm" "att-B"
          (some "refused")).isFailedDisconnect = true →
        ∀ x, x ∈ [Event.ListNetworkInstances "zone" "A" "vm"
                    (ApiResult.ok [simAttachment "A" true]),
                  Event.ListNetworkInstances "zone" "C" "vm" (ApiResult.ok []),
                  Event.ListNetworkInstances "zone" "A" "vm"
                    (ApiResult.ok [simAttachment "A" true]),
                  Event.ListNetworkInstances "zone" "B" "vm"
                    (ApiResult.ok [simAttachment "B" false])] → x.isConnect = false) :=
  UpdateInstanceNetworks_stops_at_failed_call refusingClient RangeOrders.identity "zone" "vm"
    (GoMap.ofKeys ["A", "C"]) (GoMap.ofKeys ["A", "B"])
    (simStart [simAttachment "A" true, simAttachment "B" false] "UP") _ [] _
    (by decide) (by decide)

/-- Run of `UpdateInstanceNetworks` on the sample remote with every connect refused, desired
`{A, B, C}` and prior-managed `{A}`: the connect of `B` fails, an error is recorded and the
connect of `C` is never issued. -/
theorem UpdateInstanceNetworks_failed_connect_run :
    (UpdateInstanceNetworks rejectingClient RangeOrders.identity "zone" "vm"
        (GoMap.ofKeys ["A", "B", "C"]) (GoMap.ofKeys ["A"])
        (simStart [simAttachment "A" true] "UP")).trace
      = [Event.ListNetworkInstances "zone" "A" "vm" (ApiResult.ok [simAttachment "A" true]),
         Event.ListNetworkInstances "zone" "B" "vm" (ApiResult.ok []),
         Event.ListNetworkInstances "zone" "C" "vm" (ApiResult.ok []),
         Event.ListNetworkInstances "zone" "A" "vm" (ApiResult.ok [simAttachment "A" true]),
         Event.ConnectInstanceToNetwork "zone" "B" "vm" (some "rejected")]
    ∧ Diagnostics.HasError (UpdateInstanceNetworks rejectingClient RangeOrders.identity "zone"
        "vm" (GoMap.ofKeys ["A", "B", "C"]) (GoMap.ofKeys ["A"])
        (simStart [simAttachment "A" true] "UP")).diags = true := by
  decide

/-! ### A second run of the network reconciliation -/

theorem DetachEvent.outsideDesired (plan : GoMap) (nets : List String)
    (hnets : ∀ n, n ∈ nets → n ∉ plan.keys) (e : Event) (h : DetachEvent nets e) :
    OutsideDesired plan e :=
  ⟨h.1, fun z n i a err he => hnets n (h.2 z n i a err he)⟩

theorem warnUnmanaged_trace {σ : Type} (i : String) (unmanaged : List String) (st : St σ) :
    (warnUnmanaged i unmanaged st).trace = st.trace := rfl

theorem UpdateInstanceNetworks_nothing_to_attach {σ : Type} (c : Client σ)
    (orders : RangeOrders) (z i : String) (planNetworkIDs stateNetworkIDs : GoMap) (st : St σ)
    (hattach : networksToAttach orders.attach planNetworkIDs stateNetworkIDs = []) :
    Ext (DetachEvent (networksToDetach orders.detach planNetworkIDs stateNetworkIDs)) st
      (UpdateInstanceNetworks c orders z i planNetworkIDs stateNetworkIDs st) := by
  have hq : ∀ {a b : St σ}, Ext Event.Quiet a b →
      Ext (DetachEvent (networksToDetach orders.detach planNetworkIDs stateNetworkIDs)) a b :=
    fun h => h.extMono (Event.Quiet.detachEvent _)
  have hf := (FindDefaultNetworkID_ext c z i (getKeys orders.stateKeys stateNetworkIDs) st).1
  rw [UpdateInstanceNetworks]
  rcases hc : FindDefaultNetworkID c z i (getKeys orders.stateKeys stateNetworkIDs) st
    with ⟨d, st1⟩
  rw [hc] at hf
  simp only at hf ⊢
  have h2 : Ext Event.Quiet st1
      (if d ≠ "" then
        VerifyDefaultNetworkChange c z i d (getKeys orders.planKeys planNetworkIDs) st1
      else st1) := by
    split
    · exact (VerifyDefaultNetworkChange_ext c z i d _ st1).1
    · exact Ext.extRefl _ _
  generalize (if d ≠ "" then
        VerifyDefaultNetworkChange c z i d (getKeys orders.planKeys planNetworkIDs) st1
      else st1) = st2 at h2 ⊢
  have h3 := DetachNetworksFromInstance_events c z i
        (networksToDetach orders.detach planNetworkIDs stateNetworkIDs) d st2
  generalize DetachNetworksFromInstance c z i
        (networksToDetach orders.detach planNetworkIDs stateNetworkIDs) d st2 = st3 at h3 ⊢
  rw [hattach]
  split
  · exact hq hf
  · split
    · exact hq (hf.extTrans h2)
    · split
      · exact (hq (hf.extTrans h2)).extTrans h3
      · rw [AttachNetworksToInstance]
        exact (hq (hf.extTrans h2)).extTrans h3

theorem networksToAttach_eq_nil_of_keys (order : RangeOrder) (horder : order.Valid)
    (planNetworkIDs stateNetworkIDs : GoMap) (hstate : stateNetworkIDs.AllTrue)
    (hsub : ∀ n, n ∈ planNetworkIDs.keys → n ∈ stateNetworkIDs.keys) :
    networksToAttach order planNetworkIDs stateNetworkIDs = [] := by
  rw [List.eq_nil_iff_forall_not_mem]
  intro n hn
  rw [mem_networksToAttach order horder planNetworkIDs stateNetworkIDs hstate] at hn
  exact hn.2 (hsub n hn.1)

theorem reconcileNetworks_guarded {σ : Type} (c : Client σ) (orders : RangeOrders)
    (z i : String) (planNetworkIDs stateNetworkIDs actualNetworkIDs : GoMap) (st : St σ) :
    GuardedExt st
      (reconcileNetworks c orders z i planNetworkIDs stateNetworkIDs actualNetworkIDs st).2 := by
  rw [reconcileNetworks]
  split
  · exact GuardedExt.ofQuietExt (Ext.of_trace_eq _ rfl)
  · by_cases hne : unmanagedNetworks orders.unmanaged actualNetworkIDs stateNetworkIDs
        planNetworkIDs = []
    · have h0 : detachUnmanaged c orders z i planNetworkIDs stateNetworkIDs actualNetworkIDs st
          = (false, stateNetworkIDs, st) := by simp [detachUnmanaged, hne]
      rw [h0]
      exact UpdateInstanceNetworks_guarded c orders z i _ _ st
    · rw [detachUnmanaged_eq c orders z i _ _ _ st hne]
      have hd := DetachNetworksFromInstance_guarded c z i
        (unmanagedNetworks orders.unmanaged actualNetworkIDs stateNetworkIDs planNetworkIDs) ""
        (warnUnmanaged i (unmanagedNetworks orders.unmanaged actualNetworkIDs stateNetworkIDs
          planNetworkIDs) st)
      have hw : GuardedExt st (warnUnmanaged i (unmanagedNetworks orders.unmanaged
          actualNetworkIDs stateNetworkIDs planNetworkIDs) st) :=
        GuardedExt.ofQuietExt (Ext.of_trace_eq _ rfl)
      by_cases herr : Diagnostics.HasError (DetachNetworksFromInstance c z i
          (unmanagedNetworks orders.unmanaged actualNetworkIDs stateNetworkIDs planNetworkIDs)
          "" (warnUnmanaged i (unmanagedNetworks orders.unmanaged actualNetworkIDs
            stateNetworkIDs planNetworkIDs) st)).diags = true
      · rw [if_pos herr]
        exact hw.guardTrans hd
      · rw [if_neg herr]
        exact (hw.guardTrans hd).guardTrans (UpdateInstanceNetworks_guarded c orders z i _ _ _)

theorem reconcileNetworks_second_run_events {σ : Type} (c : Client σ) (orders : RangeOrders)
    (z i : String) (plan actual : GoMap) (st : St σ) (horders : orders.Valid)
    (hplan : plan.AllTrue) :
    Ext (OutsideDesired plan) st (reconcileNetworks c orders z i plan plan actual st).2 := by
  have hdet : ∀ m : GoMap, ∀ n, n ∈ networksToDetach orders.detach plan m → n ∉ plan.keys := by
    intro m n hn hk
    rw [networksToDetach, List.mem_filter] at hn
    have := hplan n hk
    simp [this] at hn
  rw [reconcileNetworks]
  split
  · exact Ext.of_trace_eq _ rfl
  · by_cases hne : unmanagedNetworks orders.unmanaged actual plan plan = []
    · have h0 : detachUnmanaged c orders z i plan plan actual st = (false, plan, st) := by
        simp [detachUnmanaged, hne]
      rw [h0]
      exact (UpdateInstanceNetworks_nothing_to_attach c orders z i plan plan st
        (networksToAttach_eq_nil_of_keys _ horders.2.2.1 plan plan hplan
          (fun _ h => h))).extMono (DetachEvent.outsideDesired plan _ (hdet plan))
    · rw [detachUnmanaged_eq c orders z i _ _ _ st hne]
      have hU : ∀ n, n ∈ unmanagedNetworks orders.unmanaged actual plan plan →
          n ∉ plan.keys := by
        intro n hn hk
        rw [unmanagedNetworks, List.mem_filter] at hn
        have := hplan n hk
        simp [this] at hn
      have hd := (DetachNetworksFromInstance_events c z i
        (unmanagedNetworks orders.unmanaged actual plan plan) ""
        (warnUnmanaged i (unmanagedNetworks orders.unmanaged actual plan plan) st)).extMono
          (DetachEvent.outsideDesired plan _ hU)
      have hw : Ext (OutsideDesired plan) st (warnUnmanaged i (unmanagedNetworks
          orders.unmanaged actual plan plan) st) := Ext.of_trace_eq _ rfl
      have hfold := foldUnmanaged_spec (unmanagedNetworks orders.unmanaged actual plan plan)
        plan hplan
      by_cases herr : Diagnostics.HasError (DetachNetworksFromInstance c z i
          (unmanagedNetworks orders.unmanaged actual plan plan)
          "" (warnUnmanaged i (unmanagedNetworks orders.unmanaged actual plan plan)
            st)).diags = true
      · rw [if_pos herr]
        exact hw.extTrans hd
      · rw [if_neg herr]
        exact (hw.extTrans hd).extTrans
          ((UpdateInstanceNetworks_nothing_to_attach c orders z i plan _ _
            (networksToAttach_eq_nil_of_keys _ horders.2.2.1 plan _ hfold.1
              (fun n h => (hfold.2 n).mpr (Or.inl h)))).extMono
            (DetachEvent.outsideDesired plan _ (hdet _)))

/-- A run of the network reconciliation of `Update` (drift handling followed by
`UpdateInstanceNetworks`) whose prior-managed map is the desired map (all values `true`, any
visiting order, any observed map, any remote) issues no `ConnectInstanceToNetwork` call; every
`DisconnectInstanceFromNetwork` call it issues is for a network outside the desired set and
directly follows a read of that network whose attachment record is not default; hence, when
every attachment record the run reads for a network outside the desired set is the default
one, the run issues neither a connect nor a disconnect. -/
theorem reconcileNetworks_second_run_calls {σ : Type} (c : Client σ) (orders : RangeOrders)
    (zoneID instanceID : String) (desired observed : GoMap) (st : St σ)
    (horders : orders.Valid) (hdesired : desired.AllTrue) :
    ∃ t, (reconcileNetworks c orders zoneID instanceID desired desired observed st).2.trace
          = st.trace ++ t
      ∧ (∀ e, e ∈ t → e.isConnect = false)
      ∧ (∀ pre post z n i a err,
          t = pre ++ Event.DisconnectInstanceFromNetwork z n i a err :: post →
          n ∉ desired.keys
          ∧ ∃ pre0 data r,
              pre = pre0 ++ [Event.ListNetworkInstances z n i (ApiResult.ok data)]
              ∧ firstAttachment data i n = some r ∧ r.ID = a ∧ r.IsDefault = false)
      ∧ ((∀ z n i data r, Event.ListNetworkInstances z n i (ApiResult.ok data) ∈ t →
            n ∉ desired.keys → firstAttachment data i n = some r → r.IsDefault = true) →
          ∀ e, e ∈ t → e.isAttachmentChange = false) := by
  obtain ⟨t, ht, hg⟩ :=
    reconcileNetworks_guarded c orders zoneID instanceID desired desired observed st
  obtain ⟨t1, ht1, hp⟩ :=
    reconcileNetworks_second_run_events c orders zoneID instanceID desired observed st horders
      hdesired
  have htt : t1 = t := List.append_cancel_left (ht1.symm.trans ht)
  subst htt
  have hnd := NeverDisconnectsDefault.of_guarded t1 (hg none)
  have hdis : ∀ pre post z n i a err,
      t1 = pre ++ Event.DisconnectInstanceFromNetwork z n i a err :: post →
      n ∉ desired.keys
      ∧ ∃ pre0 data r,
          pre = pre0 ++ [Event.ListNetworkInstances z n i (ApiResult.ok data)]
          ∧ firstAttachment data i n = some r ∧ r.ID = a ∧ r.IsDefault = false := by
    intro pre post z n i a err h
    refine ⟨(hp _ ?_).2 z n i a err rfl, hnd pre post z n i a err h⟩
    rw [h]; simp
  refine ⟨t1, ht, fun e he => (hp e he).1, hdis, ?_⟩
  intro hread e he
  cases e with
  | ConnectInstanceToNetwork z n i err =>
    have := (hp _ he).1
    simp [Event.isConnect] at this
  | DisconnectInstanceFromNetwork z n i a err =>
    obtain ⟨pre, post, hsplit⟩ := List.append_of_mem he
    obtain ⟨hout, pre0, data, r, hpre, hfirst, _, hdef⟩ := hdis pre post z n i a err hsplit
    have hmem : Event.ListNetworkInstances z n i (ApiResult.ok data) ∈ t1 := by
      rw [hsplit, hpre]; simp
    have := hread z n i data r hmem hout hfirst
    rw [hdef] at this
    exact absurd this (by simp)
  | _ => rfl

/-- Two runs on the sample remote whose observed sets hold every attachment of the instance:
with attachments `A` (default) and `B`, prior-managed `{A, B}` and desired `{A, C}` the first
run disconnects `B` and connects `C` without error; the second run, with `{A, C}` as desired
and prior-managed set and the attachments left by the first run as observed set, issues no
connect and no disconnect. -/
theorem reconcileNetworks_two_runs :
    (reconcileNetworks simClient RangeOrders.identity "zone" "vm" (GoMap.ofKeys ["A", "C"])
        (GoMap.ofKeys ["A", "B"]) (GoMap.ofKeys ["A", "B"])
        (simStart [simAttachment "A" true, simAttachment "B" false] "UP")).1 = false
    ∧ (reconcileNetworks simClient RangeOrders.identity "zone" "vm" (GoMap.ofKeys ["A", "C"])
        (GoMap.ofKeys ["A", "B"]) (GoMap.ofKeys ["A", "B"])
        (simStart [simAttachment "A" true, simAttachment "B" false] "UP")).2.trace.filter
          Event.isAttachmentChange
        = [Event.DisconnectInstanceFromNetwork "zone" "B" "vm" "att-B" none,
           Event.ConnectInstanceToNetwork "zone" "C" "vm" none]
    ∧ (reconcileNetworks simClient RangeOrders.identity "zone" "vm" (GoMap.ofKeys ["A", "C"])
        (GoMap.ofKeys ["A", "C"])
        (observedAfter "vm" (reconcileNetworks simClient RangeOrders.identity "zone" "vm"
          (GoMap.ofKeys ["A", "C"]) (GoMap.ofKeys ["A", "B"]) (GoMap.ofKeys ["A", "B"])
          (simStart [simAttachment "A" true, simAttachment "B" false] "UP")).2.remote.attachments)
        { (reconcileNetworks simClient RangeOrders.identity "zone" "vm" (GoMap.ofKeys ["A", "C"])
            (GoMap.ofKeys ["A", "B"]) (GoMap.ofKeys ["A", "B"])
            (simStart [simAttachment "A" true, simAttachment "B" false] "UP")).2 with
          trace := [] }).2.trace.filter Event.isAttachmentChange = [] := by
  decide

/-! ### Order and uniqueness of the exposed network list -/

theorem networkLess_asymm (a b : InstanceNetwork) (h : networkLess a b = true) :
    networkLess b a = false := by
  rcases a with ⟨_, _, na, _, _, da⟩
  rcases b with ⟨_, _, nb, _, _, db⟩
  simp only [networkLess] at h ⊢
  cases da <;> cases db <;> simp at h ⊢
  · exact le_of_lt h
  · exact le_of_lt h

theorem networkLess_trans (a b d : InstanceNetwork) (h1 : networkLess a b = true)
    (h2 : networkLess b d = true) : networkLess a d = true := by
  rcases a with ⟨_, _, na, _, _, da⟩
  rcases b with ⟨_, _, nb, _, _, db⟩
  rcases d with ⟨_, _, nd, _, _, dd⟩
  simp only [networkLess] at h1 h2 ⊢
  cases da <;> cases db <;> cases dd <;> simp at h1 h2 ⊢
  · exact lt_trans h1 h2
  · exact lt_trans h1 h2

theorem networkLess_of_ne (a b : InstanceNetwork) (hne : a.NetworkID ≠ b.NetworkID)
    (h : networkLess b a = false) : networkLess a b = true := by
  rcases a with ⟨_, _, na, _, _, da⟩
  rcases b with ⟨_, _, nb, _, _, db⟩
  simp only [networkLess] at h ⊢
  simp only at hne
  cases da <;> cases db <;> simp at h ⊢
  · exact lt_of_le_of_ne h (fun hd => hne (String.ext hd))
  · exact lt_of_le_of_ne h (fun hd => hne (String.ext hd))

theorem exposedBefore_exposedObject (a b : InstanceNetwork) :
    ExposedBefore (exposedObject a) (exposedObject b) ↔ networkLess a b = true := by
  rcases a with ⟨_, _, na, _, _, da⟩
  rcases b with ⟨_, _, nb, _, _, db⟩
  simp only [ExposedBefore, exposedObject, NetworkObject.isDefault, NetworkObject.networkID,
    TFBool.ValueBool, TFString.ValueString, networkLess]
  cases da <;> cases db <;> simp

theorem exposeNetworks_kept :
    ∀ (l : List InstanceNetwork) (seen : List String) (instanceIP : String),
      ∃ kept : List InstanceNetwork,
        (exposeNetworks l seen instanceIP).1 = kept.map exposedObject
        ∧ kept.Sublist l
        ∧ (kept.map (fun ni => ni.NetworkID)).Nodup
        ∧ (∀ k, k ∈ kept → k.NetworkID ∉ seen)
        ∧ (∀ ni, ni ∈ l → ni.NetworkID ∈ seen ∨ ni.NetworkID ∈ kept.map (fun k => k.NetworkID)) := by
  intro l
  induction l with
  | nil => intro seen ip; exact ⟨[], rfl, List.Sublist.refl _, List.nodup_nil, by simp, by simp⟩
  | cons ni rest ih =>
    intro seen ip
    rw [exposeNetworks]
    split
    · rename_i hseen
      obtain ⟨kept, h1, h2, h3, h4, h5⟩ := ih seen ip
      refine ⟨kept, h1, h2.cons _, h3, h4, ?_⟩
      intro x hx
      rcases List.mem_cons.mp hx with hx | hx
      · left; rw [hx]; exact hseen
      · exact h5 x hx
    · rename_i hseen
      simp only
      obtain ⟨kept, h1, h2, h3, h4, h5⟩ := ih (ni.NetworkID :: seen)
        (if ni.IsDefault = true then ni.IPAddress else if ip = "" then ni.IPAddress else ip)
      refine ⟨ni :: kept, ?_, h2.cons₂ _, ?_, ?_, ?_⟩
      · rw [List.map_cons, ← h1]; rfl
      · rw [List.map_cons, List.nodup_cons]
        refine ⟨?_, h3⟩
        intro hm
        obtain ⟨k, hk, hkn⟩ := List.mem_map.mp hm
        exact h4 k hk (by rw [hkn]; exact List.mem_cons_self _ _)
      · intro k hk
        rcases List.mem_cons.mp hk with hk | hk
        · rw [hk]; exact hseen
        · exact fun hs => h4 k hk (List.mem_cons_of_mem _ hs)
      · intro x hx
        rcases List.mem_cons.mp hx with hx | hx
        · right; rw [hx]; simp
        · rcases h5 x hx with h | h
          · rcases List.mem_cons.mp h with h | h
            · right; rw [h]; simp
            · left; exact h
          · right; rw [List.map_cons]; exact List.mem_cons_of_mem _ h

theorem exposeNetworks_ordered (sorted : List InstanceNetwork)
    (hsorted : sorted.Pairwise (fun a b => networkLess b a = false)) :
    (exposeNetworks sorted [] "").1.Pairwise ExposedBefore
    ∧ ((exposeNetworks sorted [] "").1.map NetworkObject.networkID).Nodup
    ∧ ∀ ni, ni ∈ sorted →
        ni.NetworkID ∈ (exposeNetworks sorted [] "").1.map NetworkObject.networkID := by
  obtain ⟨kept, h1, h2, h3, _, h5⟩ := exposeNetworks_kept sorted [] ""
  have hids : (kept.map exposedObject).map NetworkObject.networkID
      = kept.map (fun ni => ni.NetworkID) := by
    rw [List.map_map]; rfl
  rw [h1, hids]
  refine ⟨?_, h3, ?_⟩
  · rw [List.pairwise_map]
    have hp1 : kept.Pairwise (fun a b => networkLess b a = false) := hsorted.sublist h2
    have hp2 : kept.Pairwise (fun a b => a.NetworkID ≠ b.NetworkID) := by
      have := h3
      rw [List.Nodup, List.pairwise_map] at this
      exact this
    exact (hp1.and hp2).imp (fun {a b} h =>
      (exposedBefore_exposedObject a b).mpr (networkLess_of_ne a b h.2 h.1))
  · intro ni hni
    rcases h5 ni hni with h | h
    · exact absurd h (List.not_mem_nil _)
    · exact h

theorem pairwise_of_length_le_one {α : Type} (R : α → α → Prop) (l : List α)
    (h : ¬ 1 < l.length) : l.Pairwise R := by
  match l, h with
  | [], _ => exact List.Pairwise.nil
  | [a], _ => exact List.pairwise_singleton R a
  | _ :: _ :: _, h => simp at h

theorem sorted_input_ordered (sortSlice : SortSlice) (hsort : sortSlice.SortsBy networkLess)
    (l : List InstanceNetwork) :
    (if 1 < l.length then sortSlice networkLess l else l).Pairwise
        (fun a b => networkLess b a = false)
    ∧ ∀ ni, ni ∈ l → ni ∈ (if 1 < l.length then sortSlice networkLess l else l) := by
  split
  · exact ⟨(hsort l).2, fun ni h => (hsort l).1.mem_iff.mpr h⟩
  · rename_i h
    exact ⟨pairwise_of_length_le_one _ l h, fun _ h => h⟩

theorem orderedInsert_networkLess (a : InstanceNetwork) :
    ∀ l : List InstanceNetwork, l.Pairwise (fun x y => networkLess y x = false) →
      (l.orderedInsert (fun x y => networkLess x y = true) a).Pairwise
        (fun x y => networkLess y x = false) := by
  intro l
  induction l with
  | nil => intro _; simp
  | cons b rest ih =>
    intro h
    rw [List.pairwise_cons] at h
    rw [List.orderedInsert]
    split
    · rename_i hab
      rw [List.pairwise_cons]
      refine ⟨?_, List.pairwise_cons.mpr h⟩
      intro x hx
      rcases List.mem_cons.mp hx with hx | hx
      · rw [hx]; exact networkLess_asymm a b hab
      · by_contra hxa
        have hxa1 : networkLess x a = true := by simpa using hxa
        have := networkLess_trans x a b hxa1 hab
        rw [h.1 x hx] at this
        exact Bool.false_ne_true this
    · rename_i hab
      rw [List.pairwise_cons]
      refine ⟨?_, ih h.2⟩
      intro x hx
      rcases (List.mem_orderedInsert (r := fun x y => networkLess x y = true)).mp hx with hx | hx
      · rw [hx]; simpa using hab
      · exact h.1 x hx

theorem simSortSlice_sorts : SortSlice.SortsBy simSortSlice networkLess := by
  intro l
  refine ⟨List.perm_insertionSort _ l, ?_⟩
  induction l with
  | nil => simp [simSortSlice]
  | cons a rest ih => exact orderedInsert_networkLess a _ ih

/-- C20: when `sort.Slice` sorts by the comparison it is given, the list exposed by
`BuildNetworkObjects` for any input records, and the list exposed by `RefreshInstanceNetworks`
whenever the zone listing succeeds, is ordered default-first and then by ascending network
identifier, holds no two entries with the same network identifier, and holds an entry for the
network identifier of every input record (for `RefreshInstanceNetworks`: of every collected
record of the instance). -/
theorem exposed_networks_ordered (sortSlice : SortSlice)
    (hsort : sortSlice.SortsBy networkLess) :
    (∀ networks : List InstanceNetwork,
      (BuildNetworkObjects sortSlice networks).NetworkObjects.Pairwise ExposedBefore
      ∧ ((BuildNetworkObjects sortSlice networks).NetworkObjects.map
          NetworkObject.networkID).Nodup
      ∧ ∀ ni, ni ∈ networks →
          ni.NetworkID ∈ (BuildNetworkObjects sortSlice networks).NetworkObjects.map
            NetworkObject.networkID)
    ∧ (∀ (σ : Type) (c : Client σ) (zoneID instanceID : String) (st st1 st2 : St σ)
        (networks : List Item) (all : List InstanceNetwork),
        callListNetworks c zoneID st = (ApiResult.ok networks, st1) →
        collectInstanceNetworks c zoneID instanceID networks st1 = (all, st2) →
        ∃ objs, (RefreshInstanceNetworks c sortSlice zoneID instanceID st).1.1
              = TFList.value objs
          ∧ objs.Pairwise ExposedBefore
          ∧ (objs.map NetworkObject.networkID).Nodup
          ∧ ∀ ni, ni ∈ all → ni.InstanceID = instanceID →
              ni.NetworkID ∈ objs.map NetworkObject.networkID) := by
  constructor
  · intro networks
    have hs := sorted_input_ordered sortSlice hsort networks
    have he := exposeNetworks_ordered _ hs.1
    have hb : (BuildNetworkObjects sortSlice networks).NetworkObjects
        = (exposeNetworks (if 1 < networks.length then sortSlice networkLess networks
            else networks) [] "").1 := rfl
    rw [hb]
    exact ⟨he.1, he.2.1, fun ni hni => he.2.2 ni (hs.2 ni hni)⟩
  · intro σ c zoneID instanceID st st1 st2 networks all hlist hcollect
    have hs := sorted_input_ordered sortSlice hsort
      (all.filter (fun ni => decide (ni.InstanceID = instanceID)))
    have he := exposeNetworks_ordered _ hs.1
    refine ⟨(exposeNetworks (if 1 < (all.filter (fun ni =>
      decide (ni.InstanceID = instanceID))).length then
        sortSlice networkLess (all.filter (fun ni => decide (ni.InstanceID = instanceID)))
      else all.filter (fun ni => decide (ni.InstanceID = instanceID))) [] "").1, ?_, he.1,
      he.2.1, ?_⟩
    · rw [RefreshInstanceNetworks, hlist]
      simp only [hcollect]
    · intro ni hni hinst
      exact he.2.2 ni (hs.2 ni (List.mem_filter.mpr ⟨hni, by simpa using hinst⟩))

theorem exposed_networks_ordered_witness :
    SortSlice.SortsBy simSortSlice networkLess
    ∧ (BuildNetworkObjects simSortSlice
        [simAttachment "B" false, simAttachment "A" true, simAttachment "B" false]
        ).NetworkObjects.Pairwise ExposedBefore
    ∧ ((BuildNetworkObjects simSortSlice
        [simAttachment "B" false, simAttachment "A" true, simAttachment "B" false]
        ).NetworkObjects.map NetworkObject.networkID).Nodup
    ∧ ∀ ni, ni ∈ [simAttachment "B" false, simAttachment "A" true, simAttachment "B" false] →
        ni.NetworkID ∈ (BuildNetworkObjects simSortSlice
          [simAttachment "B" false, simAttachment "A" true, simAttachment "B" false]
          ).NetworkObjects.map NetworkObject.networkID :=
  ⟨simSortSlice_sorts,
    (exposed_networks_ordered simSortSlice simSortSlice_sorts).1
      [simAttachment "B" false, simAttachment "A" true, simAttachment "B" false]⟩

/-- The list `BuildNetworkObjects` exposes for the records `C`, `B`, `A` (default), `B`: the
default network first, then `B` and `C`, the second record of `B` dropped. -/
theorem BuildNetworkObjects_sample :
    (BuildNetworkObjects simSortSlice
        [simAttachment "C" false, simAttachment "B" false, simAttachment "A" true,
          simAttachment "B" false]).NetworkObjects
      = [exposedObject (simAttachment "A" true), exposedObject (simAttachment "B" false),
         exposedObject (simAttachment "C" false)] := by
  simp [BuildNetworkObjects, simSortSlice, networkLess, simAttachment, exposeNetworks,
    exposedObject, List.insertionSort, List.orderedInsert]

/-! ### Volume reconciliation: a failed call ends the run -/

theorem callListInstanceVolumes_trace {σ : Type} (c : Client σ) (z : String) (st : St σ) :
    (callListInstanceVolumes c z st).2.trace
      = st.trace ++ [Event.ListInstanceVolumes z (callListInstanceVolumes c z st).1] := rfl

theorem callListInstanceVolumes_diags {σ : Type} (c : Client σ) (z : String) (st : St σ) :
    (callListInstanceVolumes c z st).2.diags = st.diags := rfl

theorem callCreateInstanceVolume_trace {σ : Type} (c : Client σ) (z o : String) (size : Int)
    (n : String) (st : St σ) :
    (callCreateInstanceVolume c z o size n st).2.trace
      = st.trace ++ [Event.CreateInstanceVolume z o size n
          (callCreateInstanceVolume c z o size n st).1] := rfl

theorem callAttachInstanceVolume_trace {σ : Type} (c : Client σ) (z v i : String)
    (st : St σ) :
    (callAttachInstanceVolume c z v i st).2.trace
      = st.trace ++ [Event.AttachInstanceVolume z v i
          (callAttachInstanceVolume c z v i st).1] := rfl

theorem callDetachInstanceVolume_trace {σ : Type} (c : Client σ) (z v i : String)
    (st : St σ) :
    (callDetachInstanceVolume c z v i st).2.trace
      = st.trace ++ [Event.DetachInstanceVolume z v i
          (callDetachInstanceVolume c z v i st).1] := rfl

theorem callDeleteInstanceVolume_trace {σ : Type} (c : Client σ) (z v : String) (st : St σ) :
    (callDeleteInstanceVolume c z v st).2.trace
      = st.trace ++ [Event.DeleteInstanceVolume z v
          (callDeleteInstanceVolume c z v st).1] := rfl

theorem Event.VolumeQuiet.notFailedVolume (e : Event) (h : Event.VolumeQuiet e) :
    e.isFailedVolumeChange = false := by
  cases e <;> first | rfl | exact absurd h (by simp [Event.VolumeQuiet, Event.isVolumeChange])

theorem FailStopBy.byClean {σ : Type} {F : Event → Bool} {a b : St σ}
    (h : Ext (fun e => F e = false) a b) : FailStopBy F a b := by
  obtain ⟨t, ht, hp⟩ := h
  exact ⟨t, ht, Or.inl hp⟩

theorem FailStopBy.byAfterClean {σ : Type} {F : Event → Bool} {a b d : St σ}
    (h1 : Ext (fun e => F e = false) a b) (h2 : FailStopBy F b d) : FailStopBy F a d := by
  obtain ⟨t1, e1, p1⟩ := h1
  obtain ⟨t2, e2, p2⟩ := h2
  refine ⟨t1 ++ t2, by rw [e2, e1, List.append_assoc], ?_⟩
  rcases p2 with p2 | ⟨t0, e, ht0, hfail, hclean, herr⟩
  · left
    intro x hx
    rcases List.mem_append.mp hx with h | h
    · exact p1 x h
    · exact p2 x h
  · right
    refine ⟨t1 ++ t0, e, by rw [ht0, List.append_assoc], hfail, ?_, herr⟩
    intro x hx
    rcases List.mem_append.mp hx with h | h
    · exact p1 x h
    · exact hclean x h

theorem FailStopBy.byCleanOfNoError {σ : Type} {F : Event → Bool} {a b : St σ}
    (h : FailStopBy F a b) (hb : ¬ Diagnostics.HasError b.diags = true) :
    Ext (fun e => F e = false) a b := by
  obtain ⟨t, ht, hp⟩ := h
  rcases hp with hp | ⟨t0, e, _, _, _, herr⟩
  · exact ⟨t, ht, hp⟩
  · exact absurd herr hb

theorem FailStopBy.failedLast {σ : Type} {F : Event → Bool} {a b d : St σ} (e : Event)
    (h : Ext (fun e => F e = false) a b) (htrace : d.trace = b.trace ++ [e])
    (hfail : F e = true) (herr : Diagnostics.HasError d.diags = true) : FailStopBy F a d := by
  obtain ⟨t1, e1, p1⟩ := h
  exact ⟨t1 ++ [e], by rw [htrace, e1, List.append_assoc], Or.inr ⟨t1, e, rfl, hfail, p1, herr⟩⟩

theorem FailStopBy.at_failure {σ : Type} {F : Event → Bool} {a b : St σ}
    (h : FailStopBy F a b) (pre post : List Event) (e : Event)
    (hrun : b.trace = a.trace ++ (pre ++ e :: post)) (hfail : F e = true) :
    Diagnostics.HasError b.diags = true ∧ post = [] := by
  have hmem : e ∈ pre ++ e :: post := by simp
  obtain ⟨t, ht, hp⟩ := h
  have htt : t = pre ++ e :: post := List.append_cancel_left (ht.symm.trans hrun)
  rcases hp with hp | ⟨t0, x, ht0, _, hclean, herr⟩
  · have h1 := hp e (htt ▸ hmem)
    rw [hfail] at h1
    exact absurd h1 (by simp)
  · refine ⟨herr, ?_⟩
    rcases List.eq_nil_or_mem_of_append_cons_eq_concat pre post t0 e x (htt ▸ ht0) with h | h
    · exact h.1
    · have h1 := hclean e h
      rw [hfail] at h1
      exact absurd h1 (by simp)

theorem findVolumeByName_trace {σ : Type} (c : Client σ) (z name : String) (st : St σ) :
    (findVolumeByName c z name st).2.trace
      = st.trace ++ [Event.ListInstanceVolumes z (callListInstanceVolumes c z st).1]
    ∧ (findVolumeByName c z name st).2.diags = st.diags := by
  have h1 := callListInstanceVolumes_trace c z st
  have h2 := callListInstanceVolumes_diags c z st
  rw [findVolumeByName]
  rcases hc : callListInstanceVolumes c z st with ⟨resp, st1⟩
  rw [hc] at h1 h2
  cases resp with
  | error err => exact ⟨h1, h2⟩
  | ok vols =>
    simp only
    split <;> exact ⟨h1, h2⟩

theorem findVolumeByName_ext {σ : Type} (c : Client σ) (z name : String) (st : St σ) :
    Ext Event.VolumeQuiet st (findVolumeByName c z name st).2 :=
  Ext.single _ (findVolumeByName_trace c z name st).1 rfl

theorem waitVolumeDetached_ext {σ : Type} (c : Client σ) (z i v : String) :
    ∀ (n : Nat) (st : St σ),
      Ext Event.VolumeQuiet st (waitVolumeDetached c z i v n st).2
      ∧ ((waitVolumeDetached c z i v n st).1 = LoopEnd.returned →
          Diagnostics.HasError (waitVolumeDetached c z i v n st).2.diags = true) := by
  intro n
  induction n with
  | zero => intro st; exact ⟨Ext.extRefl _ _, fun h => by simp [waitVolumeDetached] at h⟩
  | succ n ih =>
    intro st
    have hs : Ext Event.VolumeQuiet st (st.sleep 5) := Ext.single _ (St.sleep_trace st 5) rfl
    have hc : Ext Event.VolumeQuiet (st.sleep 5) (callShowInstance c z i (st.sleep 5)).2 :=
      Ext.single _ (callShowInstance_trace c z i _) rfl
    rw [waitVolumeDetached]
    rcases hcall : callShowInstance c z i (st.sleep 5) with ⟨resp, st1⟩
    rw [hcall] at hc
    cases resp with
    | error err =>
      exact ⟨(hs.extTrans hc).extTrans (Ext.of_trace_eq _ rfl),
        fun _ => St.addError_hasError _ _ _⟩
    | ok ir =>
      simp only
      split
      · exact ⟨(hs.extTrans hc).extTrans (ih st1).1, (ih st1).2⟩
      · exact ⟨hs.extTrans hc, fun h => by simp at h⟩

theorem waitVolumeAllocated_ext {σ : Type} (c : Client σ) (z name : String) :
    ∀ (n : Nat) (st : St σ),
      Ext Event.VolumeQuiet st (waitVolumeAllocated c z name n st).2
      ∧ ((waitVolumeAllocated c z name n st).1 = LoopEnd.returned →
          Diagnostics.HasError (waitVolumeAllocated c z name n st).2.diags = true) := by
  intro n
  induction n with
  | zero => intro st; exact ⟨Ext.extRefl _ _, fun h => by simp [waitVolumeAllocated] at h⟩
  | succ n ih =>
    intro st
    have hs : Ext Event.VolumeQuiet st (st.sleep 1) := Ext.single _ (St.sleep_trace st 1) rfl
    have hc := findVolumeByName_ext c z name (st.sleep 1)
    rw [waitVolumeAllocated]
    rcases hcall : findVolumeByName c z name (st.sleep 1) with ⟨⟨id, vs, ok, err⟩, st1⟩
    rw [hcall] at hc
    cases err with
    | some lerr =>
      exact ⟨(hs.extTrans hc).extTrans (Ext.of_trace_eq _ rfl),
        fun _ => St.addError_hasError _ _ _⟩
    | none =>
      simp only
      split
      · exact ⟨hs.extTrans hc, fun h => by simp at h⟩
      · exact ⟨(hs.extTrans hc).extTrans (ih st1).1, (ih st1).2⟩

theorem awaitAllocated_ext {σ : Type} (c : Client σ) (z name status : String) (st : St σ) :
    Ext Event.VolumeQuiet st (awaitAllocated c z name status st).2
    ∧ ((awaitAllocated c z name status st).1 = false →
        Diagnostics.HasError (awaitAllocated c z name status st).2.diags = true) := by
  rw [awaitAllocated]
  split
  · have hw := waitVolumeAllocated_ext c z name 30 st
    rcases hwc : waitVolumeAllocated c z name 30 st with ⟨r, st1⟩
    rw [hwc] at hw
    cases r with
    | returned => exact ⟨hw.1, fun _ => hw.2 rfl⟩
    | reached => exact ⟨hw.1, fun h => by simp at h⟩
    | exhausted =>
      exact ⟨hw.1.extTrans (Ext.of_trace_eq _ rfl), fun _ => St.addError_hasError _ _ _⟩
  · exact ⟨Ext.extRefl _ _, fun h => by simp at h⟩

theorem detachRemovedVolume_failStop {σ : Type} (c : Client σ) (z i name v : String)
    (isAttached : String → Bool) (st : St σ) :
    FailStopBy Event.isFailedVolumeChange st (detachRemovedVolume c z i name v isAttached st).2
    ∧ ((detachRemovedVolume c z i name v isAttached st).1 = false →
        Diagnostics.HasError (detachRemovedVolume c z i name v isAttached st).2.diags
          = true) := by
  rw [detachRemovedVolume]
  split
  · have htr := callDetachInstanceVolume_trace c z v i st
    rcases hc : callDetachInstanceVolume c z v i st with ⟨err, st1⟩
    rw [hc] at htr
    simp only at htr
    cases err with
    | some derr =>
      exact ⟨FailStopBy.failedLast (Event.DetachInstanceVolume z v i (some derr))
          (Ext.extRefl _ st) (by rw [St.addError_trace, htr]) rfl (St.addError_hasError _ _ _),
        fun _ => St.addError_hasError _ _ _⟩
    | none =>
      simp only
      have hd : Ext (fun e => e.isFailedVolumeChange = false) st st1 := Ext.single _ htr rfl
      have hw := waitVolumeDetached_ext c z i v 60 st1
      rcases hwc : waitVolumeDetached c z i v 60 st1 with ⟨r, st2⟩
      rw [hwc] at hw
      have hw1 := hd.extTrans (hw.1.extMono Event.VolumeQuiet.notFailedVolume)
      cases r with
      | returned => exact ⟨FailStopBy.byClean hw1, fun _ => hw.2 rfl⟩
      | reached => exact ⟨FailStopBy.byClean hw1, fun h => by simp at h⟩
      | exhausted =>
        exact ⟨FailStopBy.byClean (hw1.extTrans (Ext.of_trace_eq _ rfl)),
          fun _ => St.addError_hasError _ _ _⟩
  · exact ⟨FailStopBy.byClean (Ext.extRefl _ _), fun h => by simp at h⟩

theorem detachRemovedVolume_go {σ : Type} (c : Client σ) (z i name v : String)
    (isAttached : String → Bool) (st : St σ)
    (hgo : (detachRemovedVolume c z i name v isAttached st).1 = true) :
    Ext (fun e => e.isFailedVolumeChange = false) st
      (detachRemovedVolume c z i name v isAttached st).2 := by
  rw [detachRemovedVolume] at hgo ⊢
  split
  · rename_i hatt
    rw [if_pos hatt] at hgo
    have htr := callDetachInstanceVolume_trace c z v i st
    rcases hc : callDetachInstanceVolume c z v i st with ⟨err, st1⟩
    rw [hc] at htr hgo
    simp only at htr
    cases err with
    | some derr => simp at hgo
    | none =>
      simp only at hgo ⊢
      have hd : Ext (fun e => e.isFailedVolumeChange = false) st st1 := Ext.single _ htr rfl
      have hw := waitVolumeDetached_ext c z i v 60 st1
      rcases hwc : waitVolumeDetached c z i v 60 st1 with ⟨r, st2⟩
      rw [hwc] at hw hgo
      cases r with
      | returned => simp at hgo
      | reached => exact hd.extTrans (hw.1.extMono Event.VolumeQuiet.notFailedVolume)
      | exhausted => simp at hgo
  · exact Ext.extRefl _ _

theorem DetachAndDeleteRemovedVolumes_failStop {σ : Type} (c : Client σ) (z i : String)
    (isAttached : String → Bool) :
    ∀ (names : List String) (st : St σ),
      FailStopBy Event.isFailedVolumeChange st
        (DetachAndDeleteRemovedVolumes c z i names isAttached st) := by
  intro names
  induction names with
  | nil => intro st; exact FailStopBy.byClean (Ext.extRefl _ _)
  | cons name rest ih =>
    intro st
    have hf := (findVolumeByName_ext c z name st).extMono Event.VolumeQuiet.notFailedVolume
    rw [DetachAndDeleteRemovedVolumes]
    rcases hfc : findVolumeByName c z name st with ⟨⟨v, status, found, err⟩, st1⟩
    rw [hfc] at hf
    cases err with
    | some ferr => exact FailStopBy.byClean (hf.extTrans (Ext.of_trace_eq _ rfl))
    | none =>
      simp only
      split
      · exact FailStopBy.byAfterClean hf (ih st1)
      · have hd := detachRemovedVolume_failStop c z i name v isAttached st1
        have hgo := detachRemovedVolume_go c z i name v isAttached st1
        rcases hdc : detachRemovedVolume c z i name v isAttached st1 with ⟨go, st2⟩
        rw [hdc] at hd hgo
        cases go with
        | false => exact FailStopBy.byAfterClean hf hd.1
        | true =>
          simp only
          have h2 := hf.extTrans (hgo rfl)
          have ha := awaitAllocated_ext c z name status st2
          rcases hac : awaitAllocated c z name status st2 with ⟨go2, st3⟩
          rw [hac] at ha
          have h3 := h2.extTrans (ha.1.extMono Event.VolumeQuiet.notFailedVolume)
          cases go2 with
          | false => exact FailStopBy.byClean h3
          | true =>
            simp only
            have htr := callDeleteInstanceVolume_trace c z v st3
            rcases hdel : callDeleteInstanceVolume c z v st3 with ⟨derr, st4⟩
            rw [hdel] at htr
            simp only at htr
            cases derr with
            | some e =>
              exact FailStopBy.failedLast (Event.DeleteInstanceVolume z v (some e)) h3
                (by rw [St.addError_trace, htr]) rfl (St.addError_hasError _ _ _)
            | none =>
              exact FailStopBy.byAfterClean (h3.extTrans (Ext.single _ htr rfl)) (ih st4)

theorem discoverNewVolume_ext {σ : Type} (c : Client σ) (z name : String)
    (existing : List String) :
    ∀ (n : Nat) (st : St σ),
      Ext Event.VolumeQuiet st (discoverNewVolume c z name existing n st).2
      ∧ ((discoverNewVolume c z name existing n st).1 = none →
          Diagnostics.HasError (discoverNewVolume c z name existing n st).2.diags = true) := by
  intro n
  induction n with
  | zero => intro st; exact ⟨Ext.extRefl _ _, fun h => by simp [discoverNewVolume] at h⟩
  | succ n ih =>
    intro st
    have hs : Ext Event.VolumeQuiet st (st.sleep 1) := Ext.single _ (St.sleep_trace st 1) rfl
    have hc : Ext Event.VolumeQuiet (st.sleep 1) (callListInstanceVolumes c z (st.sleep 1)).2 :=
      Ext.single _ (callListInstanceVolumes_trace c z _) rfl
    rw [discoverNewVolume]
    rcases hcall : callListInstanceVolumes c z (st.sleep 1) with ⟨resp, st1⟩
    rw [hcall] at hc
    cases resp with
    | error err =>
      exact ⟨(hs.extTrans hc).extTrans (Ext.of_trace_eq _ rfl),
        fun _ => St.addError_hasError _ _ _⟩
    | ok latest =>
      simp only
      split
      · exact ⟨hs.extTrans hc, fun h => by simp at h⟩
      · exact ⟨(hs.extTrans hc).extTrans (ih st1).1, (ih st1).2⟩

theorem createAndAttachLoop_failStop {σ : Type} (c : Client σ) (z i : String) :
    ∀ (specs : List VolumeSpec) (nameToID : IDMap) (st : St σ),
      FailStopBy Event.isFailedVolumeChange st (createAndAttachLoop c z i specs nameToID st).2
      ∧ ((createAndAttachLoop c z i specs nameToID st).1 = none →
          Diagnostics.HasError (createAndAttachLoop c z i specs nameToID st).2.diags
            = true) := by
  intro specs
  induction specs with
  | nil =>
    intro m st
    exact ⟨FailStopBy.byClean (Ext.extRefl _ _), fun h => by simp [createAndAttachLoop] at h⟩
  | cons spec rest ih =>
    intro m st
    have hl : Ext (fun e => e.isFailedVolumeChange = false) st
        (callListInstanceVolumes c z st).2 :=
      Ext.single _ (callListInstanceVolumes_trace c z st) rfl
    rw [createAndAttachLoop]
    rcases hlc : callListInstanceVolumes c z st with ⟨resp, st1⟩
    rw [hlc] at hl
    cases resp with
    | error ierr =>
      exact ⟨FailStopBy.byClean (hl.extTrans (Ext.of_trace_eq _ rfl)),
        fun _ => St.addError_hasError _ _ _⟩
    | ok initial =>
      simp only
      have htr := callCreateInstanceVolume_trace c z spec.ServiceOfferingID.ValueString
        spec.Size.ValueInt64 spec.Name.ValueString st1
      rcases hcc : callCreateInstanceVolume c z spec.ServiceOfferingID.ValueString
        spec.Size.ValueInt64 spec.Name.ValueString st1 with ⟨cerr, st2⟩
      rw [hcc] at htr
      simp only at htr
      cases cerr with
      | some e =>
        exact ⟨FailStopBy.failedLast (Event.CreateInstanceVolume z
              spec.ServiceOfferingID.ValueString spec.Size.ValueInt64 spec.Name.ValueString
              (some e)) hl (by rw [St.addError_trace, htr]) rfl (St.addError_hasError _ _ _),
          fun _ => St.addError_hasError _ _ _⟩
      | none =>
        simp only
        have h2 := hl.extTrans (Ext.single _ htr rfl)
        have hd := discoverNewVolume_ext c z spec.Name.ValueString
          (initial.map (fun vol => vol.ID)) 10 st2
        generalize discoverNewVolume c z spec.Name.ValueString
          (initial.map (fun vol => vol.ID)) 10 st2 = r at hd ⊢
        rcases r with ⟨found, st3⟩
        have h3 := h2.extTrans (hd.1.extMono Event.VolumeQuiet.notFailedVolume)
        cases found with
        | none => exact ⟨FailStopBy.byClean h3, fun _ => hd.2 rfl⟩
        | some newID =>
          simp only
          split
          · exact ⟨FailStopBy.byClean (h3.extTrans (Ext.of_trace_eq _ rfl)),
              fun _ => St.addError_hasError _ _ _⟩
          · have hta := callAttachInstanceVolume_trace c z newID i st3
            rcases hac : callAttachInstanceVolume c z newID i st3 with ⟨aerr, st4⟩
            rw [hac] at hta
            simp only at hta
            cases aerr with
            | some e =>
              exact ⟨FailStopBy.failedLast (Event.AttachInstanceVolume z newID i (some e)) h3
                  (by rw [St.addError_trace, hta]) rfl (St.addError_hasError _ _ _),
                fun _ => St.addError_hasError _ _ _⟩
            | none =>
              have hrec := ih (m.set spec.Name.ValueString newID) st4
              exact ⟨FailStopBy.byAfterClean (h3.extTrans (Ext.single _ hta rfl)) hrec.1,
                hrec.2⟩

theorem UpdateInstanceVolumes_failStop {σ : Type} (c : Client σ) (orders : VolumeOrders)
    (z i : String) (planVolumes stateVolumes : List VolumeSpec) (st : St σ) :
    FailStopBy Event.isFailedVolumeChange st
      (UpdateInstanceVolumes c orders z i planVolumes stateVolumes st).2 := by
  have hs : Ext (fun e => e.isFailedVolumeChange = false) st (callShowInstance c z i st).2 :=
    Ext.single _ (callShowInstance_trace c z i st) rfl
  rw [UpdateInstanceVolumes]
  rcases hc : callShowInstance c z i st with ⟨resp, st1⟩
  rw [hc] at hs
  cases resp with
  | error err => exact FailStopBy.byClean (hs.extTrans (Ext.of_trace_eq _ rfl))
  | ok data =>
    simp only
    have hd := DetachAndDeleteRemovedVolumes_failStop c z i
      (fun volumeID => data.DataVolumes.any (fun s => decide (s = volumeID)))
      (removedVolumeNames orders.removed (volumeNameMap stateVolumes)
        (volumeNameMap planVolumes)) st1
    generalize DetachAndDeleteRemovedVolumes c z i
      (removedVolumeNames orders.removed (volumeNameMap stateVolumes)
        (volumeNameMap planVolumes))
      (fun volumeID => data.DataVolumes.any (fun s => decide (s = volumeID))) st1 = st2
      at hd ⊢
    split
    · exact FailStopBy.byAfterClean hs hd
    · rename_i hne
      have hcl := hs.extTrans (hd.byCleanOfNoError hne)
      have hcr := (createAndAttachLoop_failStop c z i
        (addedVolumes orders.added (volumeNameMap stateVolumes) (volumeNameMap planVolumes))
        ((addedVolumes orders.added (volumeNameMap stateVolumes)
          (volumeNameMap planVolumes)).foldl (fun m v => m.set v.Name.ValueString "")
          IDMap.empty) st2).1
      rw [CreateAndAttachNewVolumes]
      rcases createAndAttachLoop c z i
        (addedVolumes orders.added (volumeNameMap stateVolumes) (volumeNameMap planVolumes))
        ((addedVolumes orders.added (volumeNameMap stateVolumes)
          (volumeNameMap planVolumes)).foldl (fun m v => m.set v.Name.ValueString "")
          IDMap.empty) st2 with ⟨m, st3⟩
      simp only at hcr ⊢
      split <;> exact FailStopBy.byAfterClean hcl hcr

theorem UpdateInstanceVolumes_null_of_error {σ : Type} (c : Client σ) (orders : VolumeOrders)
    (z i : String) (planVolumes stateVolumes : List VolumeSpec) (st : St σ)
    (herr : Diagnostics.HasError
      (UpdateInstanceVolumes c orders z i planVolumes stateVolumes st).2.diags = true) :
    (UpdateInstanceVolumes c orders z i planVolumes stateVolumes st).1 = TFList.null := by
  rw [UpdateInstanceVolumes] at herr ⊢
  generalize callShowInstance c z i st = r at herr ⊢
  rcases r with ⟨resp, st1⟩
  cases resp with
  | error err => rfl
  | ok data =>
    simp only at herr ⊢
    generalize DetachAndDeleteRemovedVolumes c z i
      (removedVolumeNames orders.removed (volumeNameMap stateVolumes)
        (volumeNameMap planVolumes))
      (fun volumeID => data.DataVolumes.any (fun s => decide (s = volumeID))) st1 = st2
      at herr ⊢
    by_cases h2 : Diagnostics.HasError st2.diags = true
    · rw [if_pos h2]
    · rw [if_neg h2] at herr ⊢
      generalize CreateAndAttachNewVolumes c z i
        (addedVolumes orders.added (volumeNameMap stateVolumes) (volumeNameMap planVolumes))
        st2 = r3 at herr ⊢
      rcases r3 with ⟨m, st3⟩
      simp only at herr ⊢
      by_cases h3 : Diagnostics.HasError st3.diags = true
      · rw [if_pos h3]
      · rw [if_neg h3] at herr
        exact absurd herr h3
/-- C15: in a run of `UpdateInstanceVolumes`, whenever a create, attach, detach or delete call
on a volume returns an error, the diagnostics of the run hold an error, the null list is
returned, and the failed call is the last remote call of the run: no further detach, delete,
create or attach call follows it. -/
theorem UpdateInstanceVolumes_stops_at_failed_call {σ : Type} (c : Client σ)
    (orders : VolumeOrders) (zoneID instanceID : String)
    (planVolumes stateVolumes : List VolumeSpec) (st : St σ) (pre post : List Event)
    (e : Event)
    (hrun : (UpdateInstanceVolumes c orders zoneID instanceID planVolumes stateVolumes
              st).2.trace = st.trace ++ (pre ++ e :: post))
    (hfail : e.isFailedVolumeChange = true) :
    Diagnostics.HasError (UpdateInstanceVolumes c orders zoneID instanceID planVolumes
        stateVolumes st).2.diags = true
    ∧ (UpdateInstanceVolumes c orders zoneID instanceID planVolumes stateVolumes st).1
        = TFList.null
    ∧ post = [] := by
  have h := (UpdateInstanceVolumes_failStop c orders zoneID instanceID planVolumes stateVolumes
    st).at_failure pre post e hrun hfail
  exact ⟨h.1, UpdateInstanceVolumes_null_of_error c orders zoneID instanceID planVolumes
    stateVolumes st h.1, h.2⟩

theorem UpdateInstanceVolumes_stops_at_failed_call_witness :
    Diagnostics.HasError (UpdateInstanceVolumes volClientNoDelete VolumeOrders.identity "zone"
        "vm" [volSpec "v1" 10] [volSpec "v1" 10, volSpec "v2" 20]
        (volStart [[{ ID := "vol-1", Name := "v1", Status := "ATTACHED" },
                    { ID := "vol-2", Name := "v2", Status := "ALLOCATED" }]]
          ["vol-1"])).2.diags = true
    ∧ (UpdateInstanceVolumes volClientNoDelete VolumeOrders.identity "zone" "vm"
        [volSpec "v1" 10] [volSpec "v1" 10, volSpec "v2" 20]
        (volStart [[{ ID := "vol-1", Name := "v1", Status := "ATTACHED" },
                    { ID := "vol-2", Name := "v2", Status := "ALLOCATED" }]]
          ["vol-1"])).1 = TFList.null
    ∧ ([] : List Event) = [] :=
  UpdateInstanceVolumes_stops_at_failed_call volClientNoDelete VolumeOrders.identity "zone" "vm"
    [volSpec "v1" 10] [volSpec "v1" 10, volSpec "v2" 20]
    (volStart [[{ ID := "vol-1", Name := "v1", Status := "ATTACHED" },
                { ID := "vol-2", Name := "v2", Status := "ALLOCATED" }]] ["vol-1"])
    [Event.ShowInstance "zone" "vm"
        (ApiResult.ok
          { Status := "UP", Username := "root", Password := "secret", DataVolumes := ["vol-1"] }),
      Event.ListInstanceVolumes "zone"
        (ApiResult.ok [{ ID := "vol-1", Name := "v1", Status := "ATTACHED" },
                       { ID := "vol-2", Name := "v2", Status := "ALLOCATED" }])]
    [] (Event.DeleteInstanceVolume "zone" "vol-2" (some "denied")) (by decide) (by decide)

/-- Run of `UpdateInstanceVolumes` on the sample volume remote with every attach refused,
desired `[v1, v4, v3]` (the map of the desired names is visited from `v3`) and existing
`[v1]`: the volume `v3` is created and discovered, its
attach fails, an error is recorded, the null list is returned and nothing is issued for
`v4`. -/
theorem UpdateInstanceVolumes_failed_attach_run :
    (UpdateInstanceVolumes volClientNoAttach VolumeOrders.identity "zone" "vm"
        [volSpec "v1" 10, volSpec "v4" 40, volSpec "v3" 30] [volSpec "v1" 10]
        (volStart [[{ ID := "vol-1", Name := "v1", Status := "ATTACHED" }],
                   [{ ID := "vol-1", Name := "v1", Status := "ATTACHED" },
                    { ID := "vol-3", Name := "v3", Status := "ALLOCATED" }]]
          ["vol-1"])).2.trace.filter Event.isVolumeChange
      = [Event.CreateInstanceVolume "zone" "ssd" 30 "v3" none,
         Event.AttachInstanceVolume "zone" "vol-3" "vm" (some "denied")]
    ∧ (UpdateInstanceVolumes volClientNoAttach VolumeOrders.identity "zone" "vm"
        [volSpec "v1" 10, volSpec "v4" 40, volSpec "v3" 30] [volSpec "v1" 10]
        (volStart [[{ ID := "vol-1", Name := "v1", Status := "ATTACHED" }],
                   [{ ID := "vol-1", Name := "v1", Status := "ATTACHED" },
                    { ID := "vol-3", Name := "v3", Status := "ALLOCATED" }]]
          ["vol-1"])).1 = TFList.null := by
  decide

/-! ### Volume reconciliation: the delta by name -/

theorem SpecMap.has_iff_mem_keys (m : SpecMap) (k : String) :
    m.has k = true ↔ k ∈ m.keys := by
  simp only [SpecMap.has, SpecMap.get?, SpecMap.keys, Option.isSome_map', List.mem_dedup,
    List.mem_map, List.find?_isSome]
  constructor
  · rintro ⟨kv, hkv, hk⟩
    exact ⟨kv, hkv, by simpa using hk⟩
  · rintro ⟨kv, hkv, hk⟩
    exact ⟨kv, hkv, by simpa using hk⟩

theorem SpecMap.get?_set (m : SpecMap) (k : String) (v : VolumeSpec) (n : String) :
    (m.set k v).get? n = if k = n then some v else m.get? n := by
  by_cases h : k = n
  · simp [SpecMap.get?, SpecMap.set, List.find?, h]
  · simp [SpecMap.get?, SpecMap.set, List.find?, h]

theorem lastNamed_append_singleton (volumes : List VolumeSpec) (v : VolumeSpec) (n : String) :
    lastNamed (volumes ++ [v]) n
      = if v.Name.ValueString = n then some v else lastNamed volumes n := by
  simp only [lastNamed, List.reverse_append, List.reverse_cons, List.reverse_nil,
    List.nil_append, List.singleton_append, List.find?_cons]
  by_cases h : v.Name.ValueString = n <;> simp [h]

theorem TFString.valueString_ne_empty (s : TFString) (h : s.ValueString ≠ "") :
    s.IsNull = false := by
  cases s <;> simp_all [TFString.ValueString, TFString.IsNull]

theorem volumeNameMap_foldl_get? (n : String) (hn : n ≠ "") :
    ∀ (volumes : List VolumeSpec) (m : SpecMap),
      (volumes.foldl
        (fun m v =>
          if !v.Name.IsNull && decide (v.Name.ValueString ≠ "") then m.set v.Name.ValueString v
          else m) m).get? n
        = match lastNamed volumes n with
          | some spec => some spec
          | none => m.get? n := by
  intro volumes
  induction volumes using List.reverseRecOn with
  | nil => intro m; simp [lastNamed]
  | append_singleton volumes v ih =>
    intro m
    rw [List.foldl_append, List.foldl_cons, List.foldl_nil, lastNamed_append_singleton]
    by_cases hv : v.Name.ValueString = n
    · have hne : v.Name.ValueString ≠ "" := by rw [hv]; exact hn
      have hnull := TFString.valueString_ne_empty _ hne
      simp [hv, hnull, hn, SpecMap.get?_set]
    · rw [if_neg hv]
      split
      · rw [SpecMap.get?_set, if_neg hv]; exact ih m
      · exact ih m

theorem volumeNameMap_foldl_get?_empty :
    ∀ (volumes : List VolumeSpec) (m : SpecMap), m.get? "" = none →
      (volumes.foldl
        (fun m v =>
          if !v.Name.IsNull && decide (v.Name.ValueString ≠ "") then m.set v.Name.ValueString v
          else m) m).get? "" = none := by
  intro volumes
  induction volumes with
  | nil => intro m h; exact h
  | cons v rest ih =>
    intro m h
    rw [List.foldl_cons]
    apply ih
    split
    · rename_i hc
      have hne : v.Name.ValueString ≠ "" := by
        simp only [Bool.and_eq_true, decide_eq_true_eq] at hc
        exact hc.2
      rw [SpecMap.get?_set, if_neg hne]; exact h
    · exact h

theorem volumeNameMap_get? (volumes : List VolumeSpec) (n : String) :
    (volumeNameMap volumes).get? n = if n = "" then none else lastNamed volumes n := by
  by_cases hn : n = ""
  · rw [if_pos hn, hn]
    exact volumeNameMap_foldl_get?_empty volumes SpecMap.empty rfl
  · rw [if_neg hn, volumeNameMap, volumeNameMap_foldl_get? n hn volumes SpecMap.empty]
    cases lastNamed volumes n <;> rfl

theorem lastNamed_isSome (volumes : List VolumeSpec) (n : String) :
    (lastNamed volumes n).isSome = true ↔ ∃ v, v ∈ volumes ∧ v.Name.ValueString = n := by
  simp [lastNamed, List.find?_isSome]

theorem lastNamed_some (volumes : List VolumeSpec) (n : String) (spec : VolumeSpec)
    (h : lastNamed volumes n = some spec) : spec ∈ volumes ∧ spec.Name.ValueString = n := by
  have h1 := List.mem_of_find?_eq_some h
  have h2 := List.find?_some h
  exact ⟨List.mem_reverse.mp h1, by simpa using h2⟩

theorem mem_volumeNameMap_keys (volumes : List VolumeSpec) (n : String) :
    n ∈ (volumeNameMap volumes).keys
      ↔ n ≠ "" ∧ ∃ v, v ∈ volumes ∧ v.Name.ValueString = n := by
  rw [← SpecMap.has_iff_mem_keys, SpecMap.has, volumeNameMap_get?]
  by_cases hn : n = ""
  · simp [hn]
  · rw [if_neg hn, lastNamed_isSome]
    exact ⟨fun h => ⟨hn, h⟩, fun h => h.2⟩
theorem SpecMap.specKeys_nodup (m : SpecMap) : m.keys.Nodup := by
  simp [SpecMap.keys, List.nodup_dedup]

theorem mem_removedVolumeNames (order : RangeOrder) (horder : order.Valid)
    (planVolumes stateVolumes : List VolumeSpec) (n : String) :
    n ∈ removedVolumeNames order (volumeNameMap stateVolumes) (volumeNameMap planVolumes)
      ↔ n ≠ "" ∧ (∃ v, v ∈ stateVolumes ∧ v.Name.ValueString = n)
          ∧ ¬ ∃ v, v ∈ planVolumes ∧ v.Name.ValueString = n := by
  rw [removedVolumeNames, List.mem_filter, RangeOrder.mem_iff order horder,
    mem_volumeNameMap_keys]
  have hhas : (volumeNameMap planVolumes).has n = true
      ↔ n ≠ "" ∧ ∃ v, v ∈ planVolumes ∧ v.Name.ValueString = n := by
    rw [SpecMap.has_iff_mem_keys, mem_volumeNameMap_keys]
  constructor
  · rintro ⟨⟨hn, hs⟩, hp⟩
    refine ⟨hn, hs, fun hex => ?_⟩
    have := hhas.mpr ⟨hn, hex⟩
    simp [this] at hp
  · rintro ⟨hn, hs, hp⟩
    refine ⟨⟨hn, hs⟩, ?_⟩
    cases hh : (volumeNameMap planVolumes).has n
    · rfl
    · exact absurd (hhas.mp hh).2 hp

theorem removedVolumeNames_nodup (order : RangeOrder) (horder : order.Valid)
    (stateVolumeNames planVolumeNames : SpecMap) :
    (removedVolumeNames order stateVolumeNames planVolumeNames).Nodup :=
  (RangeOrder.nodup order horder _ (SpecMap.specKeys_nodup _)).filter _

theorem mem_addedVolumes (order : RangeOrder) (horder : order.Valid)
    (planVolumes stateVolumes : List VolumeSpec) (spec : VolumeSpec) :
    spec ∈ addedVolumes order (volumeNameMap stateVolumes) (volumeNameMap planVolumes)
      ↔ spec.Name.ValueString ≠ ""
          ∧ lastNamed planVolumes spec.Name.ValueString = some spec
          ∧ ¬ ∃ v, v ∈ stateVolumes ∧ v.Name.ValueString = spec.Name.ValueString := by
  have hhas : ∀ n, (volumeNameMap stateVolumes).has n = true
      ↔ n ≠ "" ∧ ∃ v, v ∈ stateVolumes ∧ v.Name.ValueString = n := by
    intro n
    rw [SpecMap.has_iff_mem_keys, mem_volumeNameMap_keys]
  rw [addedVolumes, List.mem_filterMap]
  constructor
  · rintro ⟨n, hn, hsome⟩
    rw [RangeOrder.mem_iff order horder, mem_volumeNameMap_keys] at hn
    rw [volumeNameMap_get?, if_neg hn.1] at hsome
    cases hl : lastNamed planVolumes n with
    | none => simp [hl] at hsome
    | some s =>
      simp only [hl] at hsome
      split at hsome
      · simp at hsome
      · rename_i hns
        have hs : s = spec := by simpa using hsome
        subst hs
        have hname := (lastNamed_some planVolumes n s hl).2
        rw [hname]
        refine ⟨hn.1, hl, fun hex => hns ((hhas n).mpr ⟨hn.1, hex⟩)⟩
  · rintro ⟨hne, hl, hns⟩
    refine ⟨spec.Name.ValueString, ?_, ?_⟩
    · rw [RangeOrder.mem_iff order horder, mem_volumeNameMap_keys]
      exact ⟨hne, spec, (lastNamed_some _ _ _ hl).1, rfl⟩
    · rw [volumeNameMap_get?, if_neg hne, hl]
      simp only
      rw [if_neg]
      intro hh
      exact hns ((hhas _).mp hh).2

theorem addedVolumes_names_nodup (order : RangeOrder) (horder : order.Valid)
    (planVolumes stateVolumes : List VolumeSpec) :
    ((addedVolumes order (volumeNameMap stateVolumes) (volumeNameMap planVolumes)).map
      (fun spec => spec.Name.ValueString)).Nodup := by
  have hkeys : (order (volumeNameMap planVolumes).keys).Nodup :=
    RangeOrder.nodup order horder _ (SpecMap.specKeys_nodup _)
  have hmap : (addedVolumes order (volumeNameMap stateVolumes) (volumeNameMap planVolumes)).map
      (fun spec => spec.Name.ValueString)
      = (order (volumeNameMap planVolumes).keys).filter (fun n =>
          match (volumeNameMap planVolumes).get? n with
          | some _ => !(volumeNameMap stateVolumes).has n
          | none => false) := by
    rw [addedVolumes]
    generalize order (volumeNameMap planVolumes).keys = l
    induction l with
    | nil => rfl
    | cons n rest ih =>
      rw [List.filterMap_cons, List.filter_cons]
      have hg := volumeNameMap_get? planVolumes n
      cases hget : (volumeNameMap planVolumes).get? n with
      | none => simp only [hget]; exact ih
      | some s =>
        simp only [hget]
        have hname : s.Name.ValueString = n := by
          rw [hget] at hg
          by_cases hn : n = ""
          · rw [if_pos hn] at hg; simp at hg
          · rw [if_neg hn] at hg
            exact (lastNamed_some planVolumes n s hg.symm).2
        cases hh : (volumeNameMap stateVolumes).has n
        · simp [hname, ih]
        · simp [ih]
  rw [hmap]
  exact hkeys.filter _
theorem List.append_cons_eq_concat_cases {α : Type} (pre post t : List α) (x e : α)
    (h : pre ++ x :: post = t ++ [e]) :
    (post = [] ∧ pre = t ∧ x = e) ∨ ∃ post1, post = post1 ++ [e] ∧ t = pre ++ x :: post1 := by
  rcases List.eq_nil_or_concat post with hp | ⟨post1, y, hp⟩
  · subst hp
    have h1 : pre ++ [x] = t ++ [e] := h
    have h2 := List.append_inj' h1 rfl
    exact Or.inl ⟨rfl, h2.1, by simpa using h2.2⟩
  · subst hp
    have h1 : (pre ++ x :: post1) ++ [y] = t ++ [e] := by
      rw [← h]; simp
    have h2 := List.append_inj' h1 rfl
    have hy : y = e := by simpa using h2.2
    exact Or.inr ⟨post1, by simp [hy], h2.1.symm⟩

theorem VolumeDelta.deltaStart (removed : List String) (added : List VolumeSpec)
    (base : List Event) : VolumeDelta removed added base base :=
  ⟨[], by simp, fun pre e post h => by simp at h⟩

theorem VolumeDelta.deltaSnoc {removed : List String} {added : List VolumeSpec}
    {base trace : List Event} (h : VolumeDelta removed added base trace) (e : Event)
    (he : ∀ t, trace = base ++ t → VolumeCallAllowed removed added t e) :
    VolumeDelta removed added base (trace ++ [e]) := by
  obtain ⟨t, ht, hp⟩ := h
  refine ⟨t ++ [e], by rw [ht, List.append_assoc], ?_⟩
  intro pre x post hsplit
  rcases List.append_cons_eq_concat_cases pre post t x e hsplit.symm with
    ⟨_, hpre, hx⟩ | ⟨post1, _, ht1⟩
  · rw [hpre, hx]; exact he t ht
  · exact hp pre x post1 ht1

theorem VolumeCallAllowed.allowedOfQuiet (removed : List String) (added : List VolumeSpec)
    (pre : List Event) (e : Event) (h : Event.VolumeQuiet e) :
    VolumeCallAllowed removed added pre e := by
  cases e <;>
    first
    | exact True.intro
    | exact absurd h (by simp [Event.VolumeQuiet, Event.isVolumeChange])

theorem VolumeDelta.append_quiet {removed : List String} {added : List VolumeSpec}
    {base : List Event} :
    ∀ (t : List Event) (trace : List Event), VolumeDelta removed added base trace →
      (∀ e, e ∈ t → Event.VolumeQuiet e) → VolumeDelta removed added base (trace ++ t) := by
  intro t
  induction t with
  | nil => intro trace h _; simpa using h
  | cons e rest ih =>
    intro trace h hq
    have h1 := h.deltaSnoc e (fun t _ =>
      VolumeCallAllowed.allowedOfQuiet removed added t e (hq e (List.mem_cons_self _ _)))
    have h2 := ih (trace ++ [e]) h1 (fun x hx => hq x (List.mem_cons_of_mem _ hx))
    simpa using h2

theorem VolumeDelta.deltaExtQuiet {σ : Type} {removed : List String} {added : List VolumeSpec}
    {base : List Event} {st st1 : St σ} (h : VolumeDelta removed added base st.trace)
    (hext : Ext Event.VolumeQuiet st st1) : VolumeDelta removed added base st1.trace := by
  obtain ⟨t, ht, hq⟩ := hext
  rw [ht]
  exact VolumeDelta.append_quiet t _ h hq

theorem ListedSince.listedAppend {base trace : List Event} {name v : String}
    (h : ListedSince base trace name v) (t : List Event) :
    ListedSince base (trace ++ t) name v := by
  obtain ⟨t0, ht0, z, vols, vol, hmem, hrest⟩ := h
  exact ⟨t0 ++ t, by rw [ht0, List.append_assoc], z, vols, vol,
    List.mem_append_left _ hmem, hrest⟩

theorem ListedSince.listedExt {σ : Type} {P : Event → Prop} {base : List Event} {name v : String}
    {st st1 : St σ} (h : ListedSince base st.trace name v) (hext : Ext P st st1) :
    ListedSince base st1.trace name v := by
  obtain ⟨t, ht, _⟩ := hext
  rw [ht]
  exact h.listedAppend t

theorem ListedSince.listedAs {base trace : List Event} {name v : String}
    (h : ListedSince base trace name v) (t : List Event) (ht : trace = base ++ t) :
    ListedAs t name v := by
  obtain ⟨t0, ht0, hl⟩ := h
  have : t0 = t := List.append_cancel_left (ht0.symm.trans ht)
  rw [← this]; exact hl

theorem findVolumeByName_found {σ : Type} (c : Client σ) (z name : String) (st : St σ)
    (v status : String) (st1 : St σ)
    (h : findVolumeByName c z name st = ((v, status, true, none), st1)) :
    ∃ vols vol, st1.trace = st.trace ++ [Event.ListInstanceVolumes z (ApiResult.ok vols)]
      ∧ vols.find? (fun vol => decide (vol.Name = name)) = some vol
      ∧ vol.ID = v ∧ vol.Status = status := by
  have htr := callListInstanceVolumes_trace c z st
  rw [findVolumeByName] at h
  rcases hc : callListInstanceVolumes c z st with ⟨resp, s1⟩
  rw [hc] at h htr
  cases resp with
  | error err => simp at h
  | ok vols =>
    simp only at h htr
    cases hf : vols.find? (fun vol => decide (vol.Name = name)) with
    | none => simp [hf] at h
    | some vol =>
      simp only [hf, Prod.mk.injEq] at h
      refine ⟨vols, vol, ?_, hf, h.1.1, h.1.2.1⟩
      rw [← h.2]; exact htr

theorem findVolumeByName_listed {σ : Type} (c : Client σ) (z name : String) (st : St σ)
    (v status : String) (st1 : St σ) (base : List Event) (t0 : List Event)
    (hbase : st.trace = base ++ t0)
    (h : findVolumeByName c z name st = ((v, status, true, none), st1)) :
    ListedSince base st1.trace name v := by
  obtain ⟨vols, vol, htr, hf, hid, _⟩ := findVolumeByName_found c z name st v status st1 h
  refine ⟨t0 ++ [Event.ListInstanceVolumes z (ApiResult.ok vols)],
    by rw [htr, hbase, List.append_assoc], z, vols, vol, by simp,
    List.mem_of_find?_eq_some hf, hid, ?_⟩
  simpa using List.find?_some hf

theorem detachRemovedVolume_ext {σ : Type} (c : Client σ) (z i name v : String)
    (isAttached : String → Bool) (st : St σ) :
    Ext (fun _ => True) st (detachRemovedVolume c z i name v isAttached st).2 := by
  obtain ⟨t, ht, _⟩ := (detachRemovedVolume_failStop c z i name v isAttached st).1
  exact ⟨t, ht, fun _ _ => trivial⟩

theorem detachRemovedVolume_delta {σ : Type} (c : Client σ) (z i name v : String)
    (isAttached : String → Bool) (st : St σ) (removed : List String)
    (added : List VolumeSpec) (base : List Event)
    (h : VolumeDelta removed added base st.trace)
    (hlisted : ListedSince base st.trace name v) (hname : name ∈ removed) :
    VolumeDelta removed added base (detachRemovedVolume c z i name v isAttached st).2.trace := by
  rw [detachRemovedVolume]
  split
  · have htr := callDetachInstanceVolume_trace c z v i st
    rcases hc : callDetachInstanceVolume c z v i st with ⟨err, st1⟩
    rw [hc] at htr
    simp only at htr
    have h1 : VolumeDelta removed added base st1.trace := by
      rw [htr]
      exact h.deltaSnoc _ (fun t ht => ⟨name, hname, hlisted.listedAs t ht⟩)
    cases err with
    | some derr => exact h1
    | none =>
      simp only
      have hw := (waitVolumeDetached_ext c z i v 60 st1).1
      rcases hwc : waitVolumeDetached c z i v 60 st1 with ⟨r, st2⟩
      rw [hwc] at hw
      have h2 := h1.deltaExtQuiet hw
      cases r <;> exact h2
  · exact h

theorem DetachAndDeleteRemovedVolumes_delta {σ : Type} (c : Client σ) (z i : String)
    (isAttached : String → Bool) (removed : List String) (added : List VolumeSpec)
    (base : List Event) :
    ∀ (names : List String) (st : St σ), (∀ n, n ∈ names → n ∈ removed) →
      VolumeDelta removed added base st.trace →
      VolumeDelta removed added base
        (DetachAndDeleteRemovedVolumes c z i names isAttached st).trace := by
  intro names
  induction names with
  | nil => intro st _ h; exact h
  | cons name rest ih =>
    intro st hnames h
    have hrest : ∀ n, n ∈ rest → n ∈ removed := fun n hn => hnames n (List.mem_cons_of_mem _ hn)
    have hf := findVolumeByName_ext c z name st
    have hlist := findVolumeByName_listed c z name st
    rw [DetachAndDeleteRemovedVolumes]
    rcases hfc : findVolumeByName c z name st with ⟨⟨v, status, found, err⟩, st1⟩
    rw [hfc] at hf hlist
    have h1 := h.deltaExtQuiet hf
    cases err with
    | some ferr => exact h1
    | none =>
      simp only
      split
      · exact ih st1 hrest h1
      · rename_i hfound
        have hfound1 : found = true := by simpa using hfound
        subst hfound1
        obtain ⟨t0, ht0, _⟩ := h
        have hl1 : ListedSince base st1.trace name v := hlist v status st1 base t0 ht0 rfl
        have hd := detachRemovedVolume_delta c z i name v isAttached st1 removed added base h1
          hl1 (hnames name (List.mem_cons_self _ _))
        have hl2 := hl1.listedExt (detachRemovedVolume_ext c z i name v isAttached st1)
        rcases hdc : detachRemovedVolume c z i name v isAttached st1 with ⟨go, st2⟩
        rw [hdc] at hd hl2
        cases go with
        | false => exact hd
        | true =>
          simp only
          have ha := (awaitAllocated_ext c z name status st2).1
          rcases hac : awaitAllocated c z name status st2 with ⟨go2, st3⟩
          rw [hac] at ha
          have h3 := hd.deltaExtQuiet ha
          have hl3 := hl2.listedExt ha
          cases go2 with
          | false => exact h3
          | true =>
            simp only
            have htr := callDeleteInstanceVolume_trace c z v st3
            rcases hdel : callDeleteInstanceVolume c z v st3 with ⟨derr, st4⟩
            rw [hdel] at htr
            simp only at htr
            have h4 : VolumeDelta removed added base st4.trace := by
              rw [htr]
              exact h3.deltaSnoc _ (fun t ht =>
                ⟨name, hnames name (List.mem_cons_self _ _), hl3.listedAs t ht⟩)
            cases derr with
            | some e => exact h4
            | none => exact ih st4 hrest h4

theorem discoverNewVolume_listed {σ : Type} (c : Client σ) (z name : String)
    (existing : List String) (base : List Event) :
    ∀ (n : Nat) (st : St σ) (t0 : List Event), st.trace = base ++ t0 →
      ∀ newID, (discoverNewVolume c z name existing n st).1 = some newID → newID ≠ "" →
        ListedSince base (discoverNewVolume c z name existing n st).2.trace name newID := by
  intro n
  induction n with
  | zero =>
    intro st t0 _ newID h hne
    simp only [discoverNewVolume, Option.some.injEq] at h
    exact absurd h.symm hne
  | succ n ih =>
    intro st t0 hbase newID h hne
    have htr := callListInstanceVolumes_trace c z (st.sleep 1)
    rw [discoverNewVolume] at h ⊢
    rcases hc : callListInstanceVolumes c z (st.sleep 1) with ⟨resp, st1⟩
    rw [hc] at h htr
    simp only at htr
    cases resp with
    | error err => simp at h
    | ok latest =>
      simp only at h ⊢
      have hbase1 : st1.trace = base ++ (t0 ++ [Event.Sleep 1,
          Event.ListInstanceVolumes z (ApiResult.ok latest)]) := by
        rw [htr, St.sleep_trace, hbase]; simp
      split at h
      · rename_i hfound
        rw [if_pos hfound]
        cases hf : latest.find? (fun vol => !decide (vol.ID ∈ existing)
            && decide (vol.Name = name)) with
        | none => simp [hf] at hfound
        | some vol =>
          simp only [hf, Option.some.injEq] at h
          have hp := List.find?_some hf
          simp only [Bool.and_eq_true, decide_eq_true_eq] at hp
          exact ⟨_, hbase1, z, latest, vol, by simp, List.mem_of_find?_eq_some hf, h, hp.2⟩
      · rename_i hnot
        rw [if_neg hnot]
        exact ih st1 _ hbase1 newID h hne

theorem createAndAttachLoop_delta {σ : Type} (c : Client σ) (z i : String)
    (removed : List String) (added : List VolumeSpec) (base : List Event) :
    ∀ (specs : List VolumeSpec) (nameToID : IDMap) (st : St σ),
      (∀ s, s ∈ specs → s ∈ added) → VolumeDelta removed added base st.trace →
      VolumeDelta removed added base (createAndAttachLoop c z i specs nameToID st).2.trace := by
  intro specs
  induction specs with
  | nil => intro m st _ h; exact h
  | cons spec rest ih =>
    intro m st hspecs h
    have hrest : ∀ s, s ∈ rest → s ∈ added := fun s hs => hspecs s (List.mem_cons_of_mem _ hs)
    have hl : Ext Event.VolumeQuiet st (callListInstanceVolumes c z st).2 :=
      Ext.single _ (callListInstanceVolumes_trace c z st) rfl
    rw [createAndAttachLoop]
    rcases hlc : callListInstanceVolumes c z st with ⟨resp, st1⟩
    rw [hlc] at hl
    have h1 := h.deltaExtQuiet hl
    cases resp with
    | error ierr => exact h1
    | ok initial =>
      simp only
      have htr := callCreateInstanceVolume_trace c z spec.ServiceOfferingID.ValueString
        spec.Size.ValueInt64 spec.Name.ValueString st1
      rcases hcc : callCreateInstanceVolume c z spec.ServiceOfferingID.ValueString
        spec.Size.ValueInt64 spec.Name.ValueString st1 with ⟨cerr, st2⟩
      rw [hcc] at htr
      simp only at htr
      have h2 : VolumeDelta removed added base st2.trace := by
        rw [htr]
        exact h1.deltaSnoc _ (fun t _ => ⟨spec, hspecs spec (List.mem_cons_self _ _), rfl, rfl, rfl⟩)
      cases cerr with
      | some e => exact h2
      | none =>
        simp only
        obtain ⟨t2, ht2, _⟩ := h2
        have hd := (discoverNewVolume_ext c z spec.Name.ValueString
          (initial.map (fun vol => vol.ID)) 10 st2).1
        have hlisted := discoverNewVolume_listed c z spec.Name.ValueString
          (initial.map (fun vol => vol.ID)) base 10 st2 t2 ht2
        generalize discoverNewVolume c z spec.Name.ValueString
          (initial.map (fun vol => vol.ID)) 10 st2 = r at hd hlisted ⊢
        rcases r with ⟨found, st3⟩
        have h3 : VolumeDelta removed added base st3.trace :=
          VolumeDelta.deltaExtQuiet ⟨t2, ht2, by assumption⟩ hd
        cases found with
        | none => exact h3
        | some newID =>
          simp only
          split
          · exact h3
          · rename_i hne
            have hl3 : ListedSince base st3.trace spec.Name.ValueString newID :=
              hlisted newID rfl hne
            have hta := callAttachInstanceVolume_trace c z newID i st3
            rcases hac : callAttachInstanceVolume c z newID i st3 with ⟨aerr, st4⟩
            rw [hac] at hta
            simp only at hta
            have h4 : VolumeDelta removed added base st4.trace := by
              rw [hta]
              exact h3.deltaSnoc _ (fun t ht =>
                ⟨spec, hspecs spec (List.mem_cons_self _ _), hl3.listedAs t ht⟩)
            cases aerr with
            | some e => exact h4
            | none => exact ih (m.set spec.Name.ValueString newID) st4 hrest h4

theorem UpdateInstanceVolumes_volumeDelta {σ : Type} (c : Client σ) (orders : VolumeOrders)
    (z i : String) (planVolumes stateVolumes : List VolumeSpec) (st : St σ) :
    VolumeDelta
      (removedVolumeNames orders.removed (volumeNameMap stateVolumes)
        (volumeNameMap planVolumes))
      (addedVolumes orders.added (volumeNameMap stateVolumes) (volumeNameMap planVolumes))
      st.trace (UpdateInstanceVolumes c orders z i planVolumes stateVolumes st).2.trace := by
  have hs : Ext Event.VolumeQuiet st (callShowInstance c z i st).2 :=
    Ext.single _ (callShowInstance_trace c z i st) rfl
  rw [UpdateInstanceVolumes]
  rcases hc : callShowInstance c z i st with ⟨resp, st1⟩
  rw [hc] at hs
  have h1 := (VolumeDelta.deltaStart
      (removedVolumeNames orders.removed (volumeNameMap stateVolumes)
        (volumeNameMap planVolumes))
      (addedVolumes orders.added (volumeNameMap stateVolumes) (volumeNameMap planVolumes))
      st.trace).deltaExtQuiet hs
  cases resp with
  | error err => exact h1
  | ok data =>
    simp only
    have hd := DetachAndDeleteRemovedVolumes_delta c z i
      (fun volumeID => data.DataVolumes.any (fun s => decide (s = volumeID))) _ _ _
      (removedVolumeNames orders.removed (volumeNameMap stateVolumes)
        (volumeNameMap planVolumes)) st1 (fun _ h => h) h1
    generalize DetachAndDeleteRemovedVolumes c z i
      (removedVolumeNames orders.removed (volumeNameMap stateVolumes)
        (volumeNameMap planVolumes))
      (fun volumeID => data.DataVolumes.any (fun s => decide (s = volumeID))) st1 = st2
      at hd ⊢
    split
    · exact hd
    · have hcr := createAndAttachLoop_delta c z i _ _ _
        (addedVolumes orders.added (volumeNameMap stateVolumes) (volumeNameMap planVolumes))
        ((addedVolumes orders.added (volumeNameMap stateVolumes)
          (volumeNameMap planVolumes)).foldl (fun m v => m.set v.Name.ValueString "")
          IDMap.empty) st2 (fun _ h => h) hd
      rw [CreateAndAttachNewVolumes]
      generalize createAndAttachLoop c z i
        (addedVolumes orders.added (volumeNameMap stateVolumes) (volumeNameMap planVolumes))
        ((addedVolumes orders.added (volumeNameMap stateVolumes)
          (volumeNameMap planVolumes)).foldl (fun m v => m.set v.Name.ValueString "")
          IDMap.empty) st2 = r at hcr ⊢
      rcases r with ⟨m, st3⟩
      simp only at hcr ⊢
      split <;> exact hcr

/-- The example of the specification with `v2` not attached: desired `[v1]`, existing
`[v1, v2]`, the volume `v2` listed as `ALLOCATED` and absent from the attached volumes. The
run reads the instance, lists the volumes and deletes `v2`; it issues no detach and no call
for `v1`, and returns the empty list. -/
theorem UpdateInstanceVolumes_sample_unattached :
    (UpdateInstanceVolumes volClient VolumeOrders.identity "zone" "vm" [volSpec "v1" 10]
        [volSpec "v1" 10, volSpec "v2" 20]
        (volStart [[{ ID := "vol-1", Name := "v1", Status := "ATTACHED" },
                    { ID := "vol-2", Name := "v2", Status := "ALLOCATED" }]]
          ["vol-1"])).2.trace
      = [Event.ShowInstance "zone" "vm"
          (ApiResult.ok
            { Status := "UP", Username := "root", Password := "secret",
              DataVolumes := ["vol-1"] }),
         Event.ListInstanceVolumes "zone"
          (ApiResult.ok [{ ID := "vol-1", Name := "v1", Status := "ATTACHED" },
                         { ID := "vol-2", Name := "v2", Status := "ALLOCATED" }]),
         Event.DeleteInstanceVolume "zone" "vol-2" none]
    ∧ (UpdateInstanceVolumes volClient VolumeOrders.identity "zone" "vm" [volSpec "v1" 10]
        [volSpec "v1" 10, volSpec "v2" 20]
        (volStart [[{ ID := "vol-1", Name := "v1", Status := "ATTACHED" },
                    { ID := "vol-2", Name := "v2", Status := "ALLOCATED" }]]
          ["vol-1"])).1 = TFList.value [] := by
  decide

/-! ### Deleting a removed volume -/

/-- C13 (failing run): `UpdateInstanceVolumes` on the sample volume remote with no desired
volume and the prior volume `v`. The first listing shows `vol-1` named `v` with status
`DETACHING`; the volume is not attached, so the code waits for `ALLOCATED`. The next listing
shows a second volume `vol-2`, also named `v`, with status `ALLOCATED` before `vol-1`, still
`DETACHING`. The wait looks the volume up by name, accepts the status of `vol-2`, and the code
calls `DeleteInstanceVolume` for `vol-1`, whose status in the listing read right before the
call is `DETACHING`; no error is recorded. -/
theorem UpdateInstanceVolumes_deletes_unallocated :
    (UpdateInstanceVolumes volClient VolumeOrders.identity "zone" "vm" [] [volSpec "v" 10]
        (volStart [[{ ID := "vol-1", Name := "v", Status := "DETACHING" }],
                   [{ ID := "vol-2", Name := "v", Status := "ALLOCATED" },
                    { ID := "vol-1", Name := "v", Status := "DETACHING" }]] [])).2.trace
      = [Event.ShowInstance "zone" "vm"
          (ApiResult.ok
            { Status := "UP", Username := "root", Password := "secret", DataVolumes := [] }),
         Event.ListInstanceVolumes "zone"
          (ApiResult.ok [{ ID := "vol-1", Name := "v", Status := "DETACHING" }]),
         Event.Sleep 1,
         Event.ListInstanceVolumes "zone"
          (ApiResult.ok [{ ID := "vol-2", Name := "v", Status := "ALLOCATED" },
                         { ID := "vol-1", Name := "v", Status := "DETACHING" }]),
         Event.DeleteInstanceVolume "zone" "vol-1" none]
    ∧ statusOf [{ ID := "vol-2", Name := "v", Status := "ALLOCATED" },
                { ID := "vol-1", Name := "v", Status := "DETACHING" }] "vol-1"
        = some "DETACHING"
    ∧ Diagnostics.HasError
        (UpdateInstanceVolumes volClient VolumeOrders.identity "zone" "vm" [] [volSpec "v" 10]
          (volStart [[{ ID := "vol-1", Name := "v", Status := "DETACHING" }],
                     [{ ID := "vol-2", Name := "v", Status := "ALLOCATED" },
                      { ID := "vol-1", Name := "v", Status := "DETACHING" }]] [])).2.diags
        = false := by
  decide

theorem DeleteGuarded.guardStart (names : List String) (base : List Event) :
    DeleteGuarded names base base :=
  ⟨[], by simp, fun pre z v err post h => by simp at h⟩

theorem DeleteGuarded.guardSnoc {names : List String} {base trace : List Event}
    (h : DeleteGuarded names base trace) (e : Event)
    (he : ∀ z v err, e = Event.DeleteInstanceVolume z v err →
      ∀ t, trace = base ++ t → ∃ name, name ∈ names ∧ AllocatedByName t name) :
    DeleteGuarded names base (trace ++ [e]) := by
  obtain ⟨t, ht, hp⟩ := h
  refine ⟨t ++ [e], by rw [ht, List.append_assoc], ?_⟩
  intro pre z v err post hsplit
  rcases List.append_cons_eq_concat_cases pre post t _ e hsplit.symm with
    ⟨_, hpre, hx⟩ | ⟨post1, _, ht1⟩
  · rw [hpre]; exact he z v err hx.symm t ht
  · exact hp pre z v err post1 ht1

theorem DeleteGuarded.append_other {names : List String} {base : List Event} :
    ∀ (t : List Event) (trace : List Event), DeleteGuarded names base trace →
      (∀ e, e ∈ t → e.isDeleteVolume = false) → DeleteGuarded names base (trace ++ t) := by
  intro t
  induction t with
  | nil => intro trace h _; simpa using h
  | cons e rest ih =>
    intro trace h hq
    have h1 : DeleteGuarded names base (trace ++ [e]) := by
      refine h.guardSnoc e ?_
      intro z v err he
      have := hq e (List.mem_cons_self _ _)
      rw [he] at this
      exact absurd this (by simp [Event.isDeleteVolume])
    have h2 := ih (trace ++ [e]) h1 (fun x hx => hq x (List.mem_cons_of_mem _ hx))
    simpa using h2

theorem DeleteGuarded.ext_other {σ : Type} {names : List String} {base : List Event}
    {st st1 : St σ} (h : DeleteGuarded names base st.trace)
    (hext : Ext (fun e => e.isDeleteVolume = false) st st1) :
    DeleteGuarded names base st1.trace := by
  obtain ⟨t, ht, hq⟩ := hext
  rw [ht]
  exact DeleteGuarded.append_other t _ h hq

theorem Event.VolumeQuiet.notDelete (e : Event) (h : Event.VolumeQuiet e) :
    e.isDeleteVolume = false := by
  cases e <;>
    first
    | rfl
    | exact absurd h (by simp [Event.VolumeQuiet, Event.isVolumeChange])

theorem DeleteGuarded.guardExtQuiet {σ : Type} {names : List String} {base : List Event}
    {st st1 : St σ} (h : DeleteGuarded names base st.trace)
    (hext : Ext Event.VolumeQuiet st st1) : DeleteGuarded names base st1.trace :=
  h.ext_other (hext.extMono Event.VolumeQuiet.notDelete)

theorem AllocatedSince.allocAppend {base trace : List Event} {name : String}
    (h : AllocatedSince base trace name) (t : List Event)
    (hnl : ∀ x, x ∈ t → x.isListVolumes = false) :
    AllocatedSince base (trace ++ t) name := by
  obtain ⟨t0, ht0, pre0, mid, z, vols, vol, hsplit, hmid, hfind, hst⟩ := h
  refine ⟨t0 ++ t, by rw [ht0, List.append_assoc], pre0, mid ++ t, z, vols, vol, ?_, ?_, hfind,
    hst⟩
  · rw [hsplit]; simp
  · intro x hx
    rcases List.mem_append.mp hx with h | h
    · exact hmid x h
    · exact hnl x h

theorem AllocatedSince.allocExt {σ : Type} {base : List Event} {name : String} {st st1 : St σ}
    (h : AllocatedSince base st.trace name) (hext : Ext Event.KeepsListing st st1) :
    AllocatedSince base st1.trace name := by
  obtain ⟨t, ht, hnl⟩ := hext
  rw [ht]
  exact h.allocAppend t (fun x hx => (hnl x hx).1)

theorem AllocatedSince.allocatedByName {base trace : List Event} {name : String}
    (h : AllocatedSince base trace name) (t : List Event) (ht : trace = base ++ t) :
    AllocatedByName t name := by
  obtain ⟨t0, ht0, hl⟩ := h
  have : t0 = t := List.append_cancel_left (ht0.symm.trans ht)
  rw [← this]; exact hl

theorem findVolumeByName_allocated {σ : Type} (c : Client σ) (z name : String) (st : St σ)
    (v : String) (st1 : St σ) (base t0 : List Event) (hbase : st.trace = base ++ t0)
    (h : findVolumeByName c z name st = ((v, VolumeStatusAllocated, true, none), st1)) :
    AllocatedSince base st1.trace name := by
  obtain ⟨vols, vol, htr, hf, _, hstatus⟩ :=
    findVolumeByName_found c z name st v VolumeStatusAllocated st1 h
  exact ⟨t0 ++ [Event.ListInstanceVolumes z (ApiResult.ok vols)],
    by rw [htr, hbase, List.append_assoc], t0, [], z, vols, vol, rfl, by simp, hf, hstatus⟩

theorem waitVolumeDetached_noListing {σ : Type} (c : Client σ) (z i v : String) :
    ∀ (n : Nat) (st : St σ),
      Ext Event.KeepsListing st (waitVolumeDetached c z i v n st).2 := by
  intro n
  induction n with
  | zero => intro st; exact Ext.extRefl _ _
  | succ n ih =>
    intro st
    have hs : Ext Event.KeepsListing st (st.sleep 5) :=
      Ext.single _ (St.sleep_trace st 5) ⟨rfl, rfl⟩
    have hc : Ext Event.KeepsListing (st.sleep 5)
        (callShowInstance c z i (st.sleep 5)).2 :=
      Ext.single _ (callShowInstance_trace c z i _) ⟨rfl, rfl⟩
    rw [waitVolumeDetached]
    rcases hcall : callShowInstance c z i (st.sleep 5) with ⟨resp, st1⟩
    rw [hcall] at hc
    cases resp with
    | error err => exact (hs.extTrans hc).extTrans (Ext.of_trace_eq _ rfl)
    | ok ir =>
      simp only
      split
      · exact (hs.extTrans hc).extTrans (ih st1)
      · exact hs.extTrans hc

theorem detachRemovedVolume_noListing {σ : Type} (c : Client σ) (z i name v : String)
    (isAttached : String → Bool) (st : St σ) :
    Ext Event.KeepsListing st
      (detachRemovedVolume c z i name v isAttached st).2 := by
  rw [detachRemovedVolume]
  split
  · have hd : Ext Event.KeepsListing st
        (callDetachInstanceVolume c z v i st).2 :=
      Ext.single _ (callDetachInstanceVolume_trace c z v i st) ⟨rfl, rfl⟩
    rcases hc : callDetachInstanceVolume c z v i st with ⟨err, st1⟩
    rw [hc] at hd
    cases err with
    | some derr => exact hd.extTrans (Ext.of_trace_eq _ rfl)
    | none =>
      simp only
      have hw := waitVolumeDetached_noListing c z i v 60 st1
      rcases hwc : waitVolumeDetached c z i v 60 st1 with ⟨r, st2⟩
      rw [hwc] at hw
      cases r with
      | returned => exact hd.extTrans hw
      | reached => exact hd.extTrans hw
      | exhausted => exact (hd.extTrans hw).extTrans (Ext.of_trace_eq _ rfl)
  · exact Ext.extRefl _ _

theorem waitVolumeAllocated_reached {σ : Type} (c : Client σ) (z name : String)
    (base : List Event) :
    ∀ (n : Nat) (st : St σ) (t0 : List Event), st.trace = base ++ t0 →
      (waitVolumeAllocated c z name n st).1 = LoopEnd.reached →
      AllocatedSince base (waitVolumeAllocated c z name n st).2.trace name := by
  intro n
  induction n with
  | zero => intro st t0 _ h; simp [waitVolumeAllocated] at h
  | succ n ih =>
    intro st t0 hbase h
    have hfound := findVolumeByName_found c z name (st.sleep 1)
    have htr := (findVolumeByName_trace c z name (st.sleep 1)).1
    rw [waitVolumeAllocated] at h ⊢
    rcases hcall : findVolumeByName c z name (st.sleep 1) with ⟨⟨id, vs, ok, err⟩, st1⟩
    rw [hcall] at h hfound htr
    simp only at htr
    cases err with
    | some lerr => simp at h
    | none =>
      simp only at h ⊢
      split at h
      · rename_i hok
        rw [if_pos hok]
        simp only [Bool.and_eq_true, decide_eq_true_eq] at hok
        obtain ⟨hok1, hvs⟩ := hok
        subst hok1
        obtain ⟨vols, vol, htr1, hf, _, hstatus⟩ := hfound id vs st1 rfl
        exact ⟨t0 ++ [Event.Sleep 1, Event.ListInstanceVolumes z (ApiResult.ok vols)],
          by rw [htr1, St.sleep_trace, hbase]; simp,
          t0 ++ [Event.Sleep 1], [], z, vols, vol, by simp, by simp, hf, by rw [hstatus, hvs]⟩
      · rename_i hok
        rw [if_neg hok]
        refine ih st1 (t0 ++ [Event.Sleep 1,
          Event.ListInstanceVolumes z (callListInstanceVolumes c z (st.sleep 1)).1]) ?_ h
        rw [htr, St.sleep_trace, hbase]; simp

theorem awaitAllocated_go {σ : Type} (c : Client σ) (z name status : String) (st : St σ)
    (base t0 : List Event) (hbase : st.trace = base ++ t0)
    (hinit : status = VolumeStatusAllocated → AllocatedSince base st.trace name)
    (hgo : (awaitAllocated c z name status st).1 = true) :
    AllocatedSince base (awaitAllocated c z name status st).2.trace name := by
  rw [awaitAllocated] at hgo ⊢
  split
  · rename_i hne
    rw [if_pos hne] at hgo
    have hw := waitVolumeAllocated_reached c z name base 30 st t0 hbase
    rcases hwc : waitVolumeAllocated c z name 30 st with ⟨r, st1⟩
    rw [hwc] at hw hgo
    cases r with
    | returned => simp at hgo
    | reached => exact hw rfl
    | exhausted => simp at hgo
  · rename_i hne
    exact hinit (by simpa using hne)

theorem DetachAndDeleteRemovedVolumes_deleteGuarded {σ : Type} (c : Client σ) (z i : String)
    (isAttached : String → Bool) (allNames : List String) (base : List Event) :
    ∀ (names : List String) (st : St σ), (∀ n, n ∈ names → n ∈ allNames) →
      DeleteGuarded allNames base st.trace →
      DeleteGuarded allNames base
        (DetachAndDeleteRemovedVolumes c z i names isAttached st).trace := by
  intro names
  induction names with
  | nil => intro st _ h; exact h
  | cons name rest ih =>
    intro st hnames h
    have hrest : ∀ n, n ∈ rest → n ∈ allNames :=
      fun n hn => hnames n (List.mem_cons_of_mem _ hn)
    have hf := findVolumeByName_ext c z name st
    have halloc := findVolumeByName_allocated c z name st
    rw [DetachAndDeleteRemovedVolumes]
    rcases hfc : findVolumeByName c z name st with ⟨⟨v, status, found, err⟩, st1⟩
    rw [hfc] at hf halloc
    have h1 := h.guardExtQuiet hf
    cases err with
    | some ferr => exact h1
    | none =>
      simp only
      split
      · exact ih st1 hrest h1
      · rename_i hfound
        have hfound1 : found = true := by simpa using hfound
        subst hfound1
        obtain ⟨t0, ht0, _⟩ := h
        have hinit : status = VolumeStatusAllocated → AllocatedSince base st1.trace name := by
          intro hs
          subst hs
          exact halloc v st1 base t0 ht0 rfl
        have hdn := detachRemovedVolume_noListing c z i name v isAttached st1
        rcases hdc : detachRemovedVolume c z i name v isAttached st1 with ⟨go, st2⟩
        rw [hdc] at hdn
        simp only at hdn
        have h2 := h1.ext_other (hdn.extMono (fun e he => he.2))
        cases go with
        | false => exact h2
        | true =>
          simp only
          obtain ⟨t2, ht2, _⟩ := h2
          have hinit2 : status = VolumeStatusAllocated →
              AllocatedSince base st2.trace name := fun hs => (hinit hs).allocExt hdn
          have ha := (awaitAllocated_ext c z name status st2).1
          have hago := awaitAllocated_go c z name status st2 base t2 ht2 hinit2
          rcases hac : awaitAllocated c z name status st2 with ⟨go2, st3⟩
          rw [hac] at ha hago
          have h3 : DeleteGuarded allNames base st3.trace :=
            DeleteGuarded.guardExtQuiet ⟨t2, ht2, by assumption⟩ ha
          cases go2 with
          | false => exact h3
          | true =>
            simp only
            have hal : AllocatedSince base st3.trace name := hago rfl
            have htr := callDeleteInstanceVolume_trace c z v st3
            rcases hdel : callDeleteInstanceVolume c z v st3 with ⟨derr, st4⟩
            rw [hdel] at htr
            simp only at htr
            have h4 : DeleteGuarded allNames base st4.trace := by
              rw [htr]
              exact h3.guardSnoc _ (fun _ _ _ _ t ht =>
                ⟨name, hnames name (List.mem_cons_self _ _), hal.allocatedByName t ht⟩)
            cases derr with
            | some e => exact h4
            | none => exact ih st4 hrest h4

/-- In `DetachAndDeleteRemovedVolumes` every `DeleteInstanceVolume` call is issued when the
most recent listing of volumes reports `ALLOCATED` for the first volume that carries the
removed name: the status is checked by name, while the identifier passed to the call is the
one read at the start of the iteration. -/
theorem DetachAndDeleteRemovedVolumes_delete_by_name {σ : Type} (c : Client σ)
    (zoneID instanceID : String) (removedVolumeNames : List String)
    (isAttached : String → Bool) (st : St σ) :
    ∃ t, (DetachAndDeleteRemovedVolumes c zoneID instanceID removedVolumeNames isAttached
            st).trace = st.trace ++ t
      ∧ ∀ pre z v err post, t = pre ++ Event.DeleteInstanceVolume z v err :: post →
          ∃ name, name ∈ removedVolumeNames ∧ AllocatedByName pre name :=
  DetachAndDeleteRemovedVolumes_deleteGuarded c zoneID instanceID isAttached removedVolumeNames
    st.trace removedVolumeNames st (fun _ h => h) (DeleteGuarded.guardStart _ _)

/-- In `DetachAndDeleteRemovedVolumes`, when the wait for `ALLOCATED` runs out of iterations
the block reports that the function returns and an error is recorded; the delete call comes
after this block and is not reached. -/
theorem awaitAllocated_exhausted {σ : Type} (c : Client σ) (zoneID name volStatus : String)
    (st : St σ) (hstatus : volStatus ≠ VolumeStatusAllocated)
    (hwait : (waitVolumeAllocated c zoneID name 30 st).1 = LoopEnd.exhausted) :
    (awaitAllocated c zoneID name volStatus st).1 = false
    ∧ Diagnostics.HasError (awaitAllocated c zoneID name volStatus st).2.diags = true
    ∧ ∃ t, (awaitAllocated c zoneID name volStatus st).2.trace = st.trace ++ t
        ∧ ∀ e, e ∈ t → e.isVolumeChange = false := by
  have hext := (awaitAllocated_ext c zoneID name volStatus st).1
  refine ⟨?_, ?_, hext⟩
  · rw [awaitAllocated, if_pos hstatus]
    rcases hwc : waitVolumeAllocated c zoneID name 30 st with ⟨r, st1⟩
    rw [hwc] at hwait
    simp only at hwait
    subst hwait
    rfl
  · rw [awaitAllocated, if_pos hstatus]
    rcases hwc : waitVolumeAllocated c zoneID name 30 st with ⟨r, st1⟩
    rw [hwc] at hwait
    simp only at hwait
    subst hwait
    exact St.addError_hasError _ _ _

/-! ### Two runs of the network reconciliation on a faithful remote -/

theorem callListNetworkInstances_att {σ : Type} (c : Client σ)
    (att : σ → List InstanceNetwork) (hc : FaithfulRemote c att) (z n i : String) (st : St σ) :
    att (callListNetworkInstances c z n i st).2.remote = att st.remote :=
  hc.list_keeps z n i st.remote

theorem callListNetworkInstances_reads {σ : Type} (c : Client σ)
    (att : σ → List InstanceNetwork) (hc : FaithfulRemote c att) (z n i : String) (st : St σ)
    (data : List InstanceNetwork) (r : InstanceNetwork)
    (hresp : (callListNetworkInstances c z n i st).1 = ApiResult.ok data)
    (hfirst : firstAttachment data i n = some r) :
    r ∈ att st.remote ∧ r.InstanceID = i ∧ r.NetworkID = n := by
  have hmem := List.mem_of_find?_eq_some hfirst
  have hp := List.find?_some hfirst
  simp only [Bool.and_eq_true, decide_eq_true_eq] at hp
  exact ⟨hc.list_reads z n i st.remote data hresp r hmem hp.1 hp.2, hp.1, hp.2⟩

theorem waitDisconnected_att {σ : Type} (c : Client σ) (att : σ → List InstanceNetwork)
    (hc : FaithfulRemote c att) (z n i a : String) :
    ∀ (k : Nat) (st : St σ), att (waitDisconnected c z n i a k st).2.remote = att st.remote := by
  intro k
  induction k with
  | zero => intro st; rfl
  | succ k ih =>
    intro st
    have ha := callListNetworkInstances_att c att hc z n i st
    rw [waitDisconnected]
    rcases hcall : callListNetworkInstances c z n i st with ⟨resp, st1⟩
    rw [hcall] at ha
    simp only at ha
    cases resp with
    | error err =>
      simp only
      split
      · exact ha
      · exact (ih (st1.sleep 1)).trans ha
    | ok data =>
      simp only
      split
      · split
        · exact ha
        · exact (ih (st1.sleep 1)).trans ha
      · exact ha

theorem waitConnected_att {σ : Type} (c : Client σ) (att : σ → List InstanceNetwork)
    (hc : FaithfulRemote c att) (z n i : String) :
    ∀ (k : Nat) (st : St σ), att (waitConnected c z n i k st).2.remote = att st.remote := by
  intro k
  induction k with
  | zero => intro st; rfl
  | succ k ih =>
    intro st
    have ha := callListNetworkInstances_att c att hc z n i st
    rw [waitConnected]
    rcases hcall : callListNetworkInstances c z n i st with ⟨resp, st1⟩
    rw [hcall] at ha
    simp only at ha
    cases resp with
    | error err =>
      simp only
      split
      · exact ha
      · exact (ih (st1.sleep 1)).trans ha
    | ok data =>
      simp only
      split
      · exact ha
      · split
        · exact ha
        · exact (ih (st1.sleep 1)).trans ha

theorem FindDefaultNetworkID_att {σ : Type} (c : Client σ) (att : σ → List InstanceNetwork)
    (hc : FaithfulRemote c att) (z i : String) :
    ∀ (nets : List String) (st : St σ),
      att (FindDefaultNetworkID c z i nets st).2.remote = att st.remote := by
  intro nets
  induction nets with
  | nil => intro st; rfl
  | cons n rest ih =>
    intro st
    have ha := callListNetworkInstances_att c att hc z n i st
    rw [FindDefaultNetworkID]
    rcases hcall : callListNetworkInstances c z n i st with ⟨resp, st1⟩
    rw [hcall] at ha
    simp only at ha
    cases resp with
    | error err => exact (ih st1).trans ha
    | ok data =>
      simp only
      split
      · exact ha
      · exact (ih st1).trans ha

theorem hasOtherDefault_att {σ : Type} (c : Client σ) (att : σ → List InstanceNetwork)
    (hc : FaithfulRemote c att) (z i d : String) :
    ∀ (nets : List String) (st : St σ),
      att (hasOtherDefault c z i d nets st).2.remote = att st.remote := by
  intro nets
  induction nets with
  | nil => intro st; rfl
  | cons n rest ih =>
    intro st
    rw [hasOtherDefault]
    split
    · exact ih st
    · have ha := callListNetworkInstances_att c att hc z n i st
      rcases hcall : callListNetworkInstances c z n i st with ⟨resp, st1⟩
      rw [hcall] at ha
      simp only at ha
      cases resp with
      | error err => exact (ih st1).trans ha
      | ok data =>
        simp only
        split
        · exact ha
        · exact (ih st1).trans ha

theorem VerifyDefaultNetworkChange_att {σ : Type} (c : Client σ)
    (att : σ → List InstanceNetwork) (hc : FaithfulRemote c att) (z i d : String)
    (remaining : List String) (st : St σ) :
    att (VerifyDefaultNetworkChange c z i d remaining st).remote = att st.remote := by
  have h1 := hasOtherDefault_att c att hc z i d remaining st
  rw [VerifyDefaultNetworkChange]
  rcases hcall : hasOtherDefault c z i d remaining st with ⟨b, st1⟩
  rw [hcall] at h1
  simp only at h1
  cases b with
  | true => exact h1
  | false =>
    simp only
    cases remaining with
    | nil => exact h1
    | cons first rest =>
      simp only
      have ha := callListNetworkInstances_att c att hc z first i st1
      rcases hl : callListNetworkInstances c z first i st1 with ⟨resp, st2⟩
      rw [hl] at ha
      simp only at ha
      cases resp with
      | error err => exact ha.trans h1
      | ok data =>
        simp only
        split
        · exact ha.trans h1
        · split
          · exact ha.trans h1
          · exact ha.trans h1
theorem DetachNetworksFromInstance_inert {σ : Type} (c : Client σ)
    (att : σ → List InstanceNetwork) (hc : FaithfulRemote c att) (z i : String)
    (desired : GoMap) :
    ∀ (nets : List String) (d : String) (st : St σ),
      Converged desired i (att st.remote) → (∀ n, n ∈ nets → n ∉ desired.keys) →
      Ext Event.Quiet st (DetachNetworksFromInstance c z i nets d st)
      ∧ att (DetachNetworksFromInstance c z i nets d st).remote = att st.remote := by
  intro nets
  induction nets with
  | nil => intro d st _ _; exact ⟨Ext.extRefl _ _, rfl⟩
  | cons n rest ih =>
    intro d st hconv hnets
    have hrest : ∀ m, m ∈ rest → m ∉ desired.keys :=
      fun m hm => hnets m (List.mem_cons_of_mem _ hm)
    have hcall : Ext Event.Quiet st (callListNetworkInstances c z n i st).2 :=
      Ext.single _ (callListNetworkInstances_trace c z n i st) rfl
    have ha := callListNetworkInstances_att c att hc z n i st
    have hreads := callListNetworkInstances_reads c att hc z n i st
    rw [DetachNetworksFromInstance]
    rcases hlc : callListNetworkInstances c z n i st with ⟨resp, st1⟩
    rw [hlc] at hcall ha hreads
    simp only at ha hreads
    cases resp with
    | error err => exact ⟨hcall.extTrans (Ext.of_trace_eq _ rfl), ha⟩
    | ok data =>
      simp only
      split
      · exact ⟨hcall.extTrans (Ext.of_trace_eq _ rfl), ha⟩
      · rename_i hid
        have hconv1 : Converged desired i (att st1.remote) := by rw [ha]; exact hconv
        split
        · have h := ih d st1 hconv1 hrest
          exact ⟨hcall.extTrans h.1, h.2.trans ha⟩
        · rename_i hdef
          cases hf : firstAttachment data i n with
          | none => simp [hf] at hid
          | some r =>
            simp only [hf] at hdef
            have hr := hreads data r rfl hf
            have := hconv r hr.1 hr.2.1 (by rw [hr.2.2]; exact hnets n (List.mem_cons_self _ _))
            exact absurd this hdef

theorem DetachNetworksFromInstance_cleared {σ : Type} (c : Client σ)
    (att : σ → List InstanceNetwork) (hc : FaithfulRemote c att) (z i : String) :
    ∀ (nets : List String) (d : String) (st : St σ),
      OnePerNetwork i (att st.remote) →
      ¬ Diagnostics.HasError (DetachNetworksFromInstance c z i nets d st).diags = true →
      (∀ v, v ∈ att (DetachNetworksFromInstance c z i nets d st).remote → v ∈ att st.remote)
      ∧ ∀ n, n ∈ nets → ∀ v, v ∈ att (DetachNetworksFromInstance c z i nets d st).remote →
          v.InstanceID = i → v.NetworkID = n → v.IsDefault = true := by
  intro nets
  induction nets with
  | nil => intro d st _ _; exact ⟨fun _ h => h, fun n hn => absurd hn (List.not_mem_nil n)⟩
  | cons n rest ih =>
    intro d st huniq hok
    have ha := callListNetworkInstances_att c att hc z n i st
    have hreads := callListNetworkInstances_reads c att hc z n i st
    rw [DetachNetworksFromInstance] at hok ⊢
    rcases hlc : callListNetworkInstances c z n i st with ⟨resp, st1⟩
    rw [hlc] at ha hreads hok
    simp only at ha hreads
    have huniq1 : OnePerNetwork i (att st1.remote) := by rw [ha]; exact huniq
    cases resp with
    | error err => exact absurd (St.addError_hasError _ _ _) hok
    | ok data =>
      simp only at hok ⊢
      cases hf : firstAttachment data i n with
      | none =>
        simp only [hf, if_true] at hok
        exact absurd (St.addError_hasError _ _ _) hok
      | some r =>
        simp only [hf] at hok ⊢
        have hr := hreads data r rfl hf
        by_cases hid : r.ID = ""
        · rw [if_pos hid] at hok
          exact absurd (St.addError_hasError _ _ _) hok
        · rw [if_neg hid] at hok ⊢
          by_cases hdef : r.IsDefault = true
          · rw [if_pos hdef] at hok ⊢
            have h := ih d st1 huniq1 hok
            refine ⟨fun v hv => ha ▸ h.1 v hv, ?_⟩
            intro m hm v hv hvi hvn
            rcases List.mem_cons.mp hm with hm | hm
            · have hv1 := h.1 v hv
              have : v = r := huniq1 v r hv1 (ha ▸ hr.1) hvi hr.2.1
                (by rw [hvn, hm, hr.2.2])
              rw [this]; exact hdef
            · exact h.2 m hm v hv hvi hvn
          · rw [if_neg hdef] at hok ⊢
            have hrem := hc.disconnect_removes z n i r.ID st1.remote
            have hw := waitDisconnected_att c att hc z n i r.ID 30
            have hwd := waitDisconnected_diags c z n i r.ID 30
            rcases hdc : callDisconnectInstanceFromNetwork c z n i r.ID st1 with ⟨err, st2⟩
            have herr : (c.DisconnectInstanceFromNetwork z n i r.ID st1.remote).1 = err :=
              congrArg Prod.fst hdc
            have hrem2 : st2.remote = (c.DisconnectInstanceFromNetwork z n i r.ID
                st1.remote).2 := by
              have := congrArg (fun p => p.2.remote) hdc
              exact this.symm
            rw [hdc] at hok
            cases err with
            | some e => exact absurd (St.addError_hasError _ _ _) hok
            | none =>
              simp only at hok ⊢
              have hsub2 : ∀ v, v ∈ att st2.remote → v ∈ att st1.remote ∧ v.ID ≠ r.ID := by
                rw [hrem2]; exact hrem herr
              have hw3 := hw st2
              have hwd3 := (hwd st2).2
              rcases hwc : waitDisconnected c z n i r.ID 30 st2 with ⟨ret, st3⟩
              rw [hwc] at hok hw3 hwd3
              simp only at hw3 hwd3
              cases ret with
              | true => exact absurd (hwd3 rfl) hok
              | false =>
                simp only at hok ⊢
                have huniq3 : OnePerNetwork i (att st3.remote) := by
                  intro v w hv hw1 hvi hwi hn
                  rw [hw3] at hv hw1
                  exact huniq1 v w (hsub2 v hv).1 (hsub2 w hw1).1 hvi hwi hn
                have h := ih d st3 huniq3 hok
                have hsub : ∀ v, v ∈ att (DetachNetworksFromInstance c z i rest d st3).remote →
                    v ∈ att st1.remote ∧ v.ID ≠ r.ID := by
                  intro v hv
                  have hv3 := h.1 v hv
                  rw [hw3] at hv3
                  exact hsub2 v hv3
                refine ⟨fun v hv => ha ▸ (hsub v hv).1, ?_⟩
                intro m hm v hv hvi hvn
                rcases List.mem_cons.mp hm with hm | hm
                · have hv1 := hsub v hv
                  have : v = r := huniq1 v r hv1.1 (ha ▸ hr.1) hvi hr.2.1
                    (by rw [hvn, hm, hr.2.2])
                  exact absurd (by rw [this]) hv1.2
                · exact h.2 m hm v hv hvi hvn

theorem AttachNetworksToInstance_adds {σ : Type} (c : Client σ)
    (att : σ → List InstanceNetwork) (hc : FaithfulRemote c att) (z i : String) :
    ∀ (nets : List String) (st : St σ),
      ¬ Diagnostics.HasError (AttachNetworksToInstance c z i nets st).diags = true →
      ∀ v, v ∈ att (AttachNetworksToInstance c z i nets st).remote →
        v ∈ att st.remote ∨ v.NetworkID ∈ nets := by
  intro nets
  induction nets with
  | nil => intro st _ v hv; exact Or.inl hv
  | cons n rest ih =>
    intro st hok v hv
    have hadd := hc.connect_adds z n i st.remote
    have hw := waitConnected_att c att hc z n i 30
    rw [AttachNetworksToInstance] at hok hv
    rcases hcc : callConnectInstanceToNetwork c z n i st with ⟨err, st1⟩
    have herr : (c.ConnectInstanceToNetwork z n i st.remote).1 = err := congrArg Prod.fst hcc
    have hrem1 : st1.remote = (c.ConnectInstanceToNetwork z n i st.remote).2 := by
      have := congrArg (fun p => p.2.remote) hcc
      exact this.symm
    rw [hcc] at hok hv
    cases err with
    | some e => exact absurd (St.addError_hasError _ _ _) hok
    | none =>
      simp only at hok hv
      have hsub1 : ∀ v, v ∈ att st1.remote → v ∈ att st.remote ∨ v.NetworkID = n := by
        rw [hrem1]; exact hadd herr
      have hw2 := hw st1
      rcases hwc : waitConnected c z n i 30 st1 with ⟨ret, st2⟩
      rw [hwc] at hok hv hw2
      simp only at hw2
      cases ret with
      | true =>
        simp only at hv
        rw [hw2] at hv
        rcases hsub1 v hv with h | h
        · exact Or.inl h
        · exact Or.inr (by rw [h]; exact List.mem_cons_self _ _)
      | false =>
        simp only at hok hv
        rcases ih st2 hok v hv with h | h
        · rw [hw2] at h
          rcases hsub1 v h with h1 | h1
          · exact Or.inl h1
          · exact Or.inr (by rw [h1]; exact List.mem_cons_self _ _)
        · exact Or.inr (List.mem_cons_of_mem _ h)
theorem UpdateInstanceNetworks_inert {σ : Type} (c : Client σ)
    (att : σ → List InstanceNetwork) (hc : FaithfulRemote c att) (orders : RangeOrders)
    (z i : String) (desired stateNetworkIDs : GoMap) (st : St σ)
    (hconv : Converged desired i (att st.remote))
    (hattach : networksToAttach orders.attach desired stateNetworkIDs = [])
    (hdetach : ∀ n, n ∈ networksToDetach orders.detach desired stateNetworkIDs →
      n ∉ desired.keys) :
    Ext Event.Quiet st (UpdateInstanceNetworks c orders z i desired stateNetworkIDs st) := by
  have hf := (FindDefaultNetworkID_ext c z i (getKeys orders.stateKeys stateNetworkIDs) st).1
  have hfa := FindDefaultNetworkID_att c att hc z i (getKeys orders.stateKeys stateNetworkIDs) st
  rw [UpdateInstanceNetworks]
  rcases hfc : FindDefaultNetworkID c z i (getKeys orders.stateKeys stateNetworkIDs) st
    with ⟨d, st1⟩
  rw [hfc] at hf hfa
  simp only at hf hfa ⊢
  have h2 : Ext Event.Quiet st1
      (if d ≠ "" then
        VerifyDefaultNetworkChange c z i d (getKeys orders.planKeys desired) st1
      else st1)
      ∧ att (if d ≠ "" then
        VerifyDefaultNetworkChange c z i d (getKeys orders.planKeys desired) st1
      else st1).remote = att st1.remote := by
    split
    · exact ⟨(VerifyDefaultNetworkChange_ext c z i d _ st1).1,
        VerifyDefaultNetworkChange_att c att hc z i d _ st1⟩
    · exact ⟨Ext.extRefl _ _, rfl⟩
  generalize (if d ≠ "" then
        VerifyDefaultNetworkChange c z i d (getKeys orders.planKeys desired) st1
      else st1) = st2 at h2 ⊢
  have hconv2 : Converged desired i (att st2.remote) := by rw [h2.2, hfa]; exact hconv
  have h3 := (DetachNetworksFromInstance_inert c att hc z i desired
    (networksToDetach orders.detach desired stateNetworkIDs) d st2 hconv2 hdetach).1
  generalize DetachNetworksFromInstance c z i
        (networksToDetach orders.detach desired stateNetworkIDs) d st2 = st3 at h3 ⊢
  rw [hattach]
  split
  · exact hf
  · split
    · exact hf.extTrans h2.1
    · split
      · exact (hf.extTrans h2.1).extTrans h3
      · rw [AttachNetworksToInstance]
        exact (hf.extTrans h2.1).extTrans h3

theorem reconcileNetworks_inert {σ : Type} (c : Client σ) (att : σ → List InstanceNetwork)
    (hc : FaithfulRemote c att) (orders : RangeOrders) (z i : String)
    (desired observed : GoMap) (st : St σ) (horders : orders.Valid)
    (hdesired : desired.AllTrue) (hconv : Converged desired i (att st.remote)) :
    Ext Event.Quiet st (reconcileNetworks c orders z i desired desired observed st).2 := by
  have hdet : ∀ m : GoMap, ∀ n, n ∈ networksToDetach orders.detach desired m →
      n ∉ desired.keys := by
    intro m n hn hk
    rw [networksToDetach, List.mem_filter] at hn
    have := hdesired n hk
    simp [this] at hn
  rw [reconcileNetworks]
  split
  · exact Ext.of_trace_eq _ rfl
  · by_cases hne : unmanagedNetworks orders.unmanaged observed desired desired = []
    · have h0 : detachUnmanaged c orders z i desired desired observed st
          = (false, desired, st) := by
        simp [detachUnmanaged, hne]
      rw [h0]
      exact UpdateInstanceNetworks_inert c att hc orders z i desired desired st hconv
        (networksToAttach_eq_nil_of_keys _ horders.2.2.1 desired desired hdesired
          (fun _ h => h)) (hdet desired)
    · rw [detachUnmanaged_eq c orders z i _ _ _ st hne]
      have hU : ∀ n, n ∈ unmanagedNetworks orders.unmanaged observed desired desired →
          n ∉ desired.keys := by
        intro n hn hk
        rw [unmanagedNetworks, List.mem_filter] at hn
        have := hdesired n hk
        simp [this] at hn
      have hd := DetachNetworksFromInstance_inert c att hc z i desired
        (unmanagedNetworks orders.unmanaged observed desired desired) ""
        (warnUnmanaged i (unmanagedNetworks orders.unmanaged observed desired desired) st)
        hconv hU
      have hw : Ext Event.Quiet st (warnUnmanaged i (unmanagedNetworks
          orders.unmanaged observed desired desired) st) := Ext.of_trace_eq _ rfl
      have hfold := foldUnmanaged_spec (unmanagedNetworks orders.unmanaged observed desired
        desired) desired hdesired
      by_cases herr : Diagnostics.HasError (DetachNetworksFromInstance c z i
          (unmanagedNetworks orders.unmanaged observed desired desired)
          "" (warnUnmanaged i (unmanagedNetworks orders.unmanaged observed desired desired)
            st)).diags = true
      · rw [if_pos herr]
        exact hw.extTrans hd.1
      · rw [if_neg herr]
        have hconv2 : Converged desired i (att (DetachNetworksFromInstance c z i
            (unmanagedNetworks orders.unmanaged observed desired desired) ""
            (warnUnmanaged i (unmanagedNetworks orders.unmanaged observed desired desired)
              st)).remote) := by
          rw [hd.2]; exact hconv
        exact (hw.extTrans hd.1).extTrans
          (UpdateInstanceNetworks_inert c att hc orders z i desired _ _ hconv2
            (networksToAttach_eq_nil_of_keys _ horders.2.2.1 desired _ hfold.1
              (fun n h => (hfold.2 n).mpr (Or.inl h))) (hdet _))

theorem UpdateInstanceNetworks_converges {σ : Type} (c : Client σ)
    (att : σ → List InstanceNetwork) (hc : FaithfulRemote c att) (orders : RangeOrders)
    (z i : String) (desired stateNetworkIDs : GoMap) (st : St σ)
    (horders : orders.Valid) (huniq : OnePerNetwork i (att st.remote))
    (hok : ¬ Diagnostics.HasError
      (UpdateInstanceNetworks c orders z i desired stateNetworkIDs st).diags = true) :
    ∀ v, v ∈ att (UpdateInstanceNetworks c orders z i desired stateNetworkIDs st).remote →
      v.InstanceID = i → v.NetworkID ∉ desired.keys →
      v ∈ att st.remote
      ∧ (v.NetworkID ∈ networksToDetach orders.detach desired stateNetworkIDs →
          v.IsDefault = true) := by
  have hfa := FindDefaultNetworkID_att c att hc z i (getKeys orders.stateKeys stateNetworkIDs) st
  have hfd := (FindDefaultNetworkID_ext c z i (getKeys orders.stateKeys stateNetworkIDs) st).2
  rw [UpdateInstanceNetworks] at hok ⊢
  rcases hfc : FindDefaultNetworkID c z i (getKeys orders.stateKeys stateNetworkIDs) st
    with ⟨d, st1⟩
  rw [hfc] at hfa hfd hok
  simp only at hfa hfd hok ⊢
  by_cases h1 : Diagnostics.HasError st1.diags = true
  · rw [if_pos h1] at hok
    exact absurd h1 hok
  · rw [if_neg h1] at hok ⊢
    have h2a : att (if d ≠ "" then
          VerifyDefaultNetworkChange c z i d (getKeys orders.planKeys desired) st1
        else st1).remote = att st1.remote := by
      split
      · exact VerifyDefaultNetworkChange_att c att hc z i d _ st1
      · rfl
    generalize (if d ≠ "" then
          VerifyDefaultNetworkChange c z i d (getKeys orders.planKeys desired) st1
        else st1) = st2 at h2a hok ⊢
    by_cases h2 : d ≠ "" ∧ Diagnostics.HasError st2.diags = true
    · rw [if_pos h2] at hok
      exact absurd h2.2 hok
    · rw [if_neg h2] at hok ⊢
      have huniq2 : OnePerNetwork i (att st2.remote) := by rw [h2a, hfa]; exact huniq
      have hcl := DetachNetworksFromInstance_cleared c att hc z i
        (networksToDetach orders.detach desired stateNetworkIDs) d st2 huniq2
      generalize DetachNetworksFromInstance c z i
        (networksToDetach orders.detach desired stateNetworkIDs) d st2 = st3 at hcl hok ⊢
      by_cases h3 : Diagnostics.HasError st3.diags = true
      · rw [if_pos h3] at hok
        exact absurd h3 hok
      · rw [if_neg h3] at hok ⊢
        have hcl3 := hcl h3
        have hadd := AttachNetworksToInstance_adds c att hc z i
          (networksToAttach orders.attach desired stateNetworkIDs) st3 hok
        intro v hv hvi hvn
        have hv3 : v ∈ att st3.remote := by
          rcases hadd v hv with h | h
          · exact h
          · rw [networksToAttach, List.mem_filter,
              RangeOrder.mem_iff orders.attach horders.2.2.1] at h
            exact absurd h.1 hvn
        refine ⟨?_, fun hdet => hcl3.2 v.NetworkID hdet v hv3 hvi rfl⟩
        have := hcl3.1 v hv3
        rw [h2a, hfa] at this
        exact this
theorem reconcileNetworks_converges {σ : Type} (c : Client σ)
    (att : σ → List InstanceNetwork) (hc : FaithfulRemote c att) (orders : RangeOrders)
    (z i : String) (desired prior observed : GoMap) (st st1 : St σ)
    (horders : orders.Valid) (hdesired : desired.AllTrue) (hprior : prior.AllTrue)
    (huniq : OnePerNetwork i (att st.remote))
    (hcov : Covered desired prior observed i (att st.remote))
    (hrun : reconcileNetworks c orders z i desired prior observed st = (false, st1)) :
    Converged desired i (att st1.remote) := by
  have hmemU := mem_unmanagedNetworks orders.unmanaged horders.2.2.2.2 observed prior desired
    hdesired hprior
  -- a record that has to go is on a network of the list handed to the main detach loop
  have key : ∀ (m : GoMap) (s2 : St σ),
      (∀ n, n ∈ prior.keys → n ∈ m.keys) →
      (∀ n, n ∈ unmanagedNetworks orders.unmanaged observed prior desired → n ∈ m.keys) →
      (∀ v, v ∈ att s2.remote → v ∈ att st.remote) →
      ¬ Diagnostics.HasError (UpdateInstanceNetworks c orders z i desired m s2).diags = true →
      Converged desired i (att (UpdateInstanceNetworks c orders z i desired m s2).remote) := by
    intro m s2 hpm hum hsub hok v hv hvi hvn
    have huniq2 : OnePerNetwork i (att s2.remote) :=
      fun a b ha hb hai hbi hn => huniq a b (hsub a ha) (hsub b hb) hai hbi hn
    have h := UpdateInstanceNetworks_converges c att hc orders z i desired m s2 horders huniq2
      hok v hv hvi hvn
    cases hdef : v.IsDefault with
    | true => rfl
    | false =>
      have hv0 := hsub v h.1
      have hm : v.NetworkID ∈ m.keys := by
        rcases hcov v hv0 hvi hvn hdef with hp | ho
        · exact hpm _ hp
        · by_cases hp : v.NetworkID ∈ prior.keys
          · exact hpm _ hp
          · exact hum _ ((hmemU v.NetworkID).mpr ⟨ho, hvn, hp⟩)
      have hdet : v.NetworkID ∈ networksToDetach orders.detach desired m :=
        (mem_networksToDetach orders.detach horders.2.1 desired m hdesired _).mpr ⟨hm, hvn⟩
      have := h.2 hdet
      rw [hdef] at this
      exact absurd this (by simp)
  rw [reconcileNetworks] at hrun
  by_cases hlen : desired.len = 0
  · rw [if_pos hlen] at hrun
    simp at hrun
  · rw [if_neg hlen] at hrun
    by_cases hne : unmanagedNetworks orders.unmanaged observed prior desired = []
    · have h0 : detachUnmanaged c orders z i desired prior observed st
          = (false, prior, st) := by
        simp [detachUnmanaged, hne]
      rw [h0] at hrun
      simp only [Prod.mk.injEq] at hrun
      have hok : ¬ Diagnostics.HasError
          (UpdateInstanceNetworks c orders z i desired prior st).diags = true := by
        simpa using hrun.1
      rw [← hrun.2]
      exact key prior st (fun _ h => h) (fun n hn => by rw [hne] at hn; simp at hn)
        (fun _ h => h) hok
    · rw [detachUnmanaged_eq c orders z i _ _ _ st hne] at hrun
      have hcl := DetachNetworksFromInstance_cleared c att hc z i
        (unmanagedNetworks orders.unmanaged observed prior desired) ""
        (warnUnmanaged i (unmanagedNetworks orders.unmanaged observed prior desired) st) huniq
      have hfold := foldUnmanaged_spec (unmanagedNetworks orders.unmanaged observed prior
        desired) prior hprior
      generalize DetachNetworksFromInstance c z i
        (unmanagedNetworks orders.unmanaged observed prior desired) ""
        (warnUnmanaged i (unmanagedNetworks orders.unmanaged observed prior desired) st) = s2
        at hrun hcl
      by_cases herr : Diagnostics.HasError s2.diags = true
      · rw [if_pos herr] at hrun
        simp at hrun
      · rw [if_neg herr] at hrun
        simp only [Prod.mk.injEq] at hrun
        have hok : ¬ Diagnostics.HasError (UpdateInstanceNetworks c orders z i desired
            (foldUnmanaged prior (unmanagedNetworks orders.unmanaged observed prior desired))
            s2).diags = true := by
          simpa using hrun.1
        rw [← hrun.2]
        exact key _ s2 (fun n h => (hfold.2 n).mpr (Or.inl h))
          (fun n h => (hfold.2 n).mpr (Or.inr h)) (hcl herr).1 hok

theorem simClient_faithful : FaithfulRemote simClient (fun r => r.attachments) where
  list_keeps := fun _ _ _ _ => rfl
  list_reads := by
    intro z n i r data h v hv _ _
    have hd : data = r.attachments.filter (fun ni => decide (ni.NetworkID = n)) := by
      simp only [simClient, ApiResult.ok.injEq] at h
      exact h.symm
    rw [hd] at hv
    exact List.mem_of_mem_filter hv
  disconnect_removes := by
    intro z n i a r _ v hv
    simp only [simClient, List.mem_filter, decide_eq_true_eq] at hv
    exact hv
  connect_adds := by
    intro z n i r _ v hv
    simp only [simClient, List.mem_append, List.mem_singleton] at hv
    rcases hv with h | h
    · exact Or.inl h
    · exact Or.inr (by rw [h])

theorem ObservesAll.covered {desired prior observed : GoMap} {i : String}
    {records : List InstanceNetwork} (h : ObservesAll observed i records) :
    Covered desired prior observed i records :=
  fun v hv hi _ _ => Or.inr (h v hv hi)

theorem observedAfter_observesAll (i : String) (records : List InstanceNetwork) :
    ObservesAll (observedAfter i records) i records := by
  intro v hv hi
  simp only [observedAfter, GoMap.keys, GoMap.ofKeys, List.map_map, List.mem_dedup,
    List.mem_map, List.mem_filter, decide_eq_true_eq, Function.comp]
  exact ⟨v, ⟨hv, hi⟩, rfl⟩

/-- C11 (counterexample to the claim as stated): two runs of the network reconciliation on
the sample remote with the desired network `A`. The instance holds the attachment `att-A` on
`A` (default) and two attachments, `att-E1` and `att-E2`, on `E`; the first run has `{A, E}` as
prior-managed set and the networks the remote reports, `{A, E}`, as observed set. It
disconnects `att-E1`, the first record listed for `E`, sees it gone and succeeds without any
diagnostic, leaving `att-A` and `att-E2`. The second run, with `{A}` as desired and
prior-managed set and the attachments left by the first run as observed set, issues
`DisconnectInstanceFromNetwork` for `att-E2`. The sample remote is faithful, the first run
observes every network the instance is attached to, and the prior-managed map has all values
`true`: of the premises of the amended statement only the bound of one attachment record per
network fails. -/
theorem reconcileNetworks_second_run_disconnects :
    FaithfulRemote simClient (fun r => r.attachments)
    ∧ ObservesAll
        (observedAfter "vm" [simRecord "att-A" "A" true, simRecord "att-E1" "E" false,
          simRecord "att-E2" "E" false]) "vm"
        (simStart [simRecord "att-A" "A" true, simRecord "att-E1" "E" false,
          simRecord "att-E2" "E" false] "UP").remote.attachments
    ∧ (GoMap.ofKeys ["A", "E"]).AllTrue
    ∧ ¬ OnePerNetwork "vm"
        (simStart [simRecord "att-A" "A" true, simRecord "att-E1" "E" false,
          simRecord "att-E2" "E" false] "UP").remote.attachments
    ∧ (observedAfter "vm" [simRecord "att-A" "A" true, simRecord "att-E1" "E" false,
        simRecord "att-E2" "E" false]).keys = ["A", "E"]
    ∧ (reconcileNetworks simClient RangeOrders.identity "zone" "vm" (GoMap.ofKeys ["A"])
        (GoMap.ofKeys ["A", "E"])
        (observedAfter "vm" [simRecord "att-A" "A" true, simRecord "att-E1" "E" false,
          simRecord "att-E2" "E" false])
        (simStart [simRecord "att-A" "A" true, simRecord "att-E1" "E" false,
          simRecord "att-E2" "E" false] "UP")).1 = false
    ∧ (reconcileNetworks simClient RangeOrders.identity "zone" "vm" (GoMap.ofKeys ["A"])
        (GoMap.ofKeys ["A", "E"])
        (observedAfter "vm" [simRecord "att-A" "A" true, simRecord "att-E1" "E" false,
          simRecord "att-E2" "E" false])
        (simStart [simRecord "att-A" "A" true, simRecord "att-E1" "E" false,
          simRecord "att-E2" "E" false] "UP")).2.diags = []
    ∧ (reconcileNetworks simClient RangeOrders.identity "zone" "vm" (GoMap.ofKeys ["A"])
        (GoMap.ofKeys ["A", "E"])
        (observedAfter "vm" [simRecord "att-A" "A" true, simRecord "att-E1" "E" false,
          simRecord "att-E2" "E" false])
        (simStart [simRecord "att-A" "A" true, simRecord "att-E1" "E" false,
          simRecord "att-E2" "E" false] "UP")).2.trace
      = [Event.ListNetworkInstances "zone" "A" "vm" (ApiResult.ok [simRecord "att-A" "A" true]),
         Event.ListNetworkInstances "zone" "A" "vm" (ApiResult.ok [simRecord "att-A" "A" true]),
         Event.ListNetworkInstances "zone" "E" "vm"
           (ApiResult.ok [simRecord "att-E1" "E" false, simRecord "att-E2" "E" false]),
         Event.DisconnectInstanceFromNetwork "zone" "E" "vm" "att-E1" none,
         Event.ListNetworkInstances "zone" "E" "vm"
           (ApiResult.ok [simRecord "att-E2" "E" false])]
    ∧ (reconcileNetworks simClient RangeOrders.identity "zone" "vm" (GoMap.ofKeys ["A"])
        (GoMap.ofKeys ["A", "E"])
        (observedAfter "vm" [simRecord "att-A" "A" true, simRecord "att-E1" "E" false,
          simRecord "att-E2" "E" false])
        (simStart [simRecord "att-A" "A" true, simRecord "att-E1" "E" false,
          simRecord "att-E2" "E" false] "UP")).2.remote.attachments
      = [simRecord "att-A" "A" true, simRecord "att-E2" "E" false]
    ∧ (reconcileNetworks simClient RangeOrders.identity "zone" "vm" (GoMap.ofKeys ["A"])
        (GoMap.ofKeys ["A"])
        (observedAfter "vm" (reconcileNetworks simClient RangeOrders.identity "zone" "vm"
          (GoMap.ofKeys ["A"]) (GoMap.ofKeys ["A", "E"])
          (observedAfter "vm" [simRecord "att-A" "A" true, simRecord "att-E1" "E" false,
            simRecord "att-E2" "E" false])
          (simStart [simRecord "att-A" "A" true, simRecord "att-E1" "E" false,
            simRecord "att-E2" "E" false] "UP")).2.remote.attachments)
        { (reconcileNetworks simClient RangeOrders.identity "zone" "vm" (GoMap.ofKeys ["A"])
            (GoMap.ofKeys ["A", "E"])
            (observedAfter "vm" [simRecord "att-A" "A" true, simRecord "att-E1" "E" false,
              simRecord "att-E2" "E" false])
            (simStart [simRecord "att-A" "A" true, simRecord "att-E1" "E" false,
              simRecord "att-E2" "E" false] "UP")).2 with
          trace := [], diags := [] }).2.trace.filter Event.isAttachmentChange
      = [Event.DisconnectInstanceFromNetwork "zone" "E" "vm" "att-E2" none] := by
  refine ⟨simClient_faithful, observedAfter_observesAll _ _, GoMap.ofKeys_allTrue _, ?_, by decide⟩
  intro h
  have h12 := h (simRecord "att-E1" "E" false) (simRecord "att-E2" "E" false)
    (by simp [simStart]) (by simp [simStart]) rfl rfl rfl
  exact absurd h12 (by decide)

/-- C11 (as amended): for a desired map with all values `true` and any legal visiting order,
(1) on any remote and for any observed map, a run of the network reconciliation whose
prior-managed map is the desired map issues no `ConnectInstanceToNetwork` call, and every
`DisconnectInstanceFromNetwork` call it issues is for a network outside the desired set and
directly follows a read of that network whose attachment record is not default;
(2) on a remote that implements list, connect and disconnect faithfully and holds at most one
attachment record of the instance per network, if the observed map of a first run holds every
network the instance is attached to and that run succeeds, then it leaves only default
attachments outside the desired set, and the second run, with the desired map as
prior-managed map and the attachments left by the first run as observed map, issues no connect
and no disconnect; the same holds for a second run started from any state with the same
attachments, whatever its observed map. -/
theorem reconcileNetworks_idempotent {σ : Type} (c : Client σ) (orders : RangeOrders)
    (zoneID instanceID : String) (desired : GoMap) (horders : orders.Valid)
    (hdesired : desired.AllTrue) :
    (∀ (observed : GoMap) (st : St σ),
      ∃ t, (reconcileNetworks c orders zoneID instanceID desired desired observed st).2.trace
            = st.trace ++ t
        ∧ (∀ e, e ∈ t → e.isConnect = false)
        ∧ ∀ pre post z n i a err,
            t = pre ++ Event.DisconnectInstanceFromNetwork z n i a err :: post →
            n ∉ desired.keys
            ∧ ∃ pre0 data r,
                pre = pre0 ++ [Event.ListNetworkInstances z n i (ApiResult.ok data)]
                ∧ firstAttachment data i n = some r ∧ r.ID = a ∧ r.IsDefault = false)
    ∧ (∀ (att : σ → List InstanceNetwork), FaithfulRemote c att →
        ∀ (prior observed : GoMap) (st st1 : St σ), prior.AllTrue →
          OnePerNetwork instanceID (att st.remote) →
          ObservesAll observed instanceID (att st.remote) →
          reconcileNetworks c orders zoneID instanceID desired prior observed st
            = (false, st1) →
          Converged desired instanceID (att st1.remote)
          ∧ (∀ t, (reconcileNetworks c orders zoneID instanceID desired desired
                    (observedAfter instanceID (att st1.remote)) st1).2.trace = st1.trace ++ t →
                ∀ e, e ∈ t → e.isAttachmentChange = false)
          ∧ ∀ (observed2 : GoMap) (st2 : St σ), att st2.remote = att st1.remote →
              ∀ t, (reconcileNetworks c orders zoneID instanceID desired desired observed2
                      st2).2.trace = st2.trace ++ t →
                ∀ e, e ∈ t → e.isAttachmentChange = false) := by
  constructor
  · intro observed st
    obtain ⟨t, ht, hconn, hdis, _⟩ :=
      reconcileNetworks_second_run_calls c orders zoneID instanceID desired observed st horders
        hdesired
    exact ⟨t, ht, hconn, hdis⟩
  · intro att hc prior observed st st1 hprior huniq hobs hrun
    have hconv := reconcileNetworks_converges c att hc orders zoneID instanceID desired prior
      observed st st1 horders hdesired hprior huniq hobs.covered hrun
    have hgen : ∀ (observed2 : GoMap) (st2 : St σ), att st2.remote = att st1.remote →
        ∀ t, (reconcileNetworks c orders zoneID instanceID desired desired observed2
                st2).2.trace = st2.trace ++ t →
          ∀ e, e ∈ t → e.isAttachmentChange = false := by
      intro observed2 st2 hst2 t ht e he
      obtain ⟨t1, ht1, hq⟩ := reconcileNetworks_inert c att hc orders zoneID instanceID desired
        observed2 st2 horders hdesired (by rw [hst2]; exact hconv)
      have : t1 = t := List.append_cancel_left (ht1.symm.trans ht)
      exact hq e (this ▸ he)
    exact ⟨hconv, hgen _ st1 rfl, hgen⟩

/-- Witness for C11: the first run moves the instance from `{A, B}` to `{A, C}` on the sample
remote, with the reported networks `{A, B}` as observed set. -/
theorem reconcileNetworks_idempotent_witness :
    RangeOrders.identity.Valid ∧ (GoMap.ofKeys ["A", "C"]).AllTrue
    ∧ Converged (GoMap.ofKeys ["A", "C"]) "vm"
        (reconcileNetworks simClient RangeOrders.identity "zone" "vm" (GoMap.ofKeys ["A", "C"])
          (GoMap.ofKeys ["A", "B"]) (GoMap.ofKeys ["A", "B"])
          (simStart [simAttachment "A" true, simAttachment "B" false] "UP")).2.remote.attachments
    ∧ (∀ t, (reconcileNetworks simClient RangeOrders.identity "zone" "vm"
              (GoMap.ofKeys ["A", "C"]) (GoMap.ofKeys ["A", "C"])
              (observedAfter "vm"
                (reconcileNetworks simClient RangeOrders.identity "zone" "vm"
                  (GoMap.ofKeys ["A", "C"]) (GoMap.ofKeys ["A", "B"]) (GoMap.ofKeys ["A", "B"])
                  (simStart [simAttachment "A" true, simAttachment "B" false]
                    "UP")).2.remote.attachments)
              (reconcileNetworks simClient RangeOrders.identity "zone" "vm"
                (GoMap.ofKeys ["A", "C"]) (GoMap.ofKeys ["A", "B"]) (GoMap.ofKeys ["A", "B"])
                (simStart [simAttachment "A" true, simAttachment "B" false] "UP")).2).2.trace
            = (reconcileNetworks simClient RangeOrders.identity "zone" "vm"
                (GoMap.ofKeys ["A", "C"]) (GoMap.ofKeys ["A", "B"]) (GoMap.ofKeys ["A", "B"])
                (simStart [simAttachment "A" true, simAttachment "B" false] "UP")).2.trace ++ t →
          ∀ e, e ∈ t → e.isAttachmentChange = false)
    ∧ ∀ (observed2 : GoMap) (st2 : St SimRemote),
        st2.remote.attachments
          = (reconcileNetworks simClient RangeOrders.identity "zone" "vm"
              (GoMap.ofKeys ["A", "C"]) (GoMap.ofKeys ["A", "B"]) (GoMap.ofKeys ["A", "B"])
              (simStart [simAttachment "A" true, simAttachment "B" false]
                "UP")).2.remote.attachments →
        ∀ t, (reconcileNetworks simClient RangeOrders.identity "zone" "vm"
                (GoMap.ofKeys ["A", "C"]) (GoMap.ofKeys ["A", "C"]) observed2 st2).2.trace
              = st2.trace ++ t →
          ∀ e, e ∈ t → e.isAttachmentChange = false :=
  ⟨RangeOrders.identity_valid, GoMap.ofKeys_allTrue _,
    (reconcileNetworks_idempotent simClient RangeOrders.identity "zone" "vm"
      (GoMap.ofKeys ["A", "C"]) RangeOrders.identity_valid (GoMap.ofKeys_allTrue _)).2
      (fun r => r.attachments) simClient_faithful (GoMap.ofKeys ["A", "B"])
      (GoMap.ofKeys ["A", "B"])
      (simStart [simAttachment "A" true, simAttachment "B" false] "UP") _
      (GoMap.ofKeys_allTrue _)
      (by
        intro v w hv hw _ _ hn
        simp only [simStart, List.mem_cons, List.mem_singleton, List.not_mem_nil,
          or_false] at hv hw
        rcases hv with hv | hv <;> rcases hw with hw | hw <;> subst hv <;> subst hw <;>
          first | rfl | exact absurd hn (by decide))
      (by
        intro v hv _
        simp only [simStart, List.mem_cons, List.mem_singleton, List.not_mem_nil,
          or_false] at hv
        rcases hv with hv | hv <;> subst hv <;> decide)
      (Prod.ext (by decide) rfl)⟩

/-! ### Where `PollUntilCondition` sleeps -/

theorem roundsLog_head (interval k : Nat) (rest : List PollEvent) :
    (roundsLog interval k ++ PollEvent.eval :: rest).head? = some PollEvent.eval := by
  cases k with
  | zero => simp [roundsLog]
  | succ k => simp [roundsLog_succ]

theorem roundsLog_getLast (interval k : Nat) :
    (roundsLog interval (k + 1)).getLast? = some (PollEvent.sleep interval) := by
  induction k with
  | zero => simp [roundsLog]
  | succ k ih =>
    rw [roundsLog_succ]
    rw [roundsLog_succ] at ih ⊢
    simp [List.getLast?_cons_cons] at ih ⊢
    exact ih

theorem roundsLog_head_of_pos (interval k : Nat) :
    (roundsLog interval (k + 1)).head? = some PollEvent.eval := by
  simp [roundsLog_succ]

theorem pollLoop_first_stop {τ : Type} (checkFunc : CheckFunc τ) (s : τ) (n : Nat) :
    (∃ k, k < n ∧ (∀ i, i < k → evalOutcome checkFunc s i = (false, none))
        ∧ evalOutcome checkFunc s k ≠ (false, none))
    ∨ (∀ i, i < n → evalOutcome checkFunc s i = (false, none)) := by
  by_cases h : ∃ k, k < n ∧ evalOutcome checkFunc s k ≠ (false, none)
  · left
    classical
    refine ⟨Nat.find h, (Nat.find_spec h).1, ?_, (Nat.find_spec h).2⟩
    intro i hi
    have hmin := Nat.find_min h hi
    by_contra hne
    exact hmin ⟨lt_trans hi (Nat.find_spec h).1, hne⟩
  · right
    intro i hi
    by_contra hne
    exact h ⟨i, hi, hne⟩

/-- C24 (counterexample to the claim as stated): a run whose predicate never reports `done`
and never fails, with a budget of three. The run sleeps after each of its three evaluations,
also after the third and last one: the control log ends with a sleep and holds as many sleeps
as evaluations. -/
theorem PollUntilCondition_sleeps_after_last_evaluation :
    (PollUntilCondition sampleCheckNever 3 2 "gave up" 0).err = some "gave up"
    ∧ (PollUntilCondition sampleCheckNever 3 2 "gave up" 0).log
        = [PollEvent.eval, PollEvent.sleep 2, PollEvent.eval, PollEvent.sleep 2,
            PollEvent.eval, PollEvent.sleep 2]
    ∧ (PollUntilCondition sampleCheckNever 3 2 "gave up" 0).log.getLast?
        = some (PollEvent.sleep 2)
    ∧ sleepCount (PollUntilCondition sampleCheckNever 3 2 "gave up" 0).log
        = evalCount (PollUntilCondition sampleCheckNever 3 2 "gave up" 0).log := by
  decide

/-- C24 (amended): in every run of `PollUntilCondition` a sleep directly follows an evaluation
that reported neither `done` nor an error, and nothing else makes the run sleep. Either some
evaluation `k < maxRetries` is the first to report `done` or an error: then the run returns what
that evaluation returned and its control log is `k + 1` evaluations separated by sleeps, so it
starts and ends with an evaluation. Or none of the first `maxRetries` evaluations does: then the
run returns the error `errorMsg` and its control log is `maxRetries` rounds of an evaluation
followed by a sleep, so no sleep comes before the first evaluation and one sleep comes after
the last. -/
theorem PollUntilCondition_sleep_placement {τ : Type} (checkFunc : CheckFunc τ)
    (maxRetries : Int) (interval : Nat) (errorMsg : String) (s : τ) :
    (∃ k, k < maxRetries.toNat
        ∧ (∀ i, i < k → evalOutcome checkFunc s i = (false, none))
        ∧ evalOutcome checkFunc s k ≠ (false, none)
        ∧ (PollUntilCondition checkFunc maxRetries interval errorMsg s).err
            = (evalOutcome checkFunc s k).2
        ∧ (PollUntilCondition checkFunc maxRetries interval errorMsg s).log
            = List.intersperse (PollEvent.sleep interval) (List.replicate (k + 1) PollEvent.eval)
        ∧ (PollUntilCondition checkFunc maxRetries interval errorMsg s).log.head?
            = some PollEvent.eval
        ∧ (PollUntilCondition checkFunc maxRetries interval errorMsg s).log.getLast?
            = some PollEvent.eval
        ∧ sleepCount (PollUntilCondition checkFunc maxRetries interval errorMsg s).log = k)
    ∨ ((∀ i, i < maxRetries.toNat → evalOutcome checkFunc s i = (false, none))
        ∧ (PollUntilCondition checkFunc maxRetries interval errorMsg s).err = some errorMsg
        ∧ (PollUntilCondition checkFunc maxRetries interval errorMsg s).log
            = roundsLog interval maxRetries.toNat
        ∧ (0 < maxRetries →
            (PollUntilCondition checkFunc maxRetries interval errorMsg s).log.head?
              = some PollEvent.eval
            ∧ (PollUntilCondition checkFunc maxRetries interval errorMsg s).log.getLast?
              = some (PollEvent.sleep interval))
        ∧ sleepCount (PollUntilCondition checkFunc maxRetries interval errorMsg s).log
            = maxRetries.toNat
        ∧ evalCount (PollUntilCondition checkFunc maxRetries interval errorMsg s).log
            = maxRetries.toNat) := by
  rcases pollLoop_first_stop checkFunc s maxRetries.toNat with ⟨k, hk, hb, hstop⟩ | hall
  · left
    have hrun := pollLoop_stop checkFunc interval errorMsg k maxRetries.toNat s hk hb hstop
    have hlog : (PollUntilCondition checkFunc maxRetries interval errorMsg s).log
        = roundsLog interval k ++ [PollEvent.eval] := by
      rw [PollUntilCondition, hrun]
    refine ⟨k, hk, hb, hstop, ?_, ?_, ?_, ?_, ?_⟩
    · rw [PollUntilCondition, hrun]
    · rw [hlog, roundsLog_intersperse]
    · rw [hlog, roundsLog_head]
    · rw [hlog]; simp
    · rw [hlog, sleepCount_roundsLog]; simp [sleepCount, PollEvent.isSleep]
  · right
    have hrun := pollLoop_rounds checkFunc interval errorMsg maxRetries.toNat 0 s [] hall
    simp only [Nat.add_zero, List.nil_append, pollLoop] at hrun
    have hlog : (PollUntilCondition checkFunc maxRetries interval errorMsg s).log
        = roundsLog interval maxRetries.toNat := by
      rw [PollUntilCondition, hrun]
    refine ⟨hall, ?_, hlog, ?_, ?_, ?_⟩
    · rw [PollUntilCondition, hrun]
    · intro hpos
      obtain ⟨m, hm⟩ : ∃ m, maxRetries.toNat = m + 1 := ⟨maxRetries.toNat - 1, by omega⟩
      rw [hlog, hm]
      exact ⟨roundsLog_head_of_pos interval m, roundsLog_getLast interval m⟩
    · rw [hlog]
      have := sleepCount_roundsLog interval maxRetries.toNat []
      simpa [sleepCount] using this
    · rw [hlog]
      have := evalCount_roundsLog interval maxRetries.toNat []
      simpa [evalCount] using this

/-! ### The 'Default Network Change' warning -/

/-- C25 (the code at the failing input): the desired and the prior-managed set are both
`{A, B}`, the instance is attached to `A` (default) and `B`, and no call fails. Nothing is
removed: the run issues no connect and no disconnect. When the `range` over the desired set
visits `B` before `A`, `UpdateInstanceNetworks` records the warning 'Default Network Change',
whose text announces the disconnection of the default network `A`; when it visits `A` first,
the same input records no diagnostic at all. -/
theorem UpdateInstanceNetworks_warns_with_default_desired :
    getKeys RangeOrders.reversed.planKeys (GoMap.ofKeys ["A", "B"]) = ["B", "A"]
    ∧ (UpdateInstanceNetworks simClient RangeOrders.reversed "zone" "vm"
        (GoMap.ofKeys ["A", "B"]) (GoMap.ofKeys ["A", "B"])
        (simStart [simAttachment "A" true, simAttachment "B" false] "UP")).diags
      = [{ severity := Severity.warning
           summary := "Default Network Change"
           detail := "Disconnecting default network \x27A\x27. The first remaining network "
             ++ "\x27B\x27 will need to become the default network." }]
    ∧ (UpdateInstanceNetworks simClient RangeOrders.reversed "zone" "vm"
        (GoMap.ofKeys ["A", "B"]) (GoMap.ofKeys ["A", "B"])
        (simStart [simAttachment "A" true, simAttachment "B" false] "UP")).trace.filter
          Event.isAttachmentChange = []
    ∧ (UpdateInstanceNetworks simClient RangeOrders.reversed "zone" "vm"
        (GoMap.ofKeys ["A", "B"]) (GoMap.ofKeys ["A", "B"])
        (simStart [simAttachment "A" true, simAttachment "B" false] "UP")).remote.attachments
      = [simAttachment "A" true, simAttachment "B" false]
    ∧ getKeys RangeOrders.identity.planKeys (GoMap.ofKeys ["A", "B"]) = ["A", "B"]
    ∧ (UpdateInstanceNetworks simClient RangeOrders.identity "zone" "vm"
        (GoMap.ofKeys ["A", "B"]) (GoMap.ofKeys ["A", "B"])
        (simStart [simAttachment "A" true, simAttachment "B" false] "UP")).diags = [] := by
  decide

/-! ### A verification that runs out of attempts -/

theorem listingAt_zero {σ : Type} (c : Client σ) (z n i : String) (r : σ) :
    listingAt c z n i r 0 = (c.ListNetworkInstances z n i r).1 := rfl

theorem listingAt_succ {σ : Type} (c : Client σ) (z n i : String) (r : σ) (k : Nat) :
    listingAt c z n i r (k + 1) = listingAt c z n i (c.ListNetworkInstances z n i r).2 k := by
  simp [listingAt, remoteAfterListings, Function.iterate_succ_apply]

theorem verificationReads_one {σ : Type} (c : Client σ) (z n i : String) (r : σ) :
    verificationReads c z n i r 1
      = [Event.ListNetworkInstances z n i (c.ListNetworkInstances z n i r).1] := by
  rfl

theorem verificationReads_succ {σ : Type} (c : Client σ) (z n i : String) (r : σ) (k : Nat) :
    verificationReads c z n i r (k + 2)
      = Event.ListNetworkInstances z n i (c.ListNetworkInstances z n i r).1
          :: Event.Sleep 1 :: verificationReads c z n i (c.ListNetworkInstances z n i r).2 (k + 1) := by
  simp only [verificationReads]
  rw [List.range_succ_eq_map (k + 1), List.range_succ_eq_map k]
  simp only [List.map_cons, List.map_map, List.intersperse]
  simp only [listingAt_zero, listingAt_succ]
  congr 3

theorem waitDisconnected_timeout {σ : Type} (c : Client σ) (z n i a : String) :
    ∀ (m : Nat) (st : St σ),
      (∀ k, k < m + 1 → stillAttached i a (listingAt c z n i st.remote k) = true) →
      (waitDisconnected c z n i a (m + 1) st).1 = true
      ∧ (waitDisconnected c z n i a (m + 1) st).2.trace
          = st.trace ++ verificationReads c z n i st.remote (m + 1) := by
  intro m
  induction m with
  | zero =>
    intro st h
    have h0 := h 0 (by omega)
    rw [listingAt_zero] at h0
    rw [verificationReads_one]
    simp only [waitDisconnected, callListNetworkInstances]
    generalize c.ListNetworkInstances z n i st.remote = r at h0 ⊢
    rcases r with ⟨resp, r1⟩
    cases resp with
    | error err => simp
    | ok data =>
      simp only [stillAttached] at h0
      simp [h0]
  | succ m ih =>
    intro st h
    have h0 := h 0 (by omega)
    rw [listingAt_zero] at h0
    have hrest : ∀ k, k < m + 1 →
        stillAttached i a (listingAt c z n i (c.ListNetworkInstances z n i st.remote).2 k)
          = true := by
      intro k hk
      rw [← listingAt_succ]
      exact h (k + 1) (by omega)
    rw [verificationReads_succ, waitDisconnected]
    simp only [callListNetworkInstances]
    have hih := ih (St.sleep
      { st with remote := (c.ListNetworkInstances z n i st.remote).2
                trace := st.trace ++ [Event.ListNetworkInstances z n i
                  (c.ListNetworkInstances z n i st.remote).1] } 1) hrest
    generalize c.ListNetworkInstances z n i st.remote = r at h0 hih ⊢
    rcases r with ⟨resp, r1⟩
    cases resp with
    | error err =>
      simp only [Nat.succ_ne_zero, if_false, Nat.add_one_ne_zero]
      refine ⟨hih.1, ?_⟩
      rw [hih.2]
      simp [St.sleep]
    | ok data =>
      simp only [stillAttached] at h0
      simp only [h0, if_true, Nat.add_one_ne_zero, if_false]
      refine ⟨hih.1, ?_⟩
      rw [hih.2]
      simp [St.sleep]

theorem waitConnected_timeout {σ : Type} (c : Client σ) (z n i : String) :
    ∀ (m : Nat) (st : St σ),
      (∀ k, k < m + 1 → notYetAttached i n (listingAt c z n i st.remote k) = true) →
      (waitConnected c z n i (m + 1) st).1 = true
      ∧ (waitConnected c z n i (m + 1) st).2.trace
          = st.trace ++ verificationReads c z n i st.remote (m + 1) := by
  intro m
  induction m with
  | zero =>
    intro st h
    have h0 := h 0 (by omega)
    rw [listingAt_zero] at h0
    rw [verificationReads_one]
    simp only [waitConnected, callListNetworkInstances]
    generalize c.ListNetworkInstances z n i st.remote = r at h0 ⊢
    rcases r with ⟨resp, r1⟩
    cases resp with
    | error err => simp
    | ok data =>
      simp only [notYetAttached] at h0
      cases hf : firstAttachment data i n with
      | none => simp [hf]
      | some ni =>
        simp only [hf, decide_eq_true_eq] at h0
        simp [hf, h0]
  | succ m ih =>
    intro st h
    have h0 := h 0 (by omega)
    rw [listingAt_zero] at h0
    have hrest : ∀ k, k < m + 1 →
        notYetAttached i n (listingAt c z n i (c.ListNetworkInstances z n i st.remote).2 k)
          = true := by
      intro k hk
      rw [← listingAt_succ]
      exact h (k + 1) (by omega)
    rw [verificationReads_succ, waitConnected]
    simp only [callListNetworkInstances]
    have hih := ih (St.sleep
      { st with remote := (c.ListNetworkInstances z n i st.remote).2
                trace := st.trace ++ [Event.ListNetworkInstances z n i
                  (c.ListNetworkInstances z n i st.remote).1] } 1) hrest
    generalize c.ListNetworkInstances z n i st.remote = r at h0 hih ⊢
    rcases r with ⟨resp, r1⟩
    cases resp with
    | error err =>
      simp only [Nat.succ_ne_zero, if_false, Nat.add_one_ne_zero]
      refine ⟨hih.1, ?_⟩
      rw [hih.2]
      simp [St.sleep]
    | ok data =>
      simp only [notYetAttached] at h0
      cases hf : firstAttachment data i n with
      | none =>
        simp only [hf, ne_eq, not_true_eq_false, if_false, Nat.add_one_ne_zero]
        refine ⟨hih.1, ?_⟩
        rw [hih.2]
        simp [St.sleep]
      | some ni =>
        simp only [hf, decide_eq_true_eq] at h0
        simp only [hf, h0, ne_eq, not_true_eq_false, if_false, Nat.add_one_ne_zero]
        refine ⟨hih.1, ?_⟩
        rw [hih.2]
        simp [St.sleep]

theorem waitConnected_diags {σ : Type} (c : Client σ) (z n i : String) :
    ∀ (k : Nat) (st : St σ),
      Diagnostics.warnings (waitConnected c z n i k st).2.diags
        = Diagnostics.warnings st.diags
      ∧ ((waitConnected c z n i k st).1 = true →
          Diagnostics.HasError (waitConnected c z n i k st).2.diags = true) := by
  intro k
  induction k with
  | zero => intro st; exact ⟨rfl, fun h => absurd h (by simp [waitConnected])⟩
  | succ k ih =>
    intro st
    have hd := callListNetworkInstances_diags c z n i st
    rw [waitConnected]
    rcases hc : callListNetworkInstances c z n i st with ⟨resp, st1⟩
    rw [hc] at hd
    simp only at hd
    cases resp with
    | error err =>
      simp only
      split
      · exact ⟨by rw [St.addError_warnings, hd], fun _ => St.addError_hasError _ _ _⟩
      · have h := ih (st1.sleep 1)
        rw [St.sleep_diags, hd] at h
        exact h
    | ok data =>
      simp only
      split
      · exact ⟨by rw [hd], fun h => absurd h (by simp)⟩
      · split
        · exact ⟨by rw [St.addError_warnings, hd], fun _ => St.addError_hasError _ _ _⟩
        · have h := ih (st1.sleep 1)
          rw [St.sleep_diags, hd] at h
          exact h

theorem AttachNetworksToInstance_warnings {σ : Type} (c : Client σ) (z i : String) :
    ∀ (nets : List String) (st : St σ),
      Diagnostics.warnings (AttachNetworksToInstance c z i nets st).diags
        = Diagnostics.warnings st.diags := by
  intro nets
  induction nets with
  | nil => intro st; rfl
  | cons n rest ih =>
    intro st
    have hd := callConnect_diags c z n i st
    rw [AttachNetworksToInstance]
    generalize callConnectInstanceToNetwork c z n i st = r at hd ⊢
    rcases r with ⟨err, st1⟩
    simp only at hd
    cases err with
    | some e => simp only; rw [St.addError_warnings, hd]
    | none =>
      simp only
      have hw := (waitConnected_diags c z n i 30 st1).1
      generalize waitConnected c z n i 30 st1 = w at hw ⊢
      rcases w with ⟨ret, st2⟩
      simp only at hw
      cases ret with
      | true => simp only; rw [hw, hd]
      | false => simp only; rw [ih st2, hw, hd]

/-- C21 (counterexample to the claim as stated): two runs of `UpdateInstanceNetworks` in which
no call fails. In the first the remote accepts the disconnect of `B` but keeps showing the
attachment: after the thirtieth verification read the run records the error 'Network
Disconnection Timeout', no warning, and ends there, so the planned connect of `D` is never
issued. In the second the remote accepts the connect of `D` but never shows the attachment:
the run records the error 'Network Connection Timeout', no warning, and the planned connect
of `E` is never issued. -/
theorem UpdateInstanceNetworks_verification_timeout :
    (UpdateInstanceNetworks idleClient RangeOrders.identity "zone" "vm"
        (GoMap.ofKeys ["A", "D"]) (GoMap.ofKeys ["A", "B"])
        (simStart [simAttachment "A" true, simAttachment "B" false] "UP")).diags
      = [{ severity := Severity.error
           summary := "Network Disconnection Timeout"
           detail := "Instance \x27vm\x27 disconnection from network \x27B\x27 was not verified "
             ++ "within 30 seconds. The disconnection may still be in progress." }]
    ∧ (UpdateInstanceNetworks idleClient RangeOrders.identity "zone" "vm"
        (GoMap.ofKeys ["A", "D"]) (GoMap.ofKeys ["A", "B"])
        (simStart [simAttachment "A" true, simAttachment "B" false] "UP")).trace.filter
          Event.isAttachmentChange
      = [Event.DisconnectInstanceFromNetwork "zone" "B" "vm" "att-B" none]
    ∧ networksToAttach RangeOrders.identity.attach (GoMap.ofKeys ["A", "D"])
        (GoMap.ofKeys ["A", "B"]) = ["D"]
    ∧ (UpdateInstanceNetworks idleClient RangeOrders.identity "zone" "vm"
        (GoMap.ofKeys ["A", "D", "E"]) (GoMap.ofKeys ["A"])
        (simStart [simAttachment "A" true] "UP")).diags
      = [{ severity := Severity.error
           summary := "Network Connection Timeout"
           detail := "Instance \x27vm\x27 connection to network \x27D\x27 was not established "
             ++ "within 30 seconds. The connection may still be provisioning." }]
    ∧ (UpdateInstanceNetworks idleClient RangeOrders.identity "zone" "vm"
        (GoMap.ofKeys ["A", "D", "E"]) (GoMap.ofKeys ["A"])
        (simStart [simAttachment "A" true] "UP")).trace.filter Event.isAttachmentChange
      = [Event.ConnectInstanceToNetwork "zone" "D" "vm" none]
    ∧ networksToAttach RangeOrders.identity.attach (GoMap.ofKeys ["A", "D", "E"])
        (GoMap.ofKeys ["A"]) = ["D", "E"] := by
  decide

theorem DetachNetworksFromInstance_timeout {σ : Type} (c : Client σ) (z i : String)
    (n : String) (rest : List String) (d : String) (st : St σ)
    (data : List InstanceNetwork) (ni : InstanceNetwork)
    (hlist : (c.ListNetworkInstances z n i st.remote).1 = ApiResult.ok data)
    (hfirst : firstAttachment data i n = some ni) (hid : ni.ID ≠ "")
    (hndef : ni.IsDefault = false)
    (hdisc : (c.DisconnectInstanceFromNetwork z n i ni.ID
      (c.ListNetworkInstances z n i st.remote).2).1 = none)
    (hstill : ∀ k, k < 30 → stillAttached i ni.ID (listingAt c z n i
      (c.DisconnectInstanceFromNetwork z n i ni.ID
        (c.ListNetworkInstances z n i st.remote).2).2 k) = true) :
    Diagnostics.HasError (DetachNetworksFromInstance c z i (n :: rest) d st).diags = true
    ∧ (DetachNetworksFromInstance c z i (n :: rest) d st).trace
        = st.trace ++ Event.ListNetworkInstances z n i (ApiResult.ok data)
            :: Event.DisconnectInstanceFromNetwork z n i ni.ID none
            :: verificationReads c z n i
                (c.DisconnectInstanceFromNetwork z n i ni.ID
                  (c.ListNetworkInstances z n i st.remote).2).2 30 := by
  rw [DetachNetworksFromInstance]
  simp only [callListNetworkInstances]
  generalize c.ListNetworkInstances z n i st.remote = L at hlist hdisc hstill ⊢
  rcases L with ⟨resp, r1⟩
  simp only at hlist hdisc hstill
  subst hlist
  simp only [hfirst, hid, hndef, if_false, Bool.false_eq_true]
  simp only [callDisconnectInstanceFromNetwork]
  generalize c.DisconnectInstanceFromNetwork z n i ni.ID r1 = D at hdisc hstill ⊢
  rcases D with ⟨err, r2⟩
  simp only at hdisc hstill
  subst hdisc
  simp only
  have hw := waitDisconnected_timeout c z n i ni.ID 29
    { remote := r2
      trace := st.trace ++ [Event.ListNetworkInstances z n i (ApiResult.ok data)]
        ++ [Event.DisconnectInstanceFromNetwork z n i ni.ID none]
      diags := st.diags } hstill
  have he := (waitDisconnected_diags c z n i ni.ID 30
    { remote := r2
      trace := st.trace ++ [Event.ListNetworkInstances z n i (ApiResult.ok data)]
        ++ [Event.DisconnectInstanceFromNetwork z n i ni.ID none]
      diags := st.diags }).2
  generalize waitDisconnected c z n i ni.ID 30
    { remote := r2
      trace := st.trace ++ [Event.ListNetworkInstances z n i (ApiResult.ok data)]
        ++ [Event.DisconnectInstanceFromNetwork z n i ni.ID none]
      diags := st.diags } = w at hw he ⊢
  rcases w with ⟨ret, st3⟩
  simp only at hw he
  obtain ⟨hret, htr⟩ := hw
  subst hret
  simp only
  exact ⟨he rfl, by rw [htr]; simp⟩

theorem AttachNetworksToInstance_timeout {σ : Type} (c : Client σ) (z i : String)
    (n : String) (rest : List String) (st : St σ)
    (hconn : (c.ConnectInstanceToNetwork z n i st.remote).1 = none)
    (hnot : ∀ k, k < 30 → notYetAttached i n (listingAt c z n i
      (c.ConnectInstanceToNetwork z n i st.remote).2 k) = true) :
    Diagnostics.HasError (AttachNetworksToInstance c z i (n :: rest) st).diags = true
    ∧ (AttachNetworksToInstance c z i (n :: rest) st).trace
        = st.trace ++ Event.ConnectInstanceToNetwork z n i none
            :: verificationReads c z n i (c.ConnectInstanceToNetwork z n i st.remote).2 30 := by
  rw [AttachNetworksToInstance]
  simp only [callConnectInstanceToNetwork]
  generalize c.ConnectInstanceToNetwork z n i st.remote = D at hconn hnot ⊢
  rcases D with ⟨err, r1⟩
  simp only at hconn hnot
  subst hconn
  simp only
  have hw := waitConnected_timeout c z n i 29
    { remote := r1
      trace := st.trace ++ [Event.ConnectInstanceToNetwork z n i none]
      diags := st.diags } hnot
  have he := (waitConnected_diags c z n i 30
    { remote := r1
      trace := st.trace ++ [Event.ConnectInstanceToNetwork z n i none]
      diags := st.diags }).2
  generalize waitConnected c z n i 30
    { remote := r1
      trace := st.trace ++ [Event.ConnectInstanceToNetwork z n i none]
      diags := st.diags } = w at hw he ⊢
  rcases w with ⟨ret, st2⟩
  simp only at hw he
  obtain ⟨hret, htr⟩ := hw
  subst hret
  simp only
  exact ⟨he rfl, by rw [htr]; simp⟩

/-- C21 (amended): in `DetachNetworksFromInstance` and `AttachNetworksToInstance`, when the
disconnect or connect call itself succeeded but none of the 30 verification reads shows the
disappearance or the appearance of the attachment, an error diagnostic is recorded, no
warning is added, and the function returns right after the thirtieth read: its trace ends
with the 30 reads (separated by 29 sleeps of one second), so no call is issued for the
remaining networks `restd`, `resta`. -/
theorem verification_timeout_is_error {σ : Type} (c : Client σ) (z i : String)
    (nd : String) (restd : List String) (d : String) (std : St σ)
    (data : List InstanceNetwork) (ni : InstanceNetwork)
    (hlist : (c.ListNetworkInstances z nd i std.remote).1 = ApiResult.ok data)
    (hfirst : firstAttachment data i nd = some ni) (hid : ni.ID ≠ "")
    (hndef : ni.IsDefault = false)
    (hdisc : (c.DisconnectInstanceFromNetwork z nd i ni.ID
      (c.ListNetworkInstances z nd i std.remote).2).1 = none)
    (hstill : ∀ k, k < 30 → stillAttached i ni.ID (listingAt c z nd i
      (c.DisconnectInstanceFromNetwork z nd i ni.ID
        (c.ListNetworkInstances z nd i std.remote).2).2 k) = true)
    (na : String) (resta : List String) (sta : St σ)
    (hconn : (c.ConnectInstanceToNetwork z na i sta.remote).1 = none)
    (hnot : ∀ k, k < 30 → notYetAttached i na (listingAt c z na i
      (c.ConnectInstanceToNetwork z na i sta.remote).2 k) = true) :
    (Diagnostics.HasError (DetachNetworksFromInstance c z i (nd :: restd) d std).diags = true
      ∧ Diagnostics.warnings (DetachNetworksFromInstance c z i (nd :: restd) d std).diags
          = Diagnostics.warnings std.diags
      ∧ (DetachNetworksFromInstance c z i (nd :: restd) d std).trace
          = std.trace ++ Event.ListNetworkInstances z nd i (ApiResult.ok data)
              :: Event.DisconnectInstanceFromNetwork z nd i ni.ID none
              :: verificationReads c z nd i
                  (c.DisconnectInstanceFromNetwork z nd i ni.ID
                    (c.ListNetworkInstances z nd i std.remote).2).2 30)
    ∧ (Diagnostics.HasError (AttachNetworksToInstance c z i (na :: resta) sta).diags = true
      ∧ Diagnostics.warnings (AttachNetworksToInstance c z i (na :: resta) sta).diags
          = Diagnostics.warnings sta.diags
      ∧ (AttachNetworksToInstance c z i (na :: resta) sta).trace
          = sta.trace ++ Event.ConnectInstanceToNetwork z na i none
              :: verificationReads c z na i
                  (c.ConnectInstanceToNetwork z na i sta.remote).2 30) := by
  have hdet := DetachNetworksFromInstance_timeout c z i nd restd d std data ni hlist hfirst hid
    hndef hdisc hstill
  have hat := AttachNetworksToInstance_timeout c z i na resta sta hconn hnot
  exact ⟨⟨hdet.1, DetachNetworksFromInstance_warnings c z i _ d std, hdet.2⟩,
    ⟨hat.1, AttachNetworksToInstance_warnings c z i _ sta, hat.2⟩⟩

/-- Witness for C21: on the remote that accepts the calls without changing its records, the
disconnect of `B` (with `C` still to detach) and the connect of `D` (with `E` still to attach)
both run out of verification attempts. -/
theorem verification_timeout_is_error_witness :
    (Diagnostics.HasError (DetachNetworksFromInstance idleClient "zone" "vm" ("B" :: ["C"]) ""
        (simStart [simAttachment "A" true, simAttachment "B" false] "UP")).diags = true
      ∧ Diagnostics.warnings (DetachNetworksFromInstance idleClient "zone" "vm" ("B" :: ["C"]) ""
          (simStart [simAttachment "A" true, simAttachment "B" false] "UP")).diags
          = Diagnostics.warnings
              (simStart [simAttachment "A" true, simAttachment "B" false] "UP").diags
      ∧ (DetachNetworksFromInstance idleClient "zone" "vm" ("B" :: ["C"]) ""
          (simStart [simAttachment "A" true, simAttachment "B" false] "UP")).trace
          = (simStart [simAttachment "A" true, simAttachment "B" false] "UP").trace
              ++ Event.ListNetworkInstances "zone" "B" "vm"
                  (ApiResult.ok [simAttachment "B" false])
              :: Event.DisconnectInstanceFromNetwork "zone" "B" "vm"
                  (simAttachment "B" false).ID none
              :: verificationReads idleClient "zone" "B" "vm"
                  (idleClient.DisconnectInstanceFromNetwork "zone" "B" "vm"
                    (simAttachment "B" false).ID
                    (idleClient.ListNetworkInstances "zone" "B" "vm"
                      (simStart [simAttachment "A" true, simAttachment "B" false]
                        "UP").remote).2).2 30)
    ∧ (Diagnostics.HasError (AttachNetworksToInstance idleClient "zone" "vm" ("D" :: ["E"])
        (simStart [simAttachment "A" true] "UP")).diags = true
      ∧ Diagnostics.warnings (AttachNetworksToInstance idleClient "zone" "vm" ("D" :: ["E"])
          (simStart [simAttachment "A" true] "UP")).diags
          = Diagnostics.warnings (simStart [simAttachment "A" true] "UP").diags
      ∧ (AttachNetworksToInstance idleClient "zone" "vm" ("D" :: ["E"])
          (simStart [simAttachment "A" true] "UP")).trace
          = (simStart [simAttachment "A" true] "UP").trace
              ++ Event.ConnectInstanceToNetwork "zone" "D" "vm" none
              :: verificationReads idleClient "zone" "D" "vm"
                  (idleClient.ConnectInstanceToNetwork "zone" "D" "vm"
                    (simStart [simAttachment "A" true] "UP").remote).2 30) :=
  verification_timeout_is_error idleClient "zone" "vm" "B" ["C"] ""
    (simStart [simAttachment "A" true, simAttachment "B" false] "UP")
    [simAttachment "B" false] (simAttachment "B" false) (by decide) (by decide) (by decide)
    (by decide) (by decide) (by decide) "D" ["E"] (simStart [simAttachment "A" true] "UP")
    (by decide) (by decide)

/-! ### Identifiers returned by `CreateAndAttachVolumes` -/

theorem FindNewVolumeID_new {σ : Type} (c : Client σ) (z : String) (existingIDs : List String)
    (name : String) (maxRetries : Int) (interval : Nat) (st : St σ)
    (h : (FindNewVolumeID c z existingIDs name maxRetries interval st).1.2 = none) :
    (FindNewVolumeID c z existingIDs name maxRetries interval st).1.1 ∉ existingIDs := by
  have hd := findNew_discoveryOk (callListInstanceVolumes c z) (lastListInstanceVolumes z)
    (by
      intro s data s1 h
      simp only [callListInstanceVolumes, Prod.mk.injEq] at h
      rw [← h.2]
      simp [lastListInstanceVolumes, h.1])
    existingIDs name maxRetries interval
    ("New volume \x27" ++ name ++ "\x27 could not be found after creation") st
  exact (hd.1 h).1

theorem CreateAndAttachVolume_new {σ : Type} (c : Client σ) (z i : String) (volSpec : VolumeSpec)
    (existingIDs : List String) (st : St σ)
    (h : (CreateAndAttachVolume c z i volSpec existingIDs st).1.2 = none) :
    (CreateAndAttachVolume c z i volSpec existingIDs st).1.1 ∉ existingIDs := by
  rw [CreateAndAttachVolume] at h ⊢
  generalize callCreateInstanceVolume c z volSpec.ServiceOfferingID.ValueString
    volSpec.Size.ValueInt64 volSpec.Name.ValueString st = r1 at h ⊢
  rcases r1 with ⟨cerr, st1⟩
  cases cerr with
  | some e => simp at h
  | none =>
    simp only at h ⊢
    have hnew := FindNewVolumeID_new c z existingIDs volSpec.Name.ValueString
      MaxVolumeStatusRetries 1 st1
    generalize FindNewVolumeID c z existingIDs volSpec.Name.ValueString
      MaxVolumeStatusRetries 1 st1 = r2 at h hnew ⊢
    rcases r2 with ⟨⟨newVolID, ferr⟩, st2⟩
    cases ferr with
    | some e => simp at h
    | none =>
      simp only at h hnew ⊢
      generalize callAttachInstanceVolume c z newVolID i st2 = r3 at h ⊢
      rcases r3 with ⟨aerr, st3⟩
      cases aerr with
      | some e => simp at h
      | none =>
        simp only at h ⊢
        generalize WaitForVolumeAttachment c z i newVolID MaxVolumeAttachmentRetries
          DefaultVolumePollInterval st3 = r4 at h ⊢
        rcases r4 with ⟨werr, st4⟩
        cases werr with
        | some e => simp at h
        | none => exact hnew trivial

theorem createAndAttachVolumesLoop_new {σ : Type} (c : Client σ) (z i : String) :
    ∀ (specs : List VolumeSpec) (existingIDs : List String) (volumeIDs : List TFString)
      (st : St σ),
      (volumeIDs.map TFString.ValueString).Nodup →
      (∀ x, x ∈ volumeIDs → x.ValueString ∈ existingIDs) →
      (createAndAttachVolumesLoop c z i specs existingIDs volumeIDs st).1.2 = none →
      ∃ ids, (createAndAttachVolumesLoop c z i specs existingIDs volumeIDs st).1.1 = some ids
        ∧ (ids.map TFString.ValueString).Nodup
        ∧ (∀ x, x ∈ ids → x ∈ volumeIDs ∨ x.ValueString ∉ existingIDs)
        ∧ ids.length = volumeIDs.length + specs.length := by
  intro specs
  induction specs with
  | nil =>
    intro existingIDs volumeIDs st hnd _ _
    exact ⟨volumeIDs, rfl, hnd, fun x hx => Or.inl hx, by simp⟩
  | cons volSpec rest ih =>
    intro existingIDs volumeIDs st hnd hin h
    rw [createAndAttachVolumesLoop] at h ⊢
    have hnew := CreateAndAttachVolume_new c z i volSpec existingIDs st
    generalize CreateAndAttachVolume c z i volSpec existingIDs st = r at h hnew ⊢
    rcases r with ⟨⟨volID, err⟩, st1⟩
    cases err with
    | some e => simp at h
    | none =>
      simp only at h hnew ⊢
      have hfresh : volID ∉ existingIDs := hnew trivial
      have hnd1 : ((volumeIDs ++ [TFString.value volID]).map TFString.ValueString).Nodup := by
        rw [List.map_append, List.nodup_append]
        refine ⟨hnd, by simp, ?_⟩
        intro a ha hb
        simp only [List.map_cons, List.map_nil, List.mem_singleton, TFString.ValueString] at hb
        obtain ⟨x, hx, rfl⟩ := List.mem_map.mp ha
        exact hfresh (hb ▸ hin x hx)
      have hin1 : ∀ x, x ∈ volumeIDs ++ [TFString.value volID] →
          x.ValueString ∈ volID :: existingIDs := by
        intro x hx
        rcases List.mem_append.mp hx with hx | hx
        · exact List.mem_cons_of_mem _ (hin x hx)
        · simp only [List.mem_singleton] at hx
          subst hx
          simp [TFString.ValueString]
      obtain ⟨ids, hids, hnodup, hmem, hlen⟩ := ih (volID :: existingIDs)
        (volumeIDs ++ [TFString.value volID]) st1 hnd1 hin1 h
      refine ⟨ids, hids, hnodup, ?_, by rw [hlen]; simp; omega⟩
      intro x hx
      rcases hmem x hx with hx1 | hx1
      · rcases List.mem_append.mp hx1 with hx2 | hx2
        · exact Or.inl hx2
        · simp only [List.mem_singleton] at hx2
          subst hx2
          exact Or.inr (by simpa [TFString.ValueString] using hfresh)
      · exact Or.inr (fun hc => hx1 (List.mem_cons_of_mem _ hc))

/-- C29: when `CreateAndAttachVolumes` returns no error, it returns one identifier per spec,
the identifiers are pairwise distinct, and none of them is among the identifiers of the
listing taken before the first create (the answer of the first call of the run), whatever
the names of the specs. -/
theorem CreateAndAttachVolumes_distinct_new {σ : Type} (c : Client σ) (z i : String)
    (volumeSpecs : List VolumeSpec) (st : St σ)
    (h : (CreateAndAttachVolumes c z i volumeSpecs st).1.2 = none) :
    ∃ initialVolumes ids,
      (c.ListInstanceVolumes z st.remote).1 = ApiResult.ok initialVolumes
      ∧ (CreateAndAttachVolumes c z i volumeSpecs st).1.1 = some ids
      ∧ (ids.map TFString.ValueString).Nodup
      ∧ ids.Nodup
      ∧ (∀ x, x ∈ ids → x.ValueString ∉ initialVolumes.map (fun vol => vol.ID))
      ∧ ids.length = volumeSpecs.length := by
  rw [CreateAndAttachVolumes] at h ⊢
  simp only [callListInstanceVolumes] at h ⊢
  generalize c.ListInstanceVolumes z st.remote = r at h ⊢
  rcases r with ⟨resp, r1⟩
  cases resp with
  | error err => simp at h
  | ok initialVolumes =>
    simp only at h ⊢
    obtain ⟨ids, hids, hnodup, hmem, hlen⟩ := createAndAttachVolumesLoop_new c z i volumeSpecs
      (initialVolumes.map (fun vol => vol.ID)) [] _ (by simp) (by simp) h
    refine ⟨initialVolumes, ids, rfl, hids, hnodup, List.Nodup.of_map _ hnodup, ?_,
      by simpa using hlen⟩
    intro x hx
    rcases hmem x hx with hx1 | hx1
    · simp at hx1
    · exact hx1

/-- Witness for C29: two specs that share the name `data`, on a remote that already holds the
volume `old`; the listings show one more volume named `data` after each create. -/
theorem CreateAndAttachVolumes_distinct_new_witness :
    (CreateAndAttachVolumes volClient "zone" "vm" [volSpec "data" 10, volSpec "data" 20]
        (volStart
          [[{ ID := "old", Name := "data", Status := "ALLOCATED" }],
           [{ ID := "old", Name := "data", Status := "ALLOCATED" },
            { ID := "vol-1", Name := "data", Status := "ALLOCATED" }],
           [{ ID := "old", Name := "data", Status := "ALLOCATED" },
            { ID := "vol-1", Name := "data", Status := "ALLOCATED" },
            { ID := "vol-2", Name := "data", Status := "ALLOCATED" }]] [])).1
      = (some [TFString.value "vol-1", TFString.value "vol-2"], none)
    ∧ ∃ initialVolumes ids,
      (volClient.ListInstanceVolumes "zone"
        (volStart
          [[{ ID := "old", Name := "data", Status := "ALLOCATED" }],
           [{ ID := "old", Name := "data", Status := "ALLOCATED" },
            { ID := "vol-1", Name := "data", Status := "ALLOCATED" }],
           [{ ID := "old", Name := "data", Status := "ALLOCATED" },
            { ID := "vol-1", Name := "data", Status := "ALLOCATED" },
            { ID := "vol-2", Name := "data", Status := "ALLOCATED" }]] []).remote).1
        = ApiResult.ok initialVolumes
      ∧ (CreateAndAttachVolumes volClient "zone" "vm" [volSpec "data" 10, volSpec "data" 20]
          (volStart
            [[{ ID := "old", Name := "data", Status := "ALLOCATED" }],
             [{ ID := "old", Name := "data", Status := "ALLOCATED" },
              { ID := "vol-1", Name := "data", Status := "ALLOCATED" }],
             [{ ID := "old", Name := "data", Status := "ALLOCATED" },
              { ID := "vol-1", Name := "data", Status := "ALLOCATED" },
              { ID := "vol-2", Name := "data", Status := "ALLOCATED" }]] [])).1.1 = some ids
      ∧ (ids.map TFString.ValueString).Nodup
      ∧ ids.Nodup
      ∧ (∀ x, x ∈ ids → x.ValueString ∉ initialVolumes.map (fun vol => vol.ID))
      ∧ ids.length = [volSpec "data" 10, volSpec "data" 20].length :=
  ⟨by decide,
    CreateAndAttachVolumes_distinct_new volClient "zone" "vm"
      [volSpec "data" 10, volSpec "data" 20]
      (volStart
        [[{ ID := "old", Name := "data", Status := "ALLOCATED" }],
         [{ ID := "old", Name := "data", Status := "ALLOCATED" },
          { ID := "vol-1", Name := "data", Status := "ALLOCATED" }],
         [{ ID := "old", Name := "data", Status := "ALLOCATED" },
          { ID := "vol-1", Name := "data", Status := "ALLOCATED" },
          { ID := "vol-2", Name := "data", Status := "ALLOCATED" }]] [])
      (by decide)⟩

/-! ### Waiting for the attachment of a new volume -/

theorem WaitForVolumeAttachment_seen {σ : Type} (c : Client σ) (z i volumeID : String)
    (maxRetries : Int) (interval : Nat) (st : St σ)
    (h : (WaitForVolumeAttachment c z i volumeID maxRetries interval st).1 = none) :
    ∃ pre data,
      (WaitForVolumeAttachment c z i volumeID maxRetries interval st).2.trace
        = pre ++ [Event.ShowInstance z i (ApiResult.ok data)]
      ∧ volumeID ∈ data.DataVolumes := by
  simp only [WaitForVolumeAttachment, PollUntilCondition] at h ⊢
  obtain ⟨s0, hs0⟩ := pollLoop_success (volumeAttachedCheck c z i volumeID) interval _
    maxRetries.toNat st [] h
  generalize (pollLoop (volumeAttachedCheck c z i volumeID) interval _ maxRetries.toNat st
    []).st = fin at hs0 ⊢
  simp only [volumeAttachedCheck] at hs0
  have htr := callShowInstance_trace c z i s0
  generalize callShowInstance c z i s0 = r at hs0 htr
  rcases r with ⟨resp, s1⟩
  cases resp with
  | error err => simp at hs0
  | ok data =>
    simp only [Prod.mk.injEq, and_true] at hs0
    obtain ⟨hany, rfl⟩ := hs0
    refine ⟨s0.trace, data, htr, ?_⟩
    simpa using hany

/-- Sibling path of C22: when `CreateAndAttachVolume` returns no error, the last call of its
run is a `ShowInstance` whose answer lists the returned identifier among the attached
volumes. -/
theorem CreateAndAttachVolume_polls {σ : Type} (c : Client σ) (z i : String)
    (volSpec : VolumeSpec) (existingIDs : List String) (st : St σ)
    (h : (CreateAndAttachVolume c z i volSpec existingIDs st).1.2 = none) :
    ∃ pre data,
      (CreateAndAttachVolume c z i volSpec existingIDs st).2.trace
        = pre ++ [Event.ShowInstance z i (ApiResult.ok data)]
      ∧ (CreateAndAttachVolume c z i volSpec existingIDs st).1.1 ∈ data.DataVolumes := by
  rw [CreateAndAttachVolume] at h ⊢
  generalize callCreateInstanceVolume c z volSpec.ServiceOfferingID.ValueString
    volSpec.Size.ValueInt64 volSpec.Name.ValueString st = r1 at h ⊢
  rcases r1 with ⟨cerr, st1⟩
  cases cerr with
  | some e => simp at h
  | none =>
    simp only at h ⊢
    generalize FindNewVolumeID c z existingIDs volSpec.Name.ValueString
      MaxVolumeStatusRetries 1 st1 = r2 at h ⊢
    rcases r2 with ⟨⟨newVolID, ferr⟩, st2⟩
    cases ferr with
    | some e => simp at h
    | none =>
      simp only at h ⊢
      generalize callAttachInstanceVolume c z newVolID i st2 = r3 at h ⊢
      rcases r3 with ⟨aerr, st3⟩
      cases aerr with
      | some e => simp at h
      | none =>
        simp only at h ⊢
        have hw := WaitForVolumeAttachment_seen c z i newVolID MaxVolumeAttachmentRetries
          DefaultVolumePollInterval st3
        generalize WaitForVolumeAttachment c z i newVolID MaxVolumeAttachmentRetries
          DefaultVolumePollInterval st3 = r4 at h hw ⊢
        rcases r4 with ⟨werr, st4⟩
        cases werr with
        | some e => simp at h
        | none => exact hw rfl

/-- C22 (the code at the failing input): one volume `data` is added on a remote that accepts
the attach but never shows the volume among the attached volumes of the instance.
`UpdateInstanceVolumes` (through `CreateAndAttachNewVolumes`) issues no `ShowInstance` after the
attach: the attach is the last call of the run, the identifier `vol-1` is recorded and
returned without any error, and the instance still reports no attached volume. -/
theorem CreateAndAttachNewVolumes_records_without_poll :
    (UpdateInstanceVolumes volClientUnseen VolumeOrders.identity "zone" "vm"
        [volSpec "data" 10] []
        (volStart [[], [{ ID := "vol-1", Name := "data", Status := "ALLOCATED" }]] [])).1
      = TFList.value [TFString.value "vol-1"]
    ∧ (UpdateInstanceVolumes volClientUnseen VolumeOrders.identity "zone" "vm"
        [volSpec "data" 10] []
        (volStart [[], [{ ID := "vol-1", Name := "data", Status := "ALLOCATED" }]] [])).2.diags
      = []
    ∧ (UpdateInstanceVolumes volClientUnseen VolumeOrders.identity "zone" "vm"
        [volSpec "data" 10] []
        (volStart [[], [{ ID := "vol-1", Name := "data", Status := "ALLOCATED" }]] [])).2.trace
      = [Event.ShowInstance "zone" "vm"
            (ApiResult.ok { Status := "UP", Username := "root", Password := "secret",
                            DataVolumes := [] }),
          Event.ListInstanceVolumes "zone" (ApiResult.ok []),
          Event.CreateInstanceVolume "zone" "ssd" 10 "data" none,
          Event.Sleep 1,
          Event.ListInstanceVolumes "zone"
            (ApiResult.ok [{ ID := "vol-1", Name := "data", Status := "ALLOCATED" }]),
          Event.AttachInstanceVolume "zone" "vol-1" "vm" none]
    ∧ (UpdateInstanceVolumes volClientUnseen VolumeOrders.identity "zone" "vm"
        [volSpec "data" 10] []
        (volStart [[], [{ ID := "vol-1", Name := "data", Status := "ALLOCATED" }]]
          [])).2.remote.dataVolumes = [] := by
  decide

set_option maxRecDepth 100000 in
/-- Sibling path of C22 on the same remote: `CreateAndAttachVolume` reads the instance 120
times after the attach and ends with the error 'Volume Attachment Timeout'. -/
theorem CreateAndAttachVolume_unseen_times_out :
    (CreateAndAttachVolume volClientUnseen "zone" "vm" (volSpec "data" 10) []
        (volStart [[{ ID := "vol-1", Name := "data", Status := "ALLOCATED" }]] [])).1
      = ("", some ("Volume \x27vol-1\x27 attachment to instance \x27vm\x27 did not complete "
          ++ "within timeout"))
    ∧ ((CreateAndAttachVolume volClientUnseen "zone" "vm" (volSpec "data" 10) []
        (volStart [[{ ID := "vol-1", Name := "data", Status := "ALLOCATED" }]] [])).2.trace.filter
          Event.isShowInstance).length = 120
    ∧ Diagnostics.HasError (CreateAndAttachVolume volClientUnseen "zone" "vm"
        (volSpec "data" 10) []
        (volStart [[{ ID := "vol-1", Name := "data", Status := "ALLOCATED" }]] [])).2.diags
      = true := by
  decide

/-! ### The identifier list built from the added volumes -/

theorem IDMap.lookup_set (m : IDMap) (k v k1 : String) :
    IDMap.lookup (some (m.set k v)) k1 = if k = k1 then v else IDMap.lookup (some m) k1 := by
  simp only [IDMap.lookup, IDMap.set, List.find?_cons]
  by_cases h : k = k1
  · simp [h]
  · simp [h]

theorem IDMap.lookup_foldl_empty (names : List String) :
    ∀ (m : IDMap), (∀ k, IDMap.lookup (some m) k = "") →
      ∀ k, IDMap.lookup (some (names.foldl (fun m n => m.set n "") m)) k = "" := by
  induction names with
  | nil => intro m h k; exact h k
  | cons n rest ih =>
    intro m h k
    rw [List.foldl_cons]
    refine ih _ ?_ k
    intro k1
    rw [IDMap.lookup_set]
    split
    · rfl
    · exact h k1

theorem CreatedSince.createdExt {i : String} {base t : List Event} {name volumeID : String}
    (h : CreatedSince i base t name volumeID) (more : List Event) :
    CreatedSince i base (t ++ more) name volumeID := by
  obtain ⟨pre, z, initial, offering, size, mid, post, ht, hnew, hl, hq⟩ := h
  refine ⟨pre, z, initial, offering, size, mid, post ++ more, ?_, hnew, hl, hq⟩
  rw [ht]
  simp

theorem discoverNewVolume_new {σ : Type} (c : Client σ) (z name : String)
    (existing : List String) :
    ∀ (n : Nat) (st : St σ) (newID : String),
      (discoverNewVolume c z name existing n st).1 = some newID → newID ≠ "" →
      newID ∉ existing := by
  intro n
  induction n with
  | zero =>
    intro st newID h hne
    simp only [discoverNewVolume, Option.some.injEq] at h
    exact absurd h.symm hne
  | succ n ih =>
    intro st newID h hne
    rw [discoverNewVolume] at h
    generalize callListInstanceVolumes c z (st.sleep 1) = r at h
    rcases r with ⟨resp, st1⟩
    cases resp with
    | error err => simp at h
    | ok latest =>
      simp only at h
      split at h
      · cases hf : latest.find? (fun vol => !decide (vol.ID ∈ existing)
            && decide (vol.Name = name)) with
        | none => simp [hf] at h; exact absurd h.symm hne
        | some vol =>
          simp only [hf, Option.some.injEq] at h
          have hp := List.find?_some hf
          simp only [Bool.and_eq_true, Bool.not_eq_true', decide_eq_false_iff_not,
            decide_eq_true_eq] at hp
          rw [← h]
          exact hp.1
      · exact ih st1 newID h hne

theorem createAndAttachLoop_created {σ : Type} (c : Client σ) (z i : String)
    (base : List Event) :
    ∀ (specs : List VolumeSpec) (nameToID : IDMap) (st : St σ) (t0 : List Event),
      st.trace = base ++ t0 →
      (∀ k, IDMap.lookup (some nameToID) k ≠ "" →
        CreatedSince i base st.trace k (IDMap.lookup (some nameToID) k)) →
      ∀ m, (createAndAttachLoop c z i specs nameToID st).1 = some m →
        ∀ k, IDMap.lookup (some m) k ≠ "" →
          CreatedSince i base (createAndAttachLoop c z i specs nameToID st).2.trace k
            (IDMap.lookup (some m) k) := by
  intro specs
  induction specs with
  | nil =>
    intro nameToID st t0 _ hinv m hm k hk
    simp only [createAndAttachLoop, Option.some.injEq] at hm ⊢
    subst hm
    exact hinv k hk
  | cons spec rest ih =>
    intro nameToID st t0 hbase hinv m hm k hk
    rw [createAndAttachLoop] at hm ⊢
    have htl := callListInstanceVolumes_trace c z st
    generalize callListInstanceVolumes c z st = r1 at hm htl ⊢
    rcases r1 with ⟨resp, st1⟩
    simp only at htl
    cases resp with
    | error ierr => simp at hm
    | ok initial =>
      simp only at hm ⊢
      have htc := callCreateInstanceVolume_trace c z spec.ServiceOfferingID.ValueString
        spec.Size.ValueInt64 spec.Name.ValueString st1
      generalize callCreateInstanceVolume c z spec.ServiceOfferingID.ValueString
        spec.Size.ValueInt64 spec.Name.ValueString st1 = r2 at hm htc ⊢
      rcases r2 with ⟨cerr, st2⟩
      simp only at htc
      cases cerr with
      | some e => simp at hm
      | none =>
        simp only at hm ⊢
        have hd := (discoverNewVolume_ext c z spec.Name.ValueString
          (initial.map (fun vol => vol.ID)) 10 st2).1
        have hlisted := discoverNewVolume_listed c z spec.Name.ValueString
          (initial.map (fun vol => vol.ID)) st2.trace 10 st2 [] (by simp)
        have hnew := discoverNewVolume_new c z spec.Name.ValueString
          (initial.map (fun vol => vol.ID)) 10 st2
        generalize discoverNewVolume c z spec.Name.ValueString
          (initial.map (fun vol => vol.ID)) 10 st2 = r3 at hm hd hlisted hnew ⊢
        rcases r3 with ⟨found, st3⟩
        cases found with
        | none => simp at hm
        | some newID =>
          simp only at hm hd hlisted hnew ⊢
          by_cases hne : newID = ""
          · rw [if_pos hne] at hm
            simp at hm
          · rw [if_neg hne] at hm ⊢
            have hta := callAttachInstanceVolume_trace c z newID i st3
            generalize callAttachInstanceVolume c z newID i st3 = r4 at hm hta ⊢
            rcases r4 with ⟨aerr, st4⟩
            simp only at hta
            cases aerr with
            | some e => simp at hm
            | none =>
              simp only at hm ⊢
              obtain ⟨mid, hmid, hquiet⟩ := hd
              obtain ⟨t, ht, hlistedAs⟩ := hlisted newID rfl hne
              have hteq : t = mid := List.append_cancel_left (ht.symm.trans hmid)
              subst hteq
              have hfresh := hnew newID rfl hne
              have h4 : st4.trace = base ++ (t0 ++ Event.ListInstanceVolumes z (ApiResult.ok initial)
                  :: Event.CreateInstanceVolume z spec.ServiceOfferingID.ValueString
                      spec.Size.ValueInt64 spec.Name.ValueString none
                  :: (t ++ Event.AttachInstanceVolume z newID i none :: [])) := by
                rw [hta, hmid, htc, htl, hbase]
                simp
              have h4ext : st4.trace = st.trace ++ (Event.ListInstanceVolumes z (ApiResult.ok initial)
                  :: Event.CreateInstanceVolume z spec.ServiceOfferingID.ValueString
                      spec.Size.ValueInt64 spec.Name.ValueString none
                  :: (t ++ [Event.AttachInstanceVolume z newID i none])) := by
                rw [h4, hbase]
                simp
              refine ih (nameToID.set spec.Name.ValueString newID) st4 _ h4 ?_ m hm k hk
              intro k1 hk1
              rw [IDMap.lookup_set] at hk1 ⊢
              by_cases hk2 : spec.Name.ValueString = k1
              · rw [if_pos hk2]
                subst hk2
                exact ⟨t0, z, initial, _, _, t, [], h4, hfresh, hlistedAs, hquiet⟩
              · rw [if_neg hk2] at hk1 ⊢
                rw [h4ext]
                exact (hinv k1 hk1).createdExt _

theorem mem_BuildVolumeIDList (planVolumes : List VolumeSpec) (nameToID : Option IDMap)
    (x : TFString) (hx : x ∈ (BuildVolumeIDList planVolumes nameToID).Elements) :
    ∃ v, v ∈ planVolumes ∧ IDMap.lookup nameToID v.Name.ValueString ≠ ""
      ∧ x = TFString.value (IDMap.lookup nameToID v.Name.ValueString) := by
  simp only [BuildVolumeIDList, TFList.Elements, List.mem_filterMap] at hx
  obtain ⟨v, hv, hx⟩ := hx
  by_cases h : IDMap.lookup nameToID v.Name.ValueString = ""
  · rw [if_pos h] at hx
    simp at hx
  · rw [if_neg h] at hx
    simp only [Option.some.injEq] at hx
    exact ⟨v, hv, h, hx.symm⟩

theorem UpdateInstanceVolumes_created {σ : Type} (c : Client σ) (orders : VolumeOrders)
    (z i : String) (planVolumes stateVolumes : List VolumeSpec) (st : St σ) (x : TFString)
    (hx : x ∈ (UpdateInstanceVolumes c orders z i planVolumes stateVolumes st).1.Elements) :
    ∃ v id, v ∈ planVolumes ∧ x = TFString.value id ∧ id ≠ ""
      ∧ CreatedSince i st.trace
          (UpdateInstanceVolumes c orders z i planVolumes stateVolumes st).2.trace
          v.Name.ValueString id := by
  rw [UpdateInstanceVolumes] at hx ⊢
  have hts := callShowInstance_trace c z i st
  generalize callShowInstance c z i st = r at hx hts ⊢
  rcases r with ⟨resp, st1⟩
  simp only at hts
  cases resp with
  | error err => simp [TFList.Elements] at hx
  | ok data =>
    simp only at hx ⊢
    have h1 : VolumeDelta
        (removedVolumeNames orders.removed (volumeNameMap stateVolumes)
          (volumeNameMap planVolumes)) [] st.trace st1.trace :=
      (VolumeDelta.deltaStart _ _ st.trace).deltaExtQuiet (Ext.single _ hts rfl)
    have hd := DetachAndDeleteRemovedVolumes_delta c z i
      (fun volumeID => data.DataVolumes.any (fun s => decide (s = volumeID))) _ _ _
      (removedVolumeNames orders.removed (volumeNameMap stateVolumes)
        (volumeNameMap planVolumes)) st1 (fun _ h => h) h1
    generalize DetachAndDeleteRemovedVolumes c z i
      (removedVolumeNames orders.removed (volumeNameMap stateVolumes)
        (volumeNameMap planVolumes))
      (fun volumeID => data.DataVolumes.any (fun s => decide (s = volumeID))) st1 = st2
      at hx hd ⊢
    obtain ⟨t0, ht0, _⟩ := hd
    by_cases he : Diagnostics.HasError st2.diags = true
    · rw [if_pos he] at hx
      simp [TFList.Elements] at hx
    · rw [if_neg he] at hx ⊢
      rw [CreateAndAttachNewVolumes] at hx ⊢
      have hcr := createAndAttachLoop_created c z i st.trace
        (addedVolumes orders.added (volumeNameMap stateVolumes) (volumeNameMap planVolumes))
        ((addedVolumes orders.added (volumeNameMap stateVolumes)
          (volumeNameMap planVolumes)).foldl (fun m v => m.set v.Name.ValueString "")
          IDMap.empty) st2 t0 ht0
        (by
          intro k hk
          exfalso
          apply hk
          have := IDMap.lookup_foldl_empty
            ((addedVolumes orders.added (volumeNameMap stateVolumes)
              (volumeNameMap planVolumes)).map (fun v => v.Name.ValueString))
            IDMap.empty (fun k => rfl) k
          rw [List.foldl_map] at this
          exact this)
      generalize createAndAttachLoop c z i
        (addedVolumes orders.added (volumeNameMap stateVolumes) (volumeNameMap planVolumes))
        ((addedVolumes orders.added (volumeNameMap stateVolumes)
          (volumeNameMap planVolumes)).foldl (fun m v => m.set v.Name.ValueString "")
          IDMap.empty) st2 = r at hx hcr ⊢
      rcases r with ⟨nameToID, st3⟩
      simp only at hx hcr ⊢
      by_cases he3 : Diagnostics.HasError st3.diags = true
      · rw [if_pos he3] at hx
        simp [TFList.Elements] at hx
      · rw [if_neg he3] at hx ⊢
        simp only
        obtain ⟨v, hv, hne, hxv⟩ := mem_BuildVolumeIDList planVolumes nameToID x hx
        cases nameToID with
        | none => exact absurd rfl hne
        | some m =>
          exact ⟨v, _, hv, hxv, hne, hcr m rfl v.Name.ValueString hne⟩

/-- C23: `BuildVolumeIDList` returns, in the order of the desired volumes, exactly the
non-empty identifiers that `nameToID` binds to their names: a desired volume whose name has
no entry or an empty entry (or any name when the map is `nil`) contributes no element, and
the function records nothing. Every element of the list returned by `UpdateInstanceVolumes`
is therefore the identifier of a volume created in that run: the run listed the volumes
without that identifier, issued a successful create for the name of a desired volume, saw the
identifier listed under that name and attached it successfully. -/
theorem BuildVolumeIDList_exact {σ : Type} (c : Client σ) (orders : VolumeOrders)
    (z i : String) (planVolumes stateVolumes : List VolumeSpec) (st : St σ)
    (nameToID : Option IDMap) :
    BuildVolumeIDList planVolumes nameToID
      = TFList.value
          (((planVolumes.map (fun v => IDMap.lookup nameToID v.Name.ValueString)).filter
            (fun id => decide (id ≠ ""))).map TFString.value)
    ∧ BuildVolumeIDList planVolumes none = TFList.value []
    ∧ (∀ x, x ∈ (UpdateInstanceVolumes c orders z i planVolumes stateVolumes st).1.Elements →
        ∃ v id, v ∈ planVolumes ∧ x = TFString.value id ∧ id ≠ ""
          ∧ CreatedSince i st.trace
              (UpdateInstanceVolumes c orders z i planVolumes stateVolumes st).2.trace
              v.Name.ValueString id) := by
  refine ⟨?_, ?_, fun x hx =>
    UpdateInstanceVolumes_created c orders z i planVolumes stateVolumes st x hx⟩
  · simp only [BuildVolumeIDList]
    congr 1
    induction planVolumes with
    | nil => rfl
    | cons v rest ih =>
      simp only [List.filterMap_cons, List.map_cons, List.filter_cons]
      by_cases h : IDMap.lookup nameToID v.Name.ValueString = ""
      · simp [h, ih]
      · simp [h, ih]
  · simp [BuildVolumeIDList, IDMap.lookup]

/-! ### The instance address chosen by `BuildNetworkObjects` -/

theorem exposeNetworks_objs_indep :
    ∀ (l : List InstanceNetwork) (seen : List String) (ip ip1 : String),
      (exposeNetworks l seen ip).1 = (exposeNetworks l seen ip1).1 := by
  intro l
  induction l with
  | nil => intro seen ip ip1; rfl
  | cons ni rest ih =>
    intro seen ip ip1
    simp only [exposeNetworks]
    by_cases hs : ni.NetworkID ∈ seen
    · rw [if_pos hs, if_pos hs]
      exact ih seen ip ip1
    · rw [if_neg hs, if_neg hs]
      simp only [List.cons.injEq, true_and]
      exact ih _ _ _

theorem exposeNetworks_ip_nondefault :
    ∀ (l : List InstanceNetwork) (seen : List String) (ip : String),
      (∀ ni, ni ∈ l → ni.IsDefault = false) →
      (exposeNetworks l seen ip).2
        = if ip = "" then firstNonEmptyIP (exposeNetworks l seen ip).1 else ip := by
  intro l
  induction l with
  | nil =>
    intro seen ip _
    simp only [exposeNetworks, firstNonEmptyIP]
    by_cases h : ip = ""
    · simp [h]
    · simp [h]
  | cons ni rest ih =>
    intro seen ip hnd
    have hni : ni.IsDefault = false := hnd ni (List.mem_cons_self _ _)
    have hrest : ∀ x, x ∈ rest → x.IsDefault = false :=
      fun x hx => hnd x (List.mem_cons_of_mem _ hx)
    simp only [exposeNetworks]
    by_cases hs : ni.NetworkID ∈ seen
    · rw [if_pos hs]
      exact ih seen ip hrest
    · rw [if_neg hs]
      simp only [hni, Bool.false_eq_true, if_false]
      have hih := ih (ni.NetworkID :: seen) (if ip = "" then ni.IPAddress else ip) hrest
      generalize exposeNetworks rest (ni.NetworkID :: seen)
        (if ip = "" then ni.IPAddress else ip) = r at hih ⊢
      rcases r with ⟨objs, finalIP⟩
      simp only at hih ⊢
      rw [hih]
      by_cases hip : ip = "" <;> by_cases hn : ni.IPAddress = "" <;>
        simp [hip, hn, firstNonEmptyIP, NetworkObject.ipAddress, TFString.ValueString,
          List.find?_cons]

theorem sorted_default_first (l : List InstanceNetwork) (d : InstanceNetwork)
    (hp : l.Pairwise (fun a b => networkLess b a = false))
    (hf : l.filter (fun ni => ni.IsDefault) = [d]) :
    ∃ t, l = d :: t ∧ ∀ x, x ∈ t → x.IsDefault = false := by
  cases l with
  | nil => simp at hf
  | cons h t =>
    have hd : d ∈ h :: t := by
      have : d ∈ (h :: t).filter (fun ni => ni.IsDefault) := by rw [hf]; simp
      exact (List.mem_filter.mp this).1
    have hdd : d.IsDefault = true := by
      have : d ∈ (h :: t).filter (fun ni => ni.IsDefault) := by rw [hf]; simp
      exact (List.mem_filter.mp this).2
    have hh : h.IsDefault = true := by
      by_contra hne
      have hhf : h.IsDefault = false := by simpa using hne
      rcases List.mem_cons.mp hd with hdh | hdt
      · rw [hdh] at hdd
        rw [hdd] at hhf
        exact absurd hhf (by simp)
      · have hlt := (List.pairwise_cons.mp hp).1 d hdt
        simp [networkLess, hdd, hhf] at hlt
    rw [List.filter_cons_of_pos (by simpa using hh)] at hf
    simp only [List.cons.injEq] at hf
    obtain ⟨rfl, hft⟩ := hf
    refine ⟨t, rfl, ?_⟩
    intro x hx
    by_contra hne
    have hxd : x.IsDefault = true := by simpa using hne
    have : x ∈ t.filter (fun ni => ni.IsDefault) := List.mem_filter.mpr ⟨hx, hxd⟩
    rw [hft] at this
    simp at this

/-- C30: under the contract of `sort.Slice`, for every list of input records (so in whatever
order they come): if exactly one record is default and its IP address is non-empty,
`InstanceIP` is that address; if no record is default, `InstanceIP` is the first non-empty IP
address of the exposed list, in the order of that list, and it is empty when every IP address
is empty. -/
theorem BuildNetworkObjects_instanceIP (sortSlice : SortSlice)
    (hsort : sortSlice.SortsBy networkLess) (networks : List InstanceNetwork) :
    (∀ d, networks.filter (fun ni => ni.IsDefault) = [d] → d.IPAddress ≠ "" →
        (BuildNetworkObjects sortSlice networks).InstanceIP = d.IPAddress)
    ∧ ((∀ ni, ni ∈ networks → ni.IsDefault = false) →
        (BuildNetworkObjects sortSlice networks).InstanceIP
          = firstNonEmptyIP (BuildNetworkObjects sortSlice networks).NetworkObjects)
    ∧ ((∀ ni, ni ∈ networks → ni.IsDefault = false) →
        (∀ ni, ni ∈ networks → ni.IPAddress = "") →
        (BuildNetworkObjects sortSlice networks).InstanceIP = "") := by
  have hs := sorted_input_ordered sortSlice hsort networks
  have hperm : (if 1 < networks.length then sortSlice networkLess networks else networks).Perm
      networks := by
    split
    · exact (hsort networks).1
    · exact List.Perm.refl _
  have hip : (BuildNetworkObjects sortSlice networks).InstanceIP
      = (exposeNetworks (if 1 < networks.length then sortSlice networkLess networks
          else networks) [] "").2 := rfl
  have hobjs : (BuildNetworkObjects sortSlice networks).NetworkObjects
      = (exposeNetworks (if 1 < networks.length then sortSlice networkLess networks
          else networks) [] "").1 := rfl
  generalize (if 1 < networks.length then sortSlice networkLess networks else networks)
    = sorted at hs hperm hip hobjs
  have hnd : (∀ ni, ni ∈ networks → ni.IsDefault = false) →
      ∀ ni, ni ∈ sorted → ni.IsDefault = false :=
    fun h ni hni => h ni (hperm.mem_iff.mp hni)
  refine ⟨?_, ?_, ?_⟩
  · intro d hf hne
    have hfs : sorted.filter (fun ni => ni.IsDefault) = [d] := by
      have := (hperm.filter (fun ni => ni.IsDefault))
      rw [hf] at this
      exact List.perm_singleton.mp this
    obtain ⟨t, rfl, ht⟩ := sorted_default_first sorted d hs.1 hfs
    have hdd : d.IsDefault = true := by
      have : d ∈ (d :: t).filter (fun ni => ni.IsDefault) := by rw [hfs]; simp
      exact (List.mem_filter.mp this).2
    rw [hip]
    simp only [exposeNetworks, List.not_mem_nil, if_false, hdd, if_true]
    rw [exposeNetworks_ip_nondefault t _ _ ht, if_neg hne]
  · intro h
    rw [hip, hobjs, exposeNetworks_ip_nondefault sorted [] "" (hnd h), if_pos rfl]
  · intro h hempty
    rw [hip, exposeNetworks_ip_nondefault sorted [] "" (hnd h), if_pos rfl]
    obtain ⟨kept, hk1, hk2, _⟩ := exposeNetworks_kept sorted [] ""
    rw [hk1]
    simp only [firstNonEmptyIP, List.map_map]
    have hnone : (List.map (NetworkObject.ipAddress ∘ exposedObject) kept).find?
        (fun ip => decide (ip ≠ "")) = none := by
      rw [List.find?_eq_none]
      intro ip hipm
      obtain ⟨k, hk, rfl⟩ := List.mem_map.mp hipm
      have := hempty k (hperm.mem_iff.mp (hk2.subset hk))
      simp [exposedObject, NetworkObject.ipAddress, TFString.ValueString, this]
    rw [hnone]
    rfl

/-- Witness for C30: the default record `A` comes last in the input and `InstanceIP` is its
address; without a default record, `InstanceIP` is read off the exposed list, and it is empty
when no record has an address. -/
theorem BuildNetworkObjects_instanceIP_witness :
    SortSlice.SortsBy simSortSlice networkLess
    ∧ (BuildNetworkObjects simSortSlice
        [simAddressed "B" "10.0.0.2" false, simAddressed "A" "10.0.0.1" true]).InstanceIP
      = (simAddressed "A" "10.0.0.1" true).IPAddress
    ∧ (BuildNetworkObjects simSortSlice
        [simAddressed "C" "" false, simAddressed "B" "10.0.0.2" false]).InstanceIP
      = firstNonEmptyIP (BuildNetworkObjects simSortSlice
          [simAddressed "C" "" false, simAddressed "B" "10.0.0.2" false]).NetworkObjects
    ∧ (BuildNetworkObjects simSortSlice
        [simAddressed "C" "" false, simAddressed "B" "" false]).InstanceIP = "" :=
  ⟨simSortSlice_sorts,
    (BuildNetworkObjects_instanceIP simSortSlice simSortSlice_sorts
      [simAddressed "B" "10.0.0.2" false, simAddressed "A" "10.0.0.1" true]).1
      (simAddressed "A" "10.0.0.1" true) (by decide) (by decide),
    (BuildNetworkObjects_instanceIP simSortSlice simSortSlice_sorts
      [simAddressed "C" "" false, simAddressed "B" "10.0.0.2" false]).2.1 (by decide),
    (BuildNetworkObjects_instanceIP simSortSlice simSortSlice_sorts
      [simAddressed "C" "" false, simAddressed "B" "" false]).2.2 (by decide) (by decide)⟩

/-! ### Networks of a new instance -/

/-- C28 (the code at the failing input): the instance `vm` is attached to network `A`, and
`SetupInstanceNetworks` is called with the identifiers `[A, A]`. Both connection waits succeed
at their first read with the attachment of `A`, yet the run records the error 'Network
Connection Verification Failed' with an empty list of missing networks and returns the null
list. With the identifiers `[A]` the same remote gives no diagnostic and the one-entry list. -/
theorem SetupInstanceNetworks_duplicate_ids :
    (WaitForNetworkConnection simClient "zone" "A" "vm" MaxNetworkConnectionRetries
        DefaultNetworkPollInterval (simStart [simAttachment "A" true] "UP")).1
      = (some (simAttachment "A" true), none)
    ∧ (SetupInstanceNetworks simClient simSortSlice
        (simModel "img" ["A", "A"] [] TFString.null) ["A", "A"]
        (simStart [simAttachment "A" true] "UP")).1 = (TFList.null, "")
    ∧ (SetupInstanceNetworks simClient simSortSlice
        (simModel "img" ["A", "A"] [] TFString.null) ["A", "A"]
        (simStart [simAttachment "A" true] "UP")).2.diags
      = [{ severity := Severity.error
           summary := "Network Connection Verification Failed"
           detail := "Not all networks were connected. Missing networks: []" }]
    ∧ (SetupInstanceNetworks simClient simSortSlice
        (simModel "img" ["A", "A"] [] TFString.null) ["A", "A"]
        (simStart [simAttachment "A" true] "UP")).2.trace
      = [Event.ListNetworkInstances "zone" "A" "vm" (ApiResult.ok [simAttachment "A" true]),
         Event.ListNetworkInstances "zone" "A" "vm" (ApiResult.ok [simAttachment "A" true])]
    ∧ (SetupInstanceNetworks simClient simSortSlice
        (simModel "img" ["A"] [] TFString.null) ["A"]
        (simStart [simAttachment "A" true] "UP")).1
      = (TFList.value [exposedObject (simAttachment "A" true)], "")
    ∧ (SetupInstanceNetworks simClient simSortSlice
        (simModel "img" ["A"] [] TFString.null) ["A"]
        (simStart [simAttachment "A" true] "UP")).2.diags = [] := by
  decide

/-! ### Retries of `DeleteNetwork` -/

/-- C26 (counterexample to the claim as stated): the network `net` has no attachment and the
remote refuses every `DeleteNetwork` with an error saying that the network is connected. One
invocation of `networkResource.Delete` issues `DeleteNetwork` five times, sleeping 2, 4, 8
and 16 seconds between the attempts, and records the error after the fifth. -/
theorem networkDelete_reissues_DeleteNetwork :
    (networkResource.Delete connectedNetworkClient
        { ID := TFString.value "net", Name := TFString.value "n", ZoneID := TFString.value "zone" }
        (simStart [] "UP")).trace
      = [Event.ListInstances "zone" (ApiResult.ok []),
         Event.ListInstances "zone" (ApiResult.ok []),
         Event.DeleteNetwork "zone" "net" (some "The network is connected to 1 instance(s)"),
         Event.Sleep 2,
         Event.DeleteNetwork "zone" "net" (some "The network is connected to 1 instance(s)"),
         Event.Sleep 4,
         Event.DeleteNetwork "zone" "net" (some "The network is connected to 1 instance(s)"),
         Event.Sleep 8,
         Event.DeleteNetwork "zone" "net" (some "The network is connected to 1 instance(s)"),
         Event.Sleep 16,
         Event.DeleteNetwork "zone" "net" (some "The network is connected to 1 instance(s)")]
    ∧ ((networkResource.Delete connectedNetworkClient
        { ID := TFString.value "net", Name := TFString.value "n", ZoneID := TFString.value "zone" }
        (simStart [] "UP")).trace.filter Event.isDeleteNetwork).length = 5
    ∧ Diagnostics.HasError (networkResource.Delete connectedNetworkClient
        { ID := TFString.value "net", Name := TFString.value "n", ZoneID := TFString.value "zone" }
        (simStart [] "UP")).diags = true := by
  decide

theorem callListInstances_trace {σ : Type} (c : Client σ) (z : String) (st : St σ) :
    (callListInstances c z st).2.trace
      = st.trace ++ [Event.ListInstances z (callListInstances c z st).1] := rfl

theorem callDeleteNetwork_trace {σ : Type} (c : Client σ) (z n : String) (st : St σ) :
    (callDeleteNetwork c z n st).2.trace
      = st.trace ++ [Event.DeleteNetwork z n (callDeleteNetwork c z n st).1] := rfl

theorem callDeleteNetwork_diags {σ : Type} (c : Client σ) (z n : String) (st : St σ) :
    (callDeleteNetwork c z n st).2.diags = st.diags := rfl

theorem collectNetworkInstances_reads {σ : Type} (c : Client σ) (z n : String) :
    ∀ (instances : List Item) (st : St σ),
      Ext (fun e => e.isListing = true) st (collectNetworkInstances c z n instances st).2
      ∧ (collectNetworkInstances c z n instances st).2.diags = st.diags := by
  intro instances
  induction instances with
  | nil => intro st; exact ⟨Ext.extRefl _ _, rfl⟩
  | cons inst rest ih =>
    intro st
    have h : Ext (fun e => e.isListing = true) st (callListNetworkInstances c z n inst.ID st).2 :=
      Ext.single _ (callListNetworkInstances_trace c z n inst.ID st) rfl
    have hd := callListNetworkInstances_diags c z n inst.ID st
    rw [collectNetworkInstances]
    generalize callListNetworkInstances c z n inst.ID st = r at h hd ⊢
    rcases r with ⟨resp, st1⟩
    simp only at hd
    cases resp with
    | error err =>
      simp only
      exact ⟨h.extTrans (ih st1).1, by rw [(ih st1).2, hd]⟩
    | ok data =>
      simp only
      have h2 := ih st1
      generalize collectNetworkInstances c z n rest st1 = r2 at h2 ⊢
      rcases r2 with ⟨more, st2⟩
      exact ⟨h.extTrans h2.1, by rw [h2.2, hd]⟩

theorem GetNetworkInstances_reads {σ : Type} (c : Client σ) (z n : String) (st : St σ) :
    Ext (fun e => e.isListing = true) st (GetNetworkInstances c z n st).2
    ∧ (GetNetworkInstances c z n st).2.diags = st.diags := by
  have h : Ext (fun e => e.isListing = true) st (callListInstances c z st).2 :=
    Ext.single _ (callListInstances_trace c z st) rfl
  have hd : (callListInstances c z st).2.diags = st.diags := rfl
  rw [GetNetworkInstances]
  generalize callListInstances c z st = r at h hd ⊢
  rcases r with ⟨resp, st1⟩
  simp only at hd
  cases resp with
  | error err => exact ⟨h, hd⟩
  | ok instances =>
    simp only
    have h2 := collectNetworkInstances_reads c z n instances st1
    generalize collectNetworkInstances c z n instances st1 = r2 at h2 ⊢
    rcases r2 with ⟨all, st2⟩
    exact ⟨h.extTrans h2.1, by rw [h2.2, hd]⟩

theorem VerifyNetworkDisconnected_reads {σ : Type} (c : Client σ) (z n : String) (st : St σ) :
    Ext (fun e => e.isListing = true) st (VerifyNetworkDisconnected c z n st).2
    ∧ (VerifyNetworkDisconnected c z n st).2.diags = st.diags := by
  have h := GetNetworkInstances_reads c z n st
  rw [VerifyNetworkDisconnected]
  generalize GetNetworkInstances c z n st = r at h ⊢
  rcases r with ⟨⟨instances, err⟩, st1⟩
  cases err <;> exact h

theorem WaitForNetworkDisconnection_reads {σ : Type} (c : Client σ) (z n i a : String)
    (maxRetries : Int) (interval : Nat) (st : St σ) :
    Ext (fun e => e.isListing = true) st
        (WaitForNetworkDisconnection c z n i a maxRetries interval st).2
    ∧ (WaitForNetworkDisconnection c z n i a maxRetries interval st).2.diags = st.diags := by
  rw [WaitForNetworkDisconnection, PollUntilCondition]
  refine pollLoop_rel (networkDisconnectionCheck c z n i a) interval _
    (fun s s1 => Ext (fun e => e.isListing = true) s s1 ∧ s1.diags = s.diags)
    (fun s => ⟨Ext.extRefl _ s, rfl⟩)
    (fun _ _ _ h1 h2 => ⟨h1.1.extTrans h2.1, by rw [h2.2, h1.2]⟩) ?_ maxRetries.toNat st []
  intro s
  have h : Ext (fun e => e.isListing = true) s (callListNetworkInstances c z n i s).2 :=
    Ext.single _ (callListNetworkInstances_trace c z n i s) rfl
  have hd := callListNetworkInstances_diags c z n i s
  simp only [networkDisconnectionCheck]
  generalize callListNetworkInstances c z n i s = r at h hd ⊢
  rcases r with ⟨resp, s1⟩
  cases resp <;> exact ⟨h, hd⟩

theorem verifyNetworkLoop_reads {σ : Type} (c : Client σ) (data : NetworkResourceModel) :
    ∀ (k : Nat) (st : St σ),
      Ext (fun e => e.isListing = true) st (verifyNetworkLoop c data k st)
      ∧ (verifyNetworkLoop c data k st).diags = st.diags := by
  intro k
  induction k with
  | zero => intro st; exact ⟨Ext.extRefl _ _, rfl⟩
  | succ k ih =>
    intro st
    have h := VerifyNetworkDisconnected_reads c data.ZoneID.ValueString data.ID.ValueString st
    have hsleep : ∀ s : St σ, Ext (fun e => e.isListing = true) s (s.sleep 2) :=
      fun s => Ext.single _ (St.sleep_trace s 2) rfl
    rw [verifyNetworkLoop]
    generalize VerifyNetworkDisconnected c data.ZoneID.ValueString data.ID.ValueString st = r
      at h ⊢
    rcases r with ⟨⟨ok, err⟩, st1⟩
    simp only at h
    have hgo : Ext (fun e => e.isListing = true) st
          (if 0 < k then verifyNetworkLoop c data k (st1.sleep 2)
            else verifyNetworkLoop c data k st1)
        ∧ (if 0 < k then verifyNetworkLoop c data k (st1.sleep 2)
            else verifyNetworkLoop c data k st1).diags = st.diags := by
      split
      · exact ⟨h.1.extTrans ((hsleep st1).extTrans (ih _).1), by
          rw [(ih _).2, St.sleep_diags, h.2]⟩
      · exact ⟨h.1.extTrans (ih _).1, by rw [(ih _).2, h.2]⟩
    cases err with
    | some e => simp only; exact hgo
    | none =>
      cases ok with
      | true => exact h
      | false => simp only; exact hgo

theorem Event.notDeleteNetwork_of_isListing (e : Event) (h : e.isListing = true) :
    e.isDeleteNetwork = false := by
  cases e <;> simp [Event.isListing] at h <;> rfl

theorem Event.notFailedChange_of_isListing (e : Event) (h : e.isListing = true) :
    e.isFailedChange = false := by
  cases e <;> simp [Event.isListing] at h <;> rfl

theorem disconnectNetworkInstances_run {σ : Type} (c : Client σ)
    (data : NetworkResourceModel) :
    ∀ (instances : List InstanceNetwork) (st : St σ),
      Ext (fun e => e.isDeleteNetwork = false) st
          (disconnectNetworkInstances c data instances st).2
      ∧ FailStopBy Event.isFailedChange st (disconnectNetworkInstances c data instances st).2
      ∧ ((disconnectNetworkInstances c data instances st).1 = true →
          Diagnostics.HasError (disconnectNetworkInstances c data instances st).2.diags = true)
      ∧ ((disconnectNetworkInstances c data instances st).1 = false →
          Ext (fun e => e.isFailedChange = false) st
              (disconnectNetworkInstances c data instances st).2
          ∧ (disconnectNetworkInstances c data instances st).2.diags = st.diags) := by
  intro instances
  induction instances with
  | nil =>
    intro st
    exact ⟨Ext.extRefl _ _, FailStopBy.byClean (Ext.extRefl _ _), fun h => by
      simp [disconnectNetworkInstances] at h, fun _ => ⟨Ext.extRefl _ _, rfl⟩⟩
  | cons ni rest ih =>
    intro st
    rw [disconnectNetworkInstances]
    by_cases h1 : ni.NetworkID ≠ data.ID.ValueString
    · rw [if_pos h1]
      exact ih st
    · rw [if_neg h1]
      by_cases h2 : ni.IsDefault = true
      · rw [if_pos h2]
        exact ih st
      · rw [if_neg h2]
        have htr := callDisconnect_trace c data.ZoneID.ValueString data.ID.ValueString
          ni.InstanceID ni.ID st
        have hdg := callDisconnect_diags c data.ZoneID.ValueString data.ID.ValueString
          ni.InstanceID ni.ID st
        generalize callDisconnectInstanceFromNetwork c data.ZoneID.ValueString
          data.ID.ValueString ni.InstanceID ni.ID st = r at htr hdg ⊢
        rcases r with ⟨err, st1⟩
        simp only at htr hdg
        cases err with
        | some e =>
          simp only
          refine ⟨?_, ?_, fun _ => St.addError_hasError _ _ _, fun h => by simp at h⟩
          · have hx : Ext (fun x => x.isDeleteNetwork = false) st
                (HandleAPIError st1 "Client Error"
                  ("unable to disconnect instance " ++ ni.InstanceID ++ " from network "
                    ++ data.ID.ValueString ++ ": " ++ e)) :=
              Ext.single (Event.DisconnectInstanceFromNetwork data.ZoneID.ValueString
                data.ID.ValueString ni.InstanceID ni.ID (some e))
                (by simp [HandleAPIError, htr]) rfl
            exact hx
          · exact FailStopBy.failedLast
              (Event.DisconnectInstanceFromNetwork data.ZoneID.ValueString
                data.ID.ValueString ni.InstanceID ni.ID (some e))
              (Ext.extRefl _ st) (by simp [HandleAPIError, htr]) rfl
              (St.addError_hasError _ _ _)
        | none =>
          simp only
          have hw := WaitForNetworkDisconnection_reads c data.ZoneID.ValueString
            data.ID.ValueString ni.InstanceID ni.ID MaxNetworkConnectionRetries
            DefaultNetworkPollInterval st1
          generalize WaitForNetworkDisconnection c data.ZoneID.ValueString
            data.ID.ValueString ni.InstanceID ni.ID MaxNetworkConnectionRetries
            DefaultNetworkPollInterval st1 = w at hw ⊢
          rcases w with ⟨werr, st2⟩
          simp only at hw ⊢
          have hnd1 : Ext (fun e => e.isDeleteNetwork = false) st st1 :=
            Ext.single _ htr rfl
          have hnf1 : Ext (fun e => e.isFailedChange = false) st st1 :=
            Ext.single _ htr rfl
          have hnd : Ext (fun e => e.isDeleteNetwork = false) st st2 :=
            hnd1.extTrans (hw.1.extMono Event.notDeleteNetwork_of_isListing)
          have hnf : Ext (fun e => e.isFailedChange = false) st st2 :=
            hnf1.extTrans (hw.1.extMono Event.notFailedChange_of_isListing)
          obtain ⟨i1, i2, i3, i4⟩ := ih st2
          refine ⟨hnd.extTrans i1, FailStopBy.byAfterClean hnf i2, i3, fun h => ?_⟩
          exact ⟨hnf.extTrans (i4 h).1, by rw [(i4 h).2, hw.2, hdg]⟩

theorem retryRounds_events (z n : String) :
    ∀ (errs : List String) (attempt : Nat) (e : Event), e ∈ retryRounds z n attempt errs →
      e.isFailedChange = false := by
  intro errs
  induction errs with
  | nil => intro attempt e h; simp [retryRounds] at h
  | cons err rest ih =>
    intro attempt e h
    simp only [retryRounds, List.mem_cons] at h
    rcases h with rfl | rfl | h
    · rfl
    · rfl
    · exact ih _ e h

theorem deleteNetworkLoop_shape {σ : Type} (c : Client σ) (data : NetworkResourceModel) :
    ∀ (n attempt : Nat) (st : St σ),
      ∃ (errs : List String) (last : GoError),
        (deleteNetworkLoop c data (n + 1) attempt st).trace
          = st.trace ++ (retryRounds data.ZoneID.ValueString data.ID.ValueString attempt errs
              ++ [Event.DeleteNetwork data.ZoneID.ValueString data.ID.ValueString last])
        ∧ errs.length ≤ n
        ∧ (∀ e, e ∈ errs → isNetworkConnectedError e = true)
        ∧ (errs.length < n → ∀ e, last = some e → isNetworkConnectedError e = false)
        ∧ (last ≠ none →
            Diagnostics.HasError (deleteNetworkLoop c data (n + 1) attempt st).diags = true)
        ∧ (last = none → (deleteNetworkLoop c data (n + 1) attempt st).diags = st.diags) := by
  intro n
  induction n with
  | zero =>
    intro attempt st
    have htr := callDeleteNetwork_trace c data.ZoneID.ValueString data.ID.ValueString st
    have hdg := callDeleteNetwork_diags c data.ZoneID.ValueString data.ID.ValueString st
    rw [deleteNetworkLoop]
    generalize callDeleteNetwork c data.ZoneID.ValueString data.ID.ValueString st = r
      at htr hdg ⊢
    rcases r with ⟨err, st1⟩
    simp only at htr hdg
    cases err with
    | none =>
      exact ⟨[], none, by simp [retryRounds, htr], by simp, by simp, by simp, by simp,
        fun _ => hdg⟩
    | some e =>
      refine ⟨[], some e, ?_, by simp, by simp, by simp, fun _ => ?_, by simp⟩
      · simp [retryRounds, HandleAPIError, htr]
      · simp [HandleAPIError]
  | succ n ih =>
    intro attempt st
    have htr := callDeleteNetwork_trace c data.ZoneID.ValueString data.ID.ValueString st
    have hdg := callDeleteNetwork_diags c data.ZoneID.ValueString data.ID.ValueString st
    rw [deleteNetworkLoop]
    generalize callDeleteNetwork c data.ZoneID.ValueString data.ID.ValueString st = r
      at htr hdg ⊢
    rcases r with ⟨err, st1⟩
    simp only at htr hdg
    cases err with
    | none =>
      exact ⟨[], none, by simp [retryRounds, htr], by simp, by simp, by simp, by simp,
        fun _ => hdg⟩
    | some e =>
      simp only
      by_cases hc : isNetworkConnectedError e = true
      · have hcond : (!isNetworkConnectedError e || decide (n + 1 = 0)) = false := by
          simp [hc]
        rw [hcond]
        simp only [Bool.false_eq_true, if_false]
        obtain ⟨errs, last, h1, h2, h3, h4, h5, h6⟩ := ih (attempt + 1)
          (st1.sleep (2 * 2 ^ attempt))
        refine ⟨e :: errs, last, ?_, by simp; omega, ?_, ?_, h5, ?_⟩
        · rw [h1]
          simp [retryRounds, htr]
        · intro x hx
          rcases List.mem_cons.mp hx with rfl | hx
          · exact hc
          · exact h3 x hx
        · intro hlt
          exact h4 (by simpa using hlt)
        · intro hl
          rw [h6 hl, St.sleep_diags, hdg]
      · have hcf : isNetworkConnectedError e = false := by simpa using hc
        have hcond : (!isNetworkConnectedError e || decide (n + 1 = 0)) = true := by
          simp [hcf]
        rw [hcond]
        simp only [if_true]
        refine ⟨[], some e, ?_, by simp, by simp, ?_, fun _ => ?_, by simp⟩
        · simp [retryRounds, HandleAPIError, htr]
        · intro _ x hx
          simp only [Option.some.injEq] at hx
          rw [← hx]
          exact hcf
        · simp [HandleAPIError]

theorem retryRounds_count (z n : String) :
    ∀ (errs : List String) (attempt : Nat),
      ((retryRounds z n attempt errs).filter Event.isDeleteNetwork).length = errs.length := by
  intro errs
  induction errs with
  | nil => intro attempt; rfl
  | cons err rest ih =>
    intro attempt
    simp [retryRounds, Event.isDeleteNetwork, ih]

theorem filter_isDeleteNetwork_of_none (l : List Event)
    (h : ∀ e, e ∈ l → e.isDeleteNetwork = false) : l.filter Event.isDeleteNetwork = [] := by
  rw [List.filter_eq_nil_iff]
  intro e he
  simp [h e he]

/-- C26 (amended): in `UpdateInstanceNetworks`, in `UpdateInstanceVolumes` and in
`networkResource.Delete`, a connect, disconnect or volume call that returned an error is the
last call of the run, so it is never issued again. `DeleteNetwork` is different: one invocation
of `networkResource.Delete` either returns with an error before its third step, without any
`DeleteNetwork` call, or ends with at most five `DeleteNetwork` calls. Each attempt but the
last one returned an error whose text contains `network is connected` or `The network is
connected` and is followed by a sleep of 2, 4, 8, 16 seconds and then by the next attempt. The
last attempt is the last event of the run: it succeeded, or it failed with another error, or it
was the fifth attempt; when it failed an error diagnostic is recorded. -/
theorem networkDelete_retries {σ : Type} (c : Client σ) (orders : RangeOrders)
    (volumeOrders : VolumeOrders) (z i : String) (planNetworkIDs stateNetworkIDs : GoMap)
    (planVolumes stateVolumes : List VolumeSpec) (data : NetworkResourceModel) (st : St σ) :
    FailStop st (UpdateInstanceNetworks c orders z i planNetworkIDs stateNetworkIDs st)
    ∧ FailStopBy Event.isFailedVolumeChange st
        (UpdateInstanceVolumes c volumeOrders z i planVolumes stateVolumes st).2
    ∧ FailStop st (networkResource.Delete c data st)
    ∧ ∃ pre tail,
        (networkResource.Delete c data st).trace = st.trace ++ (pre ++ tail)
        ∧ (∀ e, e ∈ pre → e.isDeleteNetwork = false)
        ∧ ((pre ++ tail).filter Event.isDeleteNetwork).length ≤ 5
        ∧ ((tail = [] ∧ Diagnostics.HasError (networkResource.Delete c data st).diags = true)
          ∨ ∃ (errs : List String) (last : GoError),
              tail = retryRounds data.ZoneID.ValueString data.ID.ValueString 0 errs
                ++ [Event.DeleteNetwork data.ZoneID.ValueString data.ID.ValueString last]
              ∧ errs.length ≤ 4
              ∧ (∀ e, e ∈ errs → isNetworkConnectedError e = true)
              ∧ (errs.length < 4 → ∀ e, last = some e → isNetworkConnectedError e = false)
              ∧ (last ≠ none →
                  Diagnostics.HasError (networkResource.Delete c data st).diags = true)) := by
  refine ⟨UpdateInstanceNetworks_failStop c orders z i planNetworkIDs stateNetworkIDs st,
    UpdateInstanceVolumes_failStop c volumeOrders z i planVolumes stateVolumes st, ?_⟩
  rw [networkResource.Delete]
  by_cases herr : Diagnostics.HasError st.diags = true
  · rw [if_pos herr]
    exact ⟨FailStopBy.byClean (Ext.extRefl _ _), [], [], by simp, by simp, by simp,
      Or.inl ⟨rfl, herr⟩⟩
  · rw [if_neg herr]
    have hg := GetNetworkInstances_reads c data.ZoneID.ValueString data.ID.ValueString st
    generalize GetNetworkInstances c data.ZoneID.ValueString data.ID.ValueString st = r
      at hg ⊢
    rcases r with ⟨⟨instances, gerr⟩, st1⟩
    simp only at hg
    have hg1 : Ext (fun e => e.isDeleteNetwork = false) st st1 :=
      hg.1.extMono Event.notDeleteNetwork_of_isListing
    have hg2 : Ext (fun e => e.isFailedChange = false) st st1 :=
      hg.1.extMono Event.notFailedChange_of_isListing
    cases gerr with
    | some e =>
      simp only
      obtain ⟨t, ht, hp⟩ := hg1
      refine ⟨FailStopBy.byClean (hg2.extTrans (Ext.of_trace_eq _ rfl)), t, [], ?_, hp, ?_,
        Or.inl ⟨rfl, by simp [HandleAPIError]⟩⟩
      · simp [HandleAPIError, ht]
      · simp [filter_isDeleteNetwork_of_none t hp]
    | none =>
      simp only
      have hd := disconnectNetworkInstances_run c data instances st1
      generalize disconnectNetworkInstances c data instances st1 = r2 at hd ⊢
      rcases r2 with ⟨returned, st2⟩
      obtain ⟨d1, d2, d3, d4⟩ := hd
      simp only at d1 d2 d3 d4
      cases returned with
      | true =>
        simp only
        obtain ⟨t, ht, hp⟩ := hg1.extTrans d1
        refine ⟨FailStopBy.byAfterClean hg2 d2, t, [], by simp [ht], hp, ?_,
          Or.inl ⟨rfl, d3 rfl⟩⟩
        simp [filter_isDeleteNetwork_of_none t hp]
      | false =>
        simp only
        have hv := verifyNetworkLoop_reads c data 10 st2
        generalize verifyNetworkLoop c data 10 st2 = st3 at hv ⊢
        obtain ⟨errs, last, h1, h2, h3, h4, h5, _⟩ := deleteNetworkLoop_shape c data 4 0 st3
        have hpre : Ext (fun e => e.isDeleteNetwork = false) st st3 :=
          (hg1.extTrans d1).extTrans (hv.1.extMono Event.notDeleteNetwork_of_isListing)
        have hclean : Ext (fun e => e.isFailedChange = false) st st3 :=
          (hg2.extTrans (d4 rfl).1).extTrans
            (hv.1.extMono Event.notFailedChange_of_isListing)
        obtain ⟨t, ht, hp⟩ := hpre
        refine ⟨?_, t, retryRounds data.ZoneID.ValueString data.ID.ValueString 0 errs
          ++ [Event.DeleteNetwork data.ZoneID.ValueString data.ID.ValueString last], ?_, hp,
          ?_, Or.inr ⟨errs, last, rfl, h2, h3, h4, h5⟩⟩
        · refine FailStopBy.byClean (hclean.extTrans ⟨_, h1, ?_⟩)
          intro e he
          rcases List.mem_append.mp he with he | he
          · exact retryRounds_events _ _ errs 0 e he
          · simp only [List.mem_singleton] at he
            subst he
            rfl
        · rw [h1, ht]
          simp
        · rw [List.filter_append, filter_isDeleteNetwork_of_none t hp, List.filter_append,
            List.nil_append, List.length_append, retryRounds_count]
          simp [Event.isDeleteNetwork]
          omega

/-- On the remote that refuses `DeleteNetwork` for another reason, one invocation issues
`DeleteNetwork` once and records the error. -/
theorem networkDelete_other_error_once :
    (networkResource.Delete forbiddenDeleteClient
        { ID := TFString.value "net", Name := TFString.value "n", ZoneID := TFString.value "zone" }
        (simStart [] "UP")).trace
      = [Event.ListInstances "zone" (ApiResult.ok []),
         Event.ListInstances "zone" (ApiResult.ok []),
         Event.DeleteNetwork "zone" "net" (some "forbidden")]
    ∧ (networkResource.Delete forbiddenDeleteClient
        { ID := TFString.value "net", Name := TFString.value "n", ZoneID := TFString.value "zone" }
        (simStart [] "UP")).diags
      = [{ severity := Severity.error
           summary := "Client Error"
           detail := "An unexpected error occurred while communicating with the Virak Cloud "
             ++ "API. Error: unable to delete network: forbidden" }] := by
  decide

theorem WaitForNetworkConnection_found {σ : Type} (c : Client σ) (z n i : String)
    (maxRetries : Int) (interval : Nat) (st : St σ) :
    (WaitForNetworkConnection c z n i maxRetries interval st).2.diags = st.diags
    ∧ ((WaitForNetworkConnection c z n i maxRetries interval st).1.2 = none →
        ∃ ni, (WaitForNetworkConnection c z n i maxRetries interval st).1.1 = some ni
          ∧ ni.InstanceID = i ∧ ni.NetworkID = n) := by
  have hdiags : (pollLoop (networkConnectionCheck c z n i) interval
      ("Instance \x27" ++ i ++ "\x27 connection to network \x27" ++ n
        ++ "\x27 was not established within timeout") maxRetries.toNat (none, st) []).st.2.diags
      = st.diags := by
    refine pollLoop_rel (networkConnectionCheck c z n i) interval _
      (fun s s1 => s1.2.diags = s.2.diags) (fun _ => rfl)
      (fun _ _ _ h1 h2 => h2.trans h1) ?_ maxRetries.toNat (none, st) []
    intro s
    have hd := callListNetworkInstances_diags c z n i s.2
    simp only [networkConnectionCheck]
    generalize callListNetworkInstances c z n i s.2 = r at hd ⊢
    rcases r with ⟨resp, s1⟩
    cases resp with
    | error err => exact hd
    | ok data =>
      simp only
      cases firstAttachment data i n <;> exact hd
  have hsucc := pollLoop_success (networkConnectionCheck c z n i) interval
    ("Instance \x27" ++ i ++ "\x27 connection to network \x27" ++ n
      ++ "\x27 was not established within timeout") maxRetries.toNat (none, st) []
  simp only [WaitForNetworkConnection, PollUntilCondition]
  generalize pollLoop (networkConnectionCheck c z n i) interval
    ("Instance \x27" ++ i ++ "\x27 connection to network \x27" ++ n
      ++ "\x27 was not established within timeout") maxRetries.toNat (none, st) [] = r
    at hdiags hsucc ⊢
  rcases r with ⟨err, fin, log⟩
  simp only at hdiags hsucc ⊢
  cases err with
  | some e => exact ⟨hdiags, fun h => by simp at h⟩
  | none =>
    refine ⟨hdiags, fun _ => ?_⟩
    obtain ⟨s0, hs0⟩ := hsucc rfl
    simp only [networkConnectionCheck] at hs0
    generalize callListNetworkInstances c z n i s0.2 = r2 at hs0
    rcases r2 with ⟨resp, s1⟩
    cases resp with
    | error e => simp at hs0
    | ok data =>
      simp only at hs0
      cases hf : firstAttachment data i n with
      | none => simp [hf] at hs0
      | some ni =>
        simp only [hf, Prod.mk.injEq, true_and] at hs0
        have hp := List.find?_some hf
        simp only [Bool.and_eq_true, decide_eq_true_eq] at hp
        exact ⟨ni, by rw [← hs0], hp.1, hp.2⟩

theorem awaitConnections_ok {σ : Type} (c : Client σ) (data : InstanceResourceModel) :
    ∀ (ids : List String) (filtered : List InstanceNetwork) (connected : GoMap) (st : St σ)
      (f1 : List InstanceNetwork) (c1 : GoMap) (st1 : St σ),
      awaitConnections c data ids filtered connected st = (some (f1, c1), st1) →
      st1.diags = st.diags
      ∧ f1.map (fun ni => ni.NetworkID) = filtered.map (fun ni => ni.NetworkID) ++ ids
      ∧ (∀ k, k ∈ c1.keys ↔ k ∈ connected.keys ∨ k ∈ ids) := by
  intro ids
  induction ids with
  | nil =>
    intro filtered connected st f1 c1 st1 h
    simp only [awaitConnections, Prod.mk.injEq, Option.some.injEq] at h
    obtain ⟨⟨rfl, rfl⟩, rfl⟩ := h
    exact ⟨rfl, by simp, by simp⟩
  | cons n rest ih =>
    intro filtered connected st f1 c1 st1 h
    rw [awaitConnections] at h
    have hw := WaitForNetworkConnection_found c data.ZoneID.ValueString n data.ID.ValueString
      MaxNetworkConnectionRetries DefaultNetworkPollInterval st
    generalize WaitForNetworkConnection c data.ZoneID.ValueString n data.ID.ValueString
      MaxNetworkConnectionRetries DefaultNetworkPollInterval st = r at h hw
    rcases r with ⟨⟨att, err⟩, st0⟩
    simp only at hw
    cases err with
    | some e => simp at h
    | none =>
      obtain ⟨ni, hni, _, hnet⟩ := hw.2 rfl
      subst hni
      simp only at h
      obtain ⟨h1, h2, h3⟩ := ih _ _ _ _ _ _ h
      refine ⟨by rw [h1, hw.1], ?_, ?_⟩
      · rw [h2]
        simp [hnet]
      · intro k
        rw [h3, GoMap.mem_keys_set]
        simp only [List.mem_cons]
        tauto

/-- The claim C28 on lists without repetition: under the contract of `sort.Slice`, when
`SetupInstanceNetworks` is entered without an error diagnostic, the network identifiers are
pairwise distinct and no connection wait fails, no error is recorded and the returned list
has exactly one entry per network identifier of the input. -/
theorem SetupInstanceNetworks_distinct_ids {σ : Type} (c : Client σ) (sortSlice : SortSlice)
    (hsort : sortSlice.SortsBy networkLess) (data : InstanceResourceModel)
    (networkIDs : List String) (st : St σ)
    (hst : Diagnostics.HasError st.diags = false) (hnodup : networkIDs.Nodup)
    (hwait : (awaitConnections c data networkIDs [] GoMap.empty st).1 ≠ none) :
    Diagnostics.HasError (SetupInstanceNetworks c sortSlice data networkIDs st).2.diags = false
    ∧ ∃ objs, (SetupInstanceNetworks c sortSlice data networkIDs st).1.1 = TFList.value objs
        ∧ (objs.map NetworkObject.networkID).Perm networkIDs := by
  rw [SetupInstanceNetworks]
  have hok := awaitConnections_ok c data networkIDs [] GoMap.empty st
  generalize awaitConnections c data networkIDs [] GoMap.empty st = r at hwait hok ⊢
  rcases r with ⟨res, st1⟩
  cases res with
  | none => exact absurd rfl hwait
  | some fc =>
    rcases fc with ⟨filtered, connected⟩
    obtain ⟨hd, hf, hc⟩ := hok filtered connected st1 rfl
    simp only [List.map_nil, List.nil_append] at hf
    have hkeys : connected.keys.Perm networkIDs := by
      refine (List.perm_ext_iff_of_nodup (GoMap.keys_nodup connected) hnodup).mpr ?_
      intro k
      rw [hc k]
      simp [GoMap.keys, GoMap.empty]
    have hlen : connected.len = networkIDs.length := by
      rw [GoMap.len]
      exact hkeys.length_eq
    simp only
    rw [if_neg (by simpa using hlen)]
    have happ : ∀ d : Diagnostics,
        Diagnostics.Append d (BuildNetworkObjects sortSlice filtered).Diags = d := fun _ => rfl
    simp only [happ, hd, hst, Bool.false_eq_true, if_false]
    refine ⟨trivial, _, rfl, ?_⟩
    have hperm : (if 1 < filtered.length then sortSlice networkLess filtered
        else filtered).Perm filtered := by
      split
      · exact (hsort filtered).1
      · exact List.Perm.refl _
    have hobjs : (BuildNetworkObjects sortSlice filtered).NetworkObjects
        = (exposeNetworks (if 1 < filtered.length then sortSlice networkLess filtered
            else filtered) [] "").1 := rfl
    rw [hobjs]
    generalize (if 1 < filtered.length then sortSlice networkLess filtered else filtered)
      = sorted at hperm ⊢
    obtain ⟨kept, k1, k2, k3, _, k5⟩ := exposeNetworks_kept sorted [] ""
    rw [k1, List.map_map]
    have hids : (List.map (NetworkObject.networkID ∘ exposedObject) kept)
        = kept.map (fun ni => ni.NetworkID) := by
      apply List.map_congr_left
      intro ni _
      simp [exposedObject, NetworkObject.networkID, TFString.ValueString]
    rw [hids]
    refine (List.perm_ext_iff_of_nodup k3 hnodup).mpr ?_
    intro k
    constructor
    · intro hk
      obtain ⟨ni, hni, rfl⟩ := List.mem_map.mp hk
      have : ni.NetworkID ∈ filtered.map (fun ni => ni.NetworkID) :=
        List.mem_map.mpr ⟨ni, hperm.mem_iff.mp (k2.subset hni), rfl⟩
      rwa [hf] at this
    · intro hk
      rw [← hf] at hk
      obtain ⟨ni, hni, rfl⟩ := List.mem_map.mp hk
      rcases k5 ni (hperm.mem_iff.mpr hni) with h | h
      · simp at h
      · exact h

/-! ### The create calls of `UpdateInstanceVolumes` -/

theorem Event.VolumeQuiet.noCreate (e : Event) (h : Event.VolumeQuiet e) :
    e.createRequest = none := by
  cases e <;> first | rfl | exact absurd h (by simp [Event.VolumeQuiet, Event.isVolumeChange])

theorem CreatesOf.ofNoCreate {σ : Type} {st st1 : St σ}
    (h : Ext (fun e => e.createRequest = none) st st1) : CreatesOf st st1 [] := by
  obtain ⟨t, ht, hp⟩ := h
  refine ⟨t, ht, ?_⟩
  simp only [createCalls, List.filterMap_eq_nil_iff]
  exact hp

theorem CreatesOf.ofVolumeQuiet {σ : Type} {st st1 : St σ} (h : Ext Event.VolumeQuiet st st1) :
    CreatesOf st st1 [] :=
  CreatesOf.ofNoCreate (h.extMono Event.VolumeQuiet.noCreate)

theorem CreatesOf.createsTrans {σ : Type} {a b d : St σ} {l1 l2 : List (String × String × Int)}
    (h1 : CreatesOf a b l1) (h2 : CreatesOf b d l2) : CreatesOf a d (l1 ++ l2) := by
  obtain ⟨t1, e1, p1⟩ := h1
  obtain ⟨t2, e2, p2⟩ := h2
  refine ⟨t1 ++ t2, by rw [e2, e1, List.append_assoc], ?_⟩
  simp only [createCalls, List.filterMap_append] at p1 p2 ⊢
  rw [p1, p2]

theorem CreatesOf.ofTraceEq {σ : Type} {a b d : St σ} {l : List (String × String × Int)}
    (h : CreatesOf a b l) (hd : d.trace = b.trace) : CreatesOf a d l := by
  obtain ⟨t, e, p⟩ := h
  exact ⟨t, by rw [hd, e], p⟩

theorem DetachAndDeleteRemovedVolumes_noCreate {σ : Type} (c : Client σ) (z i : String)
    (isAttached : String → Bool) (names : List String) (st : St σ) :
    CreatesOf st (DetachAndDeleteRemovedVolumes c z i names isAttached st) [] := by
  obtain ⟨t, ht, hp⟩ := DetachAndDeleteRemovedVolumes_delta c z i isAttached names [] st.trace
    names st (fun _ h => h) (VolumeDelta.deltaStart _ _ _)
  refine CreatesOf.ofNoCreate ⟨t, ht, ?_⟩
  intro e he
  obtain ⟨pre, post, hsplit⟩ := List.append_of_mem he
  have hallowed := hp pre e post hsplit
  cases e <;> first | rfl | simp [VolumeCallAllowed] at hallowed

theorem createAndAttachLoop_creates {σ : Type} (c : Client σ) (z i : String) :
    ∀ (specs : List VolumeSpec) (nameToID : IDMap) (st : St σ),
      ∃ k, k ≤ specs.length
        ∧ CreatesOf st (createAndAttachLoop c z i specs nameToID st).2
            ((specs.take k).map VolumeSpec.createRequest)
        ∧ ((createAndAttachLoop c z i specs nameToID st).1 ≠ none → k = specs.length) := by
  intro specs
  induction specs with
  | nil =>
    intro m st
    exact ⟨0, Nat.le_refl _, ⟨[], by simp [createAndAttachLoop], rfl⟩, fun _ => rfl⟩
  | cons spec rest ih =>
    intro m st
    have hl : CreatesOf st (callListInstanceVolumes c z st).2 [] :=
      CreatesOf.ofVolumeQuiet (Ext.single _ (callListInstanceVolumes_trace c z st) rfl)
    rw [createAndAttachLoop]
    generalize callListInstanceVolumes c z st = r1 at hl ⊢
    rcases r1 with ⟨resp, st1⟩
    simp only at hl
    cases resp with
    | error ierr =>
      exact ⟨0, Nat.zero_le _, hl.ofTraceEq rfl, fun h => absurd rfl h⟩
    | ok initial =>
      simp only
      have htr := callCreateInstanceVolume_trace c z spec.ServiceOfferingID.ValueString
        spec.Size.ValueInt64 spec.Name.ValueString st1
      generalize callCreateInstanceVolume c z spec.ServiceOfferingID.ValueString
        spec.Size.ValueInt64 spec.Name.ValueString st1 = r2 at htr ⊢
      rcases r2 with ⟨cerr, st2⟩
      simp only at htr
      have h2 : CreatesOf st st2 [spec.createRequest] :=
        hl.createsTrans ⟨_, htr, rfl⟩
      have hone : List.map VolumeSpec.createRequest (List.take 1 (spec :: rest))
          = [spec.createRequest] := rfl
      cases cerr with
      | some e =>
        exact ⟨1, by simp, by rw [hone]; exact h2.ofTraceEq rfl, fun h => absurd rfl h⟩
      | none =>
        simp only
        have hd := (discoverNewVolume_ext c z spec.Name.ValueString
          (initial.map (fun vol => vol.ID)) 10 st2).1
        generalize discoverNewVolume c z spec.Name.ValueString
          (initial.map (fun vol => vol.ID)) 10 st2 = r3 at hd ⊢
        rcases r3 with ⟨found, st3⟩
        simp only at hd
        have h3 : CreatesOf st st3 [spec.createRequest] := by
          simpa using h2.createsTrans (CreatesOf.ofVolumeQuiet hd)
        cases found with
        | none =>
          exact ⟨1, by simp, by rw [hone]; exact h3, fun h => absurd rfl h⟩
        | some newID =>
          simp only
          by_cases hne : newID = ""
          · rw [if_pos hne]
            exact ⟨1, by simp, by rw [hone]; exact h3.ofTraceEq rfl, fun h => absurd rfl h⟩
          · rw [if_neg hne]
            have hta := callAttachInstanceVolume_trace c z newID i st3
            generalize callAttachInstanceVolume c z newID i st3 = r4 at hta ⊢
            rcases r4 with ⟨aerr, st4⟩
            simp only at hta
            have h4 : CreatesOf st st4 [spec.createRequest] := by
              simpa using h3.createsTrans ⟨_, hta, rfl⟩
            cases aerr with
            | some e =>
              exact ⟨1, by simp, by rw [hone]; exact h4.ofTraceEq rfl, fun h => absurd rfl h⟩
            | none =>
              simp only
              obtain ⟨k, hk, hcr, hall⟩ := ih (m.set spec.Name.ValueString newID) st4
              refine ⟨k + 1, by simpa using hk, ?_, fun h => by rw [hall h]; rfl⟩
              have := h4.createsTrans hcr
              simpa using this

theorem createAndAttachLoop_bound {σ : Type} (c : Client σ) (z i : String) :
    ∀ (specs : List VolumeSpec) (nameToID : IDMap) (st : St σ) (m : IDMap),
      (createAndAttachLoop c z i specs nameToID st).1 = some m →
        (∀ k, IDMap.lookup (some nameToID) k ≠ "" → IDMap.lookup (some m) k ≠ "")
        ∧ ∀ spec, spec ∈ specs → IDMap.lookup (some m) spec.Name.ValueString ≠ "" := by
  intro specs
  induction specs with
  | nil =>
    intro nameToID st m hm
    simp only [createAndAttachLoop, Option.some.injEq] at hm
    subst hm
    exact ⟨fun _ h => h, fun _ h => absurd h (List.not_mem_nil _)⟩
  | cons spec rest ih =>
    intro nameToID st m hm
    rw [createAndAttachLoop] at hm
    generalize callListInstanceVolumes c z st = r1 at hm
    rcases r1 with ⟨resp, st1⟩
    cases resp with
    | error ierr => simp at hm
    | ok initial =>
      simp only at hm
      generalize callCreateInstanceVolume c z spec.ServiceOfferingID.ValueString
        spec.Size.ValueInt64 spec.Name.ValueString st1 = r2 at hm
      rcases r2 with ⟨cerr, st2⟩
      cases cerr with
      | some e => simp at hm
      | none =>
        simp only at hm
        generalize discoverNewVolume c z spec.Name.ValueString
          (initial.map (fun vol => vol.ID)) 10 st2 = r3 at hm
        rcases r3 with ⟨found, st3⟩
        cases found with
        | none => simp at hm
        | some newID =>
          simp only at hm
          by_cases hne : newID = ""
          · rw [if_pos hne] at hm
            simp at hm
          · rw [if_neg hne] at hm
            generalize callAttachInstanceVolume c z newID i st3 = r4 at hm
            rcases r4 with ⟨aerr, st4⟩
            cases aerr with
            | some e => simp at hm
            | none =>
              simp only at hm
              obtain ⟨hkeep, hrest⟩ := ih (nameToID.set spec.Name.ValueString newID) st4 m hm
              have hset : ∀ k, (IDMap.lookup (some nameToID) k ≠ "" ∨ k = spec.Name.ValueString) →
                  IDMap.lookup (some (nameToID.set spec.Name.ValueString newID)) k ≠ "" := by
                intro k hk
                rw [IDMap.lookup_set]
                by_cases hk2 : spec.Name.ValueString = k
                · rw [if_pos hk2]; exact hne
                · rw [if_neg hk2]
                  rcases hk with hk | hk
                  · exact hk
                  · exact absurd hk.symm hk2
              refine ⟨fun k hk => hkeep k (hset k (Or.inl hk)), ?_⟩
              intro s hs
              rcases List.mem_cons.mp hs with h | h
              · rw [h]; exact hkeep _ (hset _ (Or.inr rfl))
              · exact hrest s h

theorem UpdateInstanceVolumes_creates {σ : Type} (c : Client σ) (orders : VolumeOrders)
    (z i : String) (planVolumes stateVolumes : List VolumeSpec) (st : St σ) :
    (∃ k, k ≤ (addedVolumes orders.added (volumeNameMap stateVolumes)
              (volumeNameMap planVolumes)).length
        ∧ CreatesOf st (UpdateInstanceVolumes c orders z i planVolumes stateVolumes st).2
            (((addedVolumes orders.added (volumeNameMap stateVolumes)
              (volumeNameMap planVolumes)).take k).map VolumeSpec.createRequest)
        ∧ (k = (addedVolumes orders.added (volumeNameMap stateVolumes)
              (volumeNameMap planVolumes)).length
          ∨ Diagnostics.HasError
              (UpdateInstanceVolumes c orders z i planVolumes stateVolumes st).2.diags = true))
    ∧ (Diagnostics.HasError
          (UpdateInstanceVolumes c orders z i planVolumes stateVolumes st).2.diags = false →
        ∀ spec, spec ∈ addedVolumes orders.added (volumeNameMap stateVolumes)
            (volumeNameMap planVolumes) →
          ∃ id, id ≠ ""
            ∧ CreatedSince i st.trace
                (UpdateInstanceVolumes c orders z i planVolumes stateVolumes st).2.trace
                spec.Name.ValueString id) := by
  rw [UpdateInstanceVolumes]
  have hts := callShowInstance_trace c z i st
  generalize callShowInstance c z i st = r at hts ⊢
  rcases r with ⟨resp, st1⟩
  simp only at hts
  have hs : CreatesOf st st1 [] := CreatesOf.ofVolumeQuiet (Ext.single _ hts rfl)
  cases resp with
  | error err =>
    simp only
    refine ⟨⟨0, Nat.zero_le _, hs.ofTraceEq rfl, Or.inr (St.addError_hasError _ _ _)⟩, ?_⟩
    intro hno
    rw [St.addError_hasError] at hno
    exact absurd hno (by simp)
  | ok data =>
    simp only
    have hd := DetachAndDeleteRemovedVolumes_noCreate c z i
      (fun volumeID => data.DataVolumes.any (fun s => decide (s = volumeID)))
      (removedVolumeNames orders.removed (volumeNameMap stateVolumes)
        (volumeNameMap planVolumes)) st1
    have hdd := DetachAndDeleteRemovedVolumes_delta c z i
      (fun volumeID => data.DataVolumes.any (fun s => decide (s = volumeID)))
      (removedVolumeNames orders.removed (volumeNameMap stateVolumes)
        (volumeNameMap planVolumes)) [] st.trace
      (removedVolumeNames orders.removed (volumeNameMap stateVolumes)
        (volumeNameMap planVolumes)) st1 (fun _ h => h)
      ((VolumeDelta.deltaStart _ _ st.trace).deltaExtQuiet (Ext.single _ hts rfl))
    generalize DetachAndDeleteRemovedVolumes c z i
      (removedVolumeNames orders.removed (volumeNameMap stateVolumes)
        (volumeNameMap planVolumes))
      (fun volumeID => data.DataVolumes.any (fun s => decide (s = volumeID))) st1 = st2
      at hd hdd ⊢
    obtain ⟨t0, ht0, _⟩ := hdd
    have h2 : CreatesOf st st2 [] := by simpa using hs.createsTrans hd
    by_cases he : Diagnostics.HasError st2.diags = true
    · rw [if_pos he]
      refine ⟨⟨0, Nat.zero_le _, h2, Or.inr he⟩, ?_⟩
      intro hno
      rw [he] at hno
      exact absurd hno (by simp)
    · rw [if_neg he]
      rw [CreateAndAttachNewVolumes]
      have hcr := createAndAttachLoop_creates c z i
        (addedVolumes orders.added (volumeNameMap stateVolumes) (volumeNameMap planVolumes))
        ((addedVolumes orders.added (volumeNameMap stateVolumes)
          (volumeNameMap planVolumes)).foldl (fun m v => m.set v.Name.ValueString "")
          IDMap.empty) st2
      have hfs := (createAndAttachLoop_failStop c z i
        (addedVolumes orders.added (volumeNameMap stateVolumes) (volumeNameMap planVolumes))
        ((addedVolumes orders.added (volumeNameMap stateVolumes)
          (volumeNameMap planVolumes)).foldl (fun m v => m.set v.Name.ValueString "")
          IDMap.empty) st2).2
      have hbound := createAndAttachLoop_bound c z i
        (addedVolumes orders.added (volumeNameMap stateVolumes) (volumeNameMap planVolumes))
        ((addedVolumes orders.added (volumeNameMap stateVolumes)
          (volumeNameMap planVolumes)).foldl (fun m v => m.set v.Name.ValueString "")
          IDMap.empty) st2
      have hcreated := createAndAttachLoop_created c z i st.trace
        (addedVolumes orders.added (volumeNameMap stateVolumes) (volumeNameMap planVolumes))
        ((addedVolumes orders.added (volumeNameMap stateVolumes)
          (volumeNameMap planVolumes)).foldl (fun m v => m.set v.Name.ValueString "")
          IDMap.empty) st2 t0 ht0
        (by
          intro k hk
          exfalso
          apply hk
          have := IDMap.lookup_foldl_empty
            ((addedVolumes orders.added (volumeNameMap stateVolumes)
              (volumeNameMap planVolumes)).map (fun v => v.Name.ValueString))
            IDMap.empty (fun k => rfl) k
          rw [List.foldl_map] at this
          exact this)
      generalize createAndAttachLoop c z i
        (addedVolumes orders.added (volumeNameMap stateVolumes) (volumeNameMap planVolumes))
        ((addedVolumes orders.added (volumeNameMap stateVolumes)
          (volumeNameMap planVolumes)).foldl (fun m v => m.set v.Name.ValueString "")
          IDMap.empty) st2 = r at hcr hfs hbound hcreated ⊢
      rcases r with ⟨nameToID, st3⟩
      simp only at hcr hfs hbound hcreated ⊢
      obtain ⟨k, hk, hcalls, hall⟩ := hcr
      have h3 : CreatesOf st st3
          (((addedVolumes orders.added (volumeNameMap stateVolumes)
            (volumeNameMap planVolumes)).take k).map VolumeSpec.createRequest) := by
        simpa using h2.createsTrans hcalls
      by_cases he3 : Diagnostics.HasError st3.diags = true
      · rw [if_pos he3]
        refine ⟨⟨k, hk, h3, Or.inr he3⟩, ?_⟩
        intro hno
        rw [he3] at hno
        exact absurd hno (by simp)
      · rw [if_neg he3]
        simp only
        cases nameToID with
        | none => exact absurd (hfs rfl) he3
        | some m =>
          refine ⟨⟨k, hk, h3, Or.inl (hall (by simp))⟩, ?_⟩
          intro _ spec hspec
          exact ⟨IDMap.lookup (some m) spec.Name.ValueString, (hbound m rfl).2 spec hspec,
            hcreated m rfl _ ((hbound m rfl).2 spec hspec)⟩

/-! ### The removals of `UpdateInstanceVolumes` -/

theorem RemovedSince.removedAppend {i : String} {attached : List String}
    {base trace : List Event} {name : String} (h : RemovedSince i attached base trace name)
    (t : List Event) : RemovedSince i attached base (trace ++ t) name := by
  obtain ⟨pre, z, vols, post, htrace, hdel⟩ := h
  refine ⟨pre, z, vols, post ++ t, by rw [htrace]; simp, ?_⟩
  intro vol hf
  obtain ⟨mid, rest, hpost, hatt⟩ := hdel vol hf
  exact ⟨mid, rest ++ t, by rw [hpost]; simp, hatt⟩

theorem findVolumeByName_result {σ : Type} (c : Client σ) (z name : String) (st : St σ) :
    (findVolumeByName c z name st).1.2.2.2 = none →
      ∃ vols, (findVolumeByName c z name st).2.trace
          = st.trace ++ [Event.ListInstanceVolumes z (ApiResult.ok vols)]
        ∧ (∀ vol, vols.find? (fun vol => decide (vol.Name = name)) = some vol →
            (findVolumeByName c z name st).1.1 = vol.ID)
        ∧ ((findVolumeByName c z name st).1.2.2.1 = false →
            vols.find? (fun vol => decide (vol.Name = name)) = none) := by
  have htr := callListInstanceVolumes_trace c z st
  rw [findVolumeByName]
  generalize callListInstanceVolumes c z st = r at htr ⊢
  rcases r with ⟨resp, s1⟩
  cases resp with
  | error err => intro h; simp at h
  | ok vols =>
    simp only at htr ⊢
    intro _
    refine ⟨vols, ?_, ?_, ?_⟩
    · cases hf : vols.find? (fun vol => decide (vol.Name = name)) <;> simp [htr]
    · intro vol hf
      simp [hf]
    · cases hf : vols.find? (fun vol => decide (vol.Name = name)) <;> simp

theorem detachRemovedVolume_detached {σ : Type} (c : Client σ) (z i name v : String)
    (isAttached : String → Bool) (st : St σ)
    (hgo : (detachRemovedVolume c z i name v isAttached st).1 = true) :
    ∃ t, (detachRemovedVolume c z i name v isAttached st).2.trace = st.trace ++ t
      ∧ (isAttached v = true → Event.DetachInstanceVolume z v i none ∈ t) := by
  rw [detachRemovedVolume] at hgo ⊢
  by_cases hatt : isAttached v = true
  · rw [if_pos hatt] at hgo ⊢
    have htr := callDetachInstanceVolume_trace c z v i st
    generalize callDetachInstanceVolume c z v i st = r at htr hgo ⊢
    rcases r with ⟨err, st1⟩
    simp only at htr
    cases err with
    | some derr => simp at hgo
    | none =>
      simp only at hgo ⊢
      have hw := (waitVolumeDetached_ext c z i v 60 st1).1
      generalize waitVolumeDetached c z i v 60 st1 = r2 at hw hgo ⊢
      rcases r2 with ⟨r, st2⟩
      obtain ⟨t, ht, _⟩ := hw
      simp only at ht
      cases r with
      | returned => simp at hgo
      | reached =>
        exact ⟨Event.DetachInstanceVolume z v i none :: t, by simp only; rw [ht, htr]; simp,
          fun _ => List.mem_cons_self _ _⟩
      | exhausted => simp at hgo
  · rw [if_neg hatt]
    exact ⟨[], by simp, fun h => absurd h hatt⟩

theorem DetachAndDeleteRemovedVolumes_removes {σ : Type} (c : Client σ) (z i : String)
    (isAttached : String → Bool) (attached : List String)
    (hattached : ∀ v, v ∈ attached → isAttached v = true) (base : List Event) :
    ∀ (names : List String) (st : St σ) (t0 : List Event), st.trace = base ++ t0 →
      Diagnostics.HasError (DetachAndDeleteRemovedVolumes c z i names isAttached st).diags
        = false →
      ∀ name, name ∈ names →
        RemovedSince i attached base
          (DetachAndDeleteRemovedVolumes c z i names isAttached st).trace name := by
  have hext : ∀ (names : List String) (st : St σ),
      ∃ t, (DetachAndDeleteRemovedVolumes c z i names isAttached st).trace = st.trace ++ t :=
    fun names st =>
      let ⟨t, ht, _⟩ := DetachAndDeleteRemovedVolumes_failStop c z i isAttached names st
      ⟨t, ht⟩
  intro names
  induction names with
  | nil => intro st t0 _ _ name hmem; exact absurd hmem (List.not_mem_nil _)
  | cons name rest ih =>
    intro st t0 hbase hno name1 hmem
    have hres := findVolumeByName_result c z name st
    rw [DetachAndDeleteRemovedVolumes] at hno ⊢
    generalize findVolumeByName c z name st = r at hres hno ⊢
    rcases r with ⟨⟨v, status, found, err⟩, st1⟩
    cases err with
    | some ferr =>
      simp only at hno
      rw [St.addError_hasError] at hno
      exact absurd hno (by simp)
    | none =>
      simp only at hres hno ⊢
      obtain ⟨vols, htr1, hid, hnone⟩ := hres trivial
      have hbase1 : st1.trace = base ++ (t0 ++ [Event.ListInstanceVolumes z (ApiResult.ok vols)]) := by
        rw [htr1, hbase, List.append_assoc]
      cases found with
      | false =>
        simp only [Bool.not_false, if_true] at hno ⊢
        rcases List.mem_cons.mp hmem with h | h
        · obtain ⟨t, ht⟩ := hext rest st1
          rw [ht, h]
          refine RemovedSince.removedAppend ⟨t0, z, vols, [], ?_, ?_⟩ t
          · rw [htr1, hbase]; simp
          · intro vol hf
            rw [hnone rfl] at hf
            cases hf
        · exact ih st1 _ hbase1 hno name1 h
      | true =>
        simp only [Bool.not_true, Bool.false_eq_true, if_false] at hno ⊢
        have hdf := (detachRemovedVolume_failStop c z i name v isAttached st1).2
        have hdd := detachRemovedVolume_detached c z i name v isAttached st1
        generalize detachRemovedVolume c z i name v isAttached st1 = r2 at hdf hdd hno ⊢
        rcases r2 with ⟨go, st2⟩
        cases go with
        | false =>
          simp only at hno hdf
          rw [hdf trivial] at hno
          exact absurd hno (by simp)
        | true =>
          simp only at hno hdd ⊢
          obtain ⟨tdet, htdet, hdetached⟩ := hdd trivial
          have ha := awaitAllocated_ext c z name status st2
          generalize awaitAllocated c z name status st2 = r3 at ha hno ⊢
          rcases r3 with ⟨go2, st3⟩
          cases go2 with
          | false =>
            simp only at hno ha
            rw [ha.2 trivial] at hno
            exact absurd hno (by simp)
          | true =>
            simp only at hno ha ⊢
            obtain ⟨twait, htwait, _⟩ := ha.1
            have htr := callDeleteInstanceVolume_trace c z v st3
            generalize callDeleteInstanceVolume c z v st3 = r4 at htr hno ⊢
            rcases r4 with ⟨derr, st4⟩
            simp only at htr
            cases derr with
            | some e =>
              simp only at hno
              rw [St.addError_hasError] at hno
              exact absurd hno (by simp)
            | none =>
              simp only at hno ⊢
              have h4 : st4.trace = base ++ (t0 ++ Event.ListInstanceVolumes z (ApiResult.ok vols)
                  :: (tdet ++ twait ++ [Event.DeleteInstanceVolume z v none])) := by
                rw [htr, htwait, htdet, htr1, hbase]
                simp
              rcases List.mem_cons.mp hmem with h | h
              · obtain ⟨t, ht⟩ := hext rest st4
                rw [ht, h]
                refine RemovedSince.removedAppend ⟨t0, z, vols, _, h4, ?_⟩ t
                intro vol hf
                have hv := hid vol hf
                subst hv
                exact ⟨tdet ++ twait, [], by simp,
                  fun hin => List.mem_append_left _ (hdetached (hattached _ hin))⟩
              · exact ih st4 _ h4 hno name1 h

theorem UpdateInstanceVolumes_removes {σ : Type} (c : Client σ) (orders : VolumeOrders)
    (z i : String) (planVolumes stateVolumes : List VolumeSpec) (st : St σ)
    (hno : Diagnostics.HasError
      (UpdateInstanceVolumes c orders z i planVolumes stateVolumes st).2.diags = false) :
    ∃ data rest,
      (UpdateInstanceVolumes c orders z i planVolumes stateVolumes st).2.trace
        = st.trace ++ Event.ShowInstance z i (ApiResult.ok data) :: rest
      ∧ ∀ name, name ∈ removedVolumeNames orders.removed (volumeNameMap stateVolumes)
            (volumeNameMap planVolumes) →
          RemovedSince i data.DataVolumes st.trace
            (UpdateInstanceVolumes c orders z i planVolumes stateVolumes st).2.trace name := by
  rw [UpdateInstanceVolumes] at hno ⊢
  have hts := callShowInstance_trace c z i st
  generalize callShowInstance c z i st = r at hts hno ⊢
  rcases r with ⟨resp, st1⟩
  simp only at hts
  cases resp with
  | error err =>
    simp only at hno
    rw [St.addError_hasError] at hno
    exact absurd hno (by simp)
  | ok data =>
    simp only at hno ⊢
    have hrm := DetachAndDeleteRemovedVolumes_removes c z i
      (fun volumeID => data.DataVolumes.any (fun s => decide (s = volumeID))) data.DataVolumes
      (fun v hv => by simpa using hv) st.trace
      (removedVolumeNames orders.removed (volumeNameMap stateVolumes)
        (volumeNameMap planVolumes)) st1 _ hts
    have hfs := DetachAndDeleteRemovedVolumes_failStop c z i
      (fun volumeID => data.DataVolumes.any (fun s => decide (s = volumeID)))
      (removedVolumeNames orders.removed (volumeNameMap stateVolumes)
        (volumeNameMap planVolumes)) st1
    generalize DetachAndDeleteRemovedVolumes c z i
      (removedVolumeNames orders.removed (volumeNameMap stateVolumes)
        (volumeNameMap planVolumes))
      (fun volumeID => data.DataVolumes.any (fun s => decide (s = volumeID))) st1 = st2
      at hrm hfs hno ⊢
    obtain ⟨t2, ht2, _⟩ := hfs
    by_cases he : Diagnostics.HasError st2.diags = true
    · rw [if_pos he] at hno
      simp only at hno
      rw [he] at hno
      exact absurd hno (by simp)
    · rw [if_neg he] at hno ⊢
      have he2 : Diagnostics.HasError st2.diags = false := by simpa using he
      rw [CreateAndAttachNewVolumes] at hno ⊢
      have hcr := (createAndAttachLoop_failStop c z i
        (addedVolumes orders.added (volumeNameMap stateVolumes) (volumeNameMap planVolumes))
        ((addedVolumes orders.added (volumeNameMap stateVolumes)
          (volumeNameMap planVolumes)).foldl (fun m v => m.set v.Name.ValueString "")
          IDMap.empty) st2).1
      generalize createAndAttachLoop c z i
        (addedVolumes orders.added (volumeNameMap stateVolumes) (volumeNameMap planVolumes))
        ((addedVolumes orders.added (volumeNameMap stateVolumes)
          (volumeNameMap planVolumes)).foldl (fun m v => m.set v.Name.ValueString "")
          IDMap.empty) st2 = r at hcr hno ⊢
      rcases r with ⟨m, st3⟩
      obtain ⟨t3, ht3, _⟩ := hcr
      simp only at ht3 hno ⊢
      have hout : ∀ (a b : TFList TFString),
          (if Diagnostics.HasError st3.diags = true then (a, st3) else (b, st3)).2 = st3 := by
        intro a b; split <;> rfl
      rw [hout] at hno ⊢
      refine ⟨data, t2 ++ t3, by rw [ht3, ht2, hts]; simp, ?_⟩
      intro name hname
      rw [ht3]
      exact (hrm he2 name hname).removedAppend t3

/-- C14: in `UpdateInstanceVolumes` (any legal visiting order of the two maps) the names
passed for removal are exactly the non-empty names of the prior volumes that no desired volume
carries, each once; the specs passed for creation are exactly the specs the desired map binds
to a non-empty name that no prior volume carries (for a name listed more than once the map
keeps the last spec), one per name; a name present on both sides is in neither list; and every
volume call of the run belongs to this delta: a create carries the name, offering and size of
an added spec, an attach is issued for a volume listed under the name of an added spec, and a
detach or delete is issued for a volume listed under a removed name. The create calls of the
run are the added specs in the order of the list, one call per spec, up to the point where the
run stops: all of them unless the run records an error. In a run that records no error every
added spec is created by a successful call and the new volume, found by its name in a later
listing, is attached to the instance by a successful call; and for every removed name the run
lists the volumes and, when a listed volume carries the name, deletes it by a successful call,
after a successful detach when the instance read at the start of the run reports it as
attached. -/
theorem UpdateInstanceVolumes_delta {σ : Type} (c : Client σ) (orders : VolumeOrders)
    (zoneID instanceID : String) (planVolumes stateVolumes : List VolumeSpec) (st : St σ)
    (horders : orders.Valid) :
    (∀ n, n ∈ removedVolumeNames orders.removed (volumeNameMap stateVolumes)
            (volumeNameMap planVolumes)
        ↔ n ≠ "" ∧ (∃ v, v ∈ stateVolumes ∧ v.Name.ValueString = n)
            ∧ ¬ ∃ v, v ∈ planVolumes ∧ v.Name.ValueString = n)
    ∧ (removedVolumeNames orders.removed (volumeNameMap stateVolumes)
        (volumeNameMap planVolumes)).Nodup
    ∧ (∀ spec, spec ∈ addedVolumes orders.added (volumeNameMap stateVolumes)
            (volumeNameMap planVolumes)
        ↔ spec.Name.ValueString ≠ ""
            ∧ lastNamed planVolumes spec.Name.ValueString = some spec
            ∧ ¬ ∃ v, v ∈ stateVolumes ∧ v.Name.ValueString = spec.Name.ValueString)
    ∧ ((addedVolumes orders.added (volumeNameMap stateVolumes)
        (volumeNameMap planVolumes)).map (fun spec => spec.Name.ValueString)).Nodup
    ∧ (∀ n, (∃ v, v ∈ stateVolumes ∧ v.Name.ValueString = n) →
          (∃ v, v ∈ planVolumes ∧ v.Name.ValueString = n) →
          n ∉ removedVolumeNames orders.removed (volumeNameMap stateVolumes)
                (volumeNameMap planVolumes)
          ∧ ∀ spec, spec ∈ addedVolumes orders.added (volumeNameMap stateVolumes)
                (volumeNameMap planVolumes) → spec.Name.ValueString ≠ n)
    ∧ ∃ t, (UpdateInstanceVolumes c orders zoneID instanceID planVolumes stateVolumes
              st).2.trace = st.trace ++ t
        ∧ (∀ pre e post, t = pre ++ e :: post →
            VolumeCallAllowed
              (removedVolumeNames orders.removed (volumeNameMap stateVolumes)
                (volumeNameMap planVolumes))
              (addedVolumes orders.added (volumeNameMap stateVolumes)
                (volumeNameMap planVolumes)) pre e)
        ∧ (∃ k, k ≤ (addedVolumes orders.added (volumeNameMap stateVolumes)
                  (volumeNameMap planVolumes)).length
            ∧ createCalls t
                = ((addedVolumes orders.added (volumeNameMap stateVolumes)
                    (volumeNameMap planVolumes)).take k).map VolumeSpec.createRequest
            ∧ (k = (addedVolumes orders.added (volumeNameMap stateVolumes)
                  (volumeNameMap planVolumes)).length
              ∨ Diagnostics.HasError
                  (UpdateInstanceVolumes c orders zoneID instanceID planVolumes stateVolumes
                    st).2.diags = true))
        ∧ (Diagnostics.HasError
              (UpdateInstanceVolumes c orders zoneID instanceID planVolumes stateVolumes
                st).2.diags = false →
            createCalls t
                = (addedVolumes orders.added (volumeNameMap stateVolumes)
                    (volumeNameMap planVolumes)).map VolumeSpec.createRequest
            ∧ (∀ spec, spec ∈ addedVolumes orders.added (volumeNameMap stateVolumes)
                  (volumeNameMap planVolumes) →
                ∃ id, id ≠ ""
                  ∧ CreatedSince instanceID st.trace
                      (UpdateInstanceVolumes c orders zoneID instanceID planVolumes
                        stateVolumes st).2.trace spec.Name.ValueString id)
            ∧ ∃ data rest, t = Event.ShowInstance zoneID instanceID (ApiResult.ok data) :: rest
                ∧ ∀ name, name ∈ removedVolumeNames orders.removed
                      (volumeNameMap stateVolumes) (volumeNameMap planVolumes) →
                    RemovedSince instanceID data.DataVolumes st.trace
                      (UpdateInstanceVolumes c orders zoneID instanceID planVolumes
                        stateVolumes st).2.trace name) := by
  have hrem := mem_removedVolumeNames orders.removed horders.1 planVolumes stateVolumes
  have hadd := mem_addedVolumes orders.added horders.2 planVolumes stateVolumes
  refine ⟨hrem, removedVolumeNames_nodup _ horders.1 _ _, hadd,
    addedVolumes_names_nodup _ horders.2 _ _, ?_, ?_⟩
  · intro n hs hp
    refine ⟨fun h => ((hrem n).mp h).2.2 hp, fun spec hspec hname => ?_⟩
    exact ((hadd spec).mp hspec).2.2 (by rw [hname]; exact hs)
  · obtain ⟨t, ht, hallowed⟩ :=
      UpdateInstanceVolumes_volumeDelta c orders zoneID instanceID planVolumes stateVolumes st
    obtain ⟨⟨k, hk, ⟨t1, ht1, hcalls⟩, hor⟩, hcreated⟩ :=
      UpdateInstanceVolumes_creates c orders zoneID instanceID planVolumes stateVolumes st
    have ht1t : t1 = t := List.append_cancel_left (ht1.symm.trans ht)
    subst ht1t
    refine ⟨t1, ht, hallowed, ⟨k, hk, hcalls, hor⟩, ?_⟩
    intro hno
    obtain ⟨data, rest, hshow, hremoved⟩ :=
      UpdateInstanceVolumes_removes c orders zoneID instanceID planVolumes stateVolumes st hno
    refine ⟨?_, hcreated hno, data, rest,
      List.append_cancel_left (ht.symm.trans hshow), hremoved⟩
    rcases hor with hfull | herr
    · rw [hcalls, hfull, List.take_length]
    · rw [hno] at herr
      exact absurd herr (by simp)

/-- The sample runs of C14: the example of the specification (desired `[v1]`, existing
`[v1, v2]`, where `v2` is detached and deleted and no call is issued for `v1`), and a run
with desired `[v1, v3]` and existing `[v1, v2]`, which records no error, detaches and deletes
`v2`, issues one create call, for `v3`, and attaches the new volume. -/
theorem UpdateInstanceVolumes_delta_witness :
    VolumeOrders.identity.Valid
    ∧ removedVolumeNames VolumeOrders.identity.removed
        (volumeNameMap [volSpec "v1" 10, volSpec "v2" 20]) (volumeNameMap [volSpec "v1" 10])
        = ["v2"]
    ∧ addedVolumes VolumeOrders.identity.added
        (volumeNameMap [volSpec "v1" 10, volSpec "v2" 20]) (volumeNameMap [volSpec "v1" 10])
        = []
    ∧ (UpdateInstanceVolumes volClient VolumeOrders.identity "zone" "vm" [volSpec "v1" 10]
        [volSpec "v1" 10, volSpec "v2" 20]
        (volStart [[{ ID := "vol-1", Name := "v1", Status := "ATTACHED" },
                    { ID := "vol-2", Name := "v2", Status := "ATTACHED" }],
                   [{ ID := "vol-1", Name := "v1", Status := "ATTACHED" },
                    { ID := "vol-2", Name := "v2", Status := "ALLOCATED" }]]
          ["vol-1", "vol-2"])).2.trace.filter Event.isVolumeChange
        = [Event.DetachInstanceVolume "zone" "vol-2" "vm" none,
           Event.DeleteInstanceVolume "zone" "vol-2" none]
    ∧ (∃ t, (UpdateInstanceVolumes volClient VolumeOrders.identity "zone" "vm"
              [volSpec "v1" 10] [volSpec "v1" 10, volSpec "v2" 20]
              (volStart [[{ ID := "vol-1", Name := "v1", Status := "ATTACHED" },
                          { ID := "vol-2", Name := "v2", Status := "ATTACHED" }],
                         [{ ID := "vol-1", Name := "v1", Status := "ATTACHED" },
                          { ID := "vol-2", Name := "v2", Status := "ALLOCATED" }]]
                ["vol-1", "vol-2"])).2.trace
            = (volStart [[{ ID := "vol-1", Name := "v1", Status := "ATTACHED" },
                          { ID := "vol-2", Name := "v2", Status := "ATTACHED" }],
                         [{ ID := "vol-1", Name := "v1", Status := "ATTACHED" },
                          { ID := "vol-2", Name := "v2", Status := "ALLOCATED" }]]
                ["vol-1", "vol-2"]).trace ++ t
        ∧ ∀ pre e post, t = pre ++ e :: post →
            VolumeCallAllowed
              (removedVolumeNames VolumeOrders.identity.removed
                (volumeNameMap [volSpec "v1" 10, volSpec "v2" 20])
                (volumeNameMap [volSpec "v1" 10]))
              (addedVolumes VolumeOrders.identity.added
                (volumeNameMap [volSpec "v1" 10, volSpec "v2" 20])
                (volumeNameMap [volSpec "v1" 10])) pre e)
    ∧ removedVolumeNames VolumeOrders.identity.removed
        (volumeNameMap [volSpec "v1" 10, volSpec "v2" 20])
        (volumeNameMap [volSpec "v1" 10, volSpec "v3" 30])
        = ["v2"]
    ∧ addedVolumes VolumeOrders.identity.added
        (volumeNameMap [volSpec "v1" 10, volSpec "v2" 20])
        (volumeNameMap [volSpec "v1" 10, volSpec "v3" 30])
        = [volSpec "v3" 30]
    ∧ Diagnostics.HasError
        (UpdateInstanceVolumes volClient VolumeOrders.identity "zone" "vm"
          [volSpec "v1" 10, volSpec "v3" 30] [volSpec "v1" 10, volSpec "v2" 20]
          volDeltaStart).2.diags = false
    ∧ (UpdateInstanceVolumes volClient VolumeOrders.identity "zone" "vm"
        [volSpec "v1" 10, volSpec "v3" 30] [volSpec "v1" 10, volSpec "v2" 20]
        volDeltaStart).2.trace.filter Event.isVolumeChange
        = [Event.DetachInstanceVolume "zone" "vol-2" "vm" none,
           Event.DeleteInstanceVolume "zone" "vol-2" none,
           Event.CreateInstanceVolume "zone" "ssd" 30 "v3" none,
           Event.AttachInstanceVolume "zone" "vol-3" "vm" none]
    ∧ ∃ t, (UpdateInstanceVolumes volClient VolumeOrders.identity "zone" "vm"
              [volSpec "v1" 10, volSpec "v3" 30] [volSpec "v1" 10, volSpec "v2" 20]
              volDeltaStart).2.trace = volDeltaStart.trace ++ t
        ∧ createCalls t = [("v3", "ssd", 30)]
        ∧ (∃ id, id ≠ ""
            ∧ CreatedSince "vm" volDeltaStart.trace
                (UpdateInstanceVolumes volClient VolumeOrders.identity "zone" "vm"
                  [volSpec "v1" 10, volSpec "v3" 30] [volSpec "v1" 10, volSpec "v2" 20]
                  volDeltaStart).2.trace "v3" id)
        ∧ ∃ data rest, t = Event.ShowInstance "zone" "vm" (ApiResult.ok data) :: rest
            ∧ RemovedSince "vm" data.DataVolumes volDeltaStart.trace
                (UpdateInstanceVolumes volClient VolumeOrders.identity "zone" "vm"
                  [volSpec "v1" 10, volSpec "v3" 30] [volSpec "v1" 10, volSpec "v2" 20]
                  volDeltaStart).2.trace "v2" := by
  have hvalid : VolumeOrders.identity.Valid :=
    ⟨fun _ => List.Perm.refl _, fun _ => List.Perm.refl _⟩
  have hexample := (UpdateInstanceVolumes_delta volClient VolumeOrders.identity "zone" "vm"
    [volSpec "v1" 10] [volSpec "v1" 10, volSpec "v2" 20]
    (volStart [[{ ID := "vol-1", Name := "v1", Status := "ATTACHED" },
                { ID := "vol-2", Name := "v2", Status := "ATTACHED" }],
               [{ ID := "vol-1", Name := "v1", Status := "ATTACHED" },
                { ID := "vol-2", Name := "v2", Status := "ALLOCATED" }]]
      ["vol-1", "vol-2"]) hvalid).2.2.2.2.2
  have hrun := (UpdateInstanceVolumes_delta volClient VolumeOrders.identity "zone" "vm"
    [volSpec "v1" 10, volSpec "v3" 30] [volSpec "v1" 10, volSpec "v2" 20] volDeltaStart
    hvalid).2.2.2.2.2
  have hremoved : removedVolumeNames VolumeOrders.identity.removed
      (volumeNameMap [volSpec "v1" 10, volSpec "v2" 20])
      (volumeNameMap [volSpec "v1" 10, volSpec "v3" 30]) = ["v2"] := by decide
  have hadded : addedVolumes VolumeOrders.identity.added
      (volumeNameMap [volSpec "v1" 10, volSpec "v2" 20])
      (volumeNameMap [volSpec "v1" 10, volSpec "v3" 30]) = [volSpec "v3" 30] := by decide
  have hno : Diagnostics.HasError
      (UpdateInstanceVolumes volClient VolumeOrders.identity "zone" "vm"
        [volSpec "v1" 10, volSpec "v3" 30] [volSpec "v1" 10, volSpec "v2" 20]
        volDeltaStart).2.diags = false := by decide
  obtain ⟨t0, ht0, hallowed0, _⟩ := hexample
  obtain ⟨t, ht, _, _, hlive⟩ := hrun
  obtain ⟨hcalls, hcreated, data, rest, hshow, hrm⟩ := hlive hno
  rw [hadded] at hcalls hcreated
  rw [hremoved] at hrm
  exact ⟨hvalid, by decide, by decide, by decide, ⟨t0, ht0, hallowed0⟩, hremoved, hadded, hno,
    by decide, t, ht, hcalls, hcreated _ (List.mem_singleton_self _), data, rest, hshow,
    hrm "v2" (List.mem_singleton_self _)⟩

end Virak
